import Mathlib

/-!
# Marlin stepper driver (`Marlin/stepper.cpp`): embedding and verified properties

The stepper interrupt of the Polar3D firmware is modelled as a function on an explicit
record of the file's static variables.  Machine integers are `Nat`/`Int` with explicit
wrap-around at the width the source declares (AVR: `int` 16 bit, `long` 32 bit).

Build options (`#if`/`#ifdef` in the source) are fields of `Config`; the two PROGMEM
tables of `speed_lookuptable.h` and the constants `MAX_STEP_FREQUENCY`, `F_CPU` are
parameters held in `Config` as well.  `DUAL_X_CARRIAGE`, `Y_DUAL_STEPPER_DRIVERS` and
`Z_DUAL_STEPPER_DRIVERS` are taken as undefined.  The extruder interrupt of the
`ADVANCE` build, `ISR(TIMER0_COMPA_vect)`, is a second function on the same record.

Outputs are kept as counters in the state: a pulse on a STEP pin or a `move` command of
an L6470 driver counts as one step command of its axis.  The writes to the DIR pins, the
serial traffic (`MSerial.checkRx()`, the message of `calc_timer`) and the bounded wait
on the BUSY pin of an L6470 driver (with its scratch counter `busy_count`) have no
effect on the variables modelled and are left out.
-/

namespace Stepper

/-! ## Machine integers -/

/-- Truncation to `unsigned char`. -/
def u8 (n : Nat) : Nat := n % 256

/-- Truncation to `unsigned short` (16 bit). -/
def u16 (n : Nat) : Nat := n % 65536

/-- Truncation to `unsigned long` (32 bit). -/
def u32 (n : Nat) : Nat := n % 4294967296

/-- Conversion of an integer to `unsigned long` (value modulo 2^32). -/
def toU32 (i : Int) : Nat := (i % 4294967296).toNat

/-- Conversion of an integer to `long`: two's complement wrap to 32 bit. -/
def s32 (i : Int) : Int := (i + 2147483648) % 4294967296 - 2147483648

/-- Subtraction of two `unsigned short` values, modulo 2^16. -/
def sub16 (a b : Nat) : Nat := (a % 65536 + 65536 - b % 65536) % 65536

/-! ## AVR instructions used by the inline-assembly multiplications -/

/-- AVR `mul`: unsigned 8x8 multiply; the pair is (r0, r1) = (low byte, high byte). -/
def avr_mul (a b : Nat) : Nat × Nat := ((a * b) % 256, (a * b) / 256)

/-- AVR `add Rd, Rr`: the pair is (new Rd, carry flag). -/
def avr_add (d r : Nat) : Nat × Bool := ((d + r) % 256, decide (256 ≤ d + r))

/-- AVR `adc Rd, Rr`: add with carry in; the pair is (new Rd, carry flag). -/
def avr_adc (d r : Nat) (c : Bool) : Nat × Bool :=
  ((d + r + (if c then 1 else 0)) % 256, decide (256 ≤ d + r + (if c then 1 else 0)))

/-- AVR `lsr Rd`: logical shift right; the carry flag receives the old bit 0. -/
def avr_lsr (d : Nat) : Nat × Bool := (d / 2, decide (d % 2 = 1))

/-- The macro `MultiU16X8toH16(intRes, charIn1, intIn2)`, instruction by instruction.
`%A1` is `charIn1`, `%A2`/`%B2` are the low/high byte of `intIn2`, `%A0`/`%B0` the
low/high byte of the result. -/
def MultiU16X8toH16 (charIn1 intIn2 : Nat) : Nat :=
  let a1 := charIn1 % 256
  let a2 := intIn2 % 256
  let b2 := intIn2 / 256 % 256
  let r26 := 0                          -- clr r26
  let m1 := avr_mul a1 b2               -- mul %A1, %B2
  let a0 := m1.1                        -- movw %A0, r0
  let b0 := m1.2
  let m2 := avr_mul a1 a2               -- mul %A1, %A2
  let x1 := avr_add a0 m2.2             -- add %A0, r1
  let y1 := avr_adc b0 r26 x1.2         -- adc %B0, r26
  let l := avr_lsr m2.1                 -- lsr r0
  let x2 := avr_adc x1.1 r26 l.2        -- adc %A0, r26
  let y2 := avr_adc y1.1 r26 x2.2       -- adc %B0, r26
  x2.1 + 256 * y2.1

/-- The macro `MultiU24X24toH16(intRes, longIn1, longIn2)`, instruction by instruction.
`%A1 %B1 %C1` are bytes 0..2 of `longIn1`, `%A2 %B2 %C2` bytes 0..2 of `longIn2`
(two's complement), `%A0`/`%B0` the low/high byte of the result. -/
def MultiU24X24toH16 (longIn1 longIn2 : Int) : Nat :=
  let a1 := toU32 longIn1 % 256
  let b1 := toU32 longIn1 / 256 % 256
  let c1 := toU32 longIn1 / 65536 % 256
  let a2 := toU32 longIn2 % 256
  let b2 := toU32 longIn2 / 256 % 256
  let c2 := toU32 longIn2 / 65536 % 256
  let r26 := 0                          -- clr r26
  let m := avr_mul a1 b2                -- mul %A1, %B2
  let r27 := m.2                        -- mov r27, r1
  let m := avr_mul b1 c2                -- mul %B1, %C2
  let a0 := m.1                         -- movw %A0, r0
  let b0 := m.2
  let m := avr_mul c1 c2                -- mul %C1, %C2
  let b0 := (avr_add b0 m.1).1          -- add %B0, r0
  let m := avr_mul c1 b2                -- mul %C1, %B2
  let x := avr_add a0 m.1               -- add %A0, r0
  let a0 := x.1
  let b0 := (avr_adc b0 m.2 x.2).1      -- adc %B0, r1
  let m := avr_mul a1 c2                -- mul %A1, %C2
  let w := avr_add r27 m.1              -- add r27, r0
  let r27 := w.1
  let x := avr_adc a0 m.2 w.2           -- adc %A0, r1
  let a0 := x.1
  let b0 := (avr_adc b0 r26 x.2).1      -- adc %B0, r26
  let m := avr_mul b1 b2                -- mul %B1, %B2
  let w := avr_add r27 m.1              -- add r27, r0
  let r27 := w.1
  let x := avr_adc a0 m.2 w.2           -- adc %A0, r1
  let a0 := x.1
  let b0 := (avr_adc b0 r26 x.2).1      -- adc %B0, r26
  let m := avr_mul c1 a2                -- mul %C1, %A2
  let w := avr_add r27 m.1              -- add r27, r0
  let r27 := w.1
  let x := avr_adc a0 m.2 w.2           -- adc %A0, r1
  let a0 := x.1
  let b0 := (avr_adc b0 r26 x.2).1      -- adc %B0, r26
  let m := avr_mul b1 a2                -- mul %B1, %A2
  let w := avr_add r27 m.2              -- add r27, r1
  let r27 := w.1
  let x := avr_adc a0 r26 w.2           -- adc %A0, r26
  let a0 := x.1
  let b0 := (avr_adc b0 r26 x.2).1      -- adc %B0, r26
  let l := avr_lsr r27                  -- lsr r27
  let x := avr_adc a0 r26 l.2           -- adc %A0, r26
  let a0 := x.1
  let b0 := (avr_adc b0 r26 x.2).1      -- adc %B0, r26
  a0 + 256 * b0

/-! ## Configuration -/

/-- Compile-time configuration: the preprocessor options the interrupt depends on, the
constants of `Configuration*.h` and the two tables of `speed_lookuptable.h`
(`speed_lookuptable_fast[256][2]`, `speed_lookuptable_slow[256][2]`, read with
`pgm_read_word_near`).  A pin option is `true` when the pin is defined and `> -1`. -/
structure Config where
  USE_L6470 : Bool
  ADVANCE : Bool
  COREXY : Bool
  Z_LATE_ENABLE : Bool
  ABORT_ON_ENDSTOP_HIT_FEATURE_ENABLED : Bool
  EXTRUDERS : Nat
  MAX_STEP_FREQUENCY : Nat
  F_CPU : Nat
  X_MIN_PIN : Bool
  X_MAX_PIN : Bool
  Y_MIN_PIN : Bool
  Y_MAX_PIN : Bool
  Z_MIN_PIN : Bool
  Z_MAX_PIN : Bool
  X_L6470_CS_PIN : Bool
  Y_L6470_CS_PIN : Bool
  Z_L6470_CS_PIN : Bool
  X_L6470_NSTEPS : Nat
  Y_L6470_NSTEPS : Nat
  Z_L6470_NSTEPS : Nat
  speed_lookuptable_fast : Nat → Nat → Nat
  speed_lookuptable_slow : Nat → Nat → Nat

/-- The preprocessor constant `F_CPU/500000`. -/
def Config.min_rate (cfg : Config) : Nat := cfg.F_CPU / 500000

/-- Word read `pgm_read_word_near(&speed_lookuptable_fast[i][j])`. -/
def Config.fast (cfg : Config) (i j : Nat) : Nat := u16 (cfg.speed_lookuptable_fast i j)

/-- Word read `pgm_read_word_near(&speed_lookuptable_slow[i][j])`. -/
def Config.slow (cfg : Config) (i j : Nat) : Nat := u16 (cfg.speed_lookuptable_slow i j)

/-! ## Data model -/

/-- Modelled from the spec: the planner block `block_t` (declared in `planner.h`, which
is not part of the sources).  The fields are the ones the interrupt reads; they hold the
C values (`long` for the step counts, thresholds and advance values, `unsigned long`
for the event count and the rates, `unsigned char` for the bit mask and the extruder). -/
structure block_t where
  steps_x : Int
  steps_y : Int
  steps_z : Int
  steps_e : Int
  step_event_count : Nat
  accelerate_until : Int
  decelerate_after : Int
  acceleration_rate : Int
  direction_bits : Nat
  active_extruder : Nat
  advance_rate : Int
  initial_advance : Int
  final_advance : Int
  nominal_rate : Nat
  initial_rate : Nat
  final_rate : Nat
  busy : Bool
deriving DecidableEq, Repr

/-- The axis numbers of `enum AxisEnum`. -/
def X_AXIS : Nat := 0

/-- Axis number of Y. -/
def Y_AXIS : Nat := 1

/-- Axis number of Z. -/
def Z_AXIS : Nat := 2

/-- Axis number of E. -/
def E_AXIS : Nat := 3

/-- An array indexed by the four axes (`long count_position[NUM_AXIS]` and the like). -/
structure Axes (α : Type) where
  x : α
  y : α
  z : α
  e : α
deriving DecidableEq, Repr

/-- Array read `a[axis]`; `none` when the index is outside the array. -/
def Axes.get {α : Type} (a : Axes α) (axis : Nat) : Option α :=
  if axis = X_AXIS then some a.x
  else if axis = Y_AXIS then some a.y
  else if axis = Z_AXIS then some a.z
  else if axis = E_AXIS then some a.e
  else none

/-- The array `long e_steps[3]` of the ADVANCE build. -/
structure ESteps where
  e0 : Int
  e1 : Int
  e2 : Int
deriving DecidableEq, Repr

/-- The update `e_steps[i] += d` (in `long` arithmetic); an index outside the array is
left without effect. -/
def ESteps.add (a : ESteps) (i : Nat) (d : Int) : ESteps :=
  if i = 0 then { a with e0 := s32 (a.e0 + d) }
  else if i = 1 then { a with e1 := s32 (a.e1 + d) }
  else if i = 2 then { a with e2 := s32 (a.e2 + d) }
  else a

/-- Step pulses counted per extruder. -/
structure ECount where
  e0 : Nat
  e1 : Nat
  e2 : Nat
deriving DecidableEq, Repr

/-- The endstop inputs as sampled in one tick: each field is the value of
`READ(*_PIN) != *_ENDSTOP_INVERTING`, that is, `true` when the switch reads active. -/
structure Pins where
  x_min : Bool
  x_max : Bool
  y_min : Bool
  y_max : Bool
  z_min : Bool
  z_max : Bool
deriving DecidableEq, Repr

/-- The static variables of `stepper.cpp`, the two registers the file writes
(`OCR1A`, bit `OCIE1A` of `TIMSK1`), the planner ring buffer as the list of blocks from
tail to head, and counters of the outputs: `pulses` counts the step commands issued per
axis (a high/low pulse on a STEP pin, or one `move` command of an L6470 driver),
`moved` sums the arguments of the `move` commands per axis, `z_enabled` records
`enable_z()`, `e_pulses` counts the pulses the extruder interrupt of the `ADVANCE`
build issues on the STEP pin of each extruder and `e_moved` is their signed sum: a
pulse issued with the DIR pin at `!INVERT_E*_DIR` counts +1, one with the DIR pin at
`INVERT_E*_DIR` counts -1.  `old_OCR0A` and the register `OCR0A` belong to that
interrupt. -/
structure State where
  current_block : Option block_t
  block_buffer : List block_t
  out_bits : Nat
  counter_x : Int
  counter_y : Int
  counter_z : Int
  counter_e : Int
  step_events_completed : Nat
  advance_rate : Int
  advance : Int
  final_advance : Int
  old_advance : Int
  e_steps : ESteps
  acceleration_time : Int
  deceleration_time : Int
  acc_step_rate : Nat
  step_loops : Nat
  step_loops_nominal : Nat
  step_loops_shift : Nat
  step_loops_shift_nominal : Nat
  OCR1A_nominal : Nat
  endstops_trigsteps : Axes Int
  endstop_x_hit : Bool
  endstop_y_hit : Bool
  endstop_z_hit : Bool
  old_x_min_endstop : Bool
  old_x_max_endstop : Bool
  old_y_min_endstop : Bool
  old_y_max_endstop : Bool
  old_z_min_endstop : Bool
  old_z_max_endstop : Bool
  check_endstops : Bool
  count_position : Axes Int
  count_direction : Axes Int
  OCR1A : Nat
  OCIE1A : Bool
  pulses : Axes Nat
  moved : Axes Nat
  z_enabled : Bool
  abort_on_endstop_hit : Bool
  old_OCR0A : Nat
  OCR0A : Nat
  e_pulses : ECount
  e_moved : ESteps
deriving DecidableEq, Repr

/-! ## Planner queue -/

/-- Modelled from the spec: `plan_get_current_block()` of `planner.h` (`pop_current`
of the block queue contract): the block at the tail of the queue, or NULL. -/
def plan_get_current_block (s : State) : Option block_t := s.block_buffer.head?

/-- Modelled from the spec: `plan_discard_current_block()` of `planner.h`
(`discard_current`): removes the block at the tail of the queue. -/
def plan_discard_current_block (s : State) : State :=
  { s with block_buffer := s.block_buffer.tail }

/-- Modelled from the spec: `blocks_queued()` of `planner.h`. -/
def blocks_queued (s : State) : Bool := !s.block_buffer.isEmpty

/-! ## Speed to timer interval -/

/-- Line 431 of `calc_timer`: the clamp to `MAX_STEP_FREQUENCY`. -/
def clamp_rate (cfg : Config) (step_rate : Nat) : Nat :=
  if step_rate > cfg.MAX_STEP_FREQUENCY then u16 cfg.MAX_STEP_FREQUENCY else step_rate

/-- Lines 433 to 455 of `calc_timer`, the rate: divided by 4 above 20 kHz, by 2 above
10 kHz. -/
def divided_rate (step_rate : Nat) : Nat :=
  if step_rate > 20000 then (step_rate >>> 2) &&& 0x3fff
  else if step_rate > 10000 then (step_rate >>> 1) &&& 0x7fff
  else step_rate

/-- Lines 433 to 455 of `calc_timer`, the shift: `step_loops_shift` in the L6470 build;
the other build stores `step_loops = 4, 2, 1`, which is `1 << shift`. -/
def loops_shift (step_rate : Nat) : Nat :=
  if step_rate > 20000 then 2
  else if step_rate > 10000 then 1
  else 0

/-- Lines 433 to 455 of `calc_timer`, the write of the step multiplier: `step_loops`
when `USE_L6470` is off, `step_loops_shift` when it is on. -/
def set_step_loops (cfg : Config) (s : State) (step_rate : Nat) : State :=
  if cfg.USE_L6470 then { s with step_loops_shift := loops_shift step_rate }
  else { s with step_loops := 1 <<< loops_shift step_rate }

/-- Lines 457 and 458 of `calc_timer`: the correction for the minimal speed. -/
def adjusted_rate (cfg : Config) (step_rate : Nat) : Nat :=
  sub16 (if step_rate < cfg.min_rate then u16 cfg.min_rate else step_rate) cfg.min_rate

/-- Lines 459 to 472 of `calc_timer`: the table lookup on the adjusted rate.  In the
slow branch the product `gain * (step_rate & 7)` is an `unsigned int` product, 16 bit
wide on the AVR. -/
def table_timer (cfg : Config) (step_rate : Nat) : Nat :=
  if step_rate ≥ 8 * 256 then
    let row := u8 (step_rate >>> 8)
    let tmp_step_rate := step_rate &&& 0x00ff
    let gain := cfg.fast row 1
    let timer := MultiU16X8toH16 tmp_step_rate gain
    sub16 (cfg.fast row 0) timer
  else
    let offset := (step_rate >>> 1) &&& 0xfffc
    let timer := cfg.slow (offset / 4) 0
    sub16 timer (u16 (cfg.slow (offset / 4) 1 * u8 (step_rate &&& 0x0007)) >>> 3)

/-- Line 473 of `calc_timer`: the floor at 100 (the serial message is not modelled). -/
def floor_timer (timer : Nat) : Nat := if timer < 100 then 100 else timer

/-- The interval `calc_timer` returns for the rate left after the multiplier split. -/
def timer_of_rate (cfg : Config) (step_rate : Nat) : Nat :=
  floor_timer (table_timer cfg (adjusted_rate cfg step_rate))

/-- The function `calc_timer(step_rate)`: the returned timer value and the state with
the step multiplier it stores. -/
def calc_timer (cfg : Config) (s : State) (step_rate : Nat) : Nat × State :=
  let step_rate := clamp_rate cfg step_rate
  (timer_of_rate cfg (divided_rate step_rate), set_step_loops cfg s step_rate)

/-! ## The stepper driver interrupt -/

/-- The function `trapezoid_generator_reset()`, with `b` the block `current_block`
points to.  The block fields of type `unsigned long` are truncated where the source
passes or assigns them to an `unsigned short`. -/
def trapezoid_generator_reset (cfg : Config) (s : State) (b : block_t) : State :=
  let s :=
    if cfg.ADVANCE then
      { s with
        advance := b.initial_advance
        final_advance := b.final_advance
        e_steps := s.e_steps.add b.active_extruder ((b.initial_advance >>> 8) - s.old_advance)
        old_advance := b.initial_advance >>> 8 }
    else s
  let s := { s with deceleration_time := 0 }
  let r := calc_timer cfg s (u16 b.nominal_rate)
  let s := { r.2 with OCR1A_nominal := r.1 }
  let s :=
    if cfg.USE_L6470 then { s with step_loops_shift_nominal := s.step_loops_shift }
    else { s with step_loops_nominal := s.step_loops }
  let s := { s with acc_step_rate := u16 b.initial_rate }
  let r := calc_timer cfg s s.acc_step_rate
  { r.2 with acceleration_time := r.1, OCR1A := r.1 }

/-- The test `(out_bits & (1<<axis)) != 0`. -/
def dir_bit (out_bits axis : Nat) : Bool := out_bits &&& (1 <<< axis) != 0

/-- Lines 520 to 522: `current_block = plan_get_current_block()` yields the block `b0`
at the tail of the queue, and `current_block->busy = true` marks it, in place. -/
def take_block (s : State) (b0 : block_t) : State :=
  { s with
    current_block := some { b0 with busy := true }
    block_buffer := { b0 with busy := true } :: s.block_buffer.tail }

/-- Lines 524 to 528: the Bresenham counters start at `-(step_event_count >> 1)` and
the event counter at 0. -/
def reset_counters (s : State) (b : block_t) : State :=
  { s with
    counter_x := s32 (-((b.step_event_count >>> 1 : Nat) : Int))
    counter_y := s32 (-((b.step_event_count >>> 1 : Nat) : Int))
    counter_z := s32 (-((b.step_event_count >>> 1 : Nat) : Int))
    counter_e := s32 (-((b.step_event_count >>> 1 : Nat) : Int))
    step_events_completed := 0 }

/-- Lines 530 to 534 under `Z_LATE_ENABLE`: `enable_z(); OCR1A = 2000;` before the
early return. -/
def z_late_wait (s : State) : State := { s with z_enabled := true, OCR1A := 2000 }

/-- First part of the interrupt (lines 516 to 545): with no current block, fetch one
from the planner and initialise the tracer, or idle at 1 kHz.  The Boolean is `true`
when the interrupt returns at once (the `Z_LATE_ENABLE` wait). -/
def claim_block (cfg : Config) (s : State) : State × Bool :=
  match s.current_block with
  | some _ => (s, false)
  | none =>
    match plan_get_current_block s with
    | some b0 =>
      let b := { b0 with busy := true }
      let s := reset_counters (trapezoid_generator_reset cfg (take_block s b0) b) b
      if cfg.Z_LATE_ENABLE && decide (b.steps_z > 0) then (z_late_wait s, true)
      else (s, false)
    | none => ({ s with OCR1A := 2000 }, false)

/-- Lines 547 to 620: `out_bits` and the X and Y entries of `count_direction`. -/
def set_xy_direction (s : State) (b : block_t) : State :=
  let s := { s with out_bits := b.direction_bits }
  let s := { s with count_direction :=
    { s.count_direction with x := if dir_bit s.out_bits X_AXIS then -1 else 1 } }
  { s with count_direction :=
    { s.count_direction with y := if dir_bit s.out_bits Y_AXIS then -1 else 1 } }

/-- The condition under which the X block at lines 622 to 668 takes its first branch
(stepping along -X): bit X without `COREXY`, bits X and Y with it. -/
def x_negative (cfg : Config) (out_bits : Nat) : Bool :=
  if cfg.COREXY then dir_bit out_bits X_AXIS && dir_bit out_bits Y_AXIS
  else dir_bit out_bits X_AXIS

/-- The condition under which the Y block at lines 670 to 701 takes its first branch:
bit Y without `COREXY`, bit X set and bit Y clear with it. -/
def y_negative (cfg : Config) (out_bits : Nat) : Bool :=
  if cfg.COREXY then dir_bit out_bits X_AXIS && !dir_bit out_bits Y_AXIS
  else dir_bit out_bits Y_AXIS

/-- Lines 622 to 668: the X endstop check. -/
def check_x_endstop (cfg : Config) (pins : Pins) (s : State) (b : block_t) : State :=
  if x_negative cfg s.out_bits then
    if s.check_endstops && cfg.X_MIN_PIN then
      let x_min_endstop := pins.x_min
      let s :=
        if x_min_endstop && s.old_x_min_endstop && decide (b.steps_x > 0) then
          { s with
            endstops_trigsteps := { s.endstops_trigsteps with x := s.count_position.x }
            endstop_x_hit := true
            step_events_completed := b.step_event_count }
        else s
      { s with old_x_min_endstop := x_min_endstop }
    else s
  else
    if s.check_endstops && cfg.X_MAX_PIN then
      let x_max_endstop := pins.x_max
      let s :=
        if x_max_endstop && s.old_x_max_endstop && decide (b.steps_x > 0) then
          { s with
            endstops_trigsteps := { s.endstops_trigsteps with x := s.count_position.x }
            endstop_x_hit := true
            step_events_completed := b.step_event_count }
        else s
      { s with old_x_max_endstop := x_max_endstop }
    else s

/-- Lines 670 to 701: the Y endstop check. -/
def check_y_endstop (cfg : Config) (pins : Pins) (s : State) (b : block_t) : State :=
  if y_negative cfg s.out_bits then
    if s.check_endstops && cfg.Y_MIN_PIN then
      let y_min_endstop := pins.y_min
      let s :=
        if y_min_endstop && s.old_y_min_endstop && decide (b.steps_y > 0) then
          { s with
            endstops_trigsteps := { s.endstops_trigsteps with y := s.count_position.y }
            endstop_y_hit := true
            step_events_completed := b.step_event_count }
        else s
      { s with old_y_min_endstop := y_min_endstop }
    else s
  else
    if s.check_endstops && cfg.Y_MAX_PIN then
      let y_max_endstop := pins.y_max
      let s :=
        if y_max_endstop && s.old_y_max_endstop && decide (b.steps_y > 0) then
          { s with
            endstops_trigsteps := { s.endstops_trigsteps with y := s.count_position.y }
            endstop_y_hit := true
            step_events_completed := b.step_event_count }
        else s
      { s with old_y_max_endstop := y_max_endstop }
    else s

/-- Lines 703 to 755: the Z direction and the Z endstop check. -/
def check_z_endstop (cfg : Config) (pins : Pins) (s : State) (b : block_t) : State :=
  if dir_bit s.out_bits Z_AXIS then
    let s := { s with count_direction := { s.count_direction with z := -1 } }
    if s.check_endstops && cfg.Z_MIN_PIN then
      let z_min_endstop := pins.z_min
      let s :=
        if z_min_endstop && s.old_z_min_endstop && decide (b.steps_z > 0) then
          { s with
            endstops_trigsteps := { s.endstops_trigsteps with z := s.count_position.z }
            endstop_z_hit := true
            step_events_completed := b.step_event_count }
        else s
      { s with old_z_min_endstop := z_min_endstop }
    else s
  else
    let s := { s with count_direction := { s.count_direction with z := 1 } }
    if s.check_endstops && cfg.Z_MAX_PIN then
      let z_max_endstop := pins.z_max
      let s :=
        if z_max_endstop && s.old_z_max_endstop && decide (b.steps_z > 0) then
          { s with
            endstops_trigsteps := { s.endstops_trigsteps with z := s.count_position.z }
            endstop_z_hit := true
            step_events_completed := b.step_event_count }
        else s
      { s with old_z_max_endstop := z_max_endstop }
    else s

/-- Lines 757 to 766: the E direction, compiled only without `ADVANCE`. -/
def set_e_direction (cfg : Config) (s : State) : State :=
  if cfg.ADVANCE then s
  else { s with count_direction :=
    { s.count_direction with e := if dir_bit s.out_bits E_AXIS then -1 else 1 } }

/-- Lines 777 to 791: the E accumulator of the `ADVANCE` build, which queues the step
in `e_steps` instead of pulsing. -/
def advance_e_event (cfg : Config) (s : State) (b : block_t) : State :=
  if cfg.ADVANCE then
    let s := { s with counter_e := s32 (s.counter_e + b.steps_e) }
    if s.counter_e > 0 then
      let s := { s with counter_e := s32 (s.counter_e - b.step_event_count) }
      if dir_bit s.out_bits E_AXIS then
        { s with e_steps := s.e_steps.add b.active_extruder (-1) }
      else
        { s with e_steps := s.e_steps.add b.active_extruder 1 }
    else s
  else s

/-- Lines 793 to 830: one Bresenham event on X.  The step command is a pulse on the
STEP pin, or `l6470_x.move(X_L6470_NSTEPS << step_loops_shift)` with an L6470 driver. -/
def x_event (cfg : Config) (s : State) (b : block_t) : State :=
  let s := { s with counter_x := s32 (s.counter_x + b.steps_x) }
  if s.counter_x > 0 then
    { s with
      pulses := { s.pulses with x := s.pulses.x + 1 }
      moved := { s.moved with x :=
        if cfg.X_L6470_CS_PIN then s.moved.x + (cfg.X_L6470_NSTEPS <<< s.step_loops_shift)
        else s.moved.x }
      counter_x := s32 (s.counter_x - b.step_event_count)
      count_position := { s.count_position with
        x := s32 (s.count_position.x + s.count_direction.x) } }
  else s

/-- Lines 832 to 855: one Bresenham event on Y. -/
def y_event (cfg : Config) (s : State) (b : block_t) : State :=
  let s := { s with counter_y := s32 (s.counter_y + b.steps_y) }
  if s.counter_y > 0 then
    { s with
      pulses := { s.pulses with y := s.pulses.y + 1 }
      moved := { s.moved with y :=
        if cfg.Y_L6470_CS_PIN then s.moved.y + (cfg.Y_L6470_NSTEPS <<< s.step_loops_shift)
        else s.moved.y }
      counter_y := s32 (s.counter_y - b.step_event_count)
      count_position := { s.count_position with
        y := s32 (s.count_position.y + s.count_direction.y) } }
  else s

/-- Lines 857 to 880: one Bresenham event on Z. -/
def z_event (cfg : Config) (s : State) (b : block_t) : State :=
  let s := { s with counter_z := s32 (s.counter_z + b.steps_z) }
  if s.counter_z > 0 then
    { s with
      pulses := { s.pulses with z := s.pulses.z + 1 }
      moved := { s.moved with z :=
        if cfg.Z_L6470_CS_PIN then s.moved.z + (cfg.Z_L6470_NSTEPS <<< s.step_loops_shift)
        else s.moved.z }
      counter_z := s32 (s.counter_z - b.step_event_count)
      count_position := { s.count_position with
        z := s32 (s.count_position.z + s.count_direction.z) } }
  else s

/-- Lines 882 to 892: one Bresenham event on E, compiled only without `ADVANCE`. -/
def e_event (cfg : Config) (s : State) (b : block_t) : State :=
  if cfg.ADVANCE then s
  else
    let s := { s with counter_e := s32 (s.counter_e + b.steps_e) }
    if s.counter_e > 0 then
      { s with
        pulses := { s.pulses with e := s.pulses.e + 1 }
        counter_e := s32 (s.counter_e - b.step_event_count)
        count_position := { s.count_position with
          e := s32 (s.count_position.e + s.count_direction.e) } }
    else s

/-- The body of the step block (lines 775 to 892) without the event counting. -/
def step_event (cfg : Config) (s : State) (b : block_t) : State :=
  e_event cfg (z_event cfg (y_event cfg (x_event cfg (advance_e_event cfg s b) b) b) b) b

/-- Line 896, in the loop body of the build without `USE_L6470`:
`step_events_completed += step_loops`. -/
def count_step_loops (s : State) : State :=
  { s with step_events_completed := u32 (s.step_events_completed + s.step_loops) }

/-- The loop `for(int8_t i=0; i < step_loops; i++)` of the build without `USE_L6470`
(lines 774 to 898); the first argument is the number of iterations still allowed by
the loop condition. -/
def step_loop (cfg : Config) (b : block_t) : Nat → State → State
  | 0, s => s
  | n + 1, s =>
    let s := count_step_loops (step_event cfg s b)
    if s.step_events_completed ≥ b.step_event_count then s
    else step_loop cfg b n s

/-- The loop at lines 770 to 772 of the `USE_L6470` build: the value of
`step_loops_shift` after `while (step_loops_shift && (step_events_completed +
(1 << step_loops_shift)) > step_event_count) --step_loops_shift;`. -/
def reduce_shift (completed count : Nat) : Nat → Nat
  | 0 => 0
  | k + 1 => if u32 (completed + (1 <<< (k + 1))) > count then reduce_shift completed count k
             else k + 1

/-- Lines 768 to 772 of the `USE_L6470` build: `step_loops_shift` is reduced so that
the tick does not step beyond the end of the block. -/
def reduce_step_loops_shift (s : State) (b : block_t) : State :=
  { s with step_loops_shift :=
      reduce_shift s.step_events_completed b.step_event_count s.step_loops_shift }

/-- Line 894 of the `USE_L6470` build:
`step_events_completed += 1 << step_loops_shift`. -/
def count_shifted (s : State) : State :=
  { s with step_events_completed := u32 (s.step_events_completed + (1 <<< s.step_loops_shift)) }

/-- Lines 768 to 898: the stepping of one tick, in either build.  With `USE_L6470` the
step block runs once; without it the block is the body of the `for` loop. -/
def step_block (cfg : Config) (s : State) (b : block_t) : State :=
  if cfg.USE_L6470 then count_shifted (step_event cfg (reduce_step_loops_shift s b) b)
  else step_loop cfg b s.step_loops s

/-- Update `e_steps[active_extruder] += ((advance >> 8) - old_advance); old_advance =
advance >> 8` of the `ADVANCE` build. -/
def advance_e_steps (s : State) (b : block_t) : State :=
  { s with
    e_steps := s.e_steps.add b.active_extruder ((s.advance >>> 8) - s.old_advance)
    old_advance := s.advance >>> 8 }

/-- Lines 901 to 929: the acceleration branch of the trapezoid generator. -/
def accelerate (cfg : Config) (s : State) (b : block_t) : State :=
  let s := { s with acc_step_rate := MultiU24X24toH16 s.acceleration_time b.acceleration_rate }
  let s := { s with acc_step_rate := u16 (s.acc_step_rate + b.initial_rate) }
  let s :=
    if s.acc_step_rate > b.nominal_rate then { s with acc_step_rate := u16 b.nominal_rate }
    else s
  let r := calc_timer cfg s s.acc_step_rate
  let s := { r.2 with OCR1A := r.1, acceleration_time := s32 (r.2.acceleration_time + r.1) }
  if cfg.ADVANCE then
    let s : State :=
      if cfg.USE_L6470 then s
      else
        { s with
          advance := Nat.iterate (fun a => s32 (a + s.advance_rate)) s.step_loops s.advance }
    advance_e_steps s b
  else s

/-- Lines 931 to 961: the deceleration branch of the trapezoid generator. -/
def decelerate (cfg : Config) (s : State) (b : block_t) : State :=
  let step_rate := MultiU24X24toH16 s.deceleration_time b.acceleration_rate
  let step_rate :=
    if step_rate > s.acc_step_rate then u16 b.final_rate
    else s.acc_step_rate - step_rate
  let step_rate := if step_rate < b.final_rate then u16 b.final_rate else step_rate
  let r := calc_timer cfg s step_rate
  let s := { r.2 with OCR1A := r.1, deceleration_time := s32 (r.2.deceleration_time + r.1) }
  if cfg.ADVANCE then
    let s : State :=
      if cfg.USE_L6470 then s
      else
        { s with
          advance := Nat.iterate (fun a => s32 (a - s.advance_rate)) s.step_loops s.advance }
    let s := if s.advance < s.final_advance then { s with advance := s.final_advance } else s
    advance_e_steps s b
  else s

/-- Lines 963 to 971: the cruise branch of the trapezoid generator. -/
def cruise (cfg : Config) (s : State) : State :=
  let s := { s with OCR1A := s.OCR1A_nominal }
  if cfg.USE_L6470 then { s with step_loops_shift := u8 s.step_loops_shift_nominal }
  else { s with step_loops := u8 s.step_loops_nominal }

/-- Lines 899 to 971: the new timer value, by phase. -/
def trapezoid (cfg : Config) (s : State) (b : block_t) : State :=
  if s.step_events_completed ≤ toU32 b.accelerate_until then accelerate cfg s b
  else if s.step_events_completed > toU32 b.decelerate_after then decelerate cfg s b
  else cruise cfg s

/-- Lines 973 to 977: a finished block is dropped. -/
def finish_block (s : State) (b : block_t) : State :=
  if s.step_events_completed ≥ b.step_event_count then
    plan_discard_current_block { s with current_block := none }
  else s

/-- The part of the interrupt guarded by `if (current_block != NULL)` (lines 547 to
978), with `b` the current block. -/
def run_block (cfg : Config) (pins : Pins) (s : State) (b : block_t) : State :=
  let s := set_xy_direction s b
  let s := check_x_endstop cfg pins s b
  let s := check_y_endstop cfg pins s b
  let s := check_z_endstop cfg pins s b
  let s := set_e_direction cfg s
  let s := step_block cfg s b
  let s := trapezoid cfg s b
  finish_block s b

/-- The interrupt routine `ISR(TIMER1_COMPA_vect)`: one tick, with the endstop inputs
read in this tick. -/
def ISR_TIMER1_COMPA_vect (cfg : Config) (pins : Pins) (s : State) : State :=
  let c := claim_block cfg s
  if c.2 then c.1
  else
    match c.1.current_block with
    | some b => run_block cfg pins c.1 b
    | none => c.1

/-- A sequence of ticks, one per element of the list of sampled inputs, with no
foreground activity in between. -/
def run_ticks (cfg : Config) : List Pins → State → State
  | [], s => s
  | p :: ps, s => run_ticks cfg ps (ISR_TIMER1_COMPA_vect cfg p s)

/-! ## The extruder interrupt of the `ADVANCE` build -/

/-- The inner branches of an extruder block of `ISR(TIMER0_COMPA_vect)` taken for
extruder 0 with `d = 1` (`e_steps[0]++`, after `WRITE(E0_DIR_PIN, INVERT_E0_DIR)`) or
`d = -1` (`e_steps[0]--`, after `WRITE(E0_DIR_PIN, !INVERT_E0_DIR)`), together with the
pulse on `E0_STEP_PIN` that the two `WRITE`s around them make. -/
def e0_step (s : State) (d : Int) : State :=
  { s with
    e_steps := { s.e_steps with e0 := s32 (s.e_steps.e0 + d) }
    e_pulses := { s.e_pulses with e0 := s.e_pulses.e0 + 1 }
    e_moved := { s.e_moved with e0 := s.e_moved.e0 - d } }

/-- The same for extruder 1. -/
def e1_step (s : State) (d : Int) : State :=
  { s with
    e_steps := { s.e_steps with e1 := s32 (s.e_steps.e1 + d) }
    e_pulses := { s.e_pulses with e1 := s.e_pulses.e1 + 1 }
    e_moved := { s.e_moved with e1 := s.e_moved.e1 - d } }

/-- The same for extruder 2. -/
def e2_step (s : State) (d : Int) : State :=
  { s with
    e_steps := { s.e_steps with e2 := s32 (s.e_steps.e2 + d) }
    e_pulses := { s.e_pulses with e2 := s.e_pulses.e2 + 1 }
    e_moved := { s.e_moved with e2 := s.e_moved.e2 - d } }

/-- Lines 993 to 1004: the block of extruder 0 in the loop body. -/
def e0_block (s : State) : State :=
  if s.e_steps.e0 ≠ 0 then
    if s.e_steps.e0 < 0 then e0_step s 1
    else if s.e_steps.e0 > 0 then e0_step s (-1)
    else s
  else s

/-- Lines 1005 to 1019: the block of extruder 1, compiled with `EXTRUDERS > 1`. -/
def e1_block (cfg : Config) (s : State) : State :=
  if cfg.EXTRUDERS > 1 then
    if s.e_steps.e1 ≠ 0 then
      if s.e_steps.e1 < 0 then e1_step s 1
      else if s.e_steps.e1 > 0 then e1_step s (-1)
      else s
    else s
  else s

/-- Lines 1020 to 1034: the block of extruder 2, compiled with `EXTRUDERS > 2`. -/
def e2_block (cfg : Config) (s : State) : State :=
  if cfg.EXTRUDERS > 2 then
    if s.e_steps.e2 ≠ 0 then
      if s.e_steps.e2 < 0 then e2_step s 1
      else if s.e_steps.e2 > 0 then e2_step s (-1)
      else s
    else s
  else s

/-- The loop `for(unsigned char i=0; i<4;i++)` of `ISR(TIMER0_COMPA_vect)`; the first
argument is the number of passes left. -/
def e_loop (cfg : Config) : Nat → State → State
  | 0, s => s
  | n + 1, s => e_loop cfg n (e2_block cfg (e1_block cfg (e0_block s)))

/-- The interrupt routine `ISR(TIMER0_COMPA_vect)` of the `ADVANCE` build (lines 988 to
1036): the compare register is advanced by 52 counts and the loop runs four times. -/
def ISR_TIMER0_COMPA_vect (cfg : Config) (s : State) : State :=
  let s := { s with old_OCR0A := u8 (s.old_OCR0A + 52) }
  let s := { s with OCR0A := s.old_OCR0A }
  e_loop cfg 4 s

/-! ## Control surface -/

/-- The function `enable_endstops(check)`. -/
def enable_endstops (s : State) (check : Bool) : State := { s with check_endstops := check }

/-- The function `st_wake_up()`. -/
def st_wake_up (s : State) : State := { s with OCIE1A := true }

/-- The function `st_set_position(x, y, z, e)`; the critical section brackets restore
the interrupt flag they found and leave no trace in the state. -/
def st_set_position (s : State) (x y z e : Int) : State :=
  let s := { s with count_position := { s.count_position with x := x } }
  let s := { s with count_position := { s.count_position with y := y } }
  let s := { s with count_position := { s.count_position with z := z } }
  { s with count_position := { s.count_position with e := e } }

/-- The function `st_set_e_position(e)`. -/
def st_set_e_position (s : State) (e : Int) : State :=
  { s with count_position := { s.count_position with e := e } }

/-- The function `st_get_position(axis)`: `count_position[axis]`, `none` for an index
outside the array. -/
def st_get_position (s : State) (axis : Nat) : Option Int := s.count_position.get axis

/-- The loop `while(blocks_queued()) plan_discard_current_block();` of `quickStop`;
the first argument bounds the number of iterations. -/
def discard_all : Nat → State → State
  | 0, s => s
  | n + 1, s => if blocks_queued s then discard_all n (plan_discard_current_block s) else s

/-- The function `quickStop()`.  The loop runs at most once per queued block. -/
def quickStop (s : State) : State :=
  let s := { s with OCIE1A := false }
  let s := discard_all s.block_buffer.length s
  let s := { s with current_block := none }
  { s with OCIE1A := true }

/-- The four axes, for statements that range over them. -/
inductive Axis where
  | X
  | Y
  | Z
  | E
deriving DecidableEq, Repr, Fintype

/-- What `checkHitEndstops` sends to the host and to the display, and the calls it
makes into the SD card and heater modules.  `echo_pair a n` is
`SERIAL_ECHOPAIR(" A:", (float)n/axis_steps_per_unit[A_AXIS])` with `n` the trigger
position in steps; `lcd_hit a` is `LCD_MESSAGEPGM(MSG_ENDSTOPS_HIT "A")`. -/
inductive Report where
  | echo_start
  | echo_endstops_hit
  | echo_pair (a : Axis) (trigsteps : Int)
  | lcd_hit (a : Axis)
  | echo_ln
  | card_closed
  | hotends_off
deriving DecidableEq, Repr

/-- The clearing of the three hit flags, as both `checkHitEndstops` and
`endstops_hit_on_purpose` write it. -/
def clear_hits (s : State) : State :=
  { s with endstop_x_hit := false, endstop_y_hit := false, endstop_z_hit := false }

/-- The function `endstops_hit_on_purpose()`. -/
def endstops_hit_on_purpose (s : State) : State := clear_hits s

/-- The lines of the report of `checkHitEndstops` between the header and the line
end.  The third test reads `endstop_x_hit`, as the source does. -/
def hit_report (s : State) : List Report :=
  (if s.endstop_x_hit then
    [Report.echo_pair Axis.X s.endstops_trigsteps.x, Report.lcd_hit Axis.X] else []) ++
  (if s.endstop_y_hit then
    [Report.echo_pair Axis.Y s.endstops_trigsteps.y, Report.lcd_hit Axis.Y] else []) ++
  (if s.endstop_x_hit then
    [Report.echo_pair Axis.Z s.endstops_trigsteps.z, Report.lcd_hit Axis.Z] else [])

/-- The function `checkHitEndstops()`: the state it leaves and what it emitted.  With
`ABORT_ON_ENDSTOP_HIT_FEATURE_ENABLED` and `abort_on_endstop_hit` set it also stops
the print: `card.sdprinting = false; card.closefile();`, `quickStop()`, and the three
`setTargetHotend`n`(0)` calls. -/
def checkHitEndstops (cfg : Config) (s : State) : State × List Report :=
  if s.endstop_x_hit || s.endstop_y_hit || s.endstop_z_hit then
    let out := [Report.echo_start, Report.echo_endstops_hit] ++ hit_report s ++
      [Report.echo_ln]
    let s := clear_hits s
    if cfg.ABORT_ON_ENDSTOP_HIT_FEATURE_ENABLED && s.abort_on_endstop_hit then
      (quickStop s, out ++ [Report.card_closed, Report.hotends_off])
    else (s, out)
  else (s, [])

/-! ## Derived quantities and concrete inputs -/

/-- The step multiplier held by the state: `step_loops`, or `1 << step_loops_shift` in
the `USE_L6470` build. -/
def step_multiplier (cfg : Config) (s : State) : Nat :=
  if cfg.USE_L6470 then 1 <<< s.step_loops_shift else s.step_loops

/-- The cached multiplier of the cruise phase: `step_loops_nominal`, or
`1 << step_loops_shift_nominal` in the `USE_L6470` build. -/
def nominal_step_multiplier (cfg : Config) (s : State) : Nat :=
  if cfg.USE_L6470 then 1 <<< s.step_loops_shift_nominal else s.step_loops_nominal

/-- A fast table of the shape `speed_lookuptable.h` has for a 16 MHz clock: entry `i`
is the interval `2000000 / (32 + 256 i)` and its difference to the next entry. -/
def table_fast (i j : Nat) : Nat :=
  if j = 0 then 2000000 / (32 + 256 * i)
  else 2000000 / (32 + 256 * i) - 2000000 / (32 + 256 * (i + 1))

/-- A slow table of the same shape: entry `i` is `2000000 / (32 + 8 i)` and its
difference to the next entry. -/
def table_slow (i j : Nat) : Nat :=
  if j = 0 then 2000000 / (32 + 8 * i)
  else 2000000 / (32 + 8 * i) - 2000000 / (32 + 8 * (i + 1))

/-- A build with pin-toggling drivers: `USE_L6470`, `ADVANCE`, `COREXY` and
`Z_LATE_ENABLE` off, all six endstop pins present, 40 kHz maximum, 16 MHz clock. -/
def cfg_pulse : Config :=
  { USE_L6470 := false, ADVANCE := false, COREXY := false, Z_LATE_ENABLE := false,
    ABORT_ON_ENDSTOP_HIT_FEATURE_ENABLED := false, EXTRUDERS := 1,
    MAX_STEP_FREQUENCY := 40000, F_CPU := 16000000,
    X_MIN_PIN := true, X_MAX_PIN := true, Y_MIN_PIN := true, Y_MAX_PIN := true,
    Z_MIN_PIN := true, Z_MAX_PIN := true,
    X_L6470_CS_PIN := false, Y_L6470_CS_PIN := false, Z_L6470_CS_PIN := false,
    X_L6470_NSTEPS := 0, Y_L6470_NSTEPS := 0, Z_L6470_NSTEPS := 0,
    speed_lookuptable_fast := table_fast, speed_lookuptable_slow := table_slow }

/-- The same build with `USE_L6470 == 1` and L6470 drivers on X, Y and Z. -/
def cfg_l6470 : Config :=
  { cfg_pulse with
    USE_L6470 := true, X_L6470_CS_PIN := true, Y_L6470_CS_PIN := true,
    Z_L6470_CS_PIN := true, X_L6470_NSTEPS := 1, Y_L6470_NSTEPS := 1, Z_L6470_NSTEPS := 1 }

/-- The state after start-up: the static initialisers of the file, an empty planner
queue, the stepper interrupt enabled by `st_init`, no output yet. -/
def initial_state : State :=
  { current_block := none, block_buffer := [], out_bits := 0,
    counter_x := 0, counter_y := 0, counter_z := 0, counter_e := 0,
    step_events_completed := 0, advance_rate := 0, advance := 0, final_advance := 0,
    old_advance := 0, e_steps := ⟨0, 0, 0⟩, acceleration_time := 0, deceleration_time := 0,
    acc_step_rate := 0, step_loops := 0, step_loops_nominal := 0, step_loops_shift := 0,
    step_loops_shift_nominal := 0, OCR1A_nominal := 0,
    endstops_trigsteps := ⟨0, 0, 0, 0⟩, endstop_x_hit := false, endstop_y_hit := false,
    endstop_z_hit := false, old_x_min_endstop := false, old_x_max_endstop := false,
    old_y_min_endstop := false, old_y_max_endstop := false, old_z_min_endstop := false,
    old_z_max_endstop := false, check_endstops := true,
    count_position := ⟨0, 0, 0, 0⟩, count_direction := ⟨1, 1, 1, 1⟩,
    OCR1A := 0x4000, OCIE1A := true, pulses := ⟨0, 0, 0, 0⟩, moved := ⟨0, 0, 0, 0⟩,
    z_enabled := false, abort_on_endstop_hit := false, old_OCR0A := 0, OCR0A := 0,
    e_pulses := ⟨0, 0, 0⟩, e_moved := ⟨0, 0, 0⟩ }

/-- A block of `n` events along +X only (`steps_x = n`), cruising at `rate` from the
first to the last event. -/
def x_block (n rate : Nat) : block_t :=
  { steps_x := n, steps_y := 0, steps_z := 0, steps_e := 0, step_event_count := n,
    accelerate_until := 0, decelerate_after := n, acceleration_rate := 0,
    direction_bits := 0, active_extruder := 0, advance_rate := 0, initial_advance := 0,
    final_advance := 0, nominal_rate := rate, initial_rate := rate, final_rate := rate,
    busy := false }

/-- Endstop inputs with no switch active. -/
def no_pins : Pins := ⟨false, false, false, false, false, false⟩

/-- The condition of the `if` at lines 638 and 659 that latches an X hit, for a state
whose `out_bits` are set: gate on, pin present, input active now, previous sample
active, and `steps_x > 0`, on the endstop of the direction of travel. -/
def x_hit_now (cfg : Config) (pins : Pins) (s : State) (b : block_t) : Bool :=
  if x_negative cfg s.out_bits then
    s.check_endstops && cfg.X_MIN_PIN && pins.x_min && s.old_x_min_endstop &&
      decide (b.steps_x > 0)
  else
    s.check_endstops && cfg.X_MAX_PIN && pins.x_max && s.old_x_max_endstop &&
      decide (b.steps_x > 0)

/-- The condition of the `if` at lines 679 and 693 that latches a Y hit. -/
def y_hit_now (cfg : Config) (pins : Pins) (s : State) (b : block_t) : Bool :=
  if y_negative cfg s.out_bits then
    s.check_endstops && cfg.Y_MIN_PIN && pins.y_min && s.old_y_min_endstop &&
      decide (b.steps_y > 0)
  else
    s.check_endstops && cfg.Y_MAX_PIN && pins.y_max && s.old_y_max_endstop &&
      decide (b.steps_y > 0)

/-- The condition of the `if` at lines 722 and 748 that latches a Z hit. -/
def z_hit_now (cfg : Config) (pins : Pins) (s : State) (b : block_t) : Bool :=
  if dir_bit s.out_bits Z_AXIS then
    s.check_endstops && cfg.Z_MIN_PIN && pins.z_min && s.old_z_min_endstop &&
      decide (b.steps_z > 0)
  else
    s.check_endstops && cfg.Z_MAX_PIN && pins.z_max && s.old_z_max_endstop &&
      decide (b.steps_z > 0)

/-- Some endstop hit is latched in the tick that starts in state `s` with current
block `b`. -/
def endstop_hit (cfg : Config) (pins : Pins) (s : State) (b : block_t) : Bool :=
  x_hit_now cfg pins (set_xy_direction s b) b || y_hit_now cfg pins (set_xy_direction s b) b ||
    z_hit_now cfg pins (set_xy_direction s b) b

/-- The values a step multiplier takes: 1, 2 or 4. -/
@[reducible] def mult_ok (m : Nat) : Prop := m = 1 ∨ m = 2 ∨ m = 4

/-- Endstop inputs with only the X_MAX switch active. -/
def x_max_pins : Pins := ⟨false, true, false, false, false, false⟩

/-- The two states agree on the step multiplier variables, the current block and the
planner queue. -/
def same_control (s t : State) : Prop :=
  t.step_loops = s.step_loops ∧ t.step_loops_nominal = s.step_loops_nominal ∧
  t.step_loops_shift = s.step_loops_shift ∧
  t.step_loops_shift_nominal = s.step_loops_shift_nominal ∧
  t.current_block = s.current_block ∧ t.block_buffer = s.block_buffer

/-! ## Definitions for the Bresenham tracer -/

/-- The axis number of `enum AxisEnum`. -/
def Axis.index : Axis → Nat
  | Axis.X => X_AXIS
  | Axis.Y => Y_AXIS
  | Axis.Z => Z_AXIS
  | Axis.E => E_AXIS

/-- The entry of an axis-indexed array for an axis. -/
def Axes.sel {α : Type} (v : Axes α) : Axis → α
  | Axis.X => v.x
  | Axis.Y => v.y
  | Axis.Z => v.z
  | Axis.E => v.e

/-- The step count of a block on an axis: `steps_x`, `steps_y`, `steps_z`, `steps_e`. -/
def block_t.steps (b : block_t) : Axis → Int
  | Axis.X => b.steps_x
  | Axis.Y => b.steps_y
  | Axis.Z => b.steps_z
  | Axis.E => b.steps_e

/-- The Bresenham counter of an axis: `counter_x`, `counter_y`, `counter_z`,
`counter_e`. -/
def State.counter (s : State) : Axis → Int
  | Axis.X => s.counter_x
  | Axis.Y => s.counter_y
  | Axis.Z => s.counter_z
  | Axis.E => s.counter_e

/-- The value the interrupt stores in `count_direction[axis]` for a block: -1 when the
direction bit of the axis is set, 1 when it is clear. -/
def direction_sign (b : block_t) (a : Axis) : Int :=
  if dir_bit b.direction_bits a.index then -1 else 1

/-- A block as the planner produces it: at least one event, step counts between 0 and
the event count, and the event count in the range of the `long` step counts. -/
def valid_block (b : block_t) : Prop :=
  1 ≤ b.step_event_count ∧ b.step_event_count < 2147483648 ∧
  ∀ a : Axis, 0 ≤ b.steps a ∧ b.steps a ≤ b.step_event_count

instance (b : block_t) : Decidable (valid_block b) := by
  unfold valid_block
  infer_instance

/-- The rates at which `calc_timer` always chooses the multiplier 1: the build limits
the rate to 10 kHz, or the three rates of the block are at most 10 kHz. -/
def slow_profile (cfg : Config) (b : block_t) : Prop :=
  cfg.MAX_STEP_FREQUENCY ≤ 10000 ∨
  (b.nominal_rate ≤ 10000 ∧ b.initial_rate ≤ 10000 ∧ b.final_rate ≤ 10000)

instance (cfg : Config) (b : block_t) : Decidable (slow_profile cfg b) := by
  unfold slow_profile
  infer_instance

/-- Whether the tick that starts in state `s` latches an endstop hit. -/
def hit_in_tick (cfg : Config) (pins : Pins) (s : State) : Bool :=
  if (claim_block cfg s).2 then false
  else
    match (claim_block cfg s).1.current_block with
    | some b => endstop_hit cfg pins (claim_block cfg s).1 b
    | none => false

/-- No tick of the run latches an endstop hit. -/
def no_hit (cfg : Config) : List Pins → State → Bool
  | [], _ => true
  | p :: ps, s => !hit_in_tick cfg p s && no_hit cfg ps (ISR_TIMER1_COMPA_vect cfg p s)

/-- The number of ticks a block takes at multiplier 1: one per event, and one more for
the `Z_LATE_ENABLE` wait when the block moves Z. -/
def ticks_needed (cfg : Config) (b : block_t) : Nat :=
  b.step_event_count + (if cfg.Z_LATE_ENABLE && decide (b.steps_z > 0) then 1 else 0)

/-- The Bresenham state of a block after `k` events with multiplier 1, relative to the
position `pos` and the pulse counts `pul` at the start of the block: on every axis the
pulses emitted so far are `p`, the counter is `-(N >> 1) + k * steps - N * p` and lies
in `(-N, 0]`, and the position has moved by `p` in the direction of the block. -/
def traced (b : block_t) (pos : Axes Int) (pul : Axes Nat) (k : Nat) (s : State) : Prop :=
  ∀ a : Axis, ∃ p : Nat,
    s.pulses.sel a = pul.sel a + p ∧
    s.counter a = -((b.step_event_count / 2 : Nat) : Int) + k * b.steps a
      - b.step_event_count * p ∧
    -(b.step_event_count : Int) < s.counter a ∧ s.counter a ≤ 0 ∧
    s.count_position.sel a = s32 (pos.sel a + direction_sign b a * p)

/-- The multiplier state of a block that runs with multiplier 1. -/
def single_stepping (cfg : Config) (s : State) : Prop :=
  s.step_loops = 1 ∧ s.step_loops_nominal = 1 ∧
  (cfg.MAX_STEP_FREQUENCY ≤ 10000 ∨ s.acc_step_rate ≤ 10000)

/-- The Bresenham state of one axis: its counter, the pulses emitted on it and its
entry of `count_position`. -/
def State.axis (s : State) (a : Axis) : Int × Nat × Int :=
  (s.counter a, s.pulses.sel a, s.count_position.sel a)

/-- The common shape of the four per-axis step blocks (lines 793 to 892) on the
Bresenham state of the axis: the counter is advanced by the step count; when it is
positive a step is emitted, the event count is subtracted and the position moves by
`count_direction`. -/
def axis_event (n : Nat) (steps dir : Int) (v : Int × Nat × Int) : Int × Nat × Int :=
  if s32 (v.1 + steps) > 0 then
    (s32 (s32 (v.1 + steps) - n), v.2.1 + 1, s32 (v.2.2 + dir))
  else (s32 (v.1 + steps), v.2.1, v.2.2)

/-- The variables of the endstop logic: the three hit flags, the trigger positions, the
gate `check_endstops` and the six previous samples. -/
structure Latches where
  x_hit : Bool
  y_hit : Bool
  z_hit : Bool
  trigsteps : Axes Int
  check : Bool
  old_x_min : Bool
  old_x_max : Bool
  old_y_min : Bool
  old_y_max : Bool
  old_z_min : Bool
  old_z_max : Bool
deriving DecidableEq, Repr

/-- The endstop variables of a state. -/
def State.latches (s : State) : Latches :=
  { x_hit := s.endstop_x_hit, y_hit := s.endstop_y_hit, z_hit := s.endstop_z_hit,
    trigsteps := s.endstops_trigsteps, check := s.check_endstops,
    old_x_min := s.old_x_min_endstop, old_x_max := s.old_x_max_endstop,
    old_y_min := s.old_y_min_endstop, old_y_max := s.old_y_max_endstop,
    old_z_min := s.old_z_min_endstop, old_z_max := s.old_z_max_endstop }

/-- The state after lines 547 to 755 of the interrupt: directions set and the three
endstop checks done. -/
def checked (cfg : Config) (pins : Pins) (s : State) (b : block_t) : State :=
  check_z_endstop cfg pins (check_y_endstop cfg pins
    (check_x_endstop cfg pins (set_xy_direction s b) b) b) b

/-- Endstop inputs with only the X_MIN switch active. -/
def x_min_pins : Pins := ⟨true, false, false, false, false, false⟩

/-- A block of `n` events along -X only: `x_block` with the X direction bit set. -/
def x_block_back (n rate : Nat) : block_t := { x_block n rate with direction_bits := 1 }

/-- The state after lines 547 to 898 of the interrupt: directions, endstop checks and
the stepping of the tick done, the trapezoid generator not yet run. -/
def stepped (cfg : Config) (pins : Pins) (s : State) (b : block_t) : State :=
  step_block cfg (set_e_direction cfg (checked cfg pins s b)) b

/-- The variables of the trapezoid generator that the stepping does not touch: the
rate reached while accelerating, the two time accumulators, the timer compare value
and the cached cruise interval and multiplier. -/
structure Ramp where
  acc_step_rate : Nat
  acceleration_time : Int
  deceleration_time : Int
  OCR1A : Nat
  OCR1A_nominal : Nat
  step_loops_nominal : Nat
  step_loops_shift_nominal : Nat
deriving DecidableEq, Repr

/-- The trapezoid variables of a state. -/
def State.ramp (s : State) : Ramp :=
  { acc_step_rate := s.acc_step_rate, acceleration_time := s.acceleration_time,
    deceleration_time := s.deceleration_time, OCR1A := s.OCR1A,
    OCR1A_nominal := s.OCR1A_nominal, step_loops_nominal := s.step_loops_nominal,
    step_loops_shift_nominal := s.step_loops_shift_nominal }

/-- The value of `acc_step_rate` when the acceleration branch passes it to `calc_timer`
(lines 903 to 911): the speed gain, the addition of `initial_rate` and the upper
limit. -/
def accel_rate (s : State) (b : block_t) : Nat :=
  let acc_step_rate := MultiU24X24toH16 s.acceleration_time b.acceleration_rate
  let acc_step_rate := u16 (acc_step_rate + b.initial_rate)
  if acc_step_rate > b.nominal_rate then u16 b.nominal_rate else acc_step_rate

/-- A block of four events along +X that accelerates from 1000 Hz on all of its
events. -/
def ramp_up_block : block_t :=
  { x_block 4 2000 with accelerate_until := 4, initial_rate := 1000, acceleration_rate := 5000 }

/-- A block of four events along +X that decelerates from its first event on, down to
500 Hz. -/
def ramp_down_block : block_t :=
  { x_block 4 1000 with decelerate_after := 0, final_rate := 500, acceleration_rate := 5000 }

/-- A block of four events along +X at 70 kHz, a rate above `MAX_STEP_FREQUENCY` that
does not fit in 16 bits. -/
def fast_start_block : block_t := x_block 4 70000

/-- The state right after the claim of block `b0` (lines 520 to 528): the block marked
busy and made current, the trapezoid generator reset, the counters initialised. -/
def claimed (cfg : Config) (s : State) (b0 : block_t) : State :=
  reset_counters (trapezoid_generator_reset cfg (take_block s b0) { b0 with busy := true })
    { b0 with busy := true }

/-- The pin-toggling build with `ADVANCE` defined and two extruders. -/
def cfg_advance : Config := { cfg_pulse with ADVANCE := true, EXTRUDERS := 2 }

/-- A block of `n` events along +X with `sy` steps along +Y, all rates at `rate`. -/
def xy_block (n rate : Nat) (sy : Int) : block_t := { x_block n rate with steps_y := sy }

/-- Endstop inputs with only the Y_MAX switch active. -/
def y_max_pins : Pins := ⟨false, false, false, true, false, false⟩

/-- The pin-toggling build with `COREXY` defined. -/
def cfg_corexy : Config := { cfg_pulse with COREXY := true }

/-- A block of `n` events with `n` steps on each of the motors A and B (`steps_x` and
`steps_y` under `COREXY`), cruising at `rate`, with the given direction bits: 0 for
+A+B, 2 for +A-B. -/
def ab_block (n rate bits : Nat) : block_t :=
  { x_block n rate with steps_y := n, direction_bits := bits }

/-- The common shape of the three extruder blocks of `ISR(TIMER0_COMPA_vect)` on the
pending count of the extruder and the number of pulses issued on its STEP pin: a
non-zero count moves one step towards zero and one pulse is issued. -/
def e_drain (v : Int × Nat) : Int × Nat :=
  if v.1 < 0 then (s32 (v.1 + 1), v.2 + 1)
  else if v.1 > 0 then (s32 (v.1 - 1), v.2 + 1)
  else v

/-- What one activation of the extruder interrupt does to an extruder with the pending
count `v`, pulse count `p` and signed pulse count `m` at entry (`v1`, `p1`, `m1` at
exit): `min(4, |v|)` pulses, all in the direction of the sign of `v`, the count moved
by as many towards zero without passing it, and nothing for a count of zero. -/
def drains_toward_zero (v v1 : Int) (p p1 : Nat) (m m1 : Int) : Prop :=
  p1 = p + min 4 v.natAbs ∧
  m1 = m + Int.sign v * (min 4 v.natAbs : Nat) ∧
  v1 = v - Int.sign v * (min 4 v.natAbs : Nat) ∧
  v1.natAbs ≤ v.natAbs ∧ (0 ≤ v → 0 ≤ v1) ∧ (v ≤ 0 → v1 ≤ 0) ∧
  (v = 0 → p1 = p ∧ m1 = m ∧ v1 = 0)

/-- The block whose endstops a tick samples: the current block, or the block the tick
claims from the queue; none in an idle tick and in the tick of the `Z_LATE_ENABLE`
wait, which return before the endstop checks. -/
def sampled_block (cfg : Config) (s : State) : Option block_t :=
  if (claim_block cfg s).2 then none else (claim_block cfg s).1.current_block

/-- The queue of the scenario: one event along -X, one event along +X, five events
along -X. -/
def back_forth_back : List block_t :=
  [x_block_back 1 1000, x_block 1 1000, x_block_back 5 1000]

/-- A block of four events along +X that accelerates on all of its events, with an
advance rate of 512 (two E steps per tick at multiplier 1). -/
def advance_up_block : block_t := { ramp_up_block with advance_rate := 512 }

/-- A block of four events along +X that decelerates from its first event on, with an
advance rate of 512, an initial advance of 2048 and a final advance of 0. -/
def advance_down_block : block_t :=
  { ramp_down_block with advance_rate := 512, initial_advance := 2048 }

/-- The range invariant of the Bresenham counters of block `b`: each of the four
counters lies in `(-N, 0]`, with `N = step_event_count`. -/
def counters_in_range (b : block_t) (s : State) : Prop :=
  ∀ a : Axis, -(b.step_event_count : Int) < s.counter a ∧ s.counter a ≤ 0

/-- The Bresenham counters of block `b` after `k` events: each differs from
`-(N >> 1) + k * steps` by a multiple of `N` and lies in `(-N, 0]`. -/
def counters_after (b : block_t) (k : Nat) (s : State) : Prop :=
  ∀ a : Axis,
    (∃ m : Int, s.counter a =
      -((b.step_event_count / 2 : Nat) : Int) + k * b.steps a - b.step_event_count * m) ∧
    -(b.step_event_count : Int) < s.counter a ∧ s.counter a ≤ 0

/-- Every tick of the run enters its step loop with `step_loops = 1`. -/
def single_ticks (cfg : Config) : List Pins → State → Bool
  | [], _ => true
  | p :: ps, s =>
    decide ((claim_block cfg s).1.step_loops = 1) &&
      single_ticks cfg ps (ISR_TIMER1_COMPA_vect cfg p s)

/-! ## Lemmas on the speed lookup -/

theorem shift2_mask (r : Nat) (h : r < 65536) : (r >>> 2) &&& 0x3fff = r / 4 := by
  have e : (0x3fff : Nat) = 2 ^ 14 - 1 := by norm_num
  rw [e, Nat.and_pow_two_sub_one_eq_mod, Nat.shiftRight_eq_div_pow]
  omega

theorem shift1_mask (r : Nat) (h : r < 65536) : (r >>> 1) &&& 0x7fff = r / 2 := by
  have e : (0x7fff : Nat) = 2 ^ 15 - 1 := by norm_num
  rw [e, Nat.and_pow_two_sub_one_eq_mod, Nat.shiftRight_eq_div_pow]
  omega

theorem divided_rate_le (r : Nat) : divided_rate r ≤ r := by
  unfold divided_rate
  split
  · exact le_trans Nat.and_le_left (by rw [Nat.shiftRight_eq_div_pow]; exact Nat.div_le_self _ _)
  · split
    · exact le_trans Nat.and_le_left
        (by rw [Nat.shiftRight_eq_div_pow]; exact Nat.div_le_self _ _)
    · exact le_refl _

theorem clamp_rate_le (cfg : Config) (r : Nat) : clamp_rate cfg r ≤ r := by
  unfold clamp_rate u16
  split
  · have := Nat.mod_le cfg.MAX_STEP_FREQUENCY 65536
    omega
  · exact le_refl _

theorem clamp_rate_of_le (cfg : Config) (r : Nat) (h : r ≤ cfg.MAX_STEP_FREQUENCY) :
    clamp_rate cfg r = r := by
  unfold clamp_rate
  rw [if_neg (by omega)]

theorem adjusted_rate_of_le (cfg : Config) (r : Nat) (h : r ≤ cfg.min_rate) :
    adjusted_rate cfg r = 0 := by
  unfold adjusted_rate sub16 u16
  split
  · rw [Nat.mod_mod]
    have := Nat.mod_lt cfg.min_rate (show 0 < 65536 by norm_num)
    omega
  · have e : r = cfg.min_rate := by omega
    rw [e]
    have := Nat.mod_lt cfg.min_rate (show 0 < 65536 by norm_num)
    omega

theorem loops_shift_cases (r : Nat) :
    loops_shift r = 0 ∨ loops_shift r = 1 ∨ loops_shift r = 2 := by
  unfold loops_shift
  split
  · right; right; rfl
  · split
    · right; left; rfl
    · left; rfl

theorem step_multiplier_set (cfg : Config) (s : State) (r : Nat) :
    step_multiplier cfg (set_step_loops cfg s r) = 1 <<< loops_shift r := by
  unfold step_multiplier set_step_loops
  cases h : cfg.USE_L6470 <;> simp

/-! ## Lemmas on the control surface -/

theorem discard_all_eq (n : Nat) : ∀ s : State, s.block_buffer.length ≤ n →
    discard_all n s = { s with block_buffer := [] } := by
  induction n with
  | zero =>
    intro s h
    have hb : s.block_buffer = [] := List.length_eq_zero.mp (by omega)
    cases s
    simp_all [discard_all]
  | succ n ih =>
    intro s h
    cases hb : s.block_buffer with
    | nil =>
      cases s
      simp_all [discard_all, blocks_queued]
    | cons a q =>
      have hq : blocks_queued s = true := by simp [blocks_queued, hb]
      have hl : (plan_discard_current_block s).block_buffer.length ≤ n := by
        simp only [plan_discard_current_block, hb, List.tail_cons]
        rw [hb, List.length_cons] at h
        omega
      simp only [discard_all, hq, if_true]
      rw [ih _ hl]
      rfl

theorem quickStop_eq (s : State) :
    quickStop s = { s with block_buffer := [], current_block := none, OCIE1A := true } := by
  have h := discard_all_eq s.block_buffer.length { s with OCIE1A := false } (le_refl _)
  unfold quickStop
  simp only []
  rw [h]

theorem idle_tick (cfg : Config) (pins : Pins) (t : State)
    (hc : t.current_block = none) (hq : t.block_buffer = []) :
    ISR_TIMER1_COMPA_vect cfg pins t = { t with OCR1A := 2000 } := by
  simp [ISR_TIMER1_COMPA_vect, claim_block, plan_get_current_block, hc, hq]

theorem idle_ticks (cfg : Config) (ps : List Pins) : ∀ t : State,
    t.current_block = none → t.block_buffer = [] → t.OCR1A = 2000 →
    run_ticks cfg ps t = t := by
  induction ps with
  | nil => intro t _ _ _; rfl
  | cons p ps ih =>
    intro t hc hq ho
    have e : ISR_TIMER1_COMPA_vect cfg p t = t := by
      rw [idle_tick cfg p t hc hq]
      cases t
      simp_all
    simp only [run_ticks, e]
    exact ih t hc hq ho

/-! ## Projections of a conditional state -/

@[simp] theorem ite_current_block (c : Prop) [Decidable c] (a b : State) :
    (if c then a else b).current_block = if c then a.current_block else b.current_block :=
  apply_ite State.current_block c a b

@[simp] theorem ite_block_buffer (c : Prop) [Decidable c] (a b : State) :
    (if c then a else b).block_buffer = if c then a.block_buffer else b.block_buffer :=
  apply_ite State.block_buffer c a b

@[simp] theorem ite_out_bits (c : Prop) [Decidable c] (a b : State) :
    (if c then a else b).out_bits = if c then a.out_bits else b.out_bits :=
  apply_ite State.out_bits c a b

@[simp] theorem ite_counter_x (c : Prop) [Decidable c] (a b : State) :
    (if c then a else b).counter_x = if c then a.counter_x else b.counter_x :=
  apply_ite State.counter_x c a b

@[simp] theorem ite_counter_y (c : Prop) [Decidable c] (a b : State) :
    (if c then a else b).counter_y = if c then a.counter_y else b.counter_y :=
  apply_ite State.counter_y c a b

@[simp] theorem ite_counter_z (c : Prop) [Decidable c] (a b : State) :
    (if c then a else b).counter_z = if c then a.counter_z else b.counter_z :=
  apply_ite State.counter_z c a b

@[simp] theorem ite_counter_e (c : Prop) [Decidable c] (a b : State) :
    (if c then a else b).counter_e = if c then a.counter_e else b.counter_e :=
  apply_ite State.counter_e c a b

@[simp] theorem ite_step_events_completed (c : Prop) [Decidable c] (a b : State) :
    (if c then a else b).step_events_completed = if c then a.step_events_completed else b.step_events_completed :=
  apply_ite State.step_events_completed c a b

@[simp] theorem ite_advance_rate (c : Prop) [Decidable c] (a b : State) :
    (if c then a else b).advance_rate = if c then a.advance_rate else b.advance_rate :=
  apply_ite State.advance_rate c a b

@[simp] theorem ite_advance (c : Prop) [Decidable c] (a b : State) :
    (if c then a else b).advance = if c then a.advance else b.advance :=
  apply_ite State.advance c a b

@[simp] theorem ite_final_advance (c : Prop) [Decidable c] (a b : State) :
    (if c then a else b).final_advance = if c then a.final_advance else b.final_advance :=
  apply_ite State.final_advance c a b

@[simp] theorem ite_old_advance (c : Prop) [Decidable c] (a b : State) :
    (if c then a else b).old_advance = if c then a.old_advance else b.old_advance :=
  apply_ite State.old_advance c a b

@[simp] theorem ite_e_steps (c : Prop) [Decidable c] (a b : State) :
    (if c then a else b).e_steps = if c then a.e_steps else b.e_steps :=
  apply_ite State.e_steps c a b

@[simp] theorem ite_acceleration_time (c : Prop) [Decidable c] (a b : State) :
    (if c then a else b).acceleration_time = if c then a.acceleration_time else b.acceleration_time :=
  apply_ite State.acceleration_time c a b

@[simp] theorem ite_deceleration_time (c : Prop) [Decidable c] (a b : State) :
    (if c then a else b).deceleration_time = if c then a.deceleration_time else b.deceleration_time :=
  apply_ite State.deceleration_time c a b

@[simp] theorem ite_acc_step_rate (c : Prop) [Decidable c] (a b : State) :
    (if c then a else b).acc_step_rate = if c then a.acc_step_rate else b.acc_step_rate :=
  apply_ite State.acc_step_rate c a b

@[simp] theorem ite_step_loops (c : Prop) [Decidable c] (a b : State) :
    (if c then a else b).step_loops = if c then a.step_loops else b.step_loops :=
  apply_ite State.step_loops c a b

@[simp] theorem ite_step_loops_nominal (c : Prop) [Decidable c] (a b : State) :
    (if c then a else b).step_loops_nominal = if c then a.step_loops_nominal else b.step_loops_nominal :=
  apply_ite State.step_loops_nominal c a b

@[simp] theorem ite_step_loops_shift (c : Prop) [Decidable c] (a b : State) :
    (if c then a else b).step_loops_shift = if c then a.step_loops_shift else b.step_loops_shift :=
  apply_ite State.step_loops_shift c a b

@[simp] theorem ite_step_loops_shift_nominal (c : Prop) [Decidable c] (a b : State) :
    (if c then a else b).step_loops_shift_nominal = if c then a.step_loops_shift_nominal else b.step_loops_shift_nominal :=
  apply_ite State.step_loops_shift_nominal c a b

@[simp] theorem ite_OCR1A_nominal (c : Prop) [Decidable c] (a b : State) :
    (if c then a else b).OCR1A_nominal = if c then a.OCR1A_nominal else b.OCR1A_nominal :=
  apply_ite State.OCR1A_nominal c a b

@[simp] theorem ite_endstops_trigsteps (c : Prop) [Decidable c] (a b : State) :
    (if c then a else b).endstops_trigsteps = if c then a.endstops_trigsteps else b.endstops_trigsteps :=
  apply_ite State.endstops_trigsteps c a b

@[simp] theorem ite_endstop_x_hit (c : Prop) [Decidable c] (a b : State) :
    (if c then a else b).endstop_x_hit = if c then a.endstop_x_hit else b.endstop_x_hit :=
  apply_ite State.endstop_x_hit c a b

@[simp] theorem ite_endstop_y_hit (c : Prop) [Decidable c] (a b : State) :
    (if c then a else b).endstop_y_hit = if c then a.endstop_y_hit else b.endstop_y_hit :=
  apply_ite State.endstop_y_hit c a b

@[simp] theorem ite_endstop_z_hit (c : Prop) [Decidable c] (a b : State) :
    (if c then a else b).endstop_z_hit = if c then a.endstop_z_hit else b.endstop_z_hit :=
  apply_ite State.endstop_z_hit c a b

@[simp] theorem ite_old_x_min_endstop (c : Prop) [Decidable c] (a b : State) :
    (if c then a else b).old_x_min_endstop = if c then a.old_x_min_endstop else b.old_x_min_endstop :=
  apply_ite State.old_x_min_endstop c a b

@[simp] theorem ite_old_x_max_endstop (c : Prop) [Decidable c] (a b : State) :
    (if c then a else b).old_x_max_endstop = if c then a.old_x_max_endstop else b.old_x_max_endstop :=
  apply_ite State.old_x_max_endstop c a b

@[simp] theorem ite_old_y_min_endstop (c : Prop) [Decidable c] (a b : State) :
    (if c then a else b).old_y_min_endstop = if c then a.old_y_min_endstop else b.old_y_min_endstop :=
  apply_ite State.old_y_min_endstop c a b

@[simp] theorem ite_old_y_max_endstop (c : Prop) [Decidable c] (a b : State) :
    (if c then a else b).old_y_max_endstop = if c then a.old_y_max_endstop else b.old_y_max_endstop :=
  apply_ite State.old_y_max_endstop c a b

@[simp] theorem ite_old_z_min_endstop (c : Prop) [Decidable c] (a b : State) :
    (if c then a else b).old_z_min_endstop = if c then a.old_z_min_endstop else b.old_z_min_endstop :=
  apply_ite State.old_z_min_endstop c a b

@[simp] theorem ite_old_z_max_endstop (c : Prop) [Decidable c] (a b : State) :
    (if c then a else b).old_z_max_endstop = if c then a.old_z_max_endstop else b.old_z_max_endstop :=
  apply_ite State.old_z_max_endstop c a b

@[simp] theorem ite_check_endstops (c : Prop) [Decidable c] (a b : State) :
    (if c then a else b).check_endstops = if c then a.check_endstops else b.check_endstops :=
  apply_ite State.check_endstops c a b

@[simp] theorem ite_count_position (c : Prop) [Decidable c] (a b : State) :
    (if c then a else b).count_position = if c then a.count_position else b.count_position :=
  apply_ite State.count_position c a b

@[simp] theorem ite_count_direction (c : Prop) [Decidable c] (a b : State) :
    (if c then a else b).count_direction = if c then a.count_direction else b.count_direction :=
  apply_ite State.count_direction c a b

@[simp] theorem ite_OCR1A (c : Prop) [Decidable c] (a b : State) :
    (if c then a else b).OCR1A = if c then a.OCR1A else b.OCR1A :=
  apply_ite State.OCR1A c a b

@[simp] theorem ite_OCIE1A (c : Prop) [Decidable c] (a b : State) :
    (if c then a else b).OCIE1A = if c then a.OCIE1A else b.OCIE1A :=
  apply_ite State.OCIE1A c a b

@[simp] theorem ite_pulses (c : Prop) [Decidable c] (a b : State) :
    (if c then a else b).pulses = if c then a.pulses else b.pulses :=
  apply_ite State.pulses c a b

@[simp] theorem ite_moved (c : Prop) [Decidable c] (a b : State) :
    (if c then a else b).moved = if c then a.moved else b.moved :=
  apply_ite State.moved c a b

@[simp] theorem ite_z_enabled (c : Prop) [Decidable c] (a b : State) :
    (if c then a else b).z_enabled = if c then a.z_enabled else b.z_enabled :=
  apply_ite State.z_enabled c a b

@[simp] theorem ite_abort_on_endstop_hit (c : Prop) [Decidable c] (a b : State) :
    (if c then a else b).abort_on_endstop_hit =
      if c then a.abort_on_endstop_hit else b.abort_on_endstop_hit :=
  apply_ite State.abort_on_endstop_hit c a b

@[simp] theorem ite_old_OCR0A (c : Prop) [Decidable c] (a b : State) :
    (if c then a else b).old_OCR0A = if c then a.old_OCR0A else b.old_OCR0A :=
  apply_ite State.old_OCR0A c a b

@[simp] theorem ite_OCR0A (c : Prop) [Decidable c] (a b : State) :
    (if c then a else b).OCR0A = if c then a.OCR0A else b.OCR0A :=
  apply_ite State.OCR0A c a b

@[simp] theorem ite_e_pulses (c : Prop) [Decidable c] (a b : State) :
    (if c then a else b).e_pulses = if c then a.e_pulses else b.e_pulses :=
  apply_ite State.e_pulses c a b

@[simp] theorem ite_e_moved (c : Prop) [Decidable c] (a b : State) :
    (if c then a else b).e_moved = if c then a.e_moved else b.e_moved :=
  apply_ite State.e_moved c a b

/-! ## Lemmas on the endstop checks -/

theorem same_control_refl (s : State) : same_control s s := ⟨rfl, rfl, rfl, rfl, rfl, rfl⟩

theorem same_control_trans {s t u : State} (h1 : same_control s t) (h2 : same_control t u) :
    same_control s u := by
  unfold same_control at h1 h2 ⊢
  refine ⟨?_, ?_, ?_, ?_, ?_, ?_⟩
  · rw [h2.1, h1.1]
  · rw [h2.2.1, h1.2.1]
  · rw [h2.2.2.1, h1.2.2.1]
  · rw [h2.2.2.2.1, h1.2.2.2.1]
  · rw [h2.2.2.2.2.1, h1.2.2.2.2.1]
  · rw [h2.2.2.2.2.2, h1.2.2.2.2.2]

theorem set_xy_direction_control (s : State) (b : block_t) :
    same_control s (set_xy_direction s b) ∧
    (set_xy_direction s b).step_events_completed = s.step_events_completed ∧
    (set_xy_direction s b).out_bits = b.direction_bits :=
  ⟨⟨rfl, rfl, rfl, rfl, rfl, rfl⟩, rfl, rfl⟩

theorem check_x_endstop_sec (cfg : Config) (pins : Pins) (s : State) (b : block_t) :
    (check_x_endstop cfg pins s b).step_events_completed =
      if x_hit_now cfg pins s b then b.step_event_count else s.step_events_completed := by
  simp only [check_x_endstop, x_hit_now, ite_step_events_completed]
  split_ifs <;> first | rfl | (simp only [Bool.and_eq_true, decide_eq_true_eq] at *; tauto)

theorem check_y_endstop_sec (cfg : Config) (pins : Pins) (s : State) (b : block_t) :
    (check_y_endstop cfg pins s b).step_events_completed =
      if y_hit_now cfg pins s b then b.step_event_count else s.step_events_completed := by
  simp only [check_y_endstop, y_hit_now, ite_step_events_completed]
  split_ifs <;> first | rfl | (simp only [Bool.and_eq_true, decide_eq_true_eq] at *; tauto)

theorem check_z_endstop_sec (cfg : Config) (pins : Pins) (s : State) (b : block_t) :
    (check_z_endstop cfg pins s b).step_events_completed =
      if z_hit_now cfg pins s b then b.step_event_count else s.step_events_completed := by
  simp only [check_z_endstop, z_hit_now, ite_step_events_completed]
  split_ifs <;> first | rfl | (simp only [Bool.and_eq_true, decide_eq_true_eq] at *; tauto)

theorem check_x_endstop_control (cfg : Config) (pins : Pins) (s : State) (b : block_t) :
    same_control s (check_x_endstop cfg pins s b) := by
  simp [same_control, check_x_endstop]

theorem check_y_endstop_control (cfg : Config) (pins : Pins) (s : State) (b : block_t) :
    same_control s (check_y_endstop cfg pins s b) := by
  simp [same_control, check_y_endstop]

theorem check_z_endstop_control (cfg : Config) (pins : Pins) (s : State) (b : block_t) :
    same_control s (check_z_endstop cfg pins s b) := by
  simp [same_control, check_z_endstop]

theorem y_hit_now_check_x (cfg : Config) (pins : Pins) (s : State) (b : block_t) :
    y_hit_now cfg pins (check_x_endstop cfg pins s b) b = y_hit_now cfg pins s b := by
  simp [y_hit_now, check_x_endstop]

theorem z_hit_now_check_x (cfg : Config) (pins : Pins) (s : State) (b : block_t) :
    z_hit_now cfg pins (check_x_endstop cfg pins s b) b = z_hit_now cfg pins s b := by
  simp [z_hit_now, check_x_endstop]

theorem z_hit_now_check_y (cfg : Config) (pins : Pins) (s : State) (b : block_t) :
    z_hit_now cfg pins (check_y_endstop cfg pins s b) b = z_hit_now cfg pins s b := by
  simp [z_hit_now, check_y_endstop]

theorem endstop_checks_sec (cfg : Config) (pins : Pins) (s : State) (b : block_t) :
    (check_z_endstop cfg pins (check_y_endstop cfg pins
      (check_x_endstop cfg pins (set_xy_direction s b) b) b) b).step_events_completed =
      if endstop_hit cfg pins s b then b.step_event_count else s.step_events_completed := by
  rw [check_z_endstop_sec, check_y_endstop_sec, check_x_endstop_sec, z_hit_now_check_y,
    z_hit_now_check_x, y_hit_now_check_x]
  unfold endstop_hit
  have e : (set_xy_direction s b).step_events_completed = s.step_events_completed := rfl
  rw [e]
  cases x_hit_now cfg pins (set_xy_direction s b) b <;>
    cases y_hit_now cfg pins (set_xy_direction s b) b <;>
    cases z_hit_now cfg pins (set_xy_direction s b) b <;> simp

theorem endstop_checks_control (cfg : Config) (pins : Pins) (s : State) (b : block_t) :
    same_control s (set_e_direction cfg (check_z_endstop cfg pins (check_y_endstop cfg pins
      (check_x_endstop cfg pins (set_xy_direction s b) b) b) b)) := by
  refine same_control_trans (set_xy_direction_control s b).1 ?_
  refine same_control_trans (check_x_endstop_control cfg pins _ b) ?_
  refine same_control_trans (check_y_endstop_control cfg pins _ b) ?_
  refine same_control_trans (check_z_endstop_control cfg pins _ b) ?_
  simp [same_control, set_e_direction]

theorem set_e_direction_sec (cfg : Config) (s : State) :
    (set_e_direction cfg s).step_events_completed = s.step_events_completed := by
  simp [set_e_direction]


/-! ## Lemmas on the stepping -/

theorem step_event_control (cfg : Config) (s : State) (b : block_t) :
    same_control s (step_event cfg s b) ∧
    (step_event cfg s b).step_events_completed = s.step_events_completed := by
  simp [same_control, step_event, e_event, z_event, y_event, x_event, advance_e_event]

theorem count_step_loops_control (s : State) :
    same_control s (count_step_loops s) := ⟨rfl, rfl, rfl, rfl, rfl, rfl⟩

theorem step_loop_sec (cfg : Config) (b : block_t) (n : Nat) : ∀ s : State,
    s.step_events_completed ≤ b.step_event_count →
    b.step_event_count + s.step_loops < 4294967296 →
    s.step_events_completed ≤ (step_loop cfg b n s).step_events_completed ∧
    same_control s (step_loop cfg b n s) := by
  induction n with
  | zero => intro s _ _; exact ⟨le_refl _, same_control_refl s⟩
  | succ n ih =>
    intro s h1 h2
    obtain ⟨hc, hs⟩ := step_event_control cfg s b
    have hl : (step_event cfg s b).step_loops = s.step_loops := hc.1
    have hc2 : same_control s (count_step_loops (step_event cfg s b)) :=
      same_control_trans hc (count_step_loops_control _)
    have hu : (count_step_loops (step_event cfg s b)).step_events_completed
        = s.step_events_completed + s.step_loops := by
      show u32 _ = _
      rw [hs, hl]
      exact Nat.mod_eq_of_lt (by omega)
    simp only [step_loop]
    split
    · exact ⟨by rw [hu]; omega, hc2⟩
    · rename_i hlt
      rw [hu] at hlt
      obtain ⟨g1, g2⟩ := ih (count_step_loops (step_event cfg s b))
        (by rw [hu]; omega) (by rw [hc2.1]; exact h2)
      exact ⟨le_trans (by rw [hu]; omega) g1, same_control_trans hc2 g2⟩

theorem step_loop_one (cfg : Config) (b : block_t) (s : State) :
    (step_loop cfg b 1 s).step_events_completed =
      u32 (s.step_events_completed + s.step_loops) := by
  obtain ⟨hc, hs⟩ := step_event_control cfg s b
  have hl : (step_event cfg s b).step_loops = s.step_loops := hc.1
  have hu : (count_step_loops (step_event cfg s b)).step_events_completed
      = u32 (s.step_events_completed + s.step_loops) := by
    show u32 _ = _
    rw [hs, hl]
  simp only [step_loop]
  split <;> exact hu

theorem reduce_shift_spec (completed count : Nat) (k : Nat) :
    completed + 2 ^ k < 4294967296 →
    reduce_shift completed count k ≤ k ∧
    (1 ≤ reduce_shift completed count k →
      completed + 2 ^ reduce_shift completed count k ≤ count) := by
  induction k with
  | zero => intro _; simp [reduce_shift]
  | succ k ih =>
    intro h
    have hp : 2 ^ k < 2 ^ (k + 1) := Nat.pow_lt_pow_right (by norm_num) (by omega)
    have hu : u32 (completed + 1 <<< (k + 1)) = completed + 2 ^ (k + 1) := by
      rw [Nat.one_shiftLeft]
      exact Nat.mod_eq_of_lt h
    simp only [reduce_shift, hu]
    split
    · obtain ⟨g1, g2⟩ := ih (by omega)
      exact ⟨by omega, g2⟩
    · exact ⟨le_refl _, fun _ => by omega⟩


theorem mult_ok_shift (k : Nat) (h : mult_ok (1 <<< k)) : k ≤ 2 := by
  rw [Nat.one_shiftLeft] at h
  by_contra hk
  have h3 : 2 ^ 3 ≤ 2 ^ k := Nat.pow_le_pow_right (by norm_num) (by omega)
  have h8 : (2 : Nat) ^ 3 = 8 := by norm_num
  rcases h with h | h | h <;> omega

theorem mult_ok_loops_shift (r : Nat) : mult_ok (1 <<< loops_shift r) := by
  rcases loops_shift_cases r with h | h | h <;> rw [h]
  · left; rfl
  · right; left; rfl
  · right; right; rfl

theorem pow_le_four (k : Nat) (h : k ≤ 2) : 2 ^ k ≤ 4 := by
  have : 2 ^ k ≤ 2 ^ 2 := Nat.pow_le_pow_right (by norm_num) h
  simpa using this

theorem step_block_sec (cfg : Config) (s : State) (b : block_t)
    (h1 : s.step_events_completed ≤ b.step_event_count)
    (hN : b.step_event_count < 2147483648)
    (hm : mult_ok (step_multiplier cfg s)) :
    s.step_events_completed ≤ (step_block cfg s b).step_events_completed ∧
    (step_block cfg s b).step_loops_nominal = s.step_loops_nominal ∧
    (step_block cfg s b).step_loops_shift_nominal = s.step_loops_shift_nominal ∧
    (step_block cfg s b).current_block = s.current_block ∧
    (step_block cfg s b).block_buffer = s.block_buffer ∧
    (s.step_events_completed < b.step_event_count →
      (cfg.USE_L6470 = true ∨ step_multiplier cfg s = 1) →
      (step_block cfg s b).step_events_completed ≤ b.step_event_count) := by
  cases hL : cfg.USE_L6470
  · -- pin-toggling build
    have hm2 : mult_ok s.step_loops := by simpa [step_multiplier, hL] using hm
    have hl4 : s.step_loops ≤ 4 := by rcases hm2 with h | h | h <;> omega
    have e : step_block cfg s b = step_loop cfg b s.step_loops s := by
      simp [step_block, hL]
    obtain ⟨g1, g2⟩ := step_loop_sec cfg b s.step_loops s h1 (by omega)
    rw [e]
    refine ⟨g1, g2.2.1, g2.2.2.2.1, g2.2.2.2.2.1, g2.2.2.2.2.2, ?_⟩
    intro hlt hone
    have h1' : s.step_loops = 1 := by
      rcases hone with h | h
      · exact absurd h (by simp)
      · simpa [step_multiplier, hL] using h
    rw [h1', step_loop_one, h1']
    have : u32 (s.step_events_completed + 1) = s.step_events_completed + 1 :=
      Nat.mod_eq_of_lt (by omega)
    omega
  · -- L6470 build
    have hk2 : s.step_loops_shift ≤ 2 :=
      mult_ok_shift _ (by simpa [step_multiplier, hL] using hm)
    have hp : 2 ^ s.step_loops_shift ≤ 4 := pow_le_four _ hk2
    obtain ⟨r1, r2⟩ := reduce_shift_spec s.step_events_completed b.step_event_count
      s.step_loops_shift (by omega)
    have hpr : 2 ^ reduce_shift s.step_events_completed b.step_event_count
        s.step_loops_shift ≤ 4 := pow_le_four _ (by omega)
    obtain ⟨hc, hs⟩ := step_event_control cfg (reduce_step_loops_shift s b) b
    have e0 : step_block cfg s b =
        count_shifted (step_event cfg (reduce_step_loops_shift s b) b) := by
      simp [step_block, hL]
    have e : (step_block cfg s b).step_events_completed =
        s.step_events_completed +
          2 ^ reduce_shift s.step_events_completed b.step_event_count s.step_loops_shift := by
      rw [e0]
      show u32 (_ + 1 <<< _) = _
      rw [hs, hc.2.2.1, Nat.one_shiftLeft]
      show u32 (s.step_events_completed + 2 ^ reduce_shift _ _ _) = _
      exact Nat.mod_eq_of_lt (by omega)
    refine ⟨by rw [e]; exact Nat.le_add_right _ _, ?_, ?_, ?_, ?_, ?_⟩
    · rw [e0]; exact hc.2.1
    · rw [e0]; exact hc.2.2.2.1
    · rw [e0]; exact hc.2.2.2.2.1
    · rw [e0]; exact hc.2.2.2.2.2
    · intro hlt _
      rw [e]
      by_cases hr : 1 ≤ reduce_shift s.step_events_completed b.step_event_count
          s.step_loops_shift
      · exact r2 hr
      · have h0 : reduce_shift s.step_events_completed b.step_event_count
            s.step_loops_shift = 0 := by omega
        rw [h0]
        simp
        omega


/-! ## Lemmas on the trapezoid generator and the block life cycle -/

theorem u8_of_mult_ok (m : Nat) (h : mult_ok m) : u8 m = m := by
  rcases h with h | h | h <;> rw [h] <;> rfl

theorem trapezoid_control (cfg : Config) (s : State) (b : block_t)
    (hn : mult_ok (nominal_step_multiplier cfg s)) :
    (trapezoid cfg s b).step_events_completed = s.step_events_completed ∧
    (trapezoid cfg s b).current_block = s.current_block ∧
    (trapezoid cfg s b).block_buffer = s.block_buffer ∧
    mult_ok (step_multiplier cfg (trapezoid cfg s b)) ∧
    mult_ok (nominal_step_multiplier cfg (trapezoid cfg s b)) := by
  unfold trapezoid
  split
  · -- acceleration
    cases hA : cfg.ADVANCE <;> cases hL : cfg.USE_L6470 <;>
      simp [accelerate, calc_timer, set_step_loops, advance_e_steps, step_multiplier,
        nominal_step_multiplier, hA, hL] at hn ⊢ <;>
      exact ⟨mult_ok_loops_shift _, hn⟩
  · split
    · -- deceleration
      cases hA : cfg.ADVANCE <;> cases hL : cfg.USE_L6470 <;>
        simp [decelerate, calc_timer, set_step_loops, advance_e_steps, step_multiplier,
          nominal_step_multiplier, hA, hL] at hn ⊢ <;>
        exact ⟨mult_ok_loops_shift _, hn⟩
    · -- cruise
      cases hL : cfg.USE_L6470
      · have hn2 : mult_ok s.step_loops_nominal := by
          simpa [nominal_step_multiplier, hL] using hn
        simp [cruise, step_multiplier, nominal_step_multiplier, hL, u8_of_mult_ok _ hn2]
        exact hn2
      · have hn2 : mult_ok (1 <<< s.step_loops_shift_nominal) := by
          simpa [nominal_step_multiplier, hL] using hn
        have hk : s.step_loops_shift_nominal ≤ 2 := mult_ok_shift _ hn2
        have hu : u8 s.step_loops_shift_nominal = s.step_loops_shift_nominal :=
          Nat.mod_eq_of_lt (by omega)
        simp [cruise, step_multiplier, nominal_step_multiplier, hL, hu]
        exact hn2

theorem finish_block_spec (cfg : Config) (s : State) (b : block_t) :
    (finish_block s b).step_events_completed = s.step_events_completed ∧
    step_multiplier cfg (finish_block s b) = step_multiplier cfg s ∧
    nominal_step_multiplier cfg (finish_block s b) = nominal_step_multiplier cfg s ∧
    (b.step_event_count ≤ s.step_events_completed → (finish_block s b).current_block = none) ∧
    (s.step_events_completed < b.step_event_count →
      (finish_block s b).current_block = s.current_block) := by
  unfold finish_block
  split
  · refine ⟨rfl, rfl, rfl, fun _ => rfl, fun h => ?_⟩
    omega
  · refine ⟨rfl, rfl, rfl, fun h => ?_, fun _ => rfl⟩
    omega

theorem trapezoid_generator_reset_control (cfg : Config) (s : State) (b : block_t) :
    (trapezoid_generator_reset cfg s b).current_block = s.current_block ∧
    (trapezoid_generator_reset cfg s b).block_buffer = s.block_buffer ∧
    mult_ok (step_multiplier cfg (trapezoid_generator_reset cfg s b)) ∧
    mult_ok (nominal_step_multiplier cfg (trapezoid_generator_reset cfg s b)) := by
  cases hA : cfg.ADVANCE <;> cases hL : cfg.USE_L6470 <;>
    simp [trapezoid_generator_reset, calc_timer, set_step_loops, step_multiplier,
      nominal_step_multiplier, hA, hL] <;>
    exact ⟨mult_ok_loops_shift _, mult_ok_loops_shift _⟩


theorem step_multiplier_congr (cfg : Config) {s t : State} (h : same_control s t) :
    step_multiplier cfg t = step_multiplier cfg s ∧
    nominal_step_multiplier cfg t = nominal_step_multiplier cfg s := by
  obtain ⟨a1, a2, a3, a4, -, -⟩ := h
  simp [step_multiplier, nominal_step_multiplier, a1, a2, a3, a4]

theorem run_block_spec (cfg : Config) (pins : Pins) (s : State) (b : block_t)
    (hb : s.current_block = some b)
    (hlt : s.step_events_completed < b.step_event_count)
    (hN : b.step_event_count < 2147483648)
    (hm : mult_ok (step_multiplier cfg s))
    (hn : mult_ok (nominal_step_multiplier cfg s)) :
    s.step_events_completed ≤ (run_block cfg pins s b).step_events_completed ∧
    ((run_block cfg pins s b).current_block = none →
      b.step_event_count ≤ (run_block cfg pins s b).step_events_completed ∧
      (endstop_hit cfg pins s b = false →
        (cfg.USE_L6470 = true ∨ step_multiplier cfg s = 1) →
        (run_block cfg pins s b).step_events_completed = b.step_event_count)) ∧
    ((run_block cfg pins s b).current_block ≠ none →
      (run_block cfg pins s b).current_block = some b ∧
      (run_block cfg pins s b).step_events_completed < b.step_event_count ∧
      mult_ok (step_multiplier cfg (run_block cfg pins s b)) ∧
      mult_ok (nominal_step_multiplier cfg (run_block cfg pins s b))) := by
  have hr : run_block cfg pins s b = finish_block (trapezoid cfg (step_block cfg
      (set_e_direction cfg (check_z_endstop cfg pins (check_y_endstop cfg pins
        (check_x_endstop cfg pins (set_xy_direction s b) b) b) b)) b) b) b := rfl
  rw [hr]
  -- the state after the endstop checks and the direction setup
  have c4 := endstop_checks_control cfg pins s b
  have e4 := endstop_checks_sec cfg pins s b
  rw [← set_e_direction_sec cfg] at e4
  generalize set_e_direction cfg (check_z_endstop cfg pins (check_y_endstop cfg pins
      (check_x_endstop cfg pins (set_xy_direction s b) b) b) b) = s4 at c4 e4 ⊢
  obtain ⟨m4, n4⟩ := step_multiplier_congr cfg c4
  have h4le : s4.step_events_completed ≤ b.step_event_count := by
    rw [e4]; split <;> omega
  have h4ge : s.step_events_completed ≤ s4.step_events_completed := by
    rw [e4]; split <;> omega
  -- the stepping
  obtain ⟨g1, g2, g3, g4, g5, g6⟩ := step_block_sec cfg s4 b h4le hN (by rw [m4]; exact hm)
  have n5 : nominal_step_multiplier cfg (step_block cfg s4 b) = nominal_step_multiplier cfg s := by
    rw [← n4]
    simp [nominal_step_multiplier, g2, g3]
  generalize step_block cfg s4 b = s5 at g1 g2 g3 g4 g5 g6 n5 ⊢
  -- the trapezoid generator
  obtain ⟨t1, t2, t3, t4, t5⟩ := trapezoid_control cfg s5 b (by rw [n5]; exact hn)
  generalize trapezoid cfg s5 b = s6 at t1 t2 t3 t4 t5 ⊢
  -- the end of the block
  obtain ⟨f1, f2, f3, f4, f5⟩ := finish_block_spec cfg s6 b
  have hcur : s6.current_block = some b := by rw [t2, g4, c4.2.2.2.2.1, hb]
  refine ⟨by rw [f1, t1]; omega, ?_, ?_⟩
  · intro hnone
    have hge : b.step_event_count ≤ s6.step_events_completed := by
      by_contra hc
      rw [f5 (by omega), hcur] at hnone
      exact Option.noConfusion hnone
    refine ⟨by rw [f1]; exact hge, ?_⟩
    intro hhit hone
    rw [hhit] at e4
    simp only [Bool.false_eq_true, if_false] at e4
    have := g6 (by rw [e4]; exact hlt) (by rw [m4]; exact hone)
    rw [f1]
    omega
  · intro hsome
    have hlt6 : s6.step_events_completed < b.step_event_count := by
      by_contra hc
      exact hsome (f4 (by omega))
    refine ⟨by rw [f5 hlt6, hcur], by rw [f1]; exact hlt6, by rw [f2]; exact t4,
      by rw [f3]; exact t5⟩


theorem claim_block_of_current (cfg : Config) (s : State) (b : block_t)
    (hb : s.current_block = some b) : claim_block cfg s = (s, false) := by
  simp [claim_block, hb]

theorem claim_block_spec (cfg : Config) (s : State) (b0 : block_t)
    (hc : s.current_block = none) (hq : s.block_buffer.head? = some b0) :
    (claim_block cfg s).1.current_block = some { b0 with busy := true } ∧
    (claim_block cfg s).1.step_events_completed = 0 ∧
    mult_ok (step_multiplier cfg (claim_block cfg s).1) ∧
    mult_ok (nominal_step_multiplier cfg (claim_block cfg s).1) := by
  obtain ⟨r1, -, r3, r4⟩ :=
    trapezoid_generator_reset_control cfg (take_block s b0) { b0 with busy := true }
  have e : claim_block cfg s =
      if cfg.Z_LATE_ENABLE && decide (b0.steps_z > 0) then
        (z_late_wait (reset_counters (trapezoid_generator_reset cfg (take_block s b0)
          { b0 with busy := true }) { b0 with busy := true }), true)
      else
        (reset_counters (trapezoid_generator_reset cfg (take_block s b0)
          { b0 with busy := true }) { b0 with busy := true }, false) := by
    simp [claim_block, hc, plan_get_current_block, hq]
  rw [e]
  split
  · exact ⟨r1, rfl, r3, r4⟩
  · exact ⟨r1, rfl, r3, r4⟩

/-! ## Lemmas on the Bresenham tracer -/

theorem s32_of_range (i : Int) (h1 : -2147483648 ≤ i) (h2 : i < 2147483648) : s32 i = i := by
  unfold s32
  omega

theorem s32_add_s32 (a b : Int) : s32 (s32 a + b) = s32 (a + b) := by
  unfold s32
  omega

theorem step_event_axis (cfg : Config) (s : State) (b : block_t) (hA : cfg.ADVANCE = false)
    (a : Axis) :
    (step_event cfg s b).axis a =
      axis_event b.step_event_count (b.steps a) (s.count_direction.sel a) (s.axis a) ∧
    (step_event cfg s b).count_direction = s.count_direction := by
  cases a <;>
    simp [step_event, e_event, z_event, y_event, x_event, advance_e_event, hA, State.axis,
      State.counter, Axes.sel, block_t.steps, axis_event] <;>
    split_ifs <;> simp

theorem axis_event_traced (n : Nat) (steps dir pos c : Int) (pul k p : Nat)
    (hn : n < 2147483648) (h0 : 0 ≤ steps) (h1 : steps ≤ n)
    (hc : c = -((n / 2 : Nat) : Int) + k * steps - n * p)
    (hlo : -(n : Int) < c) (hhi : c ≤ 0) :
    ∃ q : Nat,
      (axis_event n steps dir (c, pul + p, s32 (pos + dir * p))).2.1 = pul + q ∧
      (axis_event n steps dir (c, pul + p, s32 (pos + dir * p))).1 =
        -((n / 2 : Nat) : Int) + ((k + 1 : Nat) : Int) * steps - n * q ∧
      -(n : Int) < (axis_event n steps dir (c, pul + p, s32 (pos + dir * p))).1 ∧
      (axis_event n steps dir (c, pul + p, s32 (pos + dir * p))).1 ≤ 0 ∧
      (axis_event n steps dir (c, pul + p, s32 (pos + dir * p))).2.2 =
        s32 (pos + dir * q) := by
  have e1 : s32 (c + steps) = c + steps := s32_of_range _ (by omega) (by omega)
  generalize ((n / 2 : Nat) : Int) = c0 at hc ⊢
  unfold axis_event
  simp only [e1]
  split
  · have e2 : s32 (c + steps - n) = c + steps - n := s32_of_range _ (by omega) (by omega)
    refine ⟨p + 1, ?_, ?_, ?_, ?_, ?_⟩
    · dsimp only
      omega
    · dsimp only
      rw [e2]
      push_cast
      linear_combination hc
    · dsimp only
      rw [e2]; omega
    · dsimp only
      rw [e2]; omega
    · dsimp only
      rw [s32_add_s32]
      push_cast
      congr 1
      ring
  · refine ⟨p, rfl, ?_, ?_, ?_, rfl⟩
    · dsimp only
      push_cast
      linear_combination hc
    · dsimp only
      omega
    · dsimp only
      omega

theorem traced_step_event (cfg : Config) (s : State) (b : block_t) (pos : Axes Int)
    (pul : Axes Nat) (k : Nat) (hA : cfg.ADVANCE = false) (hv : valid_block b)
    (hd : ∀ a : Axis, s.count_direction.sel a = direction_sign b a)
    (ht : traced b pos pul k s) :
    traced b pos pul (k + 1) (step_event cfg s b) := by
  intro a
  obtain ⟨p, h1, h2, h3, h4, h5⟩ := ht a
  obtain ⟨ea, -⟩ := step_event_axis cfg s b hA a
  have hs : s.axis a = (s.counter a, pul.sel a + p, s32 (pos.sel a + direction_sign b a * p)) := by
    simp only [State.axis, h1, h5]
  rw [hs, hd a] at ea
  obtain ⟨q, g1, g2, g3, g4, g5⟩ := axis_event_traced b.step_event_count (b.steps a)
    (direction_sign b a) (pos.sel a) (s.counter a) (pul.sel a) k p hv.2.1 (hv.2.2 a).1
    (hv.2.2 a).2 h2 h3 h4
  rw [← ea] at g1 g2 g3 g4 g5
  exact ⟨q, g1, g2, g3, g4, g5⟩

theorem set_xy_direction_axis (s : State) (b : block_t) :
    (∀ a : Axis, (set_xy_direction s b).axis a = s.axis a) ∧
    (set_xy_direction s b).out_bits = b.direction_bits ∧
    (set_xy_direction s b).acc_step_rate = s.acc_step_rate ∧
    (set_xy_direction s b).count_direction.x = direction_sign b Axis.X ∧
    (set_xy_direction s b).count_direction.y = direction_sign b Axis.Y := by
  refine ⟨fun a => ?_, rfl, rfl, rfl, rfl⟩
  cases a <;> rfl

theorem check_x_endstop_axis (cfg : Config) (pins : Pins) (s : State) (b : block_t) :
    (∀ a : Axis, (check_x_endstop cfg pins s b).axis a = s.axis a) ∧
    (check_x_endstop cfg pins s b).out_bits = s.out_bits ∧
    (check_x_endstop cfg pins s b).acc_step_rate = s.acc_step_rate ∧
    (check_x_endstop cfg pins s b).count_direction = s.count_direction := by
  refine ⟨fun a => ?_, ?_, ?_, ?_⟩
  · cases a <;> simp [check_x_endstop, State.axis, State.counter]
  · simp [check_x_endstop]
  · simp [check_x_endstop]
  · simp [check_x_endstop]

theorem check_y_endstop_axis (cfg : Config) (pins : Pins) (s : State) (b : block_t) :
    (∀ a : Axis, (check_y_endstop cfg pins s b).axis a = s.axis a) ∧
    (check_y_endstop cfg pins s b).out_bits = s.out_bits ∧
    (check_y_endstop cfg pins s b).acc_step_rate = s.acc_step_rate ∧
    (check_y_endstop cfg pins s b).count_direction = s.count_direction := by
  refine ⟨fun a => ?_, ?_, ?_, ?_⟩
  · cases a <;> simp [check_y_endstop, State.axis, State.counter]
  · simp [check_y_endstop]
  · simp [check_y_endstop]
  · simp [check_y_endstop]

theorem check_z_endstop_axis (cfg : Config) (pins : Pins) (s : State) (b : block_t) :
    (∀ a : Axis, (check_z_endstop cfg pins s b).axis a = s.axis a) ∧
    (check_z_endstop cfg pins s b).out_bits = s.out_bits ∧
    (check_z_endstop cfg pins s b).acc_step_rate = s.acc_step_rate ∧
    (check_z_endstop cfg pins s b).count_direction.x = s.count_direction.x ∧
    (check_z_endstop cfg pins s b).count_direction.y = s.count_direction.y ∧
    (check_z_endstop cfg pins s b).count_direction.z =
      (if dir_bit s.out_bits Z_AXIS then -1 else 1) := by
  refine ⟨fun a => ?_, ?_, ?_, ?_, ?_, ?_⟩
  · cases a <;> simp [check_z_endstop, State.axis, State.counter]
  · simp [check_z_endstop]
  · simp [check_z_endstop]
  · simp only [check_z_endstop, ite_count_direction]
    split_ifs <;> rfl
  · simp only [check_z_endstop, ite_count_direction]
    split_ifs <;> rfl
  · simp only [check_z_endstop, ite_count_direction]
    split_ifs <;> rfl

theorem set_e_direction_axis (cfg : Config) (s : State) (hA : cfg.ADVANCE = false) :
    (∀ a : Axis, (set_e_direction cfg s).axis a = s.axis a) ∧
    (set_e_direction cfg s).acc_step_rate = s.acc_step_rate ∧
    (set_e_direction cfg s).count_direction.x = s.count_direction.x ∧
    (set_e_direction cfg s).count_direction.y = s.count_direction.y ∧
    (set_e_direction cfg s).count_direction.z = s.count_direction.z ∧
    (set_e_direction cfg s).count_direction.e =
      (if dir_bit s.out_bits E_AXIS then -1 else 1) := by
  refine ⟨fun a => ?_, ?_, ?_, ?_, ?_, ?_⟩
  · cases a <;> simp [set_e_direction, hA, State.axis, State.counter]
  all_goals simp [set_e_direction, hA]

theorem endstop_checks_axis (cfg : Config) (pins : Pins) (s : State) (b : block_t)
    (hA : cfg.ADVANCE = false) :
    (∀ a : Axis, (set_e_direction cfg (check_z_endstop cfg pins (check_y_endstop cfg pins
      (check_x_endstop cfg pins (set_xy_direction s b) b) b) b)).axis a = s.axis a) ∧
    (∀ a : Axis, (set_e_direction cfg (check_z_endstop cfg pins (check_y_endstop cfg pins
      (check_x_endstop cfg pins (set_xy_direction s b) b) b) b)).count_direction.sel a =
        direction_sign b a) ∧
    (set_e_direction cfg (check_z_endstop cfg pins (check_y_endstop cfg pins
      (check_x_endstop cfg pins (set_xy_direction s b) b) b) b)).acc_step_rate =
        s.acc_step_rate := by
  obtain ⟨a0, b0, c0, d0, e0⟩ := set_xy_direction_axis s b
  obtain ⟨a1, b1, c1, d1⟩ := check_x_endstop_axis cfg pins (set_xy_direction s b) b
  obtain ⟨a2, b2, c2, d2⟩ := check_y_endstop_axis cfg pins
    (check_x_endstop cfg pins (set_xy_direction s b) b) b
  obtain ⟨a3, b3, c3, d3, e3, f3⟩ := check_z_endstop_axis cfg pins (check_y_endstop cfg pins
    (check_x_endstop cfg pins (set_xy_direction s b) b) b) b
  obtain ⟨a4, c4, d4, e4, f4, g4⟩ := set_e_direction_axis cfg (check_z_endstop cfg pins
    (check_y_endstop cfg pins (check_x_endstop cfg pins (set_xy_direction s b) b) b) b) hA
  refine ⟨fun a => ?_, fun a => ?_, ?_⟩
  · rw [a4, a3, a2, a1, a0]
  · cases a
    · simp only [Axes.sel]
      rw [d4, d3, d2, d1, d0]
    · simp only [Axes.sel]
      rw [e4, e3, d2, d1, e0]
    · simp only [Axes.sel]
      rw [f4, f3, b2, b1, b0]
      rfl
    · simp only [Axes.sel]
      rw [g4, b3, b2, b1, b0]
      rfl
  · rw [c4, c3, c2, c1, c0]

theorem loops_shift_slow (r : Nat) (h : r ≤ 10000) : loops_shift r = 0 := by
  unfold loops_shift
  rw [if_neg (by omega), if_neg (by omega)]

theorem clamp_rate_slow (cfg : Config) (r : Nat)
    (h : cfg.MAX_STEP_FREQUENCY ≤ 10000 ∨ r ≤ 10000) : clamp_rate cfg r ≤ 10000 := by
  unfold clamp_rate u16
  split
  · rcases h with h | h
    · exact le_trans (Nat.mod_le _ _) h
    · omega
  · rcases h with h | h <;> omega

theorem accelerate_single (cfg : Config) (s : State) (b : block_t)
    (hL : cfg.USE_L6470 = false) (hA : cfg.ADVANCE = false) (hp : slow_profile cfg b)
    (hs : single_stepping cfg s) :
    single_stepping cfg (accelerate cfg s b) ∧
    ∀ a : Axis, (accelerate cfg s b).axis a = s.axis a := by
  obtain ⟨-, h2, -⟩ := hs
  have hr : cfg.MAX_STEP_FREQUENCY ≤ 10000 ∨
      (if u16 (MultiU24X24toH16 s.acceleration_time b.acceleration_rate + b.initial_rate) >
          b.nominal_rate then u16 b.nominal_rate
        else u16 (MultiU24X24toH16 s.acceleration_time b.acceleration_rate + b.initial_rate))
        ≤ 10000 := by
    rcases hp with hp | ⟨hp, -, -⟩
    · exact Or.inl hp
    · right
      split
      · exact le_trans (Nat.mod_le _ _) hp
      · omega
  have hl := loops_shift_slow _ (clamp_rate_slow cfg _ hr)
  refine ⟨⟨?_, ?_, ?_⟩, fun a => ?_⟩
  · simp only [accelerate, calc_timer, set_step_loops, hA, hL, ite_acc_step_rate]
    simp only [Bool.false_eq_true, if_false, hl]
    rfl
  · simp only [accelerate, calc_timer, set_step_loops, hA, hL, ite_step_loops_nominal]
    simp [h2]
  · simp only [accelerate, calc_timer, set_step_loops, hA, hL, ite_acc_step_rate]
    simpa using hr
  · cases a <;>
      simp [accelerate, calc_timer, set_step_loops, hA, hL, State.axis, State.counter]

theorem decelerate_single (cfg : Config) (s : State) (b : block_t)
    (hL : cfg.USE_L6470 = false) (hA : cfg.ADVANCE = false) (hp : slow_profile cfg b)
    (hs : single_stepping cfg s) :
    single_stepping cfg (decelerate cfg s b) ∧
    ∀ a : Axis, (decelerate cfg s b).axis a = s.axis a := by
  obtain ⟨-, h2, h3⟩ := hs
  have hr : cfg.MAX_STEP_FREQUENCY ≤ 10000 ∨
      (if (if MultiU24X24toH16 s.deceleration_time b.acceleration_rate > s.acc_step_rate
            then u16 b.final_rate
            else s.acc_step_rate - MultiU24X24toH16 s.deceleration_time b.acceleration_rate)
          < b.final_rate then u16 b.final_rate
        else (if MultiU24X24toH16 s.deceleration_time b.acceleration_rate > s.acc_step_rate
            then u16 b.final_rate
            else s.acc_step_rate - MultiU24X24toH16 s.deceleration_time b.acceleration_rate))
        ≤ 10000 := by
    rcases hp with hp | ⟨-, -, hp⟩
    · exact Or.inl hp
    · rcases h3 with h3 | h3
      · exact Or.inl h3
      · right
        have hu : u16 b.final_rate ≤ 10000 := le_trans (Nat.mod_le _ _) hp
        split_ifs <;> omega
  have hl := loops_shift_slow _ (clamp_rate_slow cfg _ hr)
  refine ⟨⟨?_, ?_, ?_⟩, fun a => ?_⟩
  · simp only [decelerate, calc_timer, set_step_loops, hA, hL]
    simp only [Bool.false_eq_true, if_false, hl]
    rfl
  · simp only [decelerate, calc_timer, set_step_loops, hA, hL]
    simp [h2]
  · simp only [decelerate, calc_timer, set_step_loops, hA, hL]
    simpa using h3
  · cases a <;>
      simp [decelerate, calc_timer, set_step_loops, hA, hL, State.axis, State.counter]

theorem trapezoid_single (cfg : Config) (s : State) (b : block_t)
    (hL : cfg.USE_L6470 = false) (hA : cfg.ADVANCE = false) (hp : slow_profile cfg b)
    (hs : single_stepping cfg s) :
    single_stepping cfg (trapezoid cfg s b) ∧
    ∀ a : Axis, (trapezoid cfg s b).axis a = s.axis a := by
  unfold trapezoid
  split
  · exact accelerate_single cfg s b hL hA hp hs
  · split
    · exact decelerate_single cfg s b hL hA hp hs
    · obtain ⟨-, h2, h3⟩ := hs
      refine ⟨⟨?_, ?_, ?_⟩, fun a => ?_⟩
      · simp [cruise, hL, h2, u8]
      · simp [cruise, hL, h2]
      · simpa [cruise, hL] using h3
      · cases a <;> simp [cruise, hL, State.axis, State.counter]

theorem traced_congr (b : block_t) (pos : Axes Int) (pul : Axes Nat) (k : Nat) (s t : State)
    (h : ∀ a : Axis, t.axis a = s.axis a) (ht : traced b pos pul k s) :
    traced b pos pul k t := by
  intro a
  obtain ⟨p, h1, h2, h3, h4, h5⟩ := ht a
  have ha := h a
  simp only [State.axis, Prod.mk.injEq] at ha
  obtain ⟨e1, e2, e3⟩ := ha
  exact ⟨p, by rw [e2]; exact h1, by rw [e1]; exact h2, by rw [e1]; exact h3,
    by rw [e1]; exact h4, by rw [e3]; exact h5⟩

theorem step_loop_single (cfg : Config) (b : block_t) (s : State) :
    step_loop cfg b 1 s = count_step_loops (step_event cfg s b) := by
  simp only [step_loop]
  split <;> rfl

theorem step_event_acc_step_rate (cfg : Config) (s : State) (b : block_t) :
    (step_event cfg s b).acc_step_rate = s.acc_step_rate := by
  simp [step_event, e_event, z_event, y_event, x_event, advance_e_event]

theorem finish_block_axis (s : State) (b : block_t) :
    (∀ a : Axis, (finish_block s b).axis a = s.axis a) ∧
    (finish_block s b).step_loops = s.step_loops ∧
    (finish_block s b).step_loops_nominal = s.step_loops_nominal ∧
    (finish_block s b).acc_step_rate = s.acc_step_rate ∧
    (b.step_event_count ≤ s.step_events_completed →
      (finish_block s b).block_buffer = s.block_buffer.tail) ∧
    (s.step_events_completed < b.step_event_count →
      (finish_block s b).block_buffer = s.block_buffer) := by
  unfold finish_block
  split
  · refine ⟨fun a => ?_, rfl, rfl, rfl, fun _ => rfl, fun h => ?_⟩
    · cases a <;> rfl
    · omega
  · refine ⟨fun a => rfl, rfl, rfl, rfl, fun h => ?_, fun _ => rfl⟩
    omega

theorem run_block_single (cfg : Config) (pins : Pins) (s : State) (b : block_t)
    (pos : Axes Int) (pul : Axes Nat) (k : Nat)
    (hL : cfg.USE_L6470 = false) (hA : cfg.ADVANCE = false) (hv : valid_block b)
    (hp : slow_profile cfg b) (hs : single_stepping cfg s)
    (hb : s.current_block = some b) (hk : s.step_events_completed = k)
    (hlt : k < b.step_event_count) (hh : endstop_hit cfg pins s b = false)
    (ht : traced b pos pul k s) :
    traced b pos pul (k + 1) (run_block cfg pins s b) ∧
    single_stepping cfg (run_block cfg pins s b) ∧
    (run_block cfg pins s b).step_events_completed = k + 1 ∧
    (k + 1 < b.step_event_count →
      (run_block cfg pins s b).current_block = some b ∧
      (run_block cfg pins s b).block_buffer = s.block_buffer) ∧
    (k + 1 = b.step_event_count →
      (run_block cfg pins s b).current_block = none ∧
      (run_block cfg pins s b).block_buffer = s.block_buffer.tail) := by
  have hr : run_block cfg pins s b = finish_block (trapezoid cfg (step_block cfg
      (set_e_direction cfg (check_z_endstop cfg pins (check_y_endstop cfg pins
        (check_x_endstop cfg pins (set_xy_direction s b) b) b) b)) b) b) b := rfl
  rw [hr]
  obtain ⟨hN1, hN, hst⟩ := hv
  -- the state after the endstop checks and the direction setup
  have c4 := endstop_checks_control cfg pins s b
  have e4 := endstop_checks_sec cfg pins s b
  rw [← set_e_direction_sec cfg, hh] at e4
  simp only [Bool.false_eq_true, if_false] at e4
  obtain ⟨a4, d4, r4⟩ := endstop_checks_axis cfg pins s b hA
  generalize set_e_direction cfg (check_z_endstop cfg pins (check_y_endstop cfg pins
      (check_x_endstop cfg pins (set_xy_direction s b) b) b) b) = s4 at c4 e4 a4 d4 r4 ⊢
  have t4 : traced b pos pul k s4 := traced_congr b pos pul k s s4 a4 ht
  obtain ⟨l1, l2, l3⟩ := hs
  -- the stepping
  have e5 : step_block cfg s4 b = count_step_loops (step_event cfg s4 b) := by
    simp only [step_block, hL, Bool.false_eq_true, if_false]
    rw [c4.1, l1, step_loop_single]
  have t5 : traced b pos pul (k + 1) (step_block cfg s4 b) := by
    rw [e5]
    refine traced_congr b pos pul (k + 1) (step_event cfg s4 b) _ (fun a => ?_)
      (traced_step_event cfg s4 b pos pul k hA ⟨hN1, hN, hst⟩ d4 t4)
    cases a <;> rfl
  obtain ⟨c5, k5⟩ := step_event_control cfg s4 b
  have r5 := step_event_acc_step_rate cfg s4 b
  have s5 : (step_block cfg s4 b).step_events_completed = k + 1 := by
    rw [e5]
    show u32 (_ + _) = _
    rw [k5, c5.1, c4.1, l1, e4, hk]
    exact Nat.mod_eq_of_lt (by omega)
  have m5 : single_stepping cfg (step_block cfg s4 b) := by
    rw [e5]
    refine ⟨?_, ?_, ?_⟩
    · show (step_event cfg s4 b).step_loops = 1
      rw [c5.1, c4.1, l1]
    · show (step_event cfg s4 b).step_loops_nominal = 1
      rw [c5.2.1, c4.2.1, l2]
    · show _ ∨ (step_event cfg s4 b).acc_step_rate ≤ 10000
      rw [r5, r4]
      exact l3
  have b5 : (step_block cfg s4 b).current_block = some b ∧
      (step_block cfg s4 b).block_buffer = s.block_buffer := by
    rw [e5]
    constructor
    · show (step_event cfg s4 b).current_block = _
      rw [c5.2.2.2.2.1, c4.2.2.2.2.1, hb]
    · show (step_event cfg s4 b).block_buffer = _
      rw [c5.2.2.2.2.2, c4.2.2.2.2.2]
  generalize step_block cfg s4 b = s5' at t5 s5 m5 b5 ⊢
  -- the trapezoid generator
  obtain ⟨m6, a6⟩ := trapezoid_single cfg s5' b hL hA hp m5
  have n6 : mult_ok (nominal_step_multiplier cfg s5') := by
    left
    simp [nominal_step_multiplier, hL, m5.2.1]
  obtain ⟨k6, c6, q6, -, -⟩ := trapezoid_control cfg s5' b n6
  have t6 := traced_congr b pos pul (k + 1) s5' _ a6 t5
  generalize trapezoid cfg s5' b = s6 at m6 a6 k6 c6 q6 t6 ⊢
  -- the end of the block
  obtain ⟨a7, f1, f2, f3, f4, f5⟩ := finish_block_axis s6 b
  obtain ⟨g1, -, -, g4, g5⟩ := finish_block_spec cfg s6 b
  refine ⟨traced_congr b pos pul (k + 1) s6 _ a7 t6, ⟨by rw [f1]; exact m6.1,
    by rw [f2]; exact m6.2.1, by rw [f3]; exact m6.2.2⟩, by rw [g1, k6, s5], ?_, ?_⟩
  · intro h
    have hlt6 : s6.step_events_completed < b.step_event_count := by rw [k6, s5]; exact h
    exact ⟨by rw [g5 hlt6, c6, b5.1], by rw [f5 hlt6, q6, b5.2]⟩
  · intro h
    have hge : b.step_event_count ≤ s6.step_events_completed := by rw [k6, s5]; omega
    exact ⟨g4 hge, by rw [f4 hge, q6, b5.2]⟩

theorem run_ticks_traced (cfg : Config) (b : block_t) (pos : Axes Int) (pul : Axes Nat)
    (hL : cfg.USE_L6470 = false) (hA : cfg.ADVANCE = false) (hv : valid_block b)
    (hp : slow_profile cfg b) : ∀ (ps : List Pins) (k : Nat) (s : State),
    single_stepping cfg s → s.current_block = some b → s.step_events_completed = k →
    k < b.step_event_count → k + ps.length ≤ b.step_event_count →
    no_hit cfg ps s = true → traced b pos pul k s →
    traced b pos pul (k + ps.length) (run_ticks cfg ps s) ∧
    (run_ticks cfg ps s).step_events_completed = k + ps.length ∧
    (k + ps.length < b.step_event_count →
      (run_ticks cfg ps s).current_block = some b ∧
      (run_ticks cfg ps s).block_buffer = s.block_buffer) ∧
    (k + ps.length = b.step_event_count →
      (run_ticks cfg ps s).current_block = none ∧
      (run_ticks cfg ps s).block_buffer = s.block_buffer.tail) := by
  intro ps
  induction ps with
  | nil =>
    intro k s _ hb hk hlt _ _ ht
    simp only [List.length_nil, add_zero, run_ticks]
    exact ⟨ht, hk, fun _ => ⟨hb, trivial⟩, fun h => by omega⟩
  | cons p ps ih =>
    intro k s hs hb hk hlt hlen hh ht
    have e : ISR_TIMER1_COMPA_vect cfg p s = run_block cfg p s b := by
      simp [ISR_TIMER1_COMPA_vect, claim_block_of_current cfg s b hb, hb]
    simp only [no_hit, Bool.and_eq_true, Bool.not_eq_true'] at hh
    obtain ⟨hh1, hh2⟩ := hh
    have hh1' : endstop_hit cfg p s b = false := by
      simpa [hit_in_tick, claim_block_of_current cfg s b hb, hb] using hh1
    obtain ⟨g1, g2, g3, g4, g5⟩ := run_block_single cfg p s b pos pul k hL hA hv hp hs hb hk
      hlt hh1' ht
    simp only [run_ticks]
    rw [e] at hh2 ⊢
    simp only [List.length_cons] at hlen ⊢
    have ea : k + (ps.length + 1) = k + 1 + ps.length := by omega
    rw [ea]
    by_cases hlast : k + 1 = b.step_event_count
    · have hnil : ps = [] := List.length_eq_zero.mp (by omega)
      subst hnil
      simp only [run_ticks, List.length_nil, add_zero]
      exact ⟨g1, g3, fun h => g4 h, fun h => g5 h⟩
    · obtain ⟨c1, c2⟩ := g4 (by omega)
      have := ih (k + 1) (run_block cfg p s b) g2 c1 g3 (by omega) (by omega) hh2 g1
      rw [c2] at this
      exact this

theorem run_ticks_single (cfg : Config) (b : block_t) (pos : Axes Int) (pul : Axes Nat)
    (hL : cfg.USE_L6470 = false) (hA : cfg.ADVANCE = false) (hv : valid_block b)
    (hp : slow_profile cfg b) (ps : List Pins) (k : Nat) (s : State)
    (hs : single_stepping cfg s) (hb : s.current_block = some b)
    (hk : s.step_events_completed = k) (hlt : k < b.step_event_count)
    (hlen : k + ps.length = b.step_event_count) (hh : no_hit cfg ps s = true)
    (ht : traced b pos pul k s) :
    traced b pos pul b.step_event_count (run_ticks cfg ps s) ∧
    (run_ticks cfg ps s).current_block = none ∧
    (run_ticks cfg ps s).block_buffer = s.block_buffer.tail ∧
    (run_ticks cfg ps s).step_events_completed = b.step_event_count := by
  obtain ⟨g1, g2, -, g4⟩ := run_ticks_traced cfg b pos pul hL hA hv hp ps k s hs hb hk hlt
    (le_of_eq hlen) hh ht
  rw [hlen] at g1 g2
  exact ⟨g1, (g4 hlen).1, (g4 hlen).2, g2⟩

theorem valid_block_busy (b0 : block_t) (h : valid_block b0) :
    valid_block { b0 with busy := true } := by
  obtain ⟨h1, h2, h3⟩ := h
  refine ⟨h1, h2, fun a => ?_⟩
  have := h3 a
  cases a <;> exact this

theorem trapezoid_generator_reset_single (cfg : Config) (s : State) (b : block_t)
    (hL : cfg.USE_L6470 = false) (hA : cfg.ADVANCE = false) (hp : slow_profile cfg b) :
    single_stepping cfg (trapezoid_generator_reset cfg s b) ∧
    (trapezoid_generator_reset cfg s b).pulses = s.pulses ∧
    (trapezoid_generator_reset cfg s b).count_position = s.count_position ∧
    (trapezoid_generator_reset cfg s b).block_buffer = s.block_buffer := by
  have h1 : cfg.MAX_STEP_FREQUENCY ≤ 10000 ∨ u16 b.nominal_rate ≤ 10000 := by
    rcases hp with hp | ⟨hp, -, -⟩
    · exact Or.inl hp
    · exact Or.inr (le_trans (Nat.mod_le _ _) hp)
  have h2 : cfg.MAX_STEP_FREQUENCY ≤ 10000 ∨ u16 b.initial_rate ≤ 10000 := by
    rcases hp with hp | ⟨-, hp, -⟩
    · exact Or.inl hp
    · exact Or.inr (le_trans (Nat.mod_le _ _) hp)
  have l1 := loops_shift_slow _ (clamp_rate_slow cfg _ h1)
  have l2 := loops_shift_slow _ (clamp_rate_slow cfg _ h2)
  refine ⟨⟨?_, ?_, ?_⟩, ?_, ?_, ?_⟩ <;>
    simp [trapezoid_generator_reset, calc_timer, set_step_loops, hA, hL, l1, l2]
  exact h2

theorem claim_block_traced (cfg : Config) (s : State) (b0 : block_t)
    (hL : cfg.USE_L6470 = false) (hA : cfg.ADVANCE = false)
    (hc : s.current_block = none) (hq : s.block_buffer.head? = some b0)
    (hv : valid_block b0) (hp : slow_profile cfg b0)
    (hr : ∀ a : Axis, -2147483648 ≤ s.count_position.sel a ∧
      s.count_position.sel a < 2147483648) :
    traced { b0 with busy := true } s.count_position s.pulses 0 (claim_block cfg s).1 ∧
    single_stepping cfg (claim_block cfg s).1 ∧
    (claim_block cfg s).1.current_block = some { b0 with busy := true } ∧
    (claim_block cfg s).1.step_events_completed = 0 ∧
    (claim_block cfg s).1.block_buffer.tail = s.block_buffer.tail ∧
    (claim_block cfg s).2 = (cfg.Z_LATE_ENABLE && decide (b0.steps_z > 0)) := by
  obtain ⟨r1, r2, r3, r4⟩ :=
    trapezoid_generator_reset_single cfg (take_block s b0) { b0 with busy := true } hL hA hp
  have e : claim_block cfg s =
      if cfg.Z_LATE_ENABLE && decide (b0.steps_z > 0) then
        (z_late_wait (reset_counters (trapezoid_generator_reset cfg (take_block s b0)
          { b0 with busy := true }) { b0 with busy := true }), true)
      else
        (reset_counters (trapezoid_generator_reset cfg (take_block s b0)
          { b0 with busy := true }) { b0 with busy := true }, false) := by
    simp [claim_block, hc, plan_get_current_block, hq]
  obtain ⟨c1, c2, -, -⟩ := claim_block_spec cfg s b0 hc hq
  obtain ⟨hN1, hN, -⟩ := hv
  have hc0 : s32 (-((b0.step_event_count >>> 1 : Nat) : Int)) =
      -((b0.step_event_count / 2 : Nat) : Int) := by
    rw [Nat.shiftRight_eq_div_pow, pow_one]
    exact s32_of_range _ (by omega) (by omega)
  have ht : traced { b0 with busy := true } s.count_position s.pulses 0
      (reset_counters (trapezoid_generator_reset cfg (take_block s b0)
        { b0 with busy := true }) { b0 with busy := true }) := by
    intro a
    refine ⟨0, ?_, ?_, ?_, ?_, ?_⟩
    · show (trapezoid_generator_reset cfg _ _).pulses.sel a = _
      rw [r2]; rfl
    · have : (reset_counters (trapezoid_generator_reset cfg (take_block s b0)
          { b0 with busy := true }) { b0 with busy := true }).counter a =
          s32 (-((b0.step_event_count >>> 1 : Nat) : Int)) := by cases a <;> rfl
      rw [this, hc0]
      simp
    · have : (reset_counters (trapezoid_generator_reset cfg (take_block s b0)
          { b0 with busy := true }) { b0 with busy := true }).counter a =
          s32 (-((b0.step_event_count >>> 1 : Nat) : Int)) := by cases a <;> rfl
      rw [this, hc0]
      show -(b0.step_event_count : Int) < _
      omega
    · have : (reset_counters (trapezoid_generator_reset cfg (take_block s b0)
          { b0 with busy := true }) { b0 with busy := true }).counter a =
          s32 (-((b0.step_event_count >>> 1 : Nat) : Int)) := by cases a <;> rfl
      rw [this, hc0]
      omega
    · show (trapezoid_generator_reset cfg _ _).count_position.sel a = _
      rw [r3]
      simp only [Nat.cast_zero, mul_zero, add_zero]
      exact (s32_of_range _ (hr a).1 (hr a).2).symm
  have hs : single_stepping cfg (reset_counters (trapezoid_generator_reset cfg
      (take_block s b0) { b0 with busy := true }) { b0 with busy := true }) := r1
  have hbuf : (reset_counters (trapezoid_generator_reset cfg (take_block s b0)
      { b0 with busy := true }) { b0 with busy := true }).block_buffer.tail =
      s.block_buffer.tail := by
    show (trapezoid_generator_reset cfg _ _).block_buffer.tail = _
    rw [r4]
    rfl
  refine ⟨?_, ?_, c1, c2, ?_, ?_⟩
  · rw [e]
    split
    · exact traced_congr _ _ _ _ _ _ (fun a => by cases a <;> rfl) ht
    · exact ht
  · rw [e]
    split
    · exact hs
    · exact hs
  · rw [e]
    split
    · exact hbuf
    · exact hbuf
  · rw [e]
    split <;> simp_all

theorem traced_final (b : block_t) (pos : Axes Int) (pul : Axes Nat) (s : State)
    (hv : valid_block b) (ht : traced b pos pul b.step_event_count s) (a : Axis) :
    s.pulses.sel a = pul.sel a + (b.steps a).toNat ∧
    s.count_position.sel a = s32 (pos.sel a + direction_sign b a * b.steps a) := by
  obtain ⟨p, h1, h2, h3, h4, h5⟩ := ht a
  obtain ⟨hN1, hN, hst⟩ := hv
  obtain ⟨s0, s1⟩ := hst a
  have hp : (p : Int) = b.steps a := by
    have e : s.counter a = -((b.step_event_count / 2 : Nat) : Int) +
        b.step_event_count * (b.steps a - p) := by rw [h2]; ring
    rw [e] at h3 h4
    by_contra hne
    rcases lt_or_gt_of_ne hne with hlt | hgt
    · have : (b.step_event_count : Int) * 1 ≤ b.step_event_count * (b.steps a - p) :=
        mul_le_mul_of_nonneg_left (by omega) (by omega)
      omega
    · have : (b.step_event_count : Int) * (b.steps a - p) ≤ b.step_event_count * (-1) :=
        mul_le_mul_of_nonneg_left (by omega) (by omega)
      omega
  refine ⟨?_, ?_⟩
  · rw [h1, ← hp]
    simp
  · rw [h5, hp]

/-! ## Exact tracing at multiplier 1 -/

/-- In the build without `USE_L6470` and `ADVANCE`, a valid block whose rates keep the
multiplier at 1 and that meets no endstop hit is traced exactly: after
`step_event_count` ticks (one more with the `Z_LATE_ENABLE` wait) the block is
discarded, the event counter equals `step_event_count`, every axis has received exactly
`steps[axis]` pulses and `count_position[axis]` has moved by `steps[axis]` in the
direction of the block. -/
theorem slow_block_exact (cfg : Config) (s : State) (b0 : block_t) (ps : List Pins)
    (hL : cfg.USE_L6470 = false) (hA : cfg.ADVANCE = false)
    (hc : s.current_block = none) (hq : s.block_buffer.head? = some b0)
    (hv : valid_block b0) (hp : slow_profile cfg b0)
    (hr : ∀ a : Axis, -2147483648 ≤ s.count_position.sel a ∧
      s.count_position.sel a < 2147483648)
    (hlen : ps.length = ticks_needed cfg b0) (hh : no_hit cfg ps s = true) :
    (run_ticks cfg ps s).current_block = none ∧
    (run_ticks cfg ps s).block_buffer = s.block_buffer.tail ∧
    (run_ticks cfg ps s).step_events_completed = b0.step_event_count ∧
    ∀ a : Axis,
      (run_ticks cfg ps s).pulses.sel a = s.pulses.sel a + (b0.steps a).toNat ∧
      (run_ticks cfg ps s).count_position.sel a =
        s32 (s.count_position.sel a + direction_sign b0 a * b0.steps a) := by
  obtain ⟨t0, m0, b0c, k0, q0, z0⟩ := claim_block_traced cfg s b0 hL hA hc hq hv hp hr
  have hvb := valid_block_busy b0 hv
  have hpb : slow_profile cfg { b0 with busy := true } := hp
  have hN1 : 1 ≤ b0.step_event_count := hv.1
  suffices h : traced { b0 with busy := true } s.count_position s.pulses
      b0.step_event_count (run_ticks cfg ps s) ∧
      (run_ticks cfg ps s).current_block = none ∧
      (run_ticks cfg ps s).block_buffer = s.block_buffer.tail ∧
      (run_ticks cfg ps s).step_events_completed = b0.step_event_count by
    obtain ⟨h1, h2, h3, h4⟩ := h
    refine ⟨h2, h3, h4, fun a => ?_⟩
    have := traced_final { b0 with busy := true } s.count_position s.pulses _ hvb h1 a
    have e1 : block_t.steps { b0 with busy := true } a = b0.steps a := by cases a <;> rfl
    have e2 : direction_sign { b0 with busy := true } a = direction_sign b0 a := rfl
    rw [e1, e2] at this
    exact this
  cases ps with
  | nil =>
    simp only [List.length_nil, ticks_needed] at hlen
    omega
  | cons p ps =>
    simp only [no_hit, Bool.and_eq_true, Bool.not_eq_true'] at hh
    obtain ⟨hh1, hh2⟩ := hh
    simp only [run_ticks]
    simp only [List.length_cons, ticks_needed] at hlen
    cases hz : (cfg.Z_LATE_ENABLE && decide (b0.steps_z > 0))
    · -- the claiming tick steps the first event
      rw [hz] at z0 hlen
      simp only [Bool.false_eq_true, if_false, add_zero] at hlen
      have e : ISR_TIMER1_COMPA_vect cfg p s =
          ISR_TIMER1_COMPA_vect cfg p (claim_block cfg s).1 := by
        simp [ISR_TIMER1_COMPA_vect, z0, b0c, claim_block_of_current cfg _ _ b0c]
      have eh : hit_in_tick cfg p (claim_block cfg s).1 = hit_in_tick cfg p s := by
        simp [hit_in_tick, z0, b0c, claim_block_of_current cfg _ _ b0c]
      have := run_ticks_single cfg { b0 with busy := true } s.count_position s.pulses hL hA
        hvb hpb (p :: ps) 0 (claim_block cfg s).1 m0 b0c k0 (by show 0 < b0.step_event_count; omega)
        (by show 0 + (p :: ps).length = b0.step_event_count; simp only [List.length_cons]; omega)
        (by
          simp only [no_hit, Bool.and_eq_true, Bool.not_eq_true']
          exact ⟨by rw [eh]; exact hh1, by rw [← e]; exact hh2⟩) t0
      simp only [run_ticks] at this
      rw [← e, q0] at this
      exact this
    · -- the claiming tick waits for the Z driver
      rw [hz] at z0 hlen
      simp only [if_true] at hlen
      have e : ISR_TIMER1_COMPA_vect cfg p s = (claim_block cfg s).1 := by
        simp [ISR_TIMER1_COMPA_vect, z0]
      rw [e] at hh2 ⊢
      have := run_ticks_single cfg { b0 with busy := true } s.count_position s.pulses hL hA
        hvb hpb ps 0 (claim_block cfg s).1 m0 b0c k0 (by show 0 < b0.step_event_count; omega)
        (by show 0 + ps.length = b0.step_event_count; omega) hh2 t0
      rw [q0] at this
      exact this

/-- In the build without `USE_L6470`, `ADVANCE` and `Z_LATE_ENABLE`, a valid block whose
rates keep the multiplier at 1 and that meets no endstop hit has executed exactly one
event per tick: after `j` ticks, `1 <= j <= step_event_count`, the event counter is `j`,
and on every axis the pulses emitted so far, `p`, satisfy the Bresenham relation
(counter `= -(N >> 1) + j * steps - N * p`, within `(-N, 0]`) with the position moved
by `p`; the block is still current while `j < step_event_count`. -/
theorem slow_block_partial (cfg : Config) (s : State) (b0 : block_t) (ps : List Pins)
    (hL : cfg.USE_L6470 = false) (hA : cfg.ADVANCE = false)
    (hZ : cfg.Z_LATE_ENABLE = false)
    (hc : s.current_block = none) (hq : s.block_buffer.head? = some b0)
    (hv : valid_block b0) (hp : slow_profile cfg b0)
    (hr : ∀ a : Axis, -2147483648 ≤ s.count_position.sel a ∧
      s.count_position.sel a < 2147483648)
    (h1 : 1 ≤ ps.length) (hlen : ps.length ≤ b0.step_event_count)
    (hh : no_hit cfg ps s = true) :
    traced { b0 with busy := true } s.count_position s.pulses ps.length
      (run_ticks cfg ps s) ∧
    (run_ticks cfg ps s).step_events_completed = ps.length ∧
    (ps.length < b0.step_event_count →
      (run_ticks cfg ps s).current_block = some { b0 with busy := true }) := by
  obtain ⟨t0, m0, b0c, k0, -, z0⟩ := claim_block_traced cfg s b0 hL hA hc hq hv hp hr
  have hvb := valid_block_busy b0 hv
  have hpb : slow_profile cfg { b0 with busy := true } := hp
  cases ps with
  | nil => simp at h1
  | cons p ps =>
    simp only [no_hit, Bool.and_eq_true, Bool.not_eq_true'] at hh
    obtain ⟨hh1, hh2⟩ := hh
    rw [hZ] at z0
    simp only [Bool.false_and] at z0
    have e : ISR_TIMER1_COMPA_vect cfg p s =
        ISR_TIMER1_COMPA_vect cfg p (claim_block cfg s).1 := by
      simp [ISR_TIMER1_COMPA_vect, z0, b0c, claim_block_of_current cfg _ _ b0c]
    have eh : hit_in_tick cfg p (claim_block cfg s).1 = hit_in_tick cfg p s := by
      simp [hit_in_tick, z0, b0c, claim_block_of_current cfg _ _ b0c]
    have := run_ticks_traced cfg { b0 with busy := true } s.count_position s.pulses hL hA
      hvb hpb (p :: ps) 0 (claim_block cfg s).1 m0 b0c k0
      (by show 0 < b0.step_event_count; exact hv.1)
      (by show 0 + (p :: ps).length ≤ b0.step_event_count; omega)
      (by
        simp only [no_hit, Bool.and_eq_true, Bool.not_eq_true']
        exact ⟨by rw [eh]; exact hh1, by rw [← e]; exact hh2⟩) t0
    simp only [run_ticks, zero_add] at this ⊢
    rw [← e] at this
    exact ⟨this.1, this.2.1, fun h => (this.2.2.1 h).1⟩

theorem hit_in_tick_no_pins (cfg : Config) (s : State) : hit_in_tick cfg no_pins s = false := by
  unfold hit_in_tick
  split
  · rfl
  · split
    · simp [endstop_hit, x_hit_now, y_hit_now, z_hit_now, no_pins]
    · rfl

theorem no_hit_no_pins (cfg : Config) (n : Nat) : ∀ s : State,
    no_hit cfg (List.replicate n no_pins) s = true := by
  induction n with
  | zero => intro s; rfl
  | succ n ih =>
    intro s
    simp only [List.replicate_succ, no_hit, hit_in_tick_no_pins, Bool.not_false, Bool.true_and]
    exact ih _

/-- Scenario 6 of the specification, up to the call: a block of 1000 events along +X at
1 kHz after 500 ticks has executed exactly 500 events, with 500 X pulses and
`count_position[X] = 500`, and is still current. -/
theorem x_block_half_way :
    (run_ticks cfg_pulse (List.replicate 500 no_pins)
      { initial_state with block_buffer := [x_block 1000 1000] }).count_position.x = 500 ∧
    (run_ticks cfg_pulse (List.replicate 500 no_pins)
      { initial_state with block_buffer := [x_block 1000 1000] }).pulses.x = 500 ∧
    (run_ticks cfg_pulse (List.replicate 500 no_pins)
      { initial_state with block_buffer := [x_block 1000 1000] }).step_events_completed = 500 ∧
    (run_ticks cfg_pulse (List.replicate 500 no_pins)
      { initial_state with block_buffer := [x_block 1000 1000] }).current_block ≠ none := by
  have key := slow_block_partial cfg_pulse
    { initial_state with block_buffer := [x_block 1000 1000] } (x_block 1000 1000)
    (List.replicate 500 no_pins) rfl rfl rfl rfl rfl (by decide) (by decide) (by decide)
    (by rw [List.length_replicate]; decide) (by rw [List.length_replicate]; decide)
    (no_hit_no_pins cfg_pulse 500 _)
  rw [List.length_replicate] at key
  generalize run_ticks cfg_pulse (List.replicate 500 no_pins)
    { initial_state with block_buffer := [x_block 1000 1000] } = t at key ⊢
  obtain ⟨ht, hk, hb⟩ := key
  obtain ⟨p, h1, h2, h3, h4, h5⟩ := ht Axis.X
  have hd : direction_sign { x_block 1000 1000 with busy := true } Axis.X = 1 := by decide
  have hs : block_t.steps { x_block 1000 1000 with busy := true } Axis.X = 1000 := rfl
  have hn : ({ x_block 1000 1000 with busy := true } : block_t).step_event_count = 1000 := rfl
  have h0 : ({ initial_state with block_buffer := [x_block 1000 1000] } :
      State).count_position.sel Axis.X = 0 := rfl
  have hq : ({ initial_state with block_buffer := [x_block 1000 1000] } :
      State).pulses.sel Axis.X = 0 := rfl
  rw [hs, hn] at h2
  rw [hn] at h3
  rw [hq] at h1
  rw [h0, hd] at h5
  have hp : p = 500 := by
    push_cast at h2 h3
    omega
  subst hp
  refine ⟨?_, ?_, hk, ?_⟩
  · show t.count_position.sel Axis.X = 500
    rw [h5]; decide
  · show t.pulses.sel Axis.X = 500
    rw [h1]
  · rw [hb (by decide)]
    exact Option.noConfusion

/-- Scenario 1 of the specification: a block of 100 events along +X at 1 kHz in the
pin-toggling build with no endstop active: after 100 ticks it is discarded with 100 X
pulses and `count_position[X]` advanced by 100. -/
theorem slow_block_exact_scenario :
    (run_ticks cfg_pulse (List.replicate 100 no_pins)
      { initial_state with block_buffer := [x_block 100 1000] }).current_block = none ∧
    (run_ticks cfg_pulse (List.replicate 100 no_pins)
      { initial_state with block_buffer := [x_block 100 1000] }).pulses.sel Axis.X = 100 ∧
    (run_ticks cfg_pulse (List.replicate 100 no_pins)
      { initial_state with block_buffer := [x_block 100 1000] }).count_position.sel Axis.X
        = 100 :=
  ⟨(slow_block_exact cfg_pulse { initial_state with block_buffer := [x_block 100 1000] }
      (x_block 100 1000) (List.replicate 100 no_pins) rfl rfl rfl rfl (by decide)
      (by decide) (by decide) (by decide) (no_hit_no_pins cfg_pulse 100 _)).1,
   ((slow_block_exact cfg_pulse { initial_state with block_buffer := [x_block 100 1000] }
      (x_block 100 1000) (List.replicate 100 no_pins) rfl rfl rfl rfl (by decide)
      (by decide) (by decide) (by decide) (no_hit_no_pins cfg_pulse 100 _)).2.2.2 Axis.X).1,
   ((slow_block_exact cfg_pulse { initial_state with block_buffer := [x_block 100 1000] }
      (x_block 100 1000) (List.replicate 100 no_pins) rfl rfl rfl rfl (by decide)
      (by decide) (by decide) (by decide) (no_hit_no_pins cfg_pulse 100 _)).2.2.2 Axis.X).2⟩

/-! ## Lemmas on the endstop variables -/

theorem claim_block_latches (cfg : Config) (s : State) :
    (claim_block cfg s).1.latches = s.latches := by
  unfold claim_block
  cases hc : s.current_block with
  | some b => rfl
  | none =>
    cases hq : plan_get_current_block s with
    | none => rfl
    | some b0 =>
      simp only []
      have h : (reset_counters (trapezoid_generator_reset cfg (take_block s b0)
          { b0 with busy := true }) { b0 with busy := true }).latches = s.latches := by
        cases hA : cfg.ADVANCE <;> cases hL : cfg.USE_L6470 <;>
          simp [State.latches, reset_counters, trapezoid_generator_reset, take_block,
            calc_timer, set_step_loops, hA, hL]
      split_ifs
      · exact h
      · exact h

theorem set_xy_direction_latches (s : State) (b : block_t) :
    (set_xy_direction s b).latches = s.latches := rfl

theorem set_e_direction_latches (cfg : Config) (s : State) :
    (set_e_direction cfg s).latches = s.latches := by
  simp [State.latches, set_e_direction]

theorem step_event_latches (cfg : Config) (s : State) (b : block_t) :
    (step_event cfg s b).latches = s.latches := by
  simp [State.latches, step_event, e_event, z_event, y_event, x_event, advance_e_event]

theorem step_loop_latches (cfg : Config) (b : block_t) (n : Nat) (s : State) :
    (step_loop cfg b n s).latches = s.latches := by
  induction n generalizing s with
  | zero => rfl
  | succ n ih =>
    simp only [step_loop]
    split_ifs
    · exact step_event_latches cfg s b
    · rw [ih]; exact step_event_latches cfg s b

theorem step_block_latches (cfg : Config) (s : State) (b : block_t) :
    (step_block cfg s b).latches = s.latches := by
  unfold step_block
  split_ifs
  · exact step_event_latches cfg (reduce_step_loops_shift s b) b
  · exact step_loop_latches cfg b _ s

theorem trapezoid_latches (cfg : Config) (s : State) (b : block_t) :
    (trapezoid cfg s b).latches = s.latches := by
  cases hA : cfg.ADVANCE <;> cases hL : cfg.USE_L6470 <;>
    simp [State.latches, trapezoid, accelerate, decelerate, cruise, calc_timer,
      set_step_loops, advance_e_steps, hA, hL]

theorem finish_block_latches (s : State) (b : block_t) :
    (finish_block s b).latches = s.latches := by
  simp [State.latches, finish_block, plan_discard_current_block]

theorem check_x_endstop_latches (cfg : Config) (pins : Pins) (s : State) (b : block_t) :
    (check_x_endstop cfg pins s b).latches =
      { s.latches with
        x_hit := x_hit_now cfg pins s b || s.endstop_x_hit
        trigsteps :=
          if x_hit_now cfg pins s b then { s.endstops_trigsteps with x := s.count_position.x }
          else s.endstops_trigsteps
        old_x_min :=
          if x_negative cfg s.out_bits && s.check_endstops && cfg.X_MIN_PIN then pins.x_min
          else s.old_x_min_endstop
        old_x_max :=
          if !x_negative cfg s.out_bits && s.check_endstops && cfg.X_MAX_PIN then pins.x_max
          else s.old_x_max_endstop } := by
  unfold check_x_endstop x_hit_now
  split_ifs <;> simp_all [State.latches]

theorem check_y_endstop_latches (cfg : Config) (pins : Pins) (s : State) (b : block_t) :
    (check_y_endstop cfg pins s b).latches =
      { s.latches with
        y_hit := y_hit_now cfg pins s b || s.endstop_y_hit
        trigsteps :=
          if y_hit_now cfg pins s b then { s.endstops_trigsteps with y := s.count_position.y }
          else s.endstops_trigsteps
        old_y_min :=
          if y_negative cfg s.out_bits && s.check_endstops && cfg.Y_MIN_PIN then pins.y_min
          else s.old_y_min_endstop
        old_y_max :=
          if !y_negative cfg s.out_bits && s.check_endstops && cfg.Y_MAX_PIN then pins.y_max
          else s.old_y_max_endstop } := by
  unfold check_y_endstop y_hit_now
  split_ifs <;> simp_all [State.latches]

theorem check_z_endstop_latches (cfg : Config) (pins : Pins) (s : State) (b : block_t) :
    (check_z_endstop cfg pins s b).latches =
      { s.latches with
        z_hit := z_hit_now cfg pins s b || s.endstop_z_hit
        trigsteps :=
          if z_hit_now cfg pins s b then { s.endstops_trigsteps with z := s.count_position.z }
          else s.endstops_trigsteps
        old_z_min :=
          if dir_bit s.out_bits Z_AXIS && s.check_endstops && cfg.Z_MIN_PIN then pins.z_min
          else s.old_z_min_endstop
        old_z_max :=
          if !dir_bit s.out_bits Z_AXIS && s.check_endstops && cfg.Z_MAX_PIN then pins.z_max
          else s.old_z_max_endstop } := by
  unfold check_z_endstop z_hit_now
  split_ifs <;> simp_all [State.latches] <;> cases hc : s.check_endstops <;> simp_all

theorem check_x_endstop_frame (cfg : Config) (pins : Pins) (s : State) (b : block_t) :
    (check_x_endstop cfg pins s b).count_position = s.count_position ∧
    (check_x_endstop cfg pins s b).out_bits = s.out_bits := by
  simp [check_x_endstop]

theorem check_y_endstop_frame (cfg : Config) (pins : Pins) (s : State) (b : block_t) :
    (check_y_endstop cfg pins s b).count_position = s.count_position ∧
    (check_y_endstop cfg pins s b).out_bits = s.out_bits := by
  simp [check_y_endstop]

theorem check_z_endstop_frame (cfg : Config) (pins : Pins) (s : State) (b : block_t) :
    (check_z_endstop cfg pins s b).count_position = s.count_position ∧
    (check_z_endstop cfg pins s b).out_bits = s.out_bits := by
  simp [check_z_endstop]

theorem latches_x_hit (s : State) : s.latches.x_hit = s.endstop_x_hit := rfl
theorem latches_y_hit (s : State) : s.latches.y_hit = s.endstop_y_hit := rfl
theorem latches_z_hit (s : State) : s.latches.z_hit = s.endstop_z_hit := rfl
theorem latches_trigsteps (s : State) : s.latches.trigsteps = s.endstops_trigsteps := rfl
theorem latches_check (s : State) : s.latches.check = s.check_endstops := rfl
theorem latches_old_x_min (s : State) : s.latches.old_x_min = s.old_x_min_endstop := rfl
theorem latches_old_x_max (s : State) : s.latches.old_x_max = s.old_x_max_endstop := rfl
theorem latches_old_y_min (s : State) : s.latches.old_y_min = s.old_y_min_endstop := rfl
theorem latches_old_y_max (s : State) : s.latches.old_y_max = s.old_y_max_endstop := rfl
theorem latches_old_z_min (s : State) : s.latches.old_z_min = s.old_z_min_endstop := rfl
theorem latches_old_z_max (s : State) : s.latches.old_z_max = s.old_z_max_endstop := rfl

theorem checked_latches (cfg : Config) (pins : Pins) (s : State) (b : block_t) :
    (checked cfg pins s b).latches =
      { x_hit := x_hit_now cfg pins (set_xy_direction s b) b || s.endstop_x_hit
        y_hit := y_hit_now cfg pins (set_xy_direction s b) b || s.endstop_y_hit
        z_hit := z_hit_now cfg pins (set_xy_direction s b) b || s.endstop_z_hit
        trigsteps :=
          { x := if x_hit_now cfg pins (set_xy_direction s b) b then s.count_position.x
                 else s.endstops_trigsteps.x
            y := if y_hit_now cfg pins (set_xy_direction s b) b then s.count_position.y
                 else s.endstops_trigsteps.y
            z := if z_hit_now cfg pins (set_xy_direction s b) b then s.count_position.z
                 else s.endstops_trigsteps.z
            e := s.endstops_trigsteps.e }
        check := s.check_endstops
        old_x_min :=
          if x_negative cfg b.direction_bits && s.check_endstops && cfg.X_MIN_PIN then pins.x_min
          else s.old_x_min_endstop
        old_x_max :=
          if !x_negative cfg b.direction_bits && s.check_endstops && cfg.X_MAX_PIN then pins.x_max
          else s.old_x_max_endstop
        old_y_min :=
          if y_negative cfg b.direction_bits && s.check_endstops && cfg.Y_MIN_PIN then pins.y_min
          else s.old_y_min_endstop
        old_y_max :=
          if !y_negative cfg b.direction_bits && s.check_endstops && cfg.Y_MAX_PIN then pins.y_max
          else s.old_y_max_endstop
        old_z_min :=
          if dir_bit b.direction_bits Z_AXIS && s.check_endstops && cfg.Z_MIN_PIN then pins.z_min
          else s.old_z_min_endstop
        old_z_max :=
          if !dir_bit b.direction_bits Z_AXIS && s.check_endstops && cfg.Z_MAX_PIN then pins.z_max
          else s.old_z_max_endstop } := by
  unfold checked
  simp only [← latches_x_hit, ← latches_y_hit, ← latches_z_hit, ← latches_trigsteps,
    ← latches_check, ← latches_old_x_min, ← latches_old_x_max, ← latches_old_y_min,
    ← latches_old_y_max, ← latches_old_z_min, ← latches_old_z_max,
    check_z_endstop_latches, check_y_endstop_latches, check_x_endstop_latches,
    z_hit_now_check_y, z_hit_now_check_x, y_hit_now_check_x,
    (check_x_endstop_frame _ _ _ _).1, (check_x_endstop_frame _ _ _ _).2,
    (check_y_endstop_frame _ _ _ _).1, (check_y_endstop_frame _ _ _ _).2,
    set_xy_direction_latches, (set_xy_direction_control s b).2.2]
  have e : (set_xy_direction s b).count_position = s.count_position := rfl
  rw [e]
  generalize x_hit_now cfg pins (set_xy_direction s b) b = X
  generalize y_hit_now cfg pins (set_xy_direction s b) b = Y
  generalize z_hit_now cfg pins (set_xy_direction s b) b = Z
  cases X <;> cases Y <;> cases Z <;> simp

theorem step_loop_queue (cfg : Config) (b : block_t) (n : Nat) (s : State) :
    (step_loop cfg b n s).current_block = s.current_block ∧
    (step_loop cfg b n s).block_buffer = s.block_buffer := by
  induction n generalizing s with
  | zero => exact ⟨rfl, rfl⟩
  | succ n ih =>
    obtain ⟨hc, -⟩ := step_event_control cfg s b
    have h1 : (count_step_loops (step_event cfg s b)).current_block = s.current_block :=
      hc.2.2.2.2.1
    have h2 : (count_step_loops (step_event cfg s b)).block_buffer = s.block_buffer :=
      hc.2.2.2.2.2
    simp only [step_loop]
    split_ifs
    · exact ⟨h1, h2⟩
    · rw [(ih _).1, (ih _).2]; exact ⟨h1, h2⟩

theorem step_block_queue (cfg : Config) (s : State) (b : block_t) :
    (step_block cfg s b).current_block = s.current_block ∧
    (step_block cfg s b).block_buffer = s.block_buffer := by
  unfold step_block
  split_ifs
  · obtain ⟨hc, -⟩ := step_event_control cfg (reduce_step_loops_shift s b) b
    exact ⟨hc.2.2.2.2.1, hc.2.2.2.2.2⟩
  · exact step_loop_queue cfg b _ s

theorem trapezoid_sec (cfg : Config) (s : State) (b : block_t) :
    (trapezoid cfg s b).step_events_completed = s.step_events_completed ∧
    (trapezoid cfg s b).current_block = s.current_block ∧
    (trapezoid cfg s b).block_buffer = s.block_buffer := by
  cases hA : cfg.ADVANCE <;> cases hL : cfg.USE_L6470 <;>
    simp [trapezoid, accelerate, decelerate, cruise, calc_timer, set_step_loops,
      advance_e_steps, hA, hL]

theorem run_block_eq (cfg : Config) (pins : Pins) (s : State) (b : block_t) :
    run_block cfg pins s b = finish_block (trapezoid cfg (step_block cfg
      (set_e_direction cfg (checked cfg pins s b)) b) b) b := rfl

theorem run_block_latches (cfg : Config) (pins : Pins) (s : State) (b : block_t) :
    (run_block cfg pins s b).latches = (checked cfg pins s b).latches := by
  rw [run_block_eq, finish_block_latches, trapezoid_latches, step_block_latches,
    set_e_direction_latches]

theorem run_block_finish (cfg : Config) (pins : Pins) (s : State) (b : block_t)
    (hb : s.current_block = some b) :
    ((run_block cfg pins s b).current_block = none ∧
      (run_block cfg pins s b).block_buffer = s.block_buffer.tail ∧
      b.step_event_count ≤ (run_block cfg pins s b).step_events_completed) ∨
    ((run_block cfg pins s b).current_block = some b ∧
      (run_block cfg pins s b).block_buffer = s.block_buffer ∧
      (run_block cfg pins s b).step_events_completed < b.step_event_count) := by
  have c4 := endstop_checks_control cfg pins s b
  obtain ⟨q1, q2⟩ := step_block_queue cfg (set_e_direction cfg (checked cfg pins s b)) b
  obtain ⟨t1, t2, t3⟩ := trapezoid_sec cfg
    (step_block cfg (set_e_direction cfg (checked cfg pins s b)) b) b
  have hcur : (trapezoid cfg (step_block cfg (set_e_direction cfg (checked cfg pins s b)) b)
      b).current_block = some b := by
    rw [t2, q1]; exact c4.2.2.2.2.1.trans hb
  have hbuf : (trapezoid cfg (step_block cfg (set_e_direction cfg (checked cfg pins s b)) b)
      b).block_buffer = s.block_buffer := by
    rw [t3, q2]; exact c4.2.2.2.2.2
  rw [run_block_eq]
  generalize trapezoid cfg (step_block cfg (set_e_direction cfg (checked cfg pins s b)) b) b
    = s6 at hcur hbuf ⊢
  unfold finish_block
  split_ifs with h
  · left
    exact ⟨rfl, by simp [plan_discard_current_block, hbuf], h⟩
  · right
    exact ⟨hcur, hbuf, by omega⟩

theorem run_block_hit_discard (cfg : Config) (pins : Pins) (s : State) (b : block_t)
    (hb : s.current_block = some b)
    (hN : b.step_event_count < 2147483648)
    (hm : mult_ok (step_multiplier cfg s))
    (hh : endstop_hit cfg pins s b = true) :
    (run_block cfg pins s b).current_block = none := by
  have c4 := endstop_checks_control cfg pins s b
  have e4 := endstop_checks_sec cfg pins s b
  rw [hh, if_pos rfl, ← set_e_direction_sec cfg] at e4
  obtain ⟨m4, -⟩ := step_multiplier_congr cfg c4
  obtain ⟨g1, -⟩ := step_block_sec cfg _ b (le_of_eq e4) hN (by rw [m4]; exact hm)
  rw [e4] at g1
  obtain ⟨t1, -, -⟩ := trapezoid_sec cfg (step_block cfg (set_e_direction cfg
    (checked cfg pins s b)) b) b
  rcases run_block_finish cfg pins s b hb with h | h
  · exact h.1
  · exfalso
    have h3 := h.2.2
    rw [run_block_eq, (finish_block_spec cfg _ b).1, t1] at h3
    exact absurd g1 (not_le.mpr h3)

theorem x_hit_now_iff (cfg : Config) (pins : Pins) (s : State) (b : block_t)
    (hx : cfg.COREXY = false) :
    x_hit_now cfg pins (set_xy_direction s b) b = true ↔
      s.check_endstops = true ∧ 0 < b.steps_x ∧
      (if dir_bit b.direction_bits X_AXIS = true then
        cfg.X_MIN_PIN = true ∧ pins.x_min = true ∧ s.old_x_min_endstop = true
      else cfg.X_MAX_PIN = true ∧ pins.x_max = true ∧ s.old_x_max_endstop = true) := by
  have e1 : (set_xy_direction s b).out_bits = b.direction_bits := rfl
  have e2 : (set_xy_direction s b).check_endstops = s.check_endstops := rfl
  have e3 : (set_xy_direction s b).old_x_min_endstop = s.old_x_min_endstop := rfl
  have e4 : (set_xy_direction s b).old_x_max_endstop = s.old_x_max_endstop := rfl
  simp only [x_hit_now, x_negative, hx, e1, e2, e3, e4, Bool.false_eq_true, if_false]
  split_ifs <;> simp only [Bool.and_eq_true, decide_eq_true_eq] <;> tauto

theorem y_hit_now_iff (cfg : Config) (pins : Pins) (s : State) (b : block_t)
    (hx : cfg.COREXY = false) :
    y_hit_now cfg pins (set_xy_direction s b) b = true ↔
      s.check_endstops = true ∧ 0 < b.steps_y ∧
      (if dir_bit b.direction_bits Y_AXIS = true then
        cfg.Y_MIN_PIN = true ∧ pins.y_min = true ∧ s.old_y_min_endstop = true
      else cfg.Y_MAX_PIN = true ∧ pins.y_max = true ∧ s.old_y_max_endstop = true) := by
  have e1 : (set_xy_direction s b).out_bits = b.direction_bits := rfl
  have e2 : (set_xy_direction s b).check_endstops = s.check_endstops := rfl
  have e3 : (set_xy_direction s b).old_y_min_endstop = s.old_y_min_endstop := rfl
  have e4 : (set_xy_direction s b).old_y_max_endstop = s.old_y_max_endstop := rfl
  simp only [y_hit_now, y_negative, hx, e1, e2, e3, e4, Bool.false_eq_true, if_false]
  split_ifs <;> simp only [Bool.and_eq_true, decide_eq_true_eq] <;> tauto

theorem z_hit_now_iff (cfg : Config) (pins : Pins) (s : State) (b : block_t) :
    z_hit_now cfg pins (set_xy_direction s b) b = true ↔
      s.check_endstops = true ∧ 0 < b.steps_z ∧
      (if dir_bit b.direction_bits Z_AXIS = true then
        cfg.Z_MIN_PIN = true ∧ pins.z_min = true ∧ s.old_z_min_endstop = true
      else cfg.Z_MAX_PIN = true ∧ pins.z_max = true ∧ s.old_z_max_endstop = true) := by
  have e1 : (set_xy_direction s b).out_bits = b.direction_bits := rfl
  have e2 : (set_xy_direction s b).check_endstops = s.check_endstops := rfl
  have e3 : (set_xy_direction s b).old_z_min_endstop = s.old_z_min_endstop := rfl
  have e4 : (set_xy_direction s b).old_z_max_endstop = s.old_z_max_endstop := rfl
  simp only [z_hit_now, e1, e2, e3, e4]
  split_ifs <;> simp only [Bool.and_eq_true, decide_eq_true_eq] <;> tauto

theorem tick_of_current (cfg : Config) (pins : Pins) (s : State) (b : block_t)
    (hb : s.current_block = some b) :
    ISR_TIMER1_COMPA_vect cfg pins s = run_block cfg pins s b := by
  simp [ISR_TIMER1_COMPA_vect, claim_block_of_current cfg s b hb, hb]

theorem endstop_hit_of_x (cfg : Config) (pins : Pins) (s : State) (b : block_t)
    (h : x_hit_now cfg pins (set_xy_direction s b) b = true) :
    endstop_hit cfg pins s b = true := by
  simp [endstop_hit, h]

theorem endstop_hit_of_y (cfg : Config) (pins : Pins) (s : State) (b : block_t)
    (h : y_hit_now cfg pins (set_xy_direction s b) b = true) :
    endstop_hit cfg pins s b = true := by
  simp [endstop_hit, h]

theorem endstop_hit_of_z (cfg : Config) (pins : Pins) (s : State) (b : block_t)
    (h : z_hit_now cfg pins (set_xy_direction s b) b = true) :
    endstop_hit cfg pins s b = true := by
  simp [endstop_hit, h]

/-- The effect of one endstop on a tick with a current block, in terms of the condition
`hit` of its latching `if`: the flag is set when `hit` holds and kept otherwise, the
trigger position is the tick's starting position when `hit` holds and kept otherwise,
and a hit discards the block. -/
theorem latch_effect {hit : Bool} {L : Prop} (hL : hit = true ↔ L)
    {flag flag0 : Bool} {trig pos trig0 : Int} {cur : Option block_t}
    (h1 : flag = (hit || flag0)) (h2 : trig = if hit then pos else trig0)
    (h3 : hit = true → cur = none) :
    (flag = true ↔ L ∨ flag0 = true) ∧ (L → trig = pos ∧ cur = none) ∧
    (¬L → trig = trig0) := by
  cases hit
  · have hn : ¬L := fun h => Bool.noConfusion (hL.mpr h)
    simp only [Bool.false_or] at h1
    simp only [Bool.false_eq_true, if_false] at h2
    exact ⟨by rw [h1]; tauto, fun h => absurd h hn, fun _ => h2⟩
  · have hp : L := hL.mp rfl
    simp only [Bool.true_or] at h1
    simp only [if_true] at h2
    exact ⟨by rw [h1]; tauto, fun _ => ⟨h2, h3 rfl⟩, fun h => absurd hp h⟩

theorem tick_latches (cfg : Config) (pins : Pins) (s : State) (b : block_t)
    (hb : s.current_block = some b) :
    (ISR_TIMER1_COMPA_vect cfg pins s).latches = (checked cfg pins s b).latches := by
  rw [tick_of_current cfg pins s b hb, run_block_latches]

theorem checked_gate_off (cfg : Config) (pins : Pins) (s : State) (b : block_t)
    (h : s.check_endstops = false) :
    (checked cfg pins s b).latches = s.latches ∧ endstop_hit cfg pins s b = false := by
  have e2 : (set_xy_direction s b).check_endstops = false := h
  have hx : x_hit_now cfg pins (set_xy_direction s b) b = false := by
    simp [x_hit_now, e2]
  have hy : y_hit_now cfg pins (set_xy_direction s b) b = false := by
    simp [y_hit_now, e2]
  have hz : z_hit_now cfg pins (set_xy_direction s b) b = false := by
    simp [z_hit_now, e2]
  refine ⟨?_, by simp [endstop_hit, hx, hy, hz]⟩
  rw [checked_latches, hx, hy, hz]
  simp [State.latches, h]

theorem tick_gate_off (cfg : Config) (pins : Pins) (s : State)
    (h : s.check_endstops = false) :
    (ISR_TIMER1_COMPA_vect cfg pins s).latches = s.latches ∧
    hit_in_tick cfg pins s = false := by
  have hc := claim_block_latches cfg s
  have hg : (claim_block cfg s).1.check_endstops = false :=
    (congrArg Latches.check hc).trans h
  unfold ISR_TIMER1_COMPA_vect hit_in_tick
  simp only []
  split_ifs
  · exact ⟨hc, rfl⟩
  · cases hb : (claim_block cfg s).1.current_block with
    | none => exact ⟨hc, rfl⟩
    | some b =>
      obtain ⟨g1, g2⟩ := checked_gate_off cfg pins (claim_block cfg s).1 b hg
      exact ⟨by simp only []; rw [run_block_latches, g1, hc], g2⟩

theorem run_gate_off (cfg : Config) (ps : List Pins) : ∀ s : State,
    s.check_endstops = false →
    (run_ticks cfg ps s).latches = s.latches ∧ no_hit cfg ps s = true := by
  induction ps with
  | nil => intro s _; exact ⟨rfl, rfl⟩
  | cons p ps ih =>
    intro s h
    obtain ⟨g1, g2⟩ := tick_gate_off cfg p s h
    obtain ⟨i1, i2⟩ := ih (ISR_TIMER1_COMPA_vect cfg p s) ((congrArg Latches.check g1).trans h)
    exact ⟨by simp only [run_ticks]; rw [i1, g1], by simp [no_hit, g2, i2]⟩

theorem checked_ramp (cfg : Config) (pins : Pins) (s : State) (b : block_t) :
    (checked cfg pins s b).ramp = s.ramp := by
  have hx : ∀ t : State, (check_x_endstop cfg pins t b).ramp = t.ramp := by
    intro t; simp [State.ramp, check_x_endstop]
  have hy : ∀ t : State, (check_y_endstop cfg pins t b).ramp = t.ramp := by
    intro t; simp [State.ramp, check_y_endstop]
  have hz : ∀ t : State, (check_z_endstop cfg pins t b).ramp = t.ramp := by
    intro t; simp [State.ramp, check_z_endstop]
  unfold checked
  rw [hz, hy, hx]
  rfl

theorem step_event_ramp (cfg : Config) (s : State) (b : block_t) :
    (step_event cfg s b).ramp = s.ramp := by
  simp [State.ramp, step_event, e_event, z_event, y_event, x_event, advance_e_event]

theorem step_loop_ramp (cfg : Config) (b : block_t) (n : Nat) (s : State) :
    (step_loop cfg b n s).ramp = s.ramp := by
  induction n generalizing s with
  | zero => rfl
  | succ n ih =>
    simp only [step_loop]
    split_ifs
    · exact step_event_ramp cfg s b
    · rw [ih]; exact step_event_ramp cfg s b

theorem stepped_ramp (cfg : Config) (pins : Pins) (s : State) (b : block_t) :
    (stepped cfg pins s b).ramp = s.ramp := by
  have h1 : (set_e_direction cfg (checked cfg pins s b)).ramp = s.ramp := by
    rw [← checked_ramp cfg pins s b]
    simp [State.ramp, set_e_direction]
  rw [← h1]
  unfold stepped step_block
  split_ifs
  · exact step_event_ramp cfg (reduce_step_loops_shift _ b) b
  · exact step_loop_ramp cfg b _ _

theorem finish_block_ramp (s : State) (b : block_t) :
    (finish_block s b).ramp = s.ramp := by
  simp [State.ramp, finish_block, plan_discard_current_block]

theorem tick_eq (cfg : Config) (pins : Pins) (s : State) (b : block_t)
    (hb : s.current_block = some b) :
    ISR_TIMER1_COMPA_vect cfg pins s =
      finish_block (trapezoid cfg (stepped cfg pins s b) b) b := by
  rw [tick_of_current cfg pins s b hb]
  rfl

theorem toU32_of_range (i : Int) (h1 : 0 ≤ i) (h2 : i < 4294967296) :
    ((toU32 i : Nat) : Int) = i := by
  unfold toU32
  rw [Int.emod_eq_of_lt h1 h2, Int.toNat_of_nonneg h1]

theorem cruise_spec (cfg : Config) (s : State)
    (hn : mult_ok (nominal_step_multiplier cfg s)) :
    (cruise cfg s).ramp = { s.ramp with OCR1A := s.OCR1A_nominal } ∧
    step_multiplier cfg (cruise cfg s) = nominal_step_multiplier cfg s := by
  cases hL : cfg.USE_L6470
  · have hn2 : mult_ok s.step_loops_nominal := by
      simpa [nominal_step_multiplier, hL] using hn
    simp [cruise, State.ramp, step_multiplier, nominal_step_multiplier, hL,
      u8_of_mult_ok _ hn2]
  · have hn2 : mult_ok (1 <<< s.step_loops_shift_nominal) := by
      simpa [nominal_step_multiplier, hL] using hn
    have hk : s.step_loops_shift_nominal ≤ 2 := mult_ok_shift _ hn2
    have hu : u8 s.step_loops_shift_nominal = s.step_loops_shift_nominal :=
      Nat.mod_eq_of_lt (by omega)
    simp [cruise, State.ramp, step_multiplier, nominal_step_multiplier, hL, hu]

theorem nominal_of_ramp (cfg : Config) {s t : State} (h : t.ramp = s.ramp) :
    nominal_step_multiplier cfg t = nominal_step_multiplier cfg s := by
  have h1 : t.step_loops_nominal = s.step_loops_nominal := congrArg Ramp.step_loops_nominal h
  have h2 : t.step_loops_shift_nominal = s.step_loops_shift_nominal :=
    congrArg Ramp.step_loops_shift_nominal h
  simp [nominal_step_multiplier, h1, h2]

theorem calc_timer_state (cfg : Config) (s t : State) (r : Nat) :
    (calc_timer cfg s r).1 = (calc_timer cfg t r).1 := rfl

theorem claim_block_eq (cfg : Config) (s : State) (b0 : block_t)
    (hc : s.current_block = none) (hq : s.block_buffer.head? = some b0) :
    claim_block cfg s =
      if cfg.Z_LATE_ENABLE && decide (b0.steps_z > 0) then (z_late_wait (claimed cfg s b0), true)
      else (claimed cfg s b0, false) := by
  simp [claim_block, claimed, hc, plan_get_current_block, hq]

theorem claimed_ramp (cfg : Config) (s : State) (b0 : block_t) :
    (claimed cfg s b0).ramp =
      { acc_step_rate := u16 b0.initial_rate
        acceleration_time := (calc_timer cfg s (u16 b0.initial_rate)).1
        deceleration_time := 0
        OCR1A := (calc_timer cfg s (u16 b0.initial_rate)).1
        OCR1A_nominal := (calc_timer cfg s (u16 b0.nominal_rate)).1
        step_loops_nominal :=
          if cfg.USE_L6470 then s.step_loops_nominal
          else 1 <<< loops_shift (clamp_rate cfg (u16 b0.nominal_rate))
        step_loops_shift_nominal :=
          if cfg.USE_L6470 then loops_shift (clamp_rate cfg (u16 b0.nominal_rate))
          else s.step_loops_shift_nominal } := by
  cases hA : cfg.ADVANCE <;> cases hL : cfg.USE_L6470 <;>
    simp [claimed, State.ramp, reset_counters, trapezoid_generator_reset, take_block,
      calc_timer, set_step_loops, hA, hL]

theorem claimed_counters (cfg : Config) (s : State) (b0 : block_t) :
    (claimed cfg s b0).current_block = some { b0 with busy := true } ∧
    (claimed cfg s b0).block_buffer = { b0 with busy := true } :: s.block_buffer.tail ∧
    (claimed cfg s b0).step_events_completed = 0 ∧
    (claimed cfg s b0).counter_x = s32 (-((b0.step_event_count >>> 1 : Nat) : Int)) ∧
    (claimed cfg s b0).counter_y = s32 (-((b0.step_event_count >>> 1 : Nat) : Int)) ∧
    (claimed cfg s b0).counter_z = s32 (-((b0.step_event_count >>> 1 : Nat) : Int)) ∧
    (claimed cfg s b0).counter_e = s32 (-((b0.step_event_count >>> 1 : Nat) : Int)) := by
  obtain ⟨r1, r2, -, -⟩ :=
    trapezoid_generator_reset_control cfg (take_block s b0) { b0 with busy := true }
  exact ⟨r1, r2, rfl, rfl, rfl, rfl, rfl⟩

theorem half_count_range (n : Nat) (h : n < 4294967296) :
    s32 (-((n >>> 1 : Nat) : Int)) = -((n >>> 1 : Nat) : Int) := by
  have h2 : n >>> 1 < 2147483648 := by
    rw [Nat.shiftRight_eq_div_pow]
    omega
  exact s32_of_range _ (by omega) (by omega)

theorem tick_outcome (cfg : Config) (pins : Pins) (s : State)
    (hpos : ∀ b0, s.block_buffer.head? = some b0 → 0 < b0.step_event_count) :
    (ISR_TIMER1_COMPA_vect cfg pins s).current_block = none ∨
    ∃ b, (ISR_TIMER1_COMPA_vect cfg pins s).current_block = some b ∧
      (ISR_TIMER1_COMPA_vect cfg pins s).step_events_completed < b.step_event_count := by
  cases hc : s.current_block with
  | some b =>
    rw [tick_of_current cfg pins s b hc]
    rcases run_block_finish cfg pins s b hc with h | h
    · exact Or.inl h.1
    · exact Or.inr ⟨b, h.1, h.2.2⟩
  | none =>
    cases hq : s.block_buffer.head? with
    | none =>
      left
      simp [ISR_TIMER1_COMPA_vect, claim_block, hc, plan_get_current_block, hq]
    | some b0 =>
      obtain ⟨k1, -⟩ := claimed_counters cfg s b0
      have e := claim_block_eq cfg s b0 hc hq
      by_cases hz : (cfg.Z_LATE_ENABLE && decide (b0.steps_z > 0)) = true
      · rw [if_pos hz] at e
        have ei : ISR_TIMER1_COMPA_vect cfg pins s = z_late_wait (claimed cfg s b0) := by
          simp [ISR_TIMER1_COMPA_vect, e]
        rw [ei]
        right
        exact ⟨{ b0 with busy := true }, k1, hpos b0 hq⟩
      · rw [if_neg hz] at e
        have ei : ISR_TIMER1_COMPA_vect cfg pins s =
            run_block cfg pins (claimed cfg s b0) { b0 with busy := true } := by
          simp [ISR_TIMER1_COMPA_vect, e, k1]
        rw [ei]
        rcases run_block_finish cfg pins (claimed cfg s b0) { b0 with busy := true } k1 with h | h
        · exact Or.inl h.1
        · exact Or.inr ⟨_, h.1, h.2.2⟩

theorem run_ticks_lifecycle (cfg : Config) (b : block_t) (ps : List Pins) : ∀ s : State,
    s.current_block = some b →
    (∀ k, k ≤ ps.length →
      (run_ticks cfg (ps.take k) s).current_block = some b ∧
      (run_ticks cfg (ps.take k) s).block_buffer = s.block_buffer ∧
      (1 ≤ k → (run_ticks cfg (ps.take k) s).step_events_completed < b.step_event_count)) ∨
    (∃ k, k < ps.length ∧
      (∀ j, j ≤ k →
        (run_ticks cfg (ps.take j) s).current_block = some b ∧
        (run_ticks cfg (ps.take j) s).block_buffer = s.block_buffer ∧
        (1 ≤ j → (run_ticks cfg (ps.take j) s).step_events_completed < b.step_event_count)) ∧
      (run_ticks cfg (ps.take (k + 1)) s).current_block = none ∧
      (run_ticks cfg (ps.take (k + 1)) s).block_buffer = s.block_buffer.tail ∧
      b.step_event_count ≤ (run_ticks cfg (ps.take (k + 1)) s).step_events_completed) := by
  induction ps with
  | nil =>
    intro s hb
    left
    intro k hk
    have hk0 : k = 0 := by simpa using hk
    subst hk0
    exact ⟨hb, rfl, fun h => absurd h (by decide)⟩
  | cons p ps ih =>
    intro s hb
    have et := tick_of_current cfg p s b hb
    rcases run_block_finish cfg p s b hb with h | h
    · right
      refine ⟨0, by simp, ?_, ?_⟩
      · intro j hj
        have hj0 : j = 0 := by omega
        subst hj0
        exact ⟨hb, rfl, fun h => absurd h (by decide)⟩
      · simp only [List.take_succ_cons, List.take_zero, run_ticks, et]
        exact h
    · have step : ∀ j, run_ticks cfg ((p :: ps).take (j + 1)) s =
          run_ticks cfg (ps.take j) (run_block cfg p s b) := by
        intro j
        simp only [List.take_succ_cons, run_ticks, et]
      rcases ih (run_block cfg p s b) h.1 with g | ⟨k, hk, g1, g2⟩
      · left
        intro k hk
        cases k with
        | zero => exact ⟨hb, rfl, fun h => absurd h (by decide)⟩
        | succ k =>
          obtain ⟨a1, a2, a3⟩ := g k (by simpa using hk)
          rw [step]
          refine ⟨a1, a2.trans h.2.1, fun _ => ?_⟩
          cases k with
          | zero => exact h.2.2
          | succ k => exact a3 (by omega)
      · right
        refine ⟨k + 1, by simpa using hk, ?_, ?_⟩
        · intro j hj
          cases j with
          | zero => exact ⟨hb, rfl, fun h => absurd h (by decide)⟩
          | succ j =>
            obtain ⟨a1, a2, a3⟩ := g1 j (by omega)
            rw [step]
            refine ⟨a1, a2.trans h.2.1, fun _ => ?_⟩
            cases j with
            | zero => exact h.2.2
            | succ j => exact a3 (by omega)
        · rw [step]
          exact ⟨g2.1, by rw [g2.2.1, h.2.1], g2.2.2⟩

/-! ## Lemmas on the endstop report -/


theorem checkHitEndstops_report (cfg : Config) (s : State)
    (h : s.endstop_x_hit = true ∨ s.endstop_y_hit = true ∨ s.endstop_z_hit = true) :
    ∃ l, (checkHitEndstops cfg s).2 =
      [Report.echo_start, Report.echo_endstops_hit] ++ hit_report s ++ Report.echo_ln :: l ∧
      ∀ r ∈ l, r = Report.card_closed ∨ r = Report.hotends_off := by
  have hc : (s.endstop_x_hit || s.endstop_y_hit || s.endstop_z_hit) = true := by
    rcases h with h | h | h <;> simp [h]
  have eq : checkHitEndstops cfg s =
      if (s.endstop_x_hit || s.endstop_y_hit || s.endstop_z_hit) = true then
        if (cfg.ABORT_ON_ENDSTOP_HIT_FEATURE_ENABLED &&
            (clear_hits s).abort_on_endstop_hit) = true then
          (quickStop (clear_hits s), [Report.echo_start, Report.echo_endstops_hit] ++
            hit_report s ++ [Report.echo_ln] ++ [Report.card_closed, Report.hotends_off])
        else (clear_hits s, [Report.echo_start, Report.echo_endstops_hit] ++
          hit_report s ++ [Report.echo_ln])
      else (s, []) := rfl
  rw [eq, if_pos hc]
  split_ifs
  · exact ⟨[Report.card_closed, Report.hotends_off], by simp, by simp⟩
  · exact ⟨[], by simp, by simp⟩

theorem hit_report_z (s : State) (n : Int) :
    Report.echo_pair Axis.Z n ∈ hit_report s ↔
      s.endstop_x_hit = true ∧ n = s.endstops_trigsteps.z := by
  unfold hit_report
  cases s.endstop_x_hit <;> cases s.endstop_y_hit <;> simp

theorem reduce_shift_max (completed count : Nat) (k : Nat) :
    completed + 2 ^ k < 4294967296 →
    ∀ j, reduce_shift completed count k < j → j ≤ k → count < completed + 2 ^ j := by
  induction k with
  | zero => intro _ j h1 h2; omega
  | succ k ih =>
    intro h j h1 h2
    have hp : 2 ^ k < 2 ^ (k + 1) := Nat.pow_lt_pow_right (by norm_num) (by omega)
    have hu : u32 (completed + 1 <<< (k + 1)) = completed + 2 ^ (k + 1) := by
      rw [Nat.one_shiftLeft]
      exact Nat.mod_eq_of_lt h
    simp only [reduce_shift, hu] at h1
    split at h1
    · rename_i hgt
      by_cases hj : j = k + 1
      · rw [hj]; exact hgt
      · exact ih (by omega) j h1 (by omega)
    · omega

theorem checked_shift (cfg : Config) (pins : Pins) (s : State) (b : block_t) :
    (set_e_direction cfg (checked cfg pins s b)).step_loops_shift = s.step_loops_shift :=
  (endstop_checks_control cfg pins s b).2.2.1

theorem checked_no_hit_sec (cfg : Config) (pins : Pins) (s : State) (b : block_t)
    (hh : endstop_hit cfg pins s b = false) :
    (set_e_direction cfg (checked cfg pins s b)).step_events_completed =
      s.step_events_completed := by
  have e4 := endstop_checks_sec cfg pins s b
  rw [hh] at e4
  simp only [Bool.false_eq_true, if_false] at e4
  rw [set_e_direction_sec]
  exact e4

theorem stepped_l6470 (cfg : Config) (pins : Pins) (s : State) (b : block_t)
    (hL : cfg.USE_L6470 = true) :
    (stepped cfg pins s b).step_events_completed =
      u32 ((set_e_direction cfg (checked cfg pins s b)).step_events_completed +
        1 <<< (reduce_step_loops_shift
          (set_e_direction cfg (checked cfg pins s b)) b).step_loops_shift) := by
  obtain ⟨hc, hs⟩ := step_event_control cfg
    (reduce_step_loops_shift (set_e_direction cfg (checked cfg pins s b)) b) b
  have e : stepped cfg pins s b = count_shifted (step_event cfg
      (reduce_step_loops_shift (set_e_direction cfg (checked cfg pins s b)) b) b) := by
    simp [stepped, step_block, hL]
  rw [e]
  show u32 (_ + 1 <<< _) = _
  rw [hs, hc.2.2.1]
  rfl

theorem no_hit_append (cfg : Config) (ps : List Pins) (p : Pins) : ∀ s : State,
    no_hit cfg (ps ++ [p]) s = true → no_hit cfg ps s = true := by
  induction ps with
  | nil => intro s _; rfl
  | cons q ps ih =>
    intro s h
    simp only [List.cons_append, no_hit, Bool.and_eq_true] at h ⊢
    exact ⟨h.1, ih _ h.2⟩

theorem distribution_bounds (cfg : Config) (s : State) (b0 : block_t) (ps : List Pins)
    (hL : cfg.USE_L6470 = false) (hA : cfg.ADVANCE = false)
    (hZ : cfg.Z_LATE_ENABLE = false)
    (hc : s.current_block = none) (hq : s.block_buffer.head? = some b0)
    (hv : valid_block b0) (hp : slow_profile cfg b0)
    (hr : ∀ a : Axis, -2147483648 ≤ s.count_position.sel a ∧
      s.count_position.sel a < 2147483648)
    (hlen : ps.length ≤ b0.step_event_count) (hh : no_hit cfg ps s = true) (a : Axis) :
    ∃ p : Nat, (run_ticks cfg ps s).pulses.sel a = s.pulses.sel a + p ∧
      (b0.step_event_count : Int) * p - b0.step_event_count <
        ps.length * b0.steps a - ((b0.step_event_count / 2 : Nat) : Int) ∧
      (ps.length : Int) * b0.steps a - ((b0.step_event_count / 2 : Nat) : Int) ≤
        b0.step_event_count * p := by
  rcases Nat.eq_zero_or_pos ps.length with h0 | h0
  · have hnil : ps = [] := List.length_eq_zero.mp h0
    subst hnil
    refine ⟨0, rfl, ?_, ?_⟩
    · have := hv.1
      simp only [List.length_nil]
      push_cast
      omega
    · simp only [List.length_nil]
      push_cast
      omega
  · obtain ⟨t, -, -⟩ := slow_block_partial cfg s b0 ps hL hA hZ hc hq hv hp hr h0 hlen hh
    obtain ⟨p, h1, h2, h3, h4, -⟩ := t a
    have e1 : ({ b0 with busy := true } : block_t).step_event_count = b0.step_event_count := rfl
    have e2 : ({ b0 with busy := true } : block_t).steps a = b0.steps a := by
      cases a <;> rfl
    rw [e1, e2] at h2
    rw [e1] at h3
    refine ⟨p, h1, ?_, ?_⟩
    · rw [h2] at h3; linarith
    · rw [h2] at h4; linarith


theorem mul_window (n d : Int) (hn : 0 < n) (h1 : -n < n * d) (h2 : n * d < n) : d = 0 := by
  by_contra hne
  rcases lt_or_gt_of_ne hne with hlt | hgt
  · have : n * d ≤ n * (-1) := mul_le_mul_of_nonneg_left (by omega) (by omega)
    omega
  · have : n * 1 ≤ n * d := mul_le_mul_of_nonneg_left (by omega) (by omega)
    omega

theorem ceil_of_bounds (n x p : Int) (hn : 0 < n) (h1 : n * p - n < x) (h2 : x ≤ n * p) :
    ⌈((x : ℚ) / (n : ℚ))⌉ = p := by
  have hq : (0 : ℚ) < (n : ℚ) := by exact_mod_cast hn
  rw [Int.ceil_eq_iff]
  constructor
  · rw [lt_div_iff₀ hq]
    have : ((n * p - n : Int) : ℚ) < (x : ℚ) := by exact_mod_cast h1
    push_cast at this
    linarith
  · rw [div_le_iff₀ hq]
    have : ((x : Int) : ℚ) ≤ ((n * p : Int) : ℚ) := by exact_mod_cast h2
    push_cast at this
    linarith

/-! ## Lemmas on the extruder interrupt -/


/-- The effect of one pass of the loop on the pending count of an extruder: one step
towards zero. -/
theorem e0_block_spec (s : State) :
    (e0_block s).e_steps.e0 =
      (if s.e_steps.e0 < 0 then s32 (s.e_steps.e0 + 1)
       else if s.e_steps.e0 > 0 then s32 (s.e_steps.e0 - 1) else s.e_steps.e0) ∧
    (e0_block s).e_pulses.e0 = s.e_pulses.e0 + (if s.e_steps.e0 = 0 then 0 else 1) ∧
    (e0_block s).e_steps.e1 = s.e_steps.e1 ∧ (e0_block s).e_steps.e2 = s.e_steps.e2 ∧
    (e0_block s).e_pulses.e1 = s.e_pulses.e1 ∧ (e0_block s).e_pulses.e2 = s.e_pulses.e2 := by
  unfold e0_block e0_step
  split_ifs <;> simp [Int.sub_eq_add_neg] <;> omega

theorem e1_block_spec (cfg : Config) (s : State) :
    (e1_block cfg s).e_steps.e1 =
      (if 1 < cfg.EXTRUDERS then
        (if s.e_steps.e1 < 0 then s32 (s.e_steps.e1 + 1)
         else if s.e_steps.e1 > 0 then s32 (s.e_steps.e1 - 1) else s.e_steps.e1)
       else s.e_steps.e1) ∧
    (e1_block cfg s).e_pulses.e1 = s.e_pulses.e1 +
      (if 1 < cfg.EXTRUDERS then (if s.e_steps.e1 = 0 then 0 else 1) else 0) ∧
    (e1_block cfg s).e_steps.e0 = s.e_steps.e0 ∧ (e1_block cfg s).e_steps.e2 = s.e_steps.e2 ∧
    (e1_block cfg s).e_pulses.e0 = s.e_pulses.e0 ∧
    (e1_block cfg s).e_pulses.e2 = s.e_pulses.e2 := by
  unfold e1_block e1_step
  split_ifs <;> simp [Int.sub_eq_add_neg] <;> omega

theorem e2_block_spec (cfg : Config) (s : State) :
    (e2_block cfg s).e_steps.e2 =
      (if 2 < cfg.EXTRUDERS then
        (if s.e_steps.e2 < 0 then s32 (s.e_steps.e2 + 1)
         else if s.e_steps.e2 > 0 then s32 (s.e_steps.e2 - 1) else s.e_steps.e2)
       else s.e_steps.e2) ∧
    (e2_block cfg s).e_pulses.e2 = s.e_pulses.e2 +
      (if 2 < cfg.EXTRUDERS then (if s.e_steps.e2 = 0 then 0 else 1) else 0) ∧
    (e2_block cfg s).e_steps.e0 = s.e_steps.e0 ∧ (e2_block cfg s).e_steps.e1 = s.e_steps.e1 ∧
    (e2_block cfg s).e_pulses.e0 = s.e_pulses.e0 ∧
    (e2_block cfg s).e_pulses.e1 = s.e_pulses.e1 := by
  unfold e2_block e2_step
  split_ifs <;> simp [Int.sub_eq_add_neg] <;> omega


theorem e_drain_iterate (n : Nat) : ∀ (e : Int) (p : Nat),
    -2147483648 ≤ e → e < 2147483648 →
    e_drain^[n] (e, p) = (e - Int.sign e * (min e.natAbs n : Nat), p + min e.natAbs n) := by
  induction n with
  | zero =>
    intro e p _ _
    simp
  | succ n ih =>
    intro e p h1 h2
    rw [Function.iterate_succ_apply]
    rcases lt_trichotomy e 0 with hneg | hzero | hpos
    · have e1 : e_drain (e, p) = (e + 1, p + 1) := by
        simp only [e_drain, if_pos hneg]
        rw [s32_of_range _ (by omega) (by omega)]
      rw [e1, ih _ _ (by omega) (by omega), Int.sign_eq_neg_one_of_neg hneg]
      rcases lt_or_eq_of_le (show e + 1 ≤ 0 by omega) with h | h
      · rw [Int.sign_eq_neg_one_of_neg h]
        refine Prod.ext ?_ ?_
        · simp only []; omega
        · simp only []; omega
      · rw [h, Int.sign_zero]
        refine Prod.ext ?_ ?_
        · simp only []; omega
        · simp only []; omega
    · have e1 : e_drain (e, p) = (e, p) := by
        simp only [e_drain, hzero, lt_irrefl, if_false]
      rw [e1, ih _ _ h1 h2]
      refine Prod.ext ?_ ?_
      · simp [hzero]
      · simp [hzero]
    · have e1 : e_drain (e, p) = (e - 1, p + 1) := by
        simp only [e_drain, if_neg (not_lt.mpr (le_of_lt hpos)), gt_iff_lt, if_pos hpos]
        rw [s32_of_range _ (by omega) (by omega)]
      rw [e1, ih _ _ (by omega) (by omega), Int.sign_eq_one_of_pos hpos]
      rcases lt_or_eq_of_le (show 0 ≤ e - 1 by omega) with h | h
      · rw [Int.sign_eq_one_of_pos h]
        refine Prod.ext ?_ ?_
        · simp only []; omega
        · simp only []; omega
      · rw [← h, Int.sign_zero]
        refine Prod.ext ?_ ?_
        · simp only []; omega
        · simp only []; omega

theorem pass_e0 (cfg : Config) (s : State) :
    ((e2_block cfg (e1_block cfg (e0_block s))).e_steps.e0,
      (e2_block cfg (e1_block cfg (e0_block s))).e_pulses.e0) =
      e_drain (s.e_steps.e0, s.e_pulses.e0) := by
  obtain ⟨a1, a2, -, -, -, -⟩ := e0_block_spec s
  obtain ⟨-, -, b3, -, b5, -⟩ := e1_block_spec cfg (e0_block s)
  obtain ⟨-, -, c3, -, c5, -⟩ := e2_block_spec cfg (e1_block cfg (e0_block s))
  rw [c3, c5, b3, b5, a1, a2]
  unfold e_drain
  simp only []
  split_ifs <;> first | rfl | (exfalso; omega)

theorem pass_e1 (cfg : Config) (s : State) :
    ((e2_block cfg (e1_block cfg (e0_block s))).e_steps.e1,
      (e2_block cfg (e1_block cfg (e0_block s))).e_pulses.e1) =
      if 1 < cfg.EXTRUDERS then e_drain (s.e_steps.e1, s.e_pulses.e1)
      else (s.e_steps.e1, s.e_pulses.e1) := by
  obtain ⟨-, -, a3, -, a5, -⟩ := e0_block_spec s
  obtain ⟨b1, b2, -, -, -, -⟩ := e1_block_spec cfg (e0_block s)
  obtain ⟨-, -, -, c4, -, c6⟩ := e2_block_spec cfg (e1_block cfg (e0_block s))
  rw [c4, c6, b1, b2, a3, a5]
  unfold e_drain
  simp only []
  split_ifs <;> first | rfl | (exfalso; omega)

theorem pass_e2 (cfg : Config) (s : State) :
    ((e2_block cfg (e1_block cfg (e0_block s))).e_steps.e2,
      (e2_block cfg (e1_block cfg (e0_block s))).e_pulses.e2) =
      if 2 < cfg.EXTRUDERS then e_drain (s.e_steps.e2, s.e_pulses.e2)
      else (s.e_steps.e2, s.e_pulses.e2) := by
  obtain ⟨-, -, -, a4, -, a6⟩ := e0_block_spec s
  obtain ⟨-, -, -, b4, -, b6⟩ := e1_block_spec cfg (e0_block s)
  obtain ⟨c1, c2, -, -, -, -⟩ := e2_block_spec cfg (e1_block cfg (e0_block s))
  rw [c1, c2, b4, b6, a4, a6]
  unfold e_drain
  simp only []
  split_ifs <;> first | rfl | (exfalso; omega)

theorem e_loop_e0 (cfg : Config) (n : Nat) : ∀ s : State,
    ((e_loop cfg n s).e_steps.e0, (e_loop cfg n s).e_pulses.e0) =
      e_drain^[n] (s.e_steps.e0, s.e_pulses.e0) := by
  induction n with
  | zero => intro s; rfl
  | succ n ih =>
    intro s
    rw [Function.iterate_succ_apply, ← pass_e0 cfg s]
    exact ih _

theorem e_loop_e1 (cfg : Config) (n : Nat) : ∀ s : State,
    ((e_loop cfg n s).e_steps.e1, (e_loop cfg n s).e_pulses.e1) =
      if 1 < cfg.EXTRUDERS then e_drain^[n] (s.e_steps.e1, s.e_pulses.e1)
      else (s.e_steps.e1, s.e_pulses.e1) := by
  induction n with
  | zero => intro s; simp [e_loop]
  | succ n ih =>
    intro s
    have h := ih (e2_block cfg (e1_block cfg (e0_block s)))
    rw [pass_e1 cfg s] at h
    show ((e_loop cfg n _).e_steps.e1, (e_loop cfg n _).e_pulses.e1) = _
    rw [h, Function.iterate_succ_apply]
    split_ifs <;> rfl

theorem e_loop_e2 (cfg : Config) (n : Nat) : ∀ s : State,
    ((e_loop cfg n s).e_steps.e2, (e_loop cfg n s).e_pulses.e2) =
      if 2 < cfg.EXTRUDERS then e_drain^[n] (s.e_steps.e2, s.e_pulses.e2)
      else (s.e_steps.e2, s.e_pulses.e2) := by
  induction n with
  | zero => intro s; simp [e_loop]
  | succ n ih =>
    intro s
    have h := ih (e2_block cfg (e1_block cfg (e0_block s)))
    rw [pass_e2 cfg s] at h
    show ((e_loop cfg n _).e_steps.e2, (e_loop cfg n _).e_pulses.e2) = _
    rw [h, Function.iterate_succ_apply]
    split_ifs <;> rfl


theorem e_interrupt_e0 (cfg : Config) (s : State)
    (h0 : -2147483648 ≤ s.e_steps.e0 ∧ s.e_steps.e0 < 2147483648) :
    (ISR_TIMER0_COMPA_vect cfg s).e_steps.e0 =
      s.e_steps.e0 - Int.sign s.e_steps.e0 * (min s.e_steps.e0.natAbs 4 : Nat) ∧
    (ISR_TIMER0_COMPA_vect cfg s).e_pulses.e0 = s.e_pulses.e0 + min s.e_steps.e0.natAbs 4 := by
  have h := e_loop_e0 cfg 4
    { { s with old_OCR0A := u8 (s.old_OCR0A + 52) } with OCR0A := u8 (s.old_OCR0A + 52) }
  have e : e_drain^[4] (s.e_steps.e0, s.e_pulses.e0) = _ :=
    e_drain_iterate 4 s.e_steps.e0 s.e_pulses.e0 h0.1 h0.2
  exact ⟨(congrArg Prod.fst h).trans (congrArg Prod.fst e),
    (congrArg Prod.snd h).trans (congrArg Prod.snd e)⟩

theorem e_interrupt_e1 (cfg : Config) (s : State)
    (h1 : -2147483648 ≤ s.e_steps.e1 ∧ s.e_steps.e1 < 2147483648) :
    (1 < cfg.EXTRUDERS →
      (ISR_TIMER0_COMPA_vect cfg s).e_steps.e1 =
        s.e_steps.e1 - Int.sign s.e_steps.e1 * (min s.e_steps.e1.natAbs 4 : Nat) ∧
      (ISR_TIMER0_COMPA_vect cfg s).e_pulses.e1 =
        s.e_pulses.e1 + min s.e_steps.e1.natAbs 4) ∧
    (¬1 < cfg.EXTRUDERS →
      (ISR_TIMER0_COMPA_vect cfg s).e_steps.e1 = s.e_steps.e1 ∧
      (ISR_TIMER0_COMPA_vect cfg s).e_pulses.e1 = s.e_pulses.e1) := by
  have h := e_loop_e1 cfg 4
    { { s with old_OCR0A := u8 (s.old_OCR0A + 52) } with OCR0A := u8 (s.old_OCR0A + 52) }
  have e : e_drain^[4] (s.e_steps.e1, s.e_pulses.e1) = _ :=
    e_drain_iterate 4 s.e_steps.e1 s.e_pulses.e1 h1.1 h1.2
  constructor
  · intro hx
    rw [if_pos hx] at h
    exact ⟨(congrArg Prod.fst h).trans (congrArg Prod.fst e),
      (congrArg Prod.snd h).trans (congrArg Prod.snd e)⟩
  · intro hx
    rw [if_neg hx] at h
    exact ⟨congrArg Prod.fst h, congrArg Prod.snd h⟩

theorem e_interrupt_e2 (cfg : Config) (s : State)
    (h2 : -2147483648 ≤ s.e_steps.e2 ∧ s.e_steps.e2 < 2147483648) :
    (2 < cfg.EXTRUDERS →
      (ISR_TIMER0_COMPA_vect cfg s).e_steps.e2 =
        s.e_steps.e2 - Int.sign s.e_steps.e2 * (min s.e_steps.e2.natAbs 4 : Nat) ∧
      (ISR_TIMER0_COMPA_vect cfg s).e_pulses.e2 =
        s.e_pulses.e2 + min s.e_steps.e2.natAbs 4) ∧
    (¬2 < cfg.EXTRUDERS →
      (ISR_TIMER0_COMPA_vect cfg s).e_steps.e2 = s.e_steps.e2 ∧
      (ISR_TIMER0_COMPA_vect cfg s).e_pulses.e2 = s.e_pulses.e2) := by
  have h := e_loop_e2 cfg 4
    { { s with old_OCR0A := u8 (s.old_OCR0A + 52) } with OCR0A := u8 (s.old_OCR0A + 52) }
  have e : e_drain^[4] (s.e_steps.e2, s.e_pulses.e2) = _ :=
    e_drain_iterate 4 s.e_steps.e2 s.e_pulses.e2 h2.1 h2.2
  constructor
  · intro hx
    rw [if_pos hx] at h
    exact ⟨(congrArg Prod.fst h).trans (congrArg Prod.fst e),
      (congrArg Prod.snd h).trans (congrArg Prod.snd e)⟩
  · intro hx
    rw [if_neg hx] at h
    exact ⟨congrArg Prod.fst h, congrArg Prod.snd h⟩

/-- The signed pulse count of extruder 0 after its block of the loop body: a pending
count below zero gives a pulse with the DIR pin at `INVERT_E0_DIR`, one above zero a
pulse with the DIR pin at `!INVERT_E0_DIR`. -/
theorem e0_block_moved (s : State) :
    (e0_block s).e_moved.e0 = s.e_moved.e0 +
      (if s.e_steps.e0 < 0 then -1 else if s.e_steps.e0 > 0 then 1 else 0) ∧
    (e0_block s).e_moved.e1 = s.e_moved.e1 ∧ (e0_block s).e_moved.e2 = s.e_moved.e2 := by
  unfold e0_block e0_step
  split_ifs <;> simp <;> omega

theorem e1_block_moved (cfg : Config) (s : State) :
    (e1_block cfg s).e_moved.e1 = s.e_moved.e1 +
      (if 1 < cfg.EXTRUDERS then
        (if s.e_steps.e1 < 0 then -1 else if s.e_steps.e1 > 0 then 1 else 0)
       else 0) ∧
    (e1_block cfg s).e_moved.e0 = s.e_moved.e0 ∧ (e1_block cfg s).e_moved.e2 = s.e_moved.e2 := by
  unfold e1_block e1_step
  split_ifs <;> simp <;> omega

theorem e2_block_moved (cfg : Config) (s : State) :
    (e2_block cfg s).e_moved.e2 = s.e_moved.e2 +
      (if 2 < cfg.EXTRUDERS then
        (if s.e_steps.e2 < 0 then -1 else if s.e_steps.e2 > 0 then 1 else 0)
       else 0) ∧
    (e2_block cfg s).e_moved.e0 = s.e_moved.e0 ∧ (e2_block cfg s).e_moved.e1 = s.e_moved.e1 := by
  unfold e2_block e2_step
  split_ifs <;> simp <;> omega

/-- One pass of the loop keeps, for each extruder, the sum of the pending count and the
signed pulse count, and keeps the pending count in the range of `long`. -/
theorem pass_moved (cfg : Config) (s : State)
    (h0 : -2147483648 ≤ s.e_steps.e0 ∧ s.e_steps.e0 < 2147483648)
    (h1 : -2147483648 ≤ s.e_steps.e1 ∧ s.e_steps.e1 < 2147483648)
    (h2 : -2147483648 ≤ s.e_steps.e2 ∧ s.e_steps.e2 < 2147483648) :
    ((e2_block cfg (e1_block cfg (e0_block s))).e_moved.e0 +
        (e2_block cfg (e1_block cfg (e0_block s))).e_steps.e0 = s.e_moved.e0 + s.e_steps.e0 ∧
      -2147483648 ≤ (e2_block cfg (e1_block cfg (e0_block s))).e_steps.e0 ∧
      (e2_block cfg (e1_block cfg (e0_block s))).e_steps.e0 < 2147483648) ∧
    ((e2_block cfg (e1_block cfg (e0_block s))).e_moved.e1 +
        (e2_block cfg (e1_block cfg (e0_block s))).e_steps.e1 = s.e_moved.e1 + s.e_steps.e1 ∧
      -2147483648 ≤ (e2_block cfg (e1_block cfg (e0_block s))).e_steps.e1 ∧
      (e2_block cfg (e1_block cfg (e0_block s))).e_steps.e1 < 2147483648) ∧
    ((e2_block cfg (e1_block cfg (e0_block s))).e_moved.e2 +
        (e2_block cfg (e1_block cfg (e0_block s))).e_steps.e2 = s.e_moved.e2 + s.e_steps.e2 ∧
      -2147483648 ≤ (e2_block cfg (e1_block cfg (e0_block s))).e_steps.e2 ∧
      (e2_block cfg (e1_block cfg (e0_block s))).e_steps.e2 < 2147483648) := by
  obtain ⟨a1, -, a3, a4, -, -⟩ := e0_block_spec s
  obtain ⟨b1, -, b3, b4, -, -⟩ := e1_block_spec cfg (e0_block s)
  obtain ⟨c1, -, c3, c4, -, -⟩ := e2_block_spec cfg (e1_block cfg (e0_block s))
  obtain ⟨m1, m2, m3⟩ := e0_block_moved s
  obtain ⟨n1, n2, n3⟩ := e1_block_moved cfg (e0_block s)
  obtain ⟨o1, o2, o3⟩ := e2_block_moved cfg (e1_block cfg (e0_block s))
  have r0 : s32 (s.e_steps.e0 + 1) = s.e_steps.e0 + 1 ∨ ¬ s.e_steps.e0 < 0 := by
    by_cases h : s.e_steps.e0 < 0
    · exact Or.inl (s32_of_range _ (by omega) (by omega))
    · exact Or.inr h
  have r0' : s32 (s.e_steps.e0 - 1) = s.e_steps.e0 - 1 ∨ ¬ s.e_steps.e0 > 0 := by
    by_cases h : s.e_steps.e0 > 0
    · exact Or.inl (s32_of_range _ (by omega) (by omega))
    · exact Or.inr h
  have r1 : s32 (s.e_steps.e1 + 1) = s.e_steps.e1 + 1 ∨ ¬ s.e_steps.e1 < 0 := by
    by_cases h : s.e_steps.e1 < 0
    · exact Or.inl (s32_of_range _ (by omega) (by omega))
    · exact Or.inr h
  have r1' : s32 (s.e_steps.e1 - 1) = s.e_steps.e1 - 1 ∨ ¬ s.e_steps.e1 > 0 := by
    by_cases h : s.e_steps.e1 > 0
    · exact Or.inl (s32_of_range _ (by omega) (by omega))
    · exact Or.inr h
  have r2 : s32 (s.e_steps.e2 + 1) = s.e_steps.e2 + 1 ∨ ¬ s.e_steps.e2 < 0 := by
    by_cases h : s.e_steps.e2 < 0
    · exact Or.inl (s32_of_range _ (by omega) (by omega))
    · exact Or.inr h
  have r2' : s32 (s.e_steps.e2 - 1) = s.e_steps.e2 - 1 ∨ ¬ s.e_steps.e2 > 0 := by
    by_cases h : s.e_steps.e2 > 0
    · exact Or.inl (s32_of_range _ (by omega) (by omega))
    · exact Or.inr h
  refine ⟨?_, ?_, ?_⟩
  · rw [o2, n2, m1, c3, b3, a1]
    generalize s32 (s.e_steps.e0 + 1) = u at r0 ⊢
    generalize s32 (s.e_steps.e0 - 1) = v at r0' ⊢
    split_ifs <;> omega
  · rw [o3, n1, m2, c4, b1, a3]
    generalize s32 (s.e_steps.e1 + 1) = u at r1 ⊢
    generalize s32 (s.e_steps.e1 - 1) = v at r1' ⊢
    split_ifs <;> omega
  · rw [o1, n3, m3, c1, b4, a4]
    generalize s32 (s.e_steps.e2 + 1) = u at r2 ⊢
    generalize s32 (s.e_steps.e2 - 1) = v at r2' ⊢
    split_ifs <;> omega

/-- The loop of the extruder interrupt keeps, for each extruder, the sum of the pending
count and the signed pulse count. -/
theorem e_loop_moved (cfg : Config) (n : Nat) : ∀ s : State,
    (-2147483648 ≤ s.e_steps.e0 ∧ s.e_steps.e0 < 2147483648) →
    (-2147483648 ≤ s.e_steps.e1 ∧ s.e_steps.e1 < 2147483648) →
    (-2147483648 ≤ s.e_steps.e2 ∧ s.e_steps.e2 < 2147483648) →
    (e_loop cfg n s).e_moved.e0 + (e_loop cfg n s).e_steps.e0 = s.e_moved.e0 + s.e_steps.e0 ∧
    (e_loop cfg n s).e_moved.e1 + (e_loop cfg n s).e_steps.e1 = s.e_moved.e1 + s.e_steps.e1 ∧
    (e_loop cfg n s).e_moved.e2 + (e_loop cfg n s).e_steps.e2 =
      s.e_moved.e2 + s.e_steps.e2 := by
  induction n with
  | zero => intro s _ _ _; exact ⟨rfl, rfl, rfl⟩
  | succ n ih =>
    intro s h0 h1 h2
    obtain ⟨⟨p0, q0, q0'⟩, ⟨p1, q1, q1'⟩, ⟨p2, q2, q2'⟩⟩ := pass_moved cfg s h0 h1 h2
    obtain ⟨g0, g1, g2⟩ := ih (e2_block cfg (e1_block cfg (e0_block s)))
      ⟨q0, q0'⟩ ⟨q1, q1'⟩ ⟨q2, q2'⟩
    exact ⟨g0.trans p0, g1.trans p1, g2.trans p2⟩

theorem e_interrupt_moved (cfg : Config) (s : State)
    (h0 : -2147483648 ≤ s.e_steps.e0 ∧ s.e_steps.e0 < 2147483648)
    (h1 : -2147483648 ≤ s.e_steps.e1 ∧ s.e_steps.e1 < 2147483648)
    (h2 : -2147483648 ≤ s.e_steps.e2 ∧ s.e_steps.e2 < 2147483648) :
    (ISR_TIMER0_COMPA_vect cfg s).e_moved.e0 + (ISR_TIMER0_COMPA_vect cfg s).e_steps.e0 =
      s.e_moved.e0 + s.e_steps.e0 ∧
    (ISR_TIMER0_COMPA_vect cfg s).e_moved.e1 + (ISR_TIMER0_COMPA_vect cfg s).e_steps.e1 =
      s.e_moved.e1 + s.e_steps.e1 ∧
    (ISR_TIMER0_COMPA_vect cfg s).e_moved.e2 + (ISR_TIMER0_COMPA_vect cfg s).e_steps.e2 =
      s.e_moved.e2 + s.e_steps.e2 := by
  have h := e_loop_moved cfg 4
    { { s with old_OCR0A := u8 (s.old_OCR0A + 52) } with OCR0A := u8 (s.old_OCR0A + 52) }
    h0 h1 h2
  exact ⟨h.1, h.2.1, h.2.2⟩

/-- The drain of an extruder from the count after the activation, the pulses issued and
the sum of count and signed pulses. -/
theorem drains_of_sum (v v1 m m1 : Int) (p p1 : Nat)
    (hv : v1 = v - Int.sign v * (min v.natAbs 4 : Nat))
    (hp : p1 = p + min v.natAbs 4) (hm : m1 + v1 = m + v) :
    drains_toward_zero v v1 p p1 m m1 := by
  unfold drains_toward_zero
  rw [Nat.min_comm 4 v.natAbs]
  rcases lt_trichotomy v 0 with h | h | h
  · rw [Int.sign_eq_neg_one_of_neg h] at hv ⊢
    refine ⟨hp, ?_, hv, ?_, ?_, ?_, ?_⟩ <;> omega
  · subst h
    simp only [Int.sign_zero, Int.natAbs_zero, Nat.zero_min, Nat.cast_zero, mul_zero,
      sub_zero, add_zero] at hv hp ⊢
    subst hv
    refine ⟨hp, ?_, rfl, le_refl _, fun _ => le_refl _, fun _ => le_refl _, fun _ => ⟨hp, ?_, rfl⟩⟩
      <;> omega
  · rw [Int.sign_eq_one_of_pos h] at hv ⊢
    refine ⟨hp, ?_, hv, ?_, ?_, ?_, ?_⟩ <;> omega

/-! ## Lemmas on the inline-assembly multiplications -/

/-- The 16x8 macro returns the 24-bit product without its low byte, plus bit 0 of the
product (the carry of `lsr r0`). -/
theorem MultiU16X8toH16_eq (c i : Nat) (hc : c < 256) (hi : i < 65536) :
    MultiU16X8toH16 c i = c * i / 256 + c * i % 2 := by
  have e1 : c % 256 = c := Nat.mod_eq_of_lt hc
  have e2 : i / 256 % 256 = i / 256 := Nat.mod_eq_of_lt (by omega)
  have b1 : c * (i / 256) ≤ 255 * 255 := Nat.mul_le_mul (by omega) (by omega)
  have b2 : c * (i % 256) ≤ 255 * 255 := Nat.mul_le_mul (by omega) (by omega)
  have hp : c * i = 256 * (c * (i / 256)) + c * (i % 256) := by
    have := Nat.div_add_mod i 256
    calc c * i = c * (256 * (i / 256) + i % 256) := by rw [this]
      _ = 256 * (c * (i / 256)) + c * (i % 256) := by ring
  unfold MultiU16X8toH16
  simp only [avr_mul, avr_add, avr_adc, avr_lsr, e1, e2]
  rw [hp]
  generalize c * (i / 256) = p1 at b1 ⊢
  generalize c * (i % 256) = p2 at b2 ⊢
  simp only [decide_eq_true_eq]
  split_ifs <;> omega

/-- The two bytes of `mul` make up the product of two bytes. -/
theorem avr_mul_spec (a b : Nat) (ha : a < 256) (hb : b < 256) :
    (avr_mul a b).1 < 256 ∧ (avr_mul a b).2 < 256 ∧
    (avr_mul a b).1 + 256 * (avr_mul a b).2 = a * b := by
  have h : a * b ≤ 255 * 255 := Nat.mul_le_mul (by omega) (by omega)
  simp only [avr_mul]
  generalize a * b = p at h ⊢
  omega

/-- The sequence `add r27, lo; adc %A0, hi; adc %B0, r26` adds a 16-bit value to the
24-bit accumulator (r27, %A0, %B0), modulo 2^24. -/
theorem acc_add16 (r a b lo hi : Nat) (hr : r < 256) (ha : a < 256)
    (hlo : lo < 256) (hhi : hi < 256) :
    (avr_add r lo).1 < 256 ∧ (avr_adc a hi (avr_add r lo).2).1 < 256 ∧
    (avr_adc b 0 (avr_adc a hi (avr_add r lo).2).2).1 < 256 ∧
    (avr_add r lo).1 + 256 * (avr_adc a hi (avr_add r lo).2).1 +
      65536 * (avr_adc b 0 (avr_adc a hi (avr_add r lo).2).2).1 =
      (r + 256 * a + 65536 * b + lo + 256 * hi) % 16777216 := by
  simp only [avr_add, avr_adc, decide_eq_true_eq]
  split_ifs <;> omega

/-- The sequence `add r27, v; adc %A0, r26; adc %B0, r26` adds a byte to the 24-bit
accumulator, modulo 2^24. -/
theorem acc_add8 (r a b v : Nat) (hr : r < 256) (ha : a < 256) (hv : v < 256) :
    (avr_add r v).1 < 256 ∧ (avr_adc a 0 (avr_add r v).2).1 < 256 ∧
    (avr_adc b 0 (avr_adc a 0 (avr_add r v).2).2).1 < 256 ∧
    (avr_add r v).1 + 256 * (avr_adc a 0 (avr_add r v).2).1 +
      65536 * (avr_adc b 0 (avr_adc a 0 (avr_add r v).2).2).1 =
      (r + 256 * a + 65536 * b + v) % 16777216 := by
  simp only [avr_add, avr_adc, decide_eq_true_eq]
  split_ifs <;> omega

/-- The sequence `add %A0, lo; adc %B0, hi` adds a 16-bit value to the result word,
modulo 2^16. -/
theorem hi_add16 (a b lo hi : Nat) (ha : a < 256) (hlo : lo < 256) :
    (avr_add a lo).1 < 256 ∧ (avr_adc b hi (avr_add a lo).2).1 < 256 ∧
    (avr_add a lo).1 + 256 * (avr_adc b hi (avr_add a lo).2).1 =
      (a + 256 * b + lo + 256 * hi) % 65536 := by
  simp only [avr_add, avr_adc, decide_eq_true_eq]
  split_ifs <;> omega

/-- The instruction `add %B0, v` on the high result byte. -/
theorem top_add8 (b v : Nat) :
    (avr_add b v).1 < 256 ∧ (avr_add b v).1 = (b + v) % 256 := by
  simp only [avr_add]
  exact ⟨Nat.mod_lt _ (by norm_num), trivial⟩

/-- The sequence `lsr r27; adc %A0, r26; adc %B0, r26` adds bit 0 of r27 to the result
word, modulo 2^16. -/
theorem acc_round (r a b : Nat) (ha : a < 256) :
    (avr_adc a 0 (avr_lsr r).2).1 +
      256 * (avr_adc b 0 (avr_adc a 0 (avr_lsr r).2).2).1 =
      (a + 256 * b + r % 2) % 65536 := by
  simp only [avr_lsr, avr_adc, decide_eq_true_eq]
  split_ifs <;> omega

/-- A natural number below 2^32 is its own `unsigned long` value. -/
theorem toU32_natCast (n : Nat) (h : n < 4294967296) : toU32 (n : Int) = n := by
  unfold toU32
  rw [Int.emod_eq_of_lt (by omega) (by omega)]
  exact Int.toNat_natCast n

/-- The result word after the three products of weight 2^24 and 2^32. -/
theorem high16_sum (u2 v2 u3 v3 u4 v4 b h : Nat) (hb : b = (v2 + u3) % 256)
    (hh : h = (u2 + 256 * b + u4 + 256 * v4) % 65536) :
    h = ((u2 + 256 * v2) + (u4 + 256 * v4) + 256 * (u3 + 256 * v3)) % 65536 := by
  omega

/-- The accumulator made of r27 and the result word. -/
theorem acc_init (r a b s : Nat) (hr : r < 256) (hh : a + 256 * b = s % 65536) :
    r + 256 * a + 65536 * b = (r + 256 * s) % 16777216 := by
  omega

/-- One 16-bit addition to the accumulator, on the sum modulo 2^24. -/
theorem acc_step (t0 t1 u v s : Nat) (h1 : t1 = (t0 + u + 256 * v) % 16777216)
    (h0 : t0 = s % 16777216) : t1 = (s + (u + 256 * v)) % 16777216 := by
  omega

/-- One 8-bit addition to the accumulator, on the sum modulo 2^24. -/
theorem acc_once (t0 t1 p s : Nat) (h1 : t1 = (t0 + p) % 16777216)
    (h0 : t0 = s % 16777216) : t1 = (s + p) % 16777216 := by
  omega

/-- The result word after the rounding step, from the accumulator. -/
theorem round_sum (r a b res t : Nat) (hr : r < 256)
    (ht : r + 256 * a + 65536 * b = t % 16777216)
    (hres : res = (a + 256 * b + r % 2) % 65536) :
    res = (t / 256 + t % 2) % 65536 := by
  omega

/-- The high byte of a 16-bit product. -/
theorem hi_byte (u v p : Nat) (hu : u < 256) (hp : u + 256 * v = p) : p / 256 = v := by
  omega

/-- The 24x24 macro on the bytes of its operands: the partial products of weight 2^16
and above are summed with the high bytes of `A1*B2` and `B1*A2` (`A1*A2` and the low
bytes of those two are dropped), the sum loses its low byte and gains its bit 0. -/
theorem MultiU24X24toH16_bytes (A1 B1 C1 A2 B2 C2 : Nat)
    (hA1 : A1 < 256) (hB1 : B1 < 256) (hC1 : C1 < 256)
    (hA2 : A2 < 256) (hB2 : B2 < 256) (hC2 : C2 < 256) :
    MultiU24X24toH16 ((A1 + 256 * B1 + 65536 * C1 : Nat) : Int)
      ((A2 + 256 * B2 + 65536 * C2 : Nat) : Int) =
      ((A1 * B2 / 256 + B1 * A2 / 256 + A1 * C2 + B1 * B2 + C1 * A2 +
          256 * (B1 * C2 + C1 * B2) + 65536 * (C1 * C2)) / 256 +
        (A1 * B2 / 256 + B1 * A2 / 256 + A1 * C2 + B1 * B2 + C1 * A2 +
          256 * (B1 * C2 + C1 * B2) + 65536 * (C1 * C2)) % 2) % 65536 := by
  have ex := toU32_natCast (A1 + 256 * B1 + 65536 * C1) (by omega)
  have ey := toU32_natCast (A2 + 256 * B2 + 65536 * C2) (by omega)
  unfold MultiU24X24toH16
  lift_lets
  intro a1 b1 c1 a2 b2 c2 r26 m1 r27a m2 a0a b0a m3 b0b m4 x4 a0c b0c m5 w5 r27b x5 a0d b0d
    m6 w6 r27c x6 a0e b0e m7 w7 r27d x7 a0f b0f m8 w8 r27e x8 a0g b0g l x9 a0h b0h
  have ea1 : a1 = A1 := by
    show toU32 _ % 256 = A1
    rw [ex]; omega
  have eb1 : b1 = B1 := by
    show toU32 _ / 256 % 256 = B1
    rw [ex]; omega
  have ec1 : c1 = C1 := by
    show toU32 _ / 65536 % 256 = C1
    rw [ex]; omega
  have ea2 : a2 = A2 := by
    show toU32 _ % 256 = A2
    rw [ey]; omega
  have eb2 : b2 = B2 := by
    show toU32 _ / 256 % 256 = B2
    rw [ey]; omega
  have ec2 : c2 = C2 := by
    show toU32 _ / 65536 % 256 = C2
    rw [ey]; omega
  have ha1 : a1 < 256 := by rw [ea1]; exact hA1
  have hb1 : b1 < 256 := by rw [eb1]; exact hB1
  have hc1 : c1 < 256 := by rw [ec1]; exact hC1
  have ha2 : a2 < 256 := by rw [ea2]; exact hA2
  have hb2 : b2 < 256 := by rw [eb2]; exact hB2
  have hc2 : c2 < 256 := by rw [ec2]; exact hC2
  have p1 : m1.1 < 256 ∧ m1.2 < 256 ∧ m1.1 + 256 * m1.2 = a1 * b2 :=
    avr_mul_spec a1 b2 ha1 hb2
  have p2 : m2.1 < 256 ∧ m2.2 < 256 ∧ m2.1 + 256 * m2.2 = b1 * c2 :=
    avr_mul_spec b1 c2 hb1 hc2
  have p3 : m3.1 < 256 ∧ m3.2 < 256 ∧ m3.1 + 256 * m3.2 = c1 * c2 :=
    avr_mul_spec c1 c2 hc1 hc2
  have p4 : m4.1 < 256 ∧ m4.2 < 256 ∧ m4.1 + 256 * m4.2 = c1 * b2 :=
    avr_mul_spec c1 b2 hc1 hb2
  have p5 : m5.1 < 256 ∧ m5.2 < 256 ∧ m5.1 + 256 * m5.2 = a1 * c2 :=
    avr_mul_spec a1 c2 ha1 hc2
  have p6 : m6.1 < 256 ∧ m6.2 < 256 ∧ m6.1 + 256 * m6.2 = b1 * b2 :=
    avr_mul_spec b1 b2 hb1 hb2
  have p7 : m7.1 < 256 ∧ m7.2 < 256 ∧ m7.1 + 256 * m7.2 = c1 * a2 :=
    avr_mul_spec c1 a2 hc1 ha2
  have p8 : m8.1 < 256 ∧ m8.2 < 256 ∧ m8.1 + 256 * m8.2 = b1 * a2 :=
    avr_mul_spec b1 a2 hb1 ha2
  -- the two result bytes after the products of weight 2^24 and 2^32
  have sA : a0a = m2.1 ∧ b0a = m2.2 ∧ r27a = m1.2 := ⟨rfl, rfl, rfl⟩
  have sB : b0b < 256 ∧ b0b = (b0a + m3.1) % 256 := top_add8 b0a m3.1
  have sC : a0c < 256 ∧ b0c < 256 ∧
      a0c + 256 * b0c = (a0a + 256 * b0b + m4.1 + 256 * m4.2) % 65536 :=
    hi_add16 a0a b0b m4.1 m4.2 p2.1 p4.1
  -- the three products of weight 2^16 and the high byte of the last one of weight 2^8
  have sD : r27b < 256 ∧ a0d < 256 ∧ b0d < 256 ∧ r27b + 256 * a0d + 65536 * b0d =
      (r27a + 256 * a0c + 65536 * b0c + m5.1 + 256 * m5.2) % 16777216 :=
    acc_add16 r27a a0c b0c m5.1 m5.2 p1.2.1 sC.1 p5.1 p5.2.1
  have sE : r27c < 256 ∧ a0e < 256 ∧ b0e < 256 ∧ r27c + 256 * a0e + 65536 * b0e =
      (r27b + 256 * a0d + 65536 * b0d + m6.1 + 256 * m6.2) % 16777216 :=
    acc_add16 r27b a0d b0d m6.1 m6.2 sD.1 sD.2.1 p6.1 p6.2.1
  have sF : r27d < 256 ∧ a0f < 256 ∧ b0f < 256 ∧ r27d + 256 * a0f + 65536 * b0f =
      (r27c + 256 * a0e + 65536 * b0e + m7.1 + 256 * m7.2) % 16777216 :=
    acc_add16 r27c a0e b0e m7.1 m7.2 sE.1 sE.2.1 p7.1 p7.2.1
  have sG : r27e < 256 ∧ a0g < 256 ∧ b0g < 256 ∧ r27e + 256 * a0g + 65536 * b0g =
      (r27d + 256 * a0f + 65536 * b0f + m8.2) % 16777216 :=
    acc_add8 r27d a0f b0f m8.2 sF.1 sF.2.1 p8.2.1
  have sH : a0h + 256 * b0h = (a0g + 256 * b0g + r27e % 2) % 65536 :=
    acc_round r27e a0g b0g sG.2.1
  have hH := high16_sum m2.1 m2.2 m3.1 m3.2 m4.1 m4.2 b0b (a0c + 256 * b0c) sB.2 sC.2.2
  have h0 := acc_init r27a a0c b0c _ p1.2.1 hH
  have hD := acc_step _ _ m5.1 m5.2 _ sD.2.2.2 h0
  have hE := acc_step _ _ m6.1 m6.2 _ sE.2.2.2 hD
  have hF := acc_step _ _ m7.1 m7.2 _ sF.2.2.2 hE
  have hG := acc_once _ _ m8.2 _ sG.2.2.2 hF
  have hR := round_sum _ _ _ _ _ sG.1 hG sH
  have q1 : a1 * b2 / 256 = r27a := hi_byte m1.1 m1.2 _ p1.1 p1.2.2
  have q8 : b1 * a2 / 256 = m8.2 := hi_byte m8.1 m8.2 _ p8.1 p8.2.2
  show a0h + 256 * b0h = _
  rw [hR, ← ea1, ← eb1, ← ec1, ← ea2, ← eb2, ← ec2, q1, q8, ← p2.2.2, ← p3.2.2, ← p4.2.2,
    ← p5.2.2, ← p6.2.2, ← p7.2.2]
  have e : r27a + 256 * (m2.1 + 256 * m2.2 + (m4.1 + 256 * m4.2) + 256 * (m3.1 + 256 * m3.2)) +
      (m5.1 + 256 * m5.2) + (m6.1 + 256 * m6.2) + (m7.1 + 256 * m7.2) + m8.2 =
      r27a + m8.2 + (m5.1 + 256 * m5.2) + (m6.1 + 256 * m6.2) + (m7.1 + 256 * m7.2) +
        256 * (m2.1 + 256 * m2.2 + (m4.1 + 256 * m4.2)) + 65536 * (m3.1 + 256 * m3.2) := by
    ring
  rw [e]

/-- The sum of the macro is at most 2 below the product shifted by 16. -/
theorem near_shift (q p1 p8 m h x s : Nat) (hq : q ≤ 65025)
    (hx : x = q + 256 * (p1 + p8) + 65536 * m + 16777216 * h)
    (hs : s = p1 / 256 + p8 / 256 + m + 256 * h) :
    x / 65536 = s ∨ x / 65536 = s + 1 ∨ x / 65536 = s + 2 := by
  omega

/-- Dropping the low byte and adding bit 0 keeps the result within 1 of the shift
by 24. -/
theorem near_round (x s : Nat)
    (h : x / 65536 = s ∨ x / 65536 = s + 1 ∨ x / 65536 = s + 2) :
    (s / 256 + s % 2) % 65536 = (x / 16777216 + 65535) % 65536 ∨
    (s / 256 + s % 2) % 65536 = x / 16777216 % 65536 ∨
    (s / 256 + s % 2) % 65536 = (x / 16777216 + 1) % 65536 := by
  have hx : x / 16777216 = x / 65536 / 256 := by rw [Nat.div_div_eq_div_mul]
  rw [hx]
  have h0 : s / 256 + s % 2 = s / 256 ∨ s / 256 + s % 2 = s / 256 + 1 := by omega
  have h1 : (s + 1) / 256 = s / 256 ∨ ((s + 1) / 256 = s / 256 + 1 ∧ s % 2 = 1) := by omega
  have h2 : (s + 2) / 256 = s / 256 ∨ ((s + 2) / 256 = s / 256 + 1 ∧ s % 2 = 1) ∨
      ((s + 2) / 256 = s / 256 + 1 ∧ s % 2 = 0) := by omega
  rcases h with h | h | h
  · rw [h]
    rcases h0 with e | e <;> rw [e]
    · exact Or.inr (Or.inl rfl)
    · exact Or.inr (Or.inr rfl)
  · rw [h]
    rcases h1 with e1 | ⟨e1, e2⟩
    · rw [e1]
      rcases h0 with e | e <;> rw [e]
      · exact Or.inr (Or.inl rfl)
      · exact Or.inr (Or.inr rfl)
    · rw [e1, e2]
      exact Or.inr (Or.inl rfl)
  · rw [h]
    rcases h2 with e1 | ⟨e1, e2⟩ | ⟨e1, e2⟩
    · rw [e1]
      rcases h0 with e | e <;> rw [e]
      · exact Or.inr (Or.inl rfl)
      · exact Or.inr (Or.inr rfl)
    · rw [e1, e2]
      exact Or.inr (Or.inl rfl)
    · rw [e1, e2]
      refine Or.inl ?_
      generalize s / 256 = k
      omega

/-- The 24x24 macro on 24-bit operands is within 1, modulo 2^16, of the product
shifted right by 24. -/
theorem MultiU24X24toH16_near (a b : Nat) (ha : a < 16777216) (hb : b < 16777216) :
    MultiU24X24toH16 (a : Int) (b : Int) = (a * b / 16777216 + 65535) % 65536 ∨
    MultiU24X24toH16 (a : Int) (b : Int) = a * b / 16777216 % 65536 ∨
    MultiU24X24toH16 (a : Int) (b : Int) = (a * b / 16777216 + 1) % 65536 := by
  obtain ⟨A1, B1, C1, hA1, hB1, hC1, rfl⟩ : ∃ A1 B1 C1, A1 < 256 ∧ B1 < 256 ∧ C1 < 256 ∧
      a = A1 + 256 * B1 + 65536 * C1 :=
    ⟨a % 256, a / 256 % 256, a / 65536, by omega, by omega, by omega, by omega⟩
  obtain ⟨A2, B2, C2, hA2, hB2, hC2, rfl⟩ : ∃ A2 B2 C2, A2 < 256 ∧ B2 < 256 ∧ C2 < 256 ∧
      b = A2 + 256 * B2 + 65536 * C2 :=
    ⟨b % 256, b / 256 % 256, b / 65536, by omega, by omega, by omega, by omega⟩
  rw [MultiU24X24toH16_bytes A1 B1 C1 A2 B2 C2 hA1 hB1 hC1 hA2 hB2 hC2]
  apply near_round
  apply near_shift (A1 * A2) (A1 * B2) (B1 * A2) (A1 * C2 + B1 * B2 + C1 * A2 + 65536 * (C1 * C2))
    (B1 * C2 + C1 * B2)
  · exact (show A1 * A2 ≤ 255 * 255 from
      Nat.mul_le_mul (Nat.le_of_lt_succ hA1) (Nat.le_of_lt_succ hA2))
  · ring
  · ring

/-! ## Lemmas on the progress of a block -/


/-- The stepping of a tick advances the event counter by at least one: by `step_loops`
in each pass of the `for` loop, by `1 << step_loops_shift` in the `USE_L6470` build. -/
theorem step_block_progress (cfg : Config) (s : State) (b : block_t)
    (h1 : s.step_events_completed ≤ b.step_event_count)
    (hN : b.step_event_count < 2147483648)
    (hm : mult_ok (step_multiplier cfg s)) :
    s.step_events_completed + 1 ≤ (step_block cfg s b).step_events_completed := by
  cases hL : cfg.USE_L6470
  · have hm2 : mult_ok s.step_loops := by simpa [step_multiplier, hL] using hm
    have hl4 : 1 ≤ s.step_loops ∧ s.step_loops ≤ 4 := by rcases hm2 with h | h | h <;> omega
    have e : step_block cfg s b = step_loop cfg b s.step_loops s := by
      simp [step_block, hL]
    rw [e]
    obtain ⟨n, hn⟩ : ∃ n, s.step_loops = n + 1 := ⟨s.step_loops - 1, by omega⟩
    obtain ⟨hc, hs⟩ := step_event_control cfg s b
    have hu : (count_step_loops (step_event cfg s b)).step_events_completed
        = s.step_events_completed + s.step_loops := by
      show u32 _ = _
      rw [hs, hc.1]
      exact Nat.mod_eq_of_lt (by omega)
    have hl : (count_step_loops (step_event cfg s b)).step_loops = s.step_loops := hc.1
    rw [hn]
    simp only [step_loop]
    split
    · rw [hu]; omega
    · rename_i hlt
      rw [hu] at hlt
      have g := (step_loop_sec cfg b n (count_step_loops (step_event cfg s b))
        (by rw [hu]; omega) (by rw [hl]; omega)).1
      rw [hu] at g
      omega
  · have hk2 : s.step_loops_shift ≤ 2 :=
      mult_ok_shift _ (by simpa [step_multiplier, hL] using hm)
    have hp : 2 ^ s.step_loops_shift ≤ 4 := pow_le_four _ hk2
    obtain ⟨r1, -⟩ := reduce_shift_spec s.step_events_completed b.step_event_count
      s.step_loops_shift (by omega)
    have hpr : 2 ^ reduce_shift s.step_events_completed b.step_event_count
        s.step_loops_shift ≤ 4 := pow_le_four _ (by omega)
    have hp1 : 1 ≤ 2 ^ reduce_shift s.step_events_completed b.step_event_count
        s.step_loops_shift := Nat.one_le_two_pow
    obtain ⟨hc, hs⟩ := step_event_control cfg (reduce_step_loops_shift s b) b
    have e0 : step_block cfg s b =
        count_shifted (step_event cfg (reduce_step_loops_shift s b) b) := by
      simp [step_block, hL]
    have e : (step_block cfg s b).step_events_completed =
        s.step_events_completed +
          2 ^ reduce_shift s.step_events_completed b.step_event_count s.step_loops_shift := by
      rw [e0]
      show u32 (_ + 1 <<< _) = _
      rw [hs, hc.2.2.1, Nat.one_shiftLeft]
      show u32 (s.step_events_completed + 2 ^ reduce_shift _ _ _) = _
      exact Nat.mod_eq_of_lt (by omega)
    rw [e]
    omega

/-- A tick on a current block advances the event counter by at least one, whatever the
endstop inputs are. -/
theorem tick_progress (cfg : Config) (pins : Pins) (s : State) (b : block_t)
    (hb : s.current_block = some b)
    (hlt : s.step_events_completed < b.step_event_count)
    (hN : b.step_event_count < 2147483648)
    (hm : mult_ok (step_multiplier cfg s)) :
    s.step_events_completed + 1 ≤ (ISR_TIMER1_COMPA_vect cfg pins s).step_events_completed := by
  rw [tick_eq cfg pins s b hb, (finish_block_spec cfg _ b).1, (trapezoid_sec cfg _ b).1]
  unfold stepped checked
  have c4 := endstop_checks_control cfg pins s b
  have e4 := endstop_checks_sec cfg pins s b
  rw [← set_e_direction_sec cfg] at e4
  generalize set_e_direction cfg (check_z_endstop cfg pins (check_y_endstop cfg pins
      (check_x_endstop cfg pins (set_xy_direction s b) b) b) b) = s4 at c4 e4 ⊢
  obtain ⟨m4, -⟩ := step_multiplier_congr cfg c4
  have h4le : s4.step_events_completed ≤ b.step_event_count := by
    rw [e4]; split <;> omega
  have h4ge : s.step_events_completed ≤ s4.step_events_completed := by
    rw [e4]; split <;> omega
  have g := step_block_progress cfg s4 b h4le hN (by rw [m4]; exact hm)
  omega

/-- A current block with `n` events left is discarded within `n` ticks. -/
theorem finish_within (cfg : Config) (b : block_t) (hN : b.step_event_count < 2147483648) :
    ∀ (n : Nat) (ps : List Pins) (s : State),
    s.current_block = some b → s.step_events_completed < b.step_event_count →
    b.step_event_count - s.step_events_completed ≤ n →
    mult_ok (step_multiplier cfg s) → mult_ok (nominal_step_multiplier cfg s) →
    n ≤ ps.length →
    ∃ k, 1 ≤ k ∧ k ≤ n ∧
      (run_ticks cfg (ps.take k) s).current_block = none ∧
      (run_ticks cfg (ps.take k) s).block_buffer = s.block_buffer.tail ∧
      ∀ j, j < k → (run_ticks cfg (ps.take j) s).current_block = some b := by
  intro n
  induction n with
  | zero => intro ps s _ hlt hn _ _ _; omega
  | succ n ih =>
    intro ps s hb hlt hn hm hnm hlen
    match ps, hlen with
    | [], hlen => simp at hlen
    | p :: ps, hlen =>
      have hlen2 : n ≤ ps.length := by simpa using hlen
      have hp := tick_progress cfg p s b hb hlt hN hm
      have hs := run_block_spec cfg p s b hb hlt hN hm hnm
      have hf := run_block_finish cfg p s b hb
      rw [← tick_of_current cfg p s b hb] at hs hf
      rcases hf with ⟨f1, f2, -⟩ | ⟨f1, f2, f3⟩
      · refine ⟨1, le_refl _, by omega, ?_, ?_, ?_⟩
        · simpa [run_ticks] using f1
        · simpa [run_ticks] using f2
        · intro j hj
          have : j = 0 := by omega
          subst this
          simpa [run_ticks] using hb
      · obtain ⟨-, -, g3, g4⟩ := hs.2.2 (by rw [f1]; exact Option.noConfusion)
        obtain ⟨k, k1, k2, k3, k4, k5⟩ := ih ps (ISR_TIMER1_COMPA_vect cfg p s) f1 f3
          (by omega) g3 g4 hlen2
        refine ⟨k + 1, by omega, by omega, ?_, ?_, ?_⟩
        · simpa [run_ticks] using k3
        · rw [f2] at k4
          simpa [run_ticks] using k4
        · intro j hj
          cases j with
          | zero => simpa [run_ticks] using hb
          | succ j => simpa [run_ticks] using k5 j (by omega)

/-! ## Lemmas on the Bresenham state in every build -/


/-- The trapezoid generator leaves the Bresenham state of every axis alone, in every
build. -/
theorem trapezoid_axis (cfg : Config) (s : State) (b : block_t) (a : Axis) :
    (trapezoid cfg s b).axis a = s.axis a := by
  unfold trapezoid
  split
  · cases a <;> cases hA : cfg.ADVANCE <;> cases hL : cfg.USE_L6470 <;>
      simp [accelerate, calc_timer, set_step_loops, advance_e_steps, hA, hL, State.axis,
        State.counter]
  · split
    · cases a <;> cases hA : cfg.ADVANCE <;> cases hL : cfg.USE_L6470 <;>
        simp [decelerate, calc_timer, set_step_loops, advance_e_steps, hA, hL, State.axis,
          State.counter]
    · cases a <;> cases hL : cfg.USE_L6470 <;> simp [cruise, hL, State.axis, State.counter]

/-- The direction setup and the endstop checks leave the Bresenham state of every axis
alone and set `count_direction` of X, Y and Z from the direction bits of the block (of
E as well without `ADVANCE`). -/
theorem checked_axis (cfg : Config) (pins : Pins) (s : State) (b : block_t) :
    (∀ a : Axis, (set_e_direction cfg (checked cfg pins s b)).axis a = s.axis a) ∧
    (∀ a : Axis, (a = Axis.E → cfg.ADVANCE = false) →
      (set_e_direction cfg (checked cfg pins s b)).count_direction.sel a =
        direction_sign b a) := by
  unfold checked
  obtain ⟨a0, b0, -, d0, e0⟩ := set_xy_direction_axis s b
  obtain ⟨a1, b1, -, d1⟩ := check_x_endstop_axis cfg pins (set_xy_direction s b) b
  obtain ⟨a2, b2, -, d2⟩ := check_y_endstop_axis cfg pins
    (check_x_endstop cfg pins (set_xy_direction s b) b) b
  obtain ⟨a3, b3, -, d3, e3, f3⟩ := check_z_endstop_axis cfg pins (check_y_endstop cfg pins
    (check_x_endstop cfg pins (set_xy_direction s b) b) b) b
  generalize check_z_endstop cfg pins (check_y_endstop cfg pins
    (check_x_endstop cfg pins (set_xy_direction s b) b) b) b = s3 at a3 b3 d3 e3 f3 ⊢
  have a4 : ∀ a : Axis, (set_e_direction cfg s3).axis a = s3.axis a := by
    intro a
    cases a <;> cases hA : cfg.ADVANCE <;> simp [set_e_direction, hA, State.axis, State.counter]
  have d4 : (set_e_direction cfg s3).count_direction.x = s3.count_direction.x ∧
      (set_e_direction cfg s3).count_direction.y = s3.count_direction.y ∧
      (set_e_direction cfg s3).count_direction.z = s3.count_direction.z := by
    cases hA : cfg.ADVANCE <;> simp [set_e_direction, hA]
  refine ⟨fun a => ?_, fun a ha => ?_⟩
  · rw [a4, a3, a2, a1, a0]
  · cases a
    · simp only [Axes.sel]
      rw [d4.1, d3, d2, d1, d0]
    · simp only [Axes.sel]
      rw [d4.2.1, e3, d2, d1, e0]
    · simp only [Axes.sel]
      rw [d4.2.2, f3, b2, b1, b0]
      rfl
    · have hA := ha rfl
      simp only [Axes.sel]
      rw [(set_e_direction_axis cfg s3 hA).2.2.2.2.2, b3, b2, b1, b0]
      rfl

/-- One Bresenham event on an axis that is stepped by the tick interrupt: X, Y and Z
in every build, E without `ADVANCE`. -/
theorem step_event_axis_of (cfg : Config) (s : State) (b : block_t) (a : Axis)
    (ha : a = Axis.E → cfg.ADVANCE = false) :
    (step_event cfg s b).axis a =
      axis_event b.step_event_count (b.steps a) (s.count_direction.sel a) (s.axis a) := by
  cases hA : cfg.ADVANCE
  · exact (step_event_axis cfg s b hA a).1
  · cases a
    · simp [step_event, e_event, z_event, y_event, x_event, advance_e_event, hA, State.axis,
        State.counter, Axes.sel, block_t.steps, axis_event]
      split_ifs <;> simp
    · simp [step_event, e_event, z_event, y_event, x_event, advance_e_event, hA, State.axis,
        State.counter, Axes.sel, block_t.steps, axis_event]
      split_ifs <;> simp
    · simp [step_event, e_event, z_event, y_event, x_event, advance_e_event, hA, State.axis,
        State.counter, Axes.sel, block_t.steps, axis_event]
      split_ifs <;> simp
    · rw [ha rfl] at hA
      exact Bool.noConfusion hA

/-- The Bresenham counter of an axis after one event, in every build: the step count is
added and, when the sum is positive, the event count is subtracted. -/
theorem step_event_counter (cfg : Config) (s : State) (b : block_t) (a : Axis) :
    (step_event cfg s b).counter a =
      if s32 (s.counter a + b.steps a) > 0 then
        s32 (s32 (s.counter a + b.steps a) - b.step_event_count)
      else s32 (s.counter a + b.steps a) := by
  cases a <;> cases hA : cfg.ADVANCE <;>
    simp [step_event, e_event, z_event, y_event, x_event, advance_e_event, hA,
      State.counter, block_t.steps]



/-- In the build without `USE_L6470`, a tick that latches an endstop hit runs the body
of the step loop exactly once: the event counter stands at `step_event_count` when the
loop starts, so the `break` is taken at the end of the first pass. -/
theorem stepped_after_hit (cfg : Config) (pins : Pins) (s : State) (b : block_t)
    (hL : cfg.USE_L6470 = false)
    (hN : b.step_event_count < 2147483648)
    (hm : mult_ok s.step_loops)
    (hh : endstop_hit cfg pins s b = true) :
    stepped cfg pins s b =
      count_step_loops (step_event cfg (set_e_direction cfg (checked cfg pins s b)) b) ∧
    (stepped cfg pins s b).step_events_completed = b.step_event_count + s.step_loops := by
  have c4 := endstop_checks_control cfg pins s b
  have e4 := endstop_checks_sec cfg pins s b
  rw [← set_e_direction_sec cfg, hh, if_pos rfl] at e4
  have hl4 : 1 ≤ s.step_loops ∧ s.step_loops ≤ 4 := by rcases hm with h | h | h <;> omega
  unfold stepped checked
  generalize set_e_direction cfg (check_z_endstop cfg pins (check_y_endstop cfg pins
      (check_x_endstop cfg pins (set_xy_direction s b) b) b) b) = s4 at c4 e4 ⊢
  have e : step_block cfg s4 b = step_loop cfg b s4.step_loops s4 := by
    simp [step_block, hL]
  obtain ⟨n, hn⟩ : ∃ n, s4.step_loops = n + 1 := ⟨s4.step_loops - 1, by rw [c4.1]; omega⟩
  obtain ⟨hc, hs⟩ := step_event_control cfg s4 b
  have hu : (count_step_loops (step_event cfg s4 b)).step_events_completed
      = b.step_event_count + s.step_loops := by
    show u32 _ = _
    rw [hs, hc.1, e4, c4.1]
    exact Nat.mod_eq_of_lt (by omega)
  have e2 : step_loop cfg b (n + 1) s4 = count_step_loops (step_event cfg s4 b) := by
    simp only [step_loop]
    rw [if_pos (by rw [hu]; omega)]
  rw [e, hn, e2]
  exact ⟨rfl, hu⟩

/-! ## Lemmas on the previous-sample flags -/

/-- The endstop variables after a tick: those after the endstop checks on the sampled
block, or unchanged when the tick samples none. -/
theorem tick_samples (cfg : Config) (pins : Pins) (s : State) :
    (ISR_TIMER1_COMPA_vect cfg pins s).latches =
      match sampled_block cfg s with
      | some b => (checked cfg pins (claim_block cfg s).1 b).latches
      | none => s.latches := by
  unfold ISR_TIMER1_COMPA_vect sampled_block
  simp only []
  cases hw : (claim_block cfg s).2
  · simp only [Bool.false_eq_true, if_false]
    cases hc : (claim_block cfg s).1.current_block with
    | none => simp only []; exact claim_block_latches cfg s
    | some b => simp only []; exact run_block_latches cfg pins _ b
  · simp only [if_true]
    exact claim_block_latches cfg s

/-- The six previous-sample flags after a tick that samples block `b`: each is written
with the input of this tick when its endstop is the one in the direction of travel,
the gate is on and the pin exists, and keeps its value otherwise. -/
theorem tick_old_samples (cfg : Config) (pins : Pins) (s : State) (b : block_t)
    (hb : sampled_block cfg s = some b) :
    (ISR_TIMER1_COMPA_vect cfg pins s).old_x_min_endstop =
      (if x_negative cfg b.direction_bits && s.check_endstops && cfg.X_MIN_PIN then pins.x_min
       else s.old_x_min_endstop) ∧
    (ISR_TIMER1_COMPA_vect cfg pins s).old_x_max_endstop =
      (if !x_negative cfg b.direction_bits && s.check_endstops && cfg.X_MAX_PIN then pins.x_max
       else s.old_x_max_endstop) ∧
    (ISR_TIMER1_COMPA_vect cfg pins s).old_y_min_endstop =
      (if y_negative cfg b.direction_bits && s.check_endstops && cfg.Y_MIN_PIN then pins.y_min
       else s.old_y_min_endstop) ∧
    (ISR_TIMER1_COMPA_vect cfg pins s).old_y_max_endstop =
      (if !y_negative cfg b.direction_bits && s.check_endstops && cfg.Y_MAX_PIN then pins.y_max
       else s.old_y_max_endstop) ∧
    (ISR_TIMER1_COMPA_vect cfg pins s).old_z_min_endstop =
      (if dir_bit b.direction_bits Z_AXIS && s.check_endstops && cfg.Z_MIN_PIN then pins.z_min
       else s.old_z_min_endstop) ∧
    (ISR_TIMER1_COMPA_vect cfg pins s).old_z_max_endstop =
      (if !dir_bit b.direction_bits Z_AXIS && s.check_endstops && cfg.Z_MAX_PIN then pins.z_max
       else s.old_z_max_endstop) := by
  have h := tick_samples cfg pins s
  rw [hb] at h
  simp only [] at h
  rw [checked_latches] at h
  have c := claim_block_latches cfg s
  have e5 := congrArg Latches.check c
  have e6 := congrArg Latches.old_x_min c
  have e7 := congrArg Latches.old_x_max c
  have e8 := congrArg Latches.old_y_min c
  have e9 := congrArg Latches.old_y_max c
  have e10 := congrArg Latches.old_z_min c
  have e11 := congrArg Latches.old_z_max c
  simp only [State.latches] at e5 e6 e7 e8 e9 e10 e11
  have g6 := congrArg Latches.old_x_min h
  have g7 := congrArg Latches.old_x_max h
  have g8 := congrArg Latches.old_y_min h
  have g9 := congrArg Latches.old_y_max h
  have g10 := congrArg Latches.old_z_min h
  have g11 := congrArg Latches.old_z_max h
  simp only [State.latches, e5, e6, e7, e8, e9, e10, e11] at g6 g7 g8 g9 g10 g11
  exact ⟨g6, g7, g8, g9, g10, g11⟩

/-! ## Lemmas on the advance integrator -/

/-- The claim of a block does not write the static `advance_rate`. -/
theorem claim_block_advance_rate (cfg : Config) (s : State) :
    (claim_block cfg s).1.advance_rate = s.advance_rate := by
  unfold claim_block
  cases hc : s.current_block with
  | some b => rfl
  | none =>
    cases hq : plan_get_current_block s with
    | none => rfl
    | some b0 =>
      simp only []
      have h : (reset_counters (trapezoid_generator_reset cfg (take_block s b0)
          { b0 with busy := true }) { b0 with busy := true }).advance_rate =
          s.advance_rate := by
        cases hA : cfg.ADVANCE <;> cases hL : cfg.USE_L6470 <;>
          simp [reset_counters, trapezoid_generator_reset, take_block,
            calc_timer, set_step_loops, hA, hL]
      split
      · exact h
      · exact h

theorem step_loop_advance_rate (cfg : Config) (b : block_t) (n : Nat) (s : State) :
    (step_loop cfg b n s).advance_rate = s.advance_rate := by
  have ev : ∀ t : State, (count_step_loops (step_event cfg t b)).advance_rate =
      t.advance_rate := by
    intro t
    simp [count_step_loops, step_event, e_event, z_event, y_event, x_event, advance_e_event]
  induction n generalizing s with
  | zero => rfl
  | succ n ih =>
    simp only [step_loop]
    split_ifs
    · exact ev s
    · rw [ih]; exact ev s

/-- The part of the interrupt that runs the current block does not write the static
`advance_rate`. -/
theorem run_block_advance_rate (cfg : Config) (pins : Pins) (s : State) (b : block_t) :
    (run_block cfg pins s b).advance_rate = s.advance_rate := by
  have h1 : ∀ t : State, (finish_block t b).advance_rate = t.advance_rate := by
    intro t
    simp [finish_block, plan_discard_current_block]
  have h2 : ∀ t : State, (trapezoid cfg t b).advance_rate = t.advance_rate := by
    intro t
    cases hA : cfg.ADVANCE <;> cases hL : cfg.USE_L6470 <;>
      simp [trapezoid, accelerate, decelerate, cruise, calc_timer,
        set_step_loops, advance_e_steps, hA, hL]
  have h3 : ∀ t : State, (step_block cfg t b).advance_rate = t.advance_rate := by
    intro t
    unfold step_block
    split
    · simp [count_shifted, reduce_step_loops_shift, step_event, e_event, z_event, y_event,
        x_event, advance_e_event]
    · exact step_loop_advance_rate cfg b _ t
  have h4 : ∀ t : State, (set_e_direction cfg t).advance_rate = t.advance_rate := by
    intro t
    simp [set_e_direction]
  have h5 : ∀ t : State, (check_z_endstop cfg pins t b).advance_rate = t.advance_rate := by
    intro t
    simp [check_z_endstop]
  have h6 : ∀ t : State, (check_y_endstop cfg pins t b).advance_rate = t.advance_rate := by
    intro t
    simp [check_y_endstop]
  have h7 : ∀ t : State, (check_x_endstop cfg pins t b).advance_rate = t.advance_rate := by
    intro t
    simp [check_x_endstop]
  rw [run_block_eq, h1, h2, h3, h4]
  unfold checked
  rw [h5, h6, h7]
  rfl

/-- No tick writes the static `advance_rate`. -/
theorem tick_advance_rate (cfg : Config) (pins : Pins) (s : State) :
    (ISR_TIMER1_COMPA_vect cfg pins s).advance_rate = s.advance_rate := by
  unfold ISR_TIMER1_COMPA_vect
  simp only []
  split
  · exact claim_block_advance_rate cfg s
  · split
    · rw [run_block_advance_rate]
      exact claim_block_advance_rate cfg s
    · exact claim_block_advance_rate cfg s

theorem run_ticks_advance_rate (cfg : Config) (ps : List Pins) : ∀ s : State,
    (run_ticks cfg ps s).advance_rate = s.advance_rate := by
  induction ps with
  | nil => intro s; rfl
  | cons p ps ih =>
    intro s
    simp only [run_ticks]
    rw [ih, tick_advance_rate]

/-! ## Lemmas on the range of the Bresenham counters -/

/-- One Bresenham update of a counter in `(-N, 0]` by a step count in `[0, N]`: no
wrap-around, and the result is in `(-N, 0]` again. -/
theorem counter_update (n : Nat) (steps c : Int) (hn : n < 2147483648)
    (h0 : 0 ≤ steps) (h1 : steps ≤ n) (hlo : -(n : Int) < c) (hhi : c ≤ 0) :
    (if s32 (c + steps) > 0 then s32 (s32 (c + steps) - n) else s32 (c + steps)) =
      (if c + steps > 0 then c + steps - n else c + steps) ∧
    -(n : Int) < (if c + steps > 0 then c + steps - n else c + steps) ∧
    (if c + steps > 0 then c + steps - n else c + steps) ≤ 0 := by
  have e1 : s32 (c + steps) = c + steps := s32_of_range _ (by omega) (by omega)
  rw [e1]
  split
  · have e2 : s32 (c + steps - n) = c + steps - n := s32_of_range _ (by omega) (by omega)
    rw [e2]
    omega
  · omega

theorem step_event_in_range (cfg : Config) (s : State) (b : block_t) (hv : valid_block b)
    (h : counters_in_range b s) : counters_in_range b (step_event cfg s b) := by
  intro a
  obtain ⟨g1, g2, g3⟩ := counter_update b.step_event_count (b.steps a) (s.counter a)
    hv.2.1 (hv.2.2 a).1 (hv.2.2 a).2 (h a).1 (h a).2
  rw [step_event_counter, g1]
  exact ⟨g2, g3⟩

theorem step_event_after (cfg : Config) (s : State) (b : block_t) (k : Nat)
    (hv : valid_block b) (h : counters_after b k s) :
    counters_after b (k + 1) (step_event cfg s b) := by
  intro a
  obtain ⟨⟨m, hm⟩, hlo, hhi⟩ := h a
  obtain ⟨g1, g2, g3⟩ := counter_update b.step_event_count (b.steps a) (s.counter a)
    hv.2.1 (hv.2.2 a).1 (hv.2.2 a).2 hlo hhi
  rw [step_event_counter, g1]
  refine ⟨?_, g2, g3⟩
  split
  · refine ⟨m + 1, ?_⟩
    rw [hm]
    push_cast
    ring
  · refine ⟨m, ?_⟩
    rw [hm]
    push_cast
    ring

theorem count_step_loops_counter (s : State) (a : Axis) :
    (count_step_loops s).counter a = s.counter a := by
  cases a <;> rfl

theorem step_loop_in_range (cfg : Config) (b : block_t) (hv : valid_block b) (n : Nat) :
    ∀ s : State, counters_in_range b s → counters_in_range b (step_loop cfg b n s) := by
  induction n with
  | zero => intro s h; exact h
  | succ n ih =>
    intro s h
    have h1 : counters_in_range b (count_step_loops (step_event cfg s b)) := by
      intro a
      rw [count_step_loops_counter]
      exact step_event_in_range cfg s b hv h a
    simp only [step_loop]
    split
    · exact h1
    · exact ih _ h1

theorem step_block_in_range (cfg : Config) (s : State) (b : block_t) (hv : valid_block b)
    (h : counters_in_range b s) : counters_in_range b (step_block cfg s b) := by
  unfold step_block
  split
  · intro a
    have e1 : (count_shifted (step_event cfg (reduce_step_loops_shift s b) b)).counter a =
        (step_event cfg (reduce_step_loops_shift s b) b).counter a := by
      cases a <;> rfl
    have h2 : counters_in_range b (reduce_step_loops_shift s b) := by
      intro a'
      have e2 : (reduce_step_loops_shift s b).counter a' = s.counter a' := by
        cases a' <;> rfl
      rw [e2]
      exact h a'
    rw [e1]
    exact step_event_in_range cfg _ b hv h2 a
  · exact step_loop_in_range cfg b hv _ s h

/-- The counters after a tick on the current block are those after its stepping. -/
theorem run_block_counter (cfg : Config) (pins : Pins) (s : State) (b : block_t) (a : Axis) :
    (run_block cfg pins s b).counter a =
      (step_block cfg (set_e_direction cfg (checked cfg pins s b)) b).counter a ∧
    (set_e_direction cfg (checked cfg pins s b)).counter a = s.counter a := by
  constructor
  · rw [run_block_eq]
    have h1 := congrArg Prod.fst ((finish_block_axis (trapezoid cfg (step_block cfg
      (set_e_direction cfg (checked cfg pins s b)) b) b) b).1 a)
    have h2 := congrArg Prod.fst (trapezoid_axis cfg (step_block cfg
      (set_e_direction cfg (checked cfg pins s b)) b) b a)
    exact h1.trans h2
  · exact congrArg Prod.fst ((checked_axis cfg pins s b).1 a)

/-- A tick keeps the counters of the current block in `(-N, 0]`, in both builds and at
every multiplier. -/
theorem tick_in_range (cfg : Config) (pins : Pins) (s : State) (b : block_t)
    (hb : s.current_block = some b) (hv : valid_block b) (h : counters_in_range b s) :
    counters_in_range b (ISR_TIMER1_COMPA_vect cfg pins s) := by
  rw [tick_of_current cfg pins s b hb]
  have h4 : counters_in_range b (set_e_direction cfg (checked cfg pins s b)) := by
    intro a
    rw [(run_block_counter cfg pins s b a).2]
    exact h a
  intro a
  rw [(run_block_counter cfg pins s b a).1]
  exact step_block_in_range cfg _ b hv h4 a

/-- The counters right after the claim of a block: `-(N >> 1)` each. -/
theorem claim_block_counter (cfg : Config) (s : State) (b0 : block_t)
    (hc : s.current_block = none) (hq : s.block_buffer.head? = some b0)
    (hN : b0.step_event_count < 2147483648) (a : Axis) :
    (claim_block cfg s).1.counter a = -((b0.step_event_count >>> 1 : Nat) : Int) := by
  obtain ⟨-, -, -, c1, c2, c3, c4⟩ := claimed_counters cfg s b0
  rw [half_count_range _ (by omega)] at c1 c2 c3 c4
  rw [claim_block_eq cfg s b0 hc hq]
  split <;> cases a <;> simp [State.counter, z_late_wait, c1, c2, c3, c4]

/-- A tick at multiplier 1 without endstop hit, in the build without `USE_L6470`, runs
one Bresenham event and counts it. -/
theorem single_tick_after (cfg : Config) (pins : Pins) (s : State) (b : block_t) (k : Nat)
    (hL : cfg.USE_L6470 = false) (hb : s.current_block = some b) (hv : valid_block b)
    (hk : s.step_events_completed = k) (hlt : k < b.step_event_count)
    (h1 : s.step_loops = 1) (hh : endstop_hit cfg pins s b = false)
    (h : counters_after b k s) :
    counters_after b (k + 1) (ISR_TIMER1_COMPA_vect cfg pins s) ∧
    (ISR_TIMER1_COMPA_vect cfg pins s).step_events_completed = k + 1 ∧
    (k + 1 < b.step_event_count →
      (ISR_TIMER1_COMPA_vect cfg pins s).current_block = some b) ∧
    (k + 1 = b.step_event_count →
      (ISR_TIMER1_COMPA_vect cfg pins s).current_block = none) := by
  have hN := hv.2.1
  have c4 : same_control s (set_e_direction cfg (checked cfg pins s b)) :=
    endstop_checks_control cfg pins s b
  have e4 : (set_e_direction cfg (checked cfg pins s b)).step_events_completed =
      s.step_events_completed := by
    have := endstop_checks_sec cfg pins s b
    rw [hh] at this
    rw [set_e_direction_sec]
    exact this
  have hc : counters_after b k (set_e_direction cfg (checked cfg pins s b)) := by
    intro a
    rw [(run_block_counter cfg pins s b a).2]
    exact h a
  have hf := run_block_finish cfg pins s b hb
  rw [← tick_of_current cfg pins s b hb] at hf
  have hsec : (ISR_TIMER1_COMPA_vect cfg pins s).step_events_completed = k + 1 := by
    rw [tick_eq cfg pins s b hb, (finish_block_spec cfg _ b).1, (trapezoid_sec cfg _ b).1]
    unfold stepped
    generalize set_e_direction cfg (checked cfg pins s b) = s4 at c4 e4
    have e : step_block cfg s4 b = step_loop cfg b 1 s4 := by
      simp [step_block, hL, c4.1, h1]
    rw [e, step_loop_one, e4, c4.1, h1, hk]
    exact Nat.mod_eq_of_lt (by omega)
  refine ⟨fun a => ?_, hsec, fun hl => ?_, fun hl => ?_⟩
  · rw [tick_of_current cfg pins s b hb, (run_block_counter cfg pins s b a).1]
    generalize set_e_direction cfg (checked cfg pins s b) = s4 at c4 e4 hc
    have e : step_block cfg s4 b = count_step_loops (step_event cfg s4 b) := by
      rw [← step_loop_single]
      simp [step_block, hL, c4.1, h1]
    rw [e, count_step_loops_counter]
    exact step_event_after cfg s4 b k hv hc a
  · rcases hf with ⟨-, -, f3⟩ | ⟨f1, -, -⟩
    · rw [hsec] at f3; omega
    · exact f1
  · rcases hf with ⟨f1, -, -⟩ | ⟨-, -, f3⟩
    · exact f1
    · rw [hsec] at f3; omega

/-- A run of ticks at multiplier 1 without endstop hit on a current block: one event
per tick. -/
theorem single_run_after (cfg : Config) (b : block_t) (hL : cfg.USE_L6470 = false)
    (hv : valid_block b) : ∀ (ps : List Pins) (k : Nat) (s : State),
    s.current_block = some b → s.step_events_completed = k →
    k + ps.length ≤ b.step_event_count →
    single_ticks cfg ps s = true → no_hit cfg ps s = true → counters_after b k s →
    counters_after b (k + ps.length) (run_ticks cfg ps s) ∧
    (k + ps.length = b.step_event_count → 1 ≤ ps.length →
      (run_ticks cfg ps s).current_block = none) := by
  intro ps
  induction ps with
  | nil =>
    intro k s _ _ _ _ _ h
    exact ⟨h, fun _ h1 => by simp at h1⟩
  | cons p ps ih =>
    intro k s hb hk hlen hs hh h
    simp only [List.length_cons] at hlen ⊢
    simp only [single_ticks, claim_block_of_current cfg s b hb, Bool.and_eq_true,
      decide_eq_true_eq] at hs
    simp only [no_hit, Bool.and_eq_true, Bool.not_eq_true'] at hh
    have hh1 : endstop_hit cfg p s b = false := by
      simpa [hit_in_tick, claim_block_of_current cfg s b hb, hb] using hh.1
    obtain ⟨g1, g2, g3, g4⟩ := single_tick_after cfg p s b k hL hb hv hk (by omega) hs.1 hh1 h
    have ea : k + (ps.length + 1) = k + 1 + ps.length := by omega
    simp only [run_ticks]
    rw [ea]
    by_cases hlast : k + 1 = b.step_event_count
    · have hnil : ps = [] := List.length_eq_zero.mp (by omega)
      subst hnil
      simp only [run_ticks, List.length_nil, add_zero]
      exact ⟨g1, fun _ _ => g4 hlast⟩
    · obtain ⟨i1, i2⟩ := ih (k + 1) (ISR_TIMER1_COMPA_vect cfg p s) (g3 (by omega)) g2
        (by omega) hs.2 hh.2 g1
      refine ⟨i1, fun he _ => i2 he ?_⟩
      omega

/-- After all `N` events a counter is back at `-(N >> 1)`. -/
theorem counter_back (n : Nat) (steps c m : Int) (hn : 1 ≤ n)
    (hc : c = -((n / 2 : Nat) : Int) + (n : Int) * steps - n * m)
    (hlo : -(n : Int) < c) (hhi : c ≤ 0) : c = -((n >>> 1 : Nat) : Int) := by
  have e : n >>> 1 = n / 2 := by
    rw [Nat.shiftRight_eq_div_pow, pow_one]
  rw [e]
  have hd : c = -((n / 2 : Nat) : Int) + n * (steps - m) := by rw [hc]; ring
  have h2 : ((n / 2 : Nat) : Int) < n := by omega
  have h3 : (0 : Int) ≤ ((n / 2 : Nat) : Int) := by omega
  rcases lt_trichotomy (steps - m) 0 with h | h | h
  · exfalso
    have : (n : Int) * (steps - m) ≤ n * (-1) :=
      mul_le_mul_of_nonneg_left (by omega) (by omega)
    omega
  · rw [hd, h]
    ring
  · exfalso
    have : (n : Int) * 1 ≤ n * (steps - m) :=
      mul_le_mul_of_nonneg_left (by omega) (by omega)
    omega

/-! ## Lemmas on the endstop gate -/

/-- With the gate off the direction setup and the three endstop checks (lines 547 to
755) write `out_bits` and the X, Y and Z entries of `count_direction` and nothing
else, whatever the inputs and the previous samples are. -/
theorem checked_gate_off_eq (cfg : Config) (pins : Pins) (s : State) (b : block_t)
    (h : s.check_endstops = false) :
    checked cfg pins s b =
      { set_xy_direction s b with
        count_direction :=
          { (set_xy_direction s b).count_direction with
            z := if dir_bit b.direction_bits Z_AXIS then -1 else 1 } } := by
  have e2 : (set_xy_direction s b).check_endstops = false := h
  have e3 : (set_xy_direction s b).out_bits = b.direction_bits := rfl
  have hx : check_x_endstop cfg pins (set_xy_direction s b) b = set_xy_direction s b := by
    simp [check_x_endstop, e2]
  have hy : check_y_endstop cfg pins (set_xy_direction s b) b = set_xy_direction s b := by
    simp [check_y_endstop, e2]
  unfold checked
  rw [hx, hy]
  generalize set_xy_direction s b = t at e2 e3
  unfold check_z_endstop
  rw [e3]
  split <;> simp [e2] <;> exact e3.symm

/-- In a run of ticks that starts with the gate off, every tick starts with the gate
off. -/
theorem run_gate_stays_off (cfg : Config) (ps : List Pins) (s : State) (k : Nat)
    (h : s.check_endstops = false) :
    (run_ticks cfg (ps.take k) s).check_endstops = false :=
  (congrArg Latches.check (run_gate_off cfg (ps.take k) s h).1).trans h

/-- With the gate off the event counter at the start of the step loop is the one the
tick started with. -/
theorem checked_gate_off_sec (cfg : Config) (pins : Pins) (s : State) (b : block_t)
    (h : s.check_endstops = false) :
    (set_e_direction cfg (checked cfg pins s b)).step_events_completed =
      s.step_events_completed := by
  rw [set_e_direction_sec, checked_gate_off_eq cfg pins s b h]
  rfl

/-- With the gate off a tick does not depend on the endstop inputs. -/
theorem tick_gate_off_pins (cfg : Config) (pins pins1 : Pins) (s : State)
    (h : s.check_endstops = false) :
    ISR_TIMER1_COMPA_vect cfg pins s = ISR_TIMER1_COMPA_vect cfg pins1 s := by
  have hg : (claim_block cfg s).1.check_endstops = false :=
    (congrArg Latches.check (claim_block_latches cfg s)).trans h
  unfold ISR_TIMER1_COMPA_vect
  simp only []
  split
  · rfl
  · split
    · rw [run_block_eq, run_block_eq, checked_gate_off_eq cfg pins _ _ hg,
        checked_gate_off_eq cfg pins1 _ _ hg]
    · rfl

/-! ## Verified claims -/

/-- C1 at the failing input: in the pin-toggling build a block of four events with
`steps_x = 4` at 16 kHz (multiplier 2) is claimed and discarded in one tick with no
endstop hit, and only two step pulses are emitted on X: every pass of the `for` loop adds
`step_loops` to `step_events_completed` although it executes a single event. -/
theorem pulse_build_loses_steps :
    (x_block 4 16000).steps_x = 4 ∧
    (ISR_TIMER1_COMPA_vect cfg_pulse no_pins
      { initial_state with block_buffer := [x_block 4 16000] }).current_block = none ∧
    (ISR_TIMER1_COMPA_vect cfg_pulse no_pins
      { initial_state with block_buffer := [x_block 4 16000] }).block_buffer = [] ∧
    (ISR_TIMER1_COMPA_vect cfg_pulse no_pins
      { initial_state with block_buffer := [x_block 4 16000] }).endstop_x_hit = false ∧
    (ISR_TIMER1_COMPA_vect cfg_pulse no_pins
      { initial_state with block_buffer := [x_block 4 16000] }).pulses = ⟨2, 0, 0, 0⟩ := by
  decide

/-- C2 at the failing input: in the pin-toggling build a block of eight events with
`steps_x = 8`, direction bit X clear, at 25 kHz (multiplier 4) is discarded after one
tick with `count_position[X]` advanced from 0 to 2, not to 8. -/
theorem pulse_build_position_short :
    (x_block 8 25000).steps_x = 8 ∧ dir_bit (x_block 8 25000).direction_bits X_AXIS = false ∧
    initial_state.count_position.x = 0 ∧
    (ISR_TIMER1_COMPA_vect cfg_pulse no_pins
      { initial_state with block_buffer := [x_block 8 25000] }).current_block = none ∧
    (ISR_TIMER1_COMPA_vect cfg_pulse no_pins
      { initial_state with block_buffer := [x_block 8 25000] }).endstop_x_hit = false ∧
    (ISR_TIMER1_COMPA_vect cfg_pulse no_pins
      { initial_state with block_buffer := [x_block 8 25000] }).count_position.x = 2 := by
  decide

/-- C3, amended: within one block `step_events_completed` never decreases from one tick
to the next, and in the tick that discards the block it is at least `step_event_count`;
it equals `step_event_count` when no endstop hit is latched in that tick and the tick
steps with multiplier 1 or in the L6470 build.  A block that is not discarded stays
current with `step_events_completed < step_event_count`.  The first part is a tick on
a block in flight, the second the tick that claims the block. -/
theorem step_events_completed_monotone (cfg : Config) (pins : Pins) (s : State) (b : block_t)
    (hN : b.step_event_count < 2147483648) :
    (s.current_block = some b → s.step_events_completed < b.step_event_count →
      mult_ok (step_multiplier cfg s) → mult_ok (nominal_step_multiplier cfg s) →
      s.step_events_completed ≤ (ISR_TIMER1_COMPA_vect cfg pins s).step_events_completed ∧
      ((ISR_TIMER1_COMPA_vect cfg pins s).current_block = none →
        b.step_event_count ≤ (ISR_TIMER1_COMPA_vect cfg pins s).step_events_completed ∧
        (endstop_hit cfg pins s b = false →
          (cfg.USE_L6470 = true ∨ step_multiplier cfg s = 1) →
          (ISR_TIMER1_COMPA_vect cfg pins s).step_events_completed = b.step_event_count)) ∧
      ((ISR_TIMER1_COMPA_vect cfg pins s).current_block ≠ none →
        (ISR_TIMER1_COMPA_vect cfg pins s).current_block = some b ∧
        (ISR_TIMER1_COMPA_vect cfg pins s).step_events_completed < b.step_event_count ∧
        mult_ok (step_multiplier cfg (ISR_TIMER1_COMPA_vect cfg pins s)) ∧
        mult_ok (nominal_step_multiplier cfg (ISR_TIMER1_COMPA_vect cfg pins s)))) ∧
    (∀ b0 : block_t, s.current_block = none → s.block_buffer.head? = some b0 →
      b = { b0 with busy := true } → 1 ≤ b.step_event_count →
      ((ISR_TIMER1_COMPA_vect cfg pins s).current_block = none →
        b.step_event_count ≤ (ISR_TIMER1_COMPA_vect cfg pins s).step_events_completed ∧
        (endstop_hit cfg pins (claim_block cfg s).1 b = false →
          (cfg.USE_L6470 = true ∨ step_multiplier cfg (claim_block cfg s).1 = 1) →
          (ISR_TIMER1_COMPA_vect cfg pins s).step_events_completed = b.step_event_count)) ∧
      ((ISR_TIMER1_COMPA_vect cfg pins s).current_block ≠ none →
        (ISR_TIMER1_COMPA_vect cfg pins s).current_block = some b ∧
        (ISR_TIMER1_COMPA_vect cfg pins s).step_events_completed < b.step_event_count ∧
        mult_ok (step_multiplier cfg (ISR_TIMER1_COMPA_vect cfg pins s)) ∧
        mult_ok (nominal_step_multiplier cfg (ISR_TIMER1_COMPA_vect cfg pins s)))) := by
  constructor
  · intro hb hlt hm hn
    have e : ISR_TIMER1_COMPA_vect cfg pins s = run_block cfg pins s b := by
      simp [ISR_TIMER1_COMPA_vect, claim_block_of_current cfg s b hb, hb]
    rw [e]
    exact run_block_spec cfg pins s b hb hlt hN hm hn
  · intro b0 hc hq hb0 h1
    obtain ⟨c1, c2, c3, c4⟩ := claim_block_spec cfg s b0 hc hq
    rw [← hb0] at c1
    cases hz : (claim_block cfg s).2
    · have e : ISR_TIMER1_COMPA_vect cfg pins s = run_block cfg pins (claim_block cfg s).1 b := by
        simp [ISR_TIMER1_COMPA_vect, hz, c1]
      rw [e]
      exact (run_block_spec cfg pins _ b c1 (by rw [c2]; omega) hN c3 c4).2
    · have e : ISR_TIMER1_COMPA_vect cfg pins s = (claim_block cfg s).1 := by
        simp [ISR_TIMER1_COMPA_vect, hz]
      rw [e]
      refine ⟨fun h => ?_, fun _ => ⟨c1, by rw [c2]; omega, c3, c4⟩⟩
      rw [c1] at h
      exact Option.noConfusion h

/-- C3 at concrete inputs: a three-event block after its first tick, whose second tick
does not decrease the event counter; and a one-event block, which the tick that claims
it discards with `step_events_completed` equal to its `step_event_count`. -/
theorem step_events_completed_monotone_witness :
    (run_ticks cfg_pulse [no_pins]
      { initial_state with block_buffer := [x_block 3 1000] }).step_events_completed ≤
    (ISR_TIMER1_COMPA_vect cfg_pulse no_pins (run_ticks cfg_pulse [no_pins]
      { initial_state with block_buffer := [x_block 3 1000] })).step_events_completed ∧
    (ISR_TIMER1_COMPA_vect cfg_pulse no_pins
      { initial_state with block_buffer := [x_block 1 1000] }).step_events_completed = 1 :=
  ⟨((step_events_completed_monotone cfg_pulse no_pins
      (run_ticks cfg_pulse [no_pins] { initial_state with block_buffer := [x_block 3 1000] })
      { x_block 3 1000 with busy := true } (by decide)).1
    (by decide) (by decide) (by decide) (by decide)).1,
   (((step_events_completed_monotone cfg_pulse no_pins
      { initial_state with block_buffer := [x_block 1 1000] }
      { x_block 1 1000 with busy := true } (by decide)).2
    (x_block 1 1000) rfl rfl rfl (by decide)).1 (by decide)).2 (by decide)
      (Or.inr (by decide))⟩

/-- C3 as stated fails: with the X_MAX switch active in two consecutive ticks of a
ten-event +X block, the second tick latches the hit, still steps once, and discards the
block with `step_events_completed = 11`, not 10. -/
theorem discard_with_overshoot :
    (run_ticks cfg_pulse [x_max_pins]
      { initial_state with block_buffer := [x_block 10 1000] }).current_block =
        some { x_block 10 1000 with busy := true } ∧
    ¬ ((run_ticks cfg_pulse [x_max_pins, x_max_pins]
        { initial_state with block_buffer := [x_block 10 1000] }).current_block = none →
      (run_ticks cfg_pulse [x_max_pins, x_max_pins]
        { initial_state with block_buffer := [x_block 10 1000] }).step_events_completed =
        (x_block 10 1000).step_event_count) := by
  decide

/-- C4 at the failing input: in the L6470 build a block of four events with
`steps_x = 4`, direction bit X clear, at 16 kHz (shift 1) is discarded after two ticks;
the driver was told to move `2 + 2 = 4` steps, the event counter reached 4, and
`count_position[X]` advanced from 0 to 2 only. -/
theorem l6470_build_position_short :
    (x_block 4 16000).steps_x = 4 ∧ dir_bit (x_block 4 16000).direction_bits X_AXIS = false ∧
    initial_state.count_position.x = 0 ∧
    (run_ticks cfg_l6470 [no_pins]
      { initial_state with block_buffer := [x_block 4 16000] }).current_block ≠ none ∧
    (run_ticks cfg_l6470 [no_pins]
      { initial_state with block_buffer := [x_block 4 16000] }).step_loops_shift = 1 ∧
    (run_ticks cfg_l6470 [no_pins, no_pins]
      { initial_state with block_buffer := [x_block 4 16000] }).current_block = none ∧
    (run_ticks cfg_l6470 [no_pins, no_pins]
      { initial_state with block_buffer := [x_block 4 16000] }).endstop_x_hit = false ∧
    (run_ticks cfg_l6470 [no_pins, no_pins]
      { initial_state with block_buffer := [x_block 4 16000] }).step_events_completed = 4 ∧
    (run_ticks cfg_l6470 [no_pins, no_pins]
      { initial_state with block_buffer := [x_block 4 16000] }).moved.x = 4 ∧
    (run_ticks cfg_l6470 [no_pins, no_pins]
      { initial_state with block_buffer := [x_block 4 16000] }).count_position.x = 2 := by
  decide

/-- C5: for every input rate, every state and every content of the two lookup tables,
the interval returned by `calc_timer` is at least 100. -/
theorem calc_timer_ge_100 (cfg : Config) (s : State) (step_rate : Nat) :
    100 ≤ (calc_timer cfg s step_rate).1 := by
  simp only [calc_timer, timer_of_rate, floor_timer]
  split <;> omega

/-- C6: for a 16-bit rate `r` not above `MAX_STEP_FREQUENCY`, `calc_timer` stores the
multiplier 1 and looks up `r` when `r <= 10000`, stores 2 and looks up `r / 2` when
`10000 < r <= 20000`, stores 4 and looks up `r / 4` when `r > 20000`; after any call the
multiplier is 1, 2 or 4; and for a block with `nominal_rate = 16000` the reset caches the
interval looked up with 8000 and the nominal multiplier 2 (shift 1 in the L6470 build). -/
theorem calc_timer_multiplier (cfg : Config) (s : State) (r : Nat)
    (h16 : r < 65536) (hmax : r ≤ cfg.MAX_STEP_FREQUENCY) :
    (r ≤ 10000 → (calc_timer cfg s r).1 = timer_of_rate cfg r ∧
      step_multiplier cfg (calc_timer cfg s r).2 = 1) ∧
    (10000 < r → r ≤ 20000 → (calc_timer cfg s r).1 = timer_of_rate cfg (r / 2) ∧
      step_multiplier cfg (calc_timer cfg s r).2 = 2) ∧
    (20000 < r → (calc_timer cfg s r).1 = timer_of_rate cfg (r / 4) ∧
      step_multiplier cfg (calc_timer cfg s r).2 = 4) ∧
    (∀ q : Nat, step_multiplier cfg (calc_timer cfg s q).2 = 1 ∨
      step_multiplier cfg (calc_timer cfg s q).2 = 2 ∨
      step_multiplier cfg (calc_timer cfg s q).2 = 4) ∧
    (∀ b : block_t, b.nominal_rate = 16000 → 16000 ≤ cfg.MAX_STEP_FREQUENCY →
      (trapezoid_generator_reset cfg s b).OCR1A_nominal = timer_of_rate cfg 8000 ∧
      nominal_step_multiplier cfg (trapezoid_generator_reset cfg s b) = 2 ∧
      (cfg.USE_L6470 = true →
        (trapezoid_generator_reset cfg s b).step_loops_shift_nominal = 1)) := by
  have hc : clamp_rate cfg r = r := clamp_rate_of_le cfg r hmax
  refine ⟨?_, ?_, ?_, ?_, ?_⟩
  · intro h
    simp only [calc_timer, hc, step_multiplier_set]
    have hd : divided_rate r = r := by
      unfold divided_rate
      rw [if_neg (by omega), if_neg (by omega)]
    have hl : loops_shift r = 0 := by
      unfold loops_shift
      rw [if_neg (by omega), if_neg (by omega)]
    rw [hd, hl]
    exact ⟨rfl, rfl⟩
  · intro h1 h2
    simp only [calc_timer, hc, step_multiplier_set]
    have hd : divided_rate r = r / 2 := by
      unfold divided_rate
      rw [if_neg (by omega), if_pos h1, shift1_mask r h16]
    have hl : loops_shift r = 1 := by
      unfold loops_shift
      rw [if_neg (by omega), if_pos h1]
    rw [hd, hl]
    exact ⟨rfl, rfl⟩
  · intro h
    simp only [calc_timer, hc, step_multiplier_set]
    have hd : divided_rate r = r / 4 := by
      unfold divided_rate
      rw [if_pos h, shift2_mask r h16]
    have hl : loops_shift r = 2 := by
      unfold loops_shift
      rw [if_pos h]
    rw [hd, hl]
    exact ⟨rfl, rfl⟩
  · intro q
    simp only [calc_timer, step_multiplier_set]
    rcases loops_shift_cases (clamp_rate cfg q) with h | h | h <;> rw [h]
    · left; rfl
    · right; left; rfl
    · right; right; rfl
  · intro b hb hm
    have h1 : u16 b.nominal_rate = 16000 := by rw [hb]; rfl
    have h2 : clamp_rate cfg 16000 = 16000 := clamp_rate_of_le cfg 16000 hm
    have h3 : divided_rate 16000 = 8000 := by decide
    have h4 : loops_shift 16000 = 1 := by decide
    cases hA : cfg.ADVANCE <;> cases hL : cfg.USE_L6470 <;>
      simp [trapezoid_generator_reset, calc_timer, set_step_loops, nominal_step_multiplier,
        hA, hL, h1, h2, h3, h4]

/-- C6 at a concrete input: the pin-toggling build at 16 kHz looks up 8000 and stores the
multiplier 2. -/
theorem calc_timer_multiplier_witness :
    (calc_timer cfg_pulse initial_state 16000).1 = timer_of_rate cfg_pulse (16000 / 2) ∧
      step_multiplier cfg_pulse (calc_timer cfg_pulse initial_state 16000).2 = 2 :=
  (calc_timer_multiplier cfg_pulse initial_state 16000 (by decide) (by decide)).2.1
    (by decide) (by decide)

/-- C7: `calc_timer` clamps its input at both ends.  A 16-bit rate at or above
`MAX_STEP_FREQUENCY` gives the same interval and multiplier as `MAX_STEP_FREQUENCY`
itself; a rate at or below `F_CPU/500000` gives the same interval as `F_CPU/500000`,
namely the one looked up with adjusted rate 0, and also the same multiplier when
`F_CPU/500000` is at most 10000 (any clock below 5 GHz). -/
theorem calc_timer_clamps (cfg : Config) (s : State) (r : Nat) :
    (r < 65536 → cfg.MAX_STEP_FREQUENCY ≤ r →
      calc_timer cfg s r = calc_timer cfg s (u16 cfg.MAX_STEP_FREQUENCY)) ∧
    (r ≤ cfg.min_rate →
      (calc_timer cfg s r).1 = (calc_timer cfg s (u16 cfg.min_rate)).1 ∧
      adjusted_rate cfg (divided_rate (clamp_rate cfg r)) = 0 ∧
      (calc_timer cfg s r).1 = floor_timer (table_timer cfg 0) ∧
      (cfg.min_rate ≤ 10000 → calc_timer cfg s r = calc_timer cfg s (u16 cfg.min_rate))) := by
  constructor
  · intro h16 hr
    have hm : u16 cfg.MAX_STEP_FREQUENCY = cfg.MAX_STEP_FREQUENCY :=
      Nat.mod_eq_of_lt (by omega)
    have h1 : clamp_rate cfg r = cfg.MAX_STEP_FREQUENCY := by
      unfold clamp_rate
      split
      · exact hm
      · omega
    have h2 : clamp_rate cfg (u16 cfg.MAX_STEP_FREQUENCY) = cfg.MAX_STEP_FREQUENCY := by
      rw [hm]
      exact clamp_rate_of_le cfg _ (le_refl _)
    simp only [calc_timer, h1, h2]
  · intro hr
    have ha : ∀ q : Nat, q ≤ cfg.min_rate →
        adjusted_rate cfg (divided_rate (clamp_rate cfg q)) = 0 := fun q hq =>
      adjusted_rate_of_le cfg _
        (le_trans (divided_rate_le _) (le_trans (clamp_rate_le cfg q) hq))
    have hu : u16 cfg.min_rate ≤ cfg.min_rate := Nat.mod_le _ _
    refine ⟨?_, ha r hr, ?_, ?_⟩
    · simp only [calc_timer, timer_of_rate, ha r hr, ha _ hu]
    · simp only [calc_timer, timer_of_rate, ha r hr]
    · intro hs
      have l1 : loops_shift (clamp_rate cfg r) = 0 := by
        have := clamp_rate_le cfg r
        unfold loops_shift
        rw [if_neg (by omega), if_neg (by omega)]
      have l2 : loops_shift (clamp_rate cfg (u16 cfg.min_rate)) = 0 := by
        have := clamp_rate_le cfg (u16 cfg.min_rate)
        unfold loops_shift
        rw [if_neg (by omega), if_neg (by omega)]
      simp only [calc_timer, timer_of_rate, ha r hr, ha _ hu, set_step_loops, l1, l2]

/-- C7 at concrete inputs: with a 40 kHz maximum the rate 50000 is treated as 40000, and
with a 16 MHz clock the rate 10 is treated as 32. -/
theorem calc_timer_clamps_witness :
    calc_timer cfg_pulse initial_state 50000 = calc_timer cfg_pulse initial_state 40000 ∧
    (calc_timer cfg_pulse initial_state 10).1 = (calc_timer cfg_pulse initial_state 32).1 :=
  ⟨(calc_timer_clamps cfg_pulse initial_state 50000).1 (by decide) (by decide),
   ((calc_timer_clamps cfg_pulse initial_state 10).2 (by decide)).1⟩

/-- C8: position round trip: directly after `st_set_position(x, y, z, e)` the four reads
`st_get_position(axis)` return `x`, `y`, `z` and `e`. -/
theorem st_position_round_trip (s : State) (x y z e : Int) :
    st_get_position (st_set_position s x y z e) X_AXIS = some x ∧
    st_get_position (st_set_position s x y z e) Y_AXIS = some y ∧
    st_get_position (st_set_position s x y z e) Z_AXIS = some z ∧
    st_get_position (st_set_position s x y z e) E_AXIS = some e := by
  refine ⟨rfl, rfl, rfl, rfl⟩

/-- C9: after `quickStop()` the planner queue is empty and `current_block` is NULL; a
tick that finds no current block and an empty queue changes nothing but `OCR1A`, which it
sets to 2000; so after any number of ticks following `quickStop()` with the queue still
empty no pulse was emitted, `count_position` and `step_events_completed` are unchanged,
`current_block` is NULL and the interval is 2000. -/
theorem quickStop_then_idle (cfg : Config) (s : State) :
    (quickStop s).block_buffer = [] ∧ (quickStop s).current_block = none ∧
    (∀ (pins : Pins) (t : State), t.current_block = none → t.block_buffer = [] →
      ISR_TIMER1_COMPA_vect cfg pins t = { t with OCR1A := 2000 }) ∧
    (∀ (p : Pins) (ps : List Pins),
      (run_ticks cfg (p :: ps) (quickStop s)).pulses = (quickStop s).pulses ∧
      (run_ticks cfg (p :: ps) (quickStop s)).moved = (quickStop s).moved ∧
      (run_ticks cfg (p :: ps) (quickStop s)).count_position = (quickStop s).count_position ∧
      (run_ticks cfg (p :: ps) (quickStop s)).step_events_completed =
        (quickStop s).step_events_completed ∧
      (run_ticks cfg (p :: ps) (quickStop s)).current_block = none ∧
      (run_ticks cfg (p :: ps) (quickStop s)).block_buffer = [] ∧
      (run_ticks cfg (p :: ps) (quickStop s)).OCR1A = 2000) := by
  have h1 : (quickStop s).block_buffer = [] := by rw [quickStop_eq]
  have h2 : (quickStop s).current_block = none := by rw [quickStop_eq]
  refine ⟨h1, h2, fun pins t hc hq => idle_tick cfg pins t hc hq, ?_⟩
  intro p ps
  have e : run_ticks cfg (p :: ps) (quickStop s) = { quickStop s with OCR1A := 2000 } := by
    simp only [run_ticks]
    rw [idle_tick cfg p _ h2 h1]
    exact idle_ticks cfg ps _ h2 h1 rfl
  rw [e]
  exact ⟨rfl, rfl, rfl, rfl, h2, h1, rfl⟩

/-- C9 at a concrete input: a one-event block is queued, `quickStop()` is called, and
three ticks follow: no pulse, the block is gone, the interval is 2000. -/
theorem quickStop_then_idle_witness :
    (run_ticks cfg_pulse [no_pins, no_pins, no_pins]
      (quickStop { initial_state with block_buffer := [x_block 1 1000] })).pulses =
        ⟨0, 0, 0, 0⟩ ∧
    (run_ticks cfg_pulse [no_pins, no_pins, no_pins]
      (quickStop { initial_state with block_buffer := [x_block 1 1000] })).OCR1A = 2000 :=
  ⟨((quickStop_then_idle cfg_pulse
      { initial_state with block_buffer := [x_block 1 1000] }).2.2.2
        no_pins [no_pins, no_pins]).1.trans (by decide),
   ((quickStop_then_idle cfg_pulse
      { initial_state with block_buffer := [x_block 1 1000] }).2.2.2
        no_pins [no_pins, no_pins]).2.2.2.2.2.2⟩

/-- C10: `quickStop()` leaves `count_position`, the three endstop hit flags,
`endstops_trigsteps`, the event counter and the emitted pulses exactly as they were; it
writes the planner queue, `current_block` and the interrupt enable bit it sets on exit,
so with the stepper interrupt enabled at the call (a block is in flight) only the queue
and `current_block` change. -/
theorem quickStop_frame (s : State) :
    (quickStop s).count_position = s.count_position ∧
    (quickStop s).endstop_x_hit = s.endstop_x_hit ∧
    (quickStop s).endstop_y_hit = s.endstop_y_hit ∧
    (quickStop s).endstop_z_hit = s.endstop_z_hit ∧
    (quickStop s).endstops_trigsteps = s.endstops_trigsteps ∧
    (quickStop s).step_events_completed = s.step_events_completed ∧
    (quickStop s).pulses = s.pulses ∧
    (quickStop s).moved = s.moved ∧
    (s.OCIE1A = true →
      quickStop s = { s with block_buffer := [], current_block := none }) := by
  rw [quickStop_eq]
  refine ⟨rfl, rfl, rfl, rfl, rfl, rfl, rfl, rfl, ?_⟩
  intro h
  cases s
  simp_all

/-- C10 at a concrete input, scenario 6 of the specification: `quickStop()` after 500
ticks of a 1000-event +X block: the position and the pulse count still show exactly the
500 events executed. -/
theorem quickStop_frame_witness :
    (quickStop (run_ticks cfg_pulse (List.replicate 500 no_pins)
      { initial_state with block_buffer := [x_block 1000 1000] })).count_position.x = 500 ∧
    (quickStop (run_ticks cfg_pulse (List.replicate 500 no_pins)
      { initial_state with block_buffer := [x_block 1000 1000] })).pulses.x = 500 ∧
    (quickStop (run_ticks cfg_pulse (List.replicate 500 no_pins)
      { initial_state with block_buffer := [x_block 1000 1000] })).step_events_completed =
        500 :=
  ⟨(congrArg Axes.x (quickStop_frame (run_ticks cfg_pulse (List.replicate 500 no_pins)
      { initial_state with block_buffer := [x_block 1000 1000] })).1).trans
        x_block_half_way.1,
   (congrArg Axes.x (quickStop_frame (run_ticks cfg_pulse (List.replicate 500 no_pins)
      { initial_state with block_buffer := [x_block 1000 1000] })).2.2.2.2.2.2.1).trans
        x_block_half_way.2.1,
   ((quickStop_frame (run_ticks cfg_pulse (List.replicate 500 no_pins)
      { initial_state with block_buffer := [x_block 1000 1000] })).2.2.2.2.2.1).trans
        x_block_half_way.2.2.1⟩

/-- C11: endstop confirmation without `COREXY`.  In a tick with current block `b`, for
each of X, Y and Z: the hit flag is set at the end of the tick exactly when it was set
before or the gate `check_endstops` is on, the block has steps on the axis, and the
endstop in the direction of travel (MIN with the direction bit set, MAX with it clear)
is configured, reads active in this tick and read active in the previous sample; in
that case the trigger position is the value `count_position` had at the start of the
tick and the block is discarded by the end of the tick; otherwise the trigger position
is not written. -/
theorem endstop_confirmation (cfg : Config) (pins : Pins) (s : State) (b : block_t)
    (hb : s.current_block = some b)
    (hN : b.step_event_count < 2147483648)
    (hm : mult_ok (step_multiplier cfg s))
    (hx : cfg.COREXY = false) :
    (((ISR_TIMER1_COMPA_vect cfg pins s).endstop_x_hit = true ↔
        (s.check_endstops = true ∧ 0 < b.steps_x ∧
          (if dir_bit b.direction_bits X_AXIS = true then
            cfg.X_MIN_PIN = true ∧ pins.x_min = true ∧ s.old_x_min_endstop = true
          else cfg.X_MAX_PIN = true ∧ pins.x_max = true ∧ s.old_x_max_endstop = true)) ∨
        s.endstop_x_hit = true) ∧
      ((s.check_endstops = true ∧ 0 < b.steps_x ∧
          (if dir_bit b.direction_bits X_AXIS = true then
            cfg.X_MIN_PIN = true ∧ pins.x_min = true ∧ s.old_x_min_endstop = true
          else cfg.X_MAX_PIN = true ∧ pins.x_max = true ∧ s.old_x_max_endstop = true)) →
        (ISR_TIMER1_COMPA_vect cfg pins s).endstops_trigsteps.x = s.count_position.x ∧
        (ISR_TIMER1_COMPA_vect cfg pins s).current_block = none) ∧
      (¬(s.check_endstops = true ∧ 0 < b.steps_x ∧
          (if dir_bit b.direction_bits X_AXIS = true then
            cfg.X_MIN_PIN = true ∧ pins.x_min = true ∧ s.old_x_min_endstop = true
          else cfg.X_MAX_PIN = true ∧ pins.x_max = true ∧ s.old_x_max_endstop = true)) →
        (ISR_TIMER1_COMPA_vect cfg pins s).endstops_trigsteps.x = s.endstops_trigsteps.x)) ∧
    (((ISR_TIMER1_COMPA_vect cfg pins s).endstop_y_hit = true ↔
        (s.check_endstops = true ∧ 0 < b.steps_y ∧
          (if dir_bit b.direction_bits Y_AXIS = true then
            cfg.Y_MIN_PIN = true ∧ pins.y_min = true ∧ s.old_y_min_endstop = true
          else cfg.Y_MAX_PIN = true ∧ pins.y_max = true ∧ s.old_y_max_endstop = true)) ∨
        s.endstop_y_hit = true) ∧
      ((s.check_endstops = true ∧ 0 < b.steps_y ∧
          (if dir_bit b.direction_bits Y_AXIS = true then
            cfg.Y_MIN_PIN = true ∧ pins.y_min = true ∧ s.old_y_min_endstop = true
          else cfg.Y_MAX_PIN = true ∧ pins.y_max = true ∧ s.old_y_max_endstop = true)) →
        (ISR_TIMER1_COMPA_vect cfg pins s).endstops_trigsteps.y = s.count_position.y ∧
        (ISR_TIMER1_COMPA_vect cfg pins s).current_block = none) ∧
      (¬(s.check_endstops = true ∧ 0 < b.steps_y ∧
          (if dir_bit b.direction_bits Y_AXIS = true then
            cfg.Y_MIN_PIN = true ∧ pins.y_min = true ∧ s.old_y_min_endstop = true
          else cfg.Y_MAX_PIN = true ∧ pins.y_max = true ∧ s.old_y_max_endstop = true)) →
        (ISR_TIMER1_COMPA_vect cfg pins s).endstops_trigsteps.y = s.endstops_trigsteps.y)) ∧
    (((ISR_TIMER1_COMPA_vect cfg pins s).endstop_z_hit = true ↔
        (s.check_endstops = true ∧ 0 < b.steps_z ∧
          (if dir_bit b.direction_bits Z_AXIS = true then
            cfg.Z_MIN_PIN = true ∧ pins.z_min = true ∧ s.old_z_min_endstop = true
          else cfg.Z_MAX_PIN = true ∧ pins.z_max = true ∧ s.old_z_max_endstop = true)) ∨
        s.endstop_z_hit = true) ∧
      ((s.check_endstops = true ∧ 0 < b.steps_z ∧
          (if dir_bit b.direction_bits Z_AXIS = true then
            cfg.Z_MIN_PIN = true ∧ pins.z_min = true ∧ s.old_z_min_endstop = true
          else cfg.Z_MAX_PIN = true ∧ pins.z_max = true ∧ s.old_z_max_endstop = true)) →
        (ISR_TIMER1_COMPA_vect cfg pins s).endstops_trigsteps.z = s.count_position.z ∧
        (ISR_TIMER1_COMPA_vect cfg pins s).current_block = none) ∧
      (¬(s.check_endstops = true ∧ 0 < b.steps_z ∧
          (if dir_bit b.direction_bits Z_AXIS = true then
            cfg.Z_MIN_PIN = true ∧ pins.z_min = true ∧ s.old_z_min_endstop = true
          else cfg.Z_MAX_PIN = true ∧ pins.z_max = true ∧ s.old_z_max_endstop = true)) →
        (ISR_TIMER1_COMPA_vect cfg pins s).endstops_trigsteps.z = s.endstops_trigsteps.z)) := by
  have hl := (run_block_latches cfg pins s b).trans (checked_latches cfg pins s b)
  rw [tick_of_current cfg pins s b hb]
  refine ⟨?_, ?_, ?_⟩
  · exact latch_effect (x_hit_now_iff cfg pins s b hx) (congrArg Latches.x_hit hl)
      (congrArg (fun l => l.trigsteps.x) hl)
      (fun h => run_block_hit_discard cfg pins s b hb hN hm (endstop_hit_of_x cfg pins s b h))
  · exact latch_effect (y_hit_now_iff cfg pins s b hx) (congrArg Latches.y_hit hl)
      (congrArg (fun l => l.trigsteps.y) hl)
      (fun h => run_block_hit_discard cfg pins s b hb hN hm (endstop_hit_of_y cfg pins s b h))
  · exact latch_effect (z_hit_now_iff cfg pins s b) (congrArg Latches.z_hit hl)
      (congrArg (fun l => l.trigsteps.z) hl)
      (fun h => run_block_hit_discard cfg pins s b hb hN hm (endstop_hit_of_z cfg pins s b h))

/-- C11 at a concrete input: a block along -X with the X_MIN switch active in its first
two ticks; the second tick latches the hit at the position the first tick left and
discards the block. -/
theorem endstop_confirmation_witness :
    (ISR_TIMER1_COMPA_vect cfg_pulse x_min_pins (ISR_TIMER1_COMPA_vect cfg_pulse x_min_pins
      { initial_state with block_buffer := [x_block_back 3 1000] })).endstop_x_hit = true ∧
    (ISR_TIMER1_COMPA_vect cfg_pulse x_min_pins (ISR_TIMER1_COMPA_vect cfg_pulse x_min_pins
      { initial_state with block_buffer := [x_block_back 3 1000] })).endstops_trigsteps.x =
      (ISR_TIMER1_COMPA_vect cfg_pulse x_min_pins
        { initial_state with block_buffer := [x_block_back 3 1000] }).count_position.x ∧
    (ISR_TIMER1_COMPA_vect cfg_pulse x_min_pins (ISR_TIMER1_COMPA_vect cfg_pulse x_min_pins
      { initial_state with block_buffer := [x_block_back 3 1000] })).current_block = none :=
  ⟨(endstop_confirmation cfg_pulse x_min_pins (ISR_TIMER1_COMPA_vect cfg_pulse x_min_pins
      { initial_state with block_buffer := [x_block_back 3 1000] })
      { x_block_back 3 1000 with busy := true } (by decide) (by decide) (by decide)
      rfl).1.1.mpr (Or.inl (by decide)),
   (endstop_confirmation cfg_pulse x_min_pins (ISR_TIMER1_COMPA_vect cfg_pulse x_min_pins
      { initial_state with block_buffer := [x_block_back 3 1000] })
      { x_block_back 3 1000 with busy := true } (by decide) (by decide) (by decide)
      rfl).1.2.1 (by decide)⟩

/-- C12 as stated fails: a block along +X with `steps_x > 0` and the gate on, with the
X_MIN switch active in three consecutive ticks, is still current after them, with no X
hit latched: moving in +X the interrupt samples X_MAX, not X_MIN. -/
theorem x_min_ignored_moving_plus_x :
    0 < (x_block 10 1000).steps_x ∧
    dir_bit (x_block 10 1000).direction_bits X_AXIS = false ∧
    initial_state.check_endstops = true ∧
    (run_ticks cfg_pulse [x_min_pins, x_min_pins, x_min_pins]
      { initial_state with block_buffer := [x_block 10 1000] }).current_block =
      some { x_block 10 1000 with busy := true } ∧
    (run_ticks cfg_pulse [x_min_pins, x_min_pins, x_min_pins]
      { initial_state with block_buffer := [x_block 10 1000] }).endstop_x_hit = false ∧
    (run_ticks cfg_pulse [x_min_pins, x_min_pins, x_min_pins]
      { initial_state with block_buffer := [x_block 10 1000] }).step_events_completed = 3 := by
  decide

/-- C12, amended: without `COREXY`, for a block with `steps_x > 0` and the gate on, if
the X endstop in the direction of travel (X_MAX moving in +X, X_MIN moving in -X) is
configured and reads active in two consecutive ticks of the block, then at the end of
the second tick the block is discarded, `endstop_x_hit` is true and
`endstops_trigsteps[X]` is the value `count_position[X]` had at the start of that
tick. -/
theorem endstop_scenario (cfg : Config) (p1 p2 : Pins) (s : State) (b : block_t)
    (hx : cfg.COREXY = false)
    (hb : s.current_block = some b)
    (hlt : s.step_events_completed < b.step_event_count)
    (hN : b.step_event_count < 2147483648)
    (hm : mult_ok (step_multiplier cfg s))
    (hn : mult_ok (nominal_step_multiplier cfg s))
    (hc : s.check_endstops = true)
    (hs : 0 < b.steps_x)
    (hp : if dir_bit b.direction_bits X_AXIS = true then
        cfg.X_MIN_PIN = true ∧ p1.x_min = true ∧ p2.x_min = true
      else cfg.X_MAX_PIN = true ∧ p1.x_max = true ∧ p2.x_max = true)
    (h1 : (ISR_TIMER1_COMPA_vect cfg p1 s).current_block = some b) :
    (ISR_TIMER1_COMPA_vect cfg p2 (ISR_TIMER1_COMPA_vect cfg p1 s)).current_block = none ∧
    (ISR_TIMER1_COMPA_vect cfg p2 (ISR_TIMER1_COMPA_vect cfg p1 s)).endstop_x_hit = true ∧
    (ISR_TIMER1_COMPA_vect cfg p2 (ISR_TIMER1_COMPA_vect cfg p1 s)).endstops_trigsteps.x =
      (ISR_TIMER1_COMPA_vect cfg p1 s).count_position.x := by
  have hl1 := (tick_latches cfg p1 s b hb).trans (checked_latches cfg p1 s b)
  have hm1 : mult_ok (step_multiplier cfg (ISR_TIMER1_COMPA_vect cfg p1 s)) := by
    have h := (run_block_spec cfg p1 s b hb hlt hN hm hn).2.2
    rw [← tick_of_current cfg p1 s b hb] at h
    exact (h (by rw [h1]; exact Option.some_ne_none b)).2.2.1
  have hc1 : (ISR_TIMER1_COMPA_vect cfg p1 s).check_endstops = true :=
    (congrArg Latches.check hl1).trans hc
  have hmin : (ISR_TIMER1_COMPA_vect cfg p1 s).old_x_min_endstop =
      if x_negative cfg b.direction_bits && s.check_endstops && cfg.X_MIN_PIN then p1.x_min
      else s.old_x_min_endstop := congrArg Latches.old_x_min hl1
  have hmax : (ISR_TIMER1_COMPA_vect cfg p1 s).old_x_max_endstop =
      if !x_negative cfg b.direction_bits && s.check_endstops && cfg.X_MAX_PIN then p1.x_max
      else s.old_x_max_endstop := congrArg Latches.old_x_max hl1
  generalize ISR_TIMER1_COMPA_vect cfg p1 s = t1 at h1 hm1 hc1 hmin hmax ⊢
  have hhit : x_hit_now cfg p2 (set_xy_direction t1 b) b = true := by
    rw [x_hit_now_iff cfg p2 t1 b hx]
    refine ⟨hc1, hs, ?_⟩
    rw [hmin, hmax]
    simp only [x_negative, hx, hc, Bool.false_eq_true, if_false]
    split_ifs at hp ⊢ <;> simp_all
  have hl2 := (tick_latches cfg p2 t1 b h1).trans (checked_latches cfg p2 t1 b)
  have hf := congrArg Latches.x_hit hl2
  have ht := congrArg (fun l => l.trigsteps.x) hl2
  simp only [hhit, Bool.true_or, if_true] at hf ht
  refine ⟨?_, hf, ht⟩
  rw [tick_of_current cfg p2 t1 b h1]
  exact run_block_hit_discard cfg p2 t1 b h1 hN hm1 (endstop_hit_of_x cfg p2 t1 b hhit)

/-- C12 at a concrete input: a block along +X that has run one tick, then two ticks with
the X_MAX switch active; the hit is latched at position 2 and the block is discarded. -/
theorem endstop_scenario_witness :
    (run_ticks cfg_pulse [x_max_pins, x_max_pins]
      (ISR_TIMER1_COMPA_vect cfg_pulse no_pins
        { initial_state with block_buffer := [x_block 10 1000] })).current_block = none ∧
    (run_ticks cfg_pulse [x_max_pins, x_max_pins]
      (ISR_TIMER1_COMPA_vect cfg_pulse no_pins
        { initial_state with block_buffer := [x_block 10 1000] })).endstop_x_hit = true ∧
    (run_ticks cfg_pulse [x_max_pins, x_max_pins]
      (ISR_TIMER1_COMPA_vect cfg_pulse no_pins
        { initial_state with block_buffer := [x_block 10 1000] })).endstops_trigsteps.x = 2 :=
  endstop_scenario cfg_pulse x_max_pins x_max_pins
    (ISR_TIMER1_COMPA_vect cfg_pulse no_pins
      { initial_state with block_buffer := [x_block 10 1000] })
    { x_block 10 1000 with busy := true } rfl (by decide) (by decide) (by decide) (by decide)
    (by decide) (by decide) (by decide) (by decide) (by decide)

/-- C13: the endstop gate.  `enable_endstops(c)` writes the gate and nothing else
(restoring the old value of the gate restores the state).  After
`enable_endstops(false)`, whatever the queued blocks, the inputs read in each tick and
the previous samples, a run of ticks leaves the three hit flags and
`endstops_trigsteps` as they were, leaves the gate off, and in no tick is
`step_events_completed` forced to `step_event_count` by an endstop: every tick of the
run starts with the gate off, and in each of them, for any inputs and any block, the
direction setup and the endstop checks (lines 547 to 755) write nothing but `out_bits`
and the X, Y, Z entries of `count_direction`, so the step loop starts with the event
counter the block claim left, and the whole tick is the same for all inputs. -/
theorem endstops_disabled (cfg : Config) (ps : List Pins) (s : State) :
    (∀ c : Bool, (enable_endstops s c).check_endstops = c ∧
      enable_endstops (enable_endstops s c) s.check_endstops = s) ∧
    (run_ticks cfg ps (enable_endstops s false)).endstop_x_hit = s.endstop_x_hit ∧
    (run_ticks cfg ps (enable_endstops s false)).endstop_y_hit = s.endstop_y_hit ∧
    (run_ticks cfg ps (enable_endstops s false)).endstop_z_hit = s.endstop_z_hit ∧
    (run_ticks cfg ps (enable_endstops s false)).endstops_trigsteps = s.endstops_trigsteps ∧
    (run_ticks cfg ps (enable_endstops s false)).check_endstops = false ∧
    no_hit cfg ps (enable_endstops s false) = true ∧
    (∀ k : Nat, (run_ticks cfg (ps.take k) (enable_endstops s false)).check_endstops = false) ∧
    (∀ (k : Nat) (pins : Pins) (b : block_t),
      checked cfg pins
          (claim_block cfg (run_ticks cfg (ps.take k) (enable_endstops s false))).1 b =
        { set_xy_direction
            (claim_block cfg (run_ticks cfg (ps.take k) (enable_endstops s false))).1 b with
          count_direction :=
            { (set_xy_direction
                (claim_block cfg (run_ticks cfg (ps.take k) (enable_endstops s false))).1
                b).count_direction with
              z := if dir_bit b.direction_bits Z_AXIS then -1 else 1 } } ∧
      (set_e_direction cfg (checked cfg pins
          (claim_block cfg (run_ticks cfg (ps.take k) (enable_endstops s false))).1
          b)).step_events_completed =
        (claim_block cfg
          (run_ticks cfg (ps.take k) (enable_endstops s false))).1.step_events_completed) ∧
    (∀ (k : Nat) (pins pins1 : Pins),
      ISR_TIMER1_COMPA_vect cfg pins (run_ticks cfg (ps.take k) (enable_endstops s false)) =
        ISR_TIMER1_COMPA_vect cfg pins1
          (run_ticks cfg (ps.take k) (enable_endstops s false))) := by
  obtain ⟨g1, g2⟩ := run_gate_off cfg ps (enable_endstops s false) rfl
  have hoff : ∀ k : Nat,
      (run_ticks cfg (ps.take k) (enable_endstops s false)).check_endstops = false :=
    fun k => run_gate_stays_off cfg ps (enable_endstops s false) k rfl
  have hclaim : ∀ k : Nat, (claim_block cfg
      (run_ticks cfg (ps.take k) (enable_endstops s false))).1.check_endstops = false :=
    fun k => (congrArg Latches.check (claim_block_latches cfg _)).trans (hoff k)
  exact ⟨fun c => ⟨rfl, rfl⟩, congrArg Latches.x_hit g1, congrArg Latches.y_hit g1,
    congrArg Latches.z_hit g1, congrArg Latches.trigsteps g1, congrArg Latches.check g1, g2,
    hoff,
    fun k pins b => ⟨checked_gate_off_eq cfg pins _ b (hclaim k),
      checked_gate_off_sec cfg pins _ b (hclaim k)⟩,
    fun k pins pins1 => tick_gate_off_pins cfg pins pins1 _ (hoff k)⟩

/-- C14: `checkHitEndstops` reports and clears.  With none of the three hit flags set
it emits nothing and returns the state unchanged; with at least one set it emits a
report that opens with the echo header and the endstop message and closes the line,
leaves all three flags false, and a call made right after it emits nothing and
changes nothing. -/
theorem checkHitEndstops_reports_and_clears (cfg : Config) (s : State) :
    (s.endstop_x_hit = false ∧ s.endstop_y_hit = false ∧ s.endstop_z_hit = false →
      checkHitEndstops cfg s = (s, [])) ∧
    (s.endstop_x_hit = true ∨ s.endstop_y_hit = true ∨ s.endstop_z_hit = true →
      (∃ l, (checkHitEndstops cfg s).2 =
        Report.echo_start :: Report.echo_endstops_hit :: l ∧ Report.echo_ln ∈ l) ∧
      (checkHitEndstops cfg s).1.endstop_x_hit = false ∧
      (checkHitEndstops cfg s).1.endstop_y_hit = false ∧
      (checkHitEndstops cfg s).1.endstop_z_hit = false ∧
      checkHitEndstops cfg (checkHitEndstops cfg s).1 = ((checkHitEndstops cfg s).1, [])) := by
  have clear : ∀ t : State, t.endstop_x_hit = false → t.endstop_y_hit = false →
      t.endstop_z_hit = false → checkHitEndstops cfg t = (t, []) := by
    intro t a1 a2 a3
    simp [checkHitEndstops, a1, a2, a3]
  have eq : checkHitEndstops cfg s =
      if (s.endstop_x_hit || s.endstop_y_hit || s.endstop_z_hit) = true then
        if (cfg.ABORT_ON_ENDSTOP_HIT_FEATURE_ENABLED &&
            (clear_hits s).abort_on_endstop_hit) = true then
          (quickStop (clear_hits s), [Report.echo_start, Report.echo_endstops_hit] ++
            hit_report s ++ [Report.echo_ln] ++ [Report.card_closed, Report.hotends_off])
        else (clear_hits s, [Report.echo_start, Report.echo_endstops_hit] ++
          hit_report s ++ [Report.echo_ln])
      else (s, []) := rfl
  have flags : (checkHitEndstops cfg s).1.endstop_x_hit = false ∧
      (checkHitEndstops cfg s).1.endstop_y_hit = false ∧
      (checkHitEndstops cfg s).1.endstop_z_hit = false := by
    rw [eq]
    split_ifs with h1 h2
    · rw [quickStop_eq]; exact ⟨rfl, rfl, rfl⟩
    · exact ⟨rfl, rfl, rfl⟩
    · simp only [Bool.or_eq_true, not_or, Bool.not_eq_true] at h1
      exact ⟨h1.1.1, h1.1.2, h1.2⟩
  refine ⟨fun h => clear s h.1 h.2.1 h.2.2, fun h => ⟨?_, flags.1, flags.2.1, flags.2.2,
    clear _ flags.1 flags.2.1 flags.2.2⟩⟩
  have hc : (s.endstop_x_hit || s.endstop_y_hit || s.endstop_z_hit) = true := by
    rcases h with h | h | h <;> simp [h]
  rw [eq, if_pos hc]
  split_ifs
  · exact ⟨_, rfl, by simp⟩
  · exact ⟨_, rfl, by simp⟩

/-- C14 at concrete inputs: no report from the start-up state; with the Y flag set the
call clears it and a second call reports nothing. -/
theorem checkHitEndstops_reports_and_clears_witness :
    checkHitEndstops cfg_pulse initial_state = (initial_state, []) ∧
    (checkHitEndstops cfg_pulse { initial_state with endstop_y_hit := true }).1.endstop_y_hit
      = false ∧
    checkHitEndstops cfg_pulse
      (checkHitEndstops cfg_pulse { initial_state with endstop_y_hit := true }).1 =
      ((checkHitEndstops cfg_pulse { initial_state with endstop_y_hit := true }).1, []) :=
  ⟨(checkHitEndstops_reports_and_clears cfg_pulse initial_state).1 ⟨rfl, rfl, rfl⟩,
   ((checkHitEndstops_reports_and_clears cfg_pulse
      { initial_state with endstop_y_hit := true }).2 (Or.inr (Or.inl rfl))).2.2.1,
   ((checkHitEndstops_reports_and_clears cfg_pulse
      { initial_state with endstop_y_hit := true }).2 (Or.inr (Or.inl rfl))).2.2.2.2⟩

/-- C15: phase selection of the trapezoid generator.  In a tick with current block `b`
whose thresholds are in the range of the data model, the generator runs on the state
left by the tick's stepping, with `c` the updated `step_events_completed`: it takes the
acceleration branch when `c <= accelerate_until`, else the deceleration branch when
`c > decelerate_after`, else the cruise branch.  In the cruise branch the tick writes
the cached interval `OCR1A_nominal` to the timer and the cached nominal multiplier to
the step multiplier, and leaves `acc_step_rate`, `acceleration_time`,
`deceleration_time` and the cache as they were; when the cache holds the interval of
`calc_timer` for the block's nominal rate, that is the interval written. -/
theorem trapezoid_phase_selection (cfg : Config) (pins : Pins) (s : State) (b : block_t)
    (hb : s.current_block = some b)
    (ha : 0 ≤ b.accelerate_until ∧ b.accelerate_until < 2147483648)
    (hd : 0 ≤ b.decelerate_after ∧ b.decelerate_after < 2147483648)
    (hn : mult_ok (nominal_step_multiplier cfg s)) :
    ISR_TIMER1_COMPA_vect cfg pins s =
      finish_block (trapezoid cfg (stepped cfg pins s b) b) b ∧
    trapezoid cfg (stepped cfg pins s b) b =
      (if ((stepped cfg pins s b).step_events_completed : Int) ≤ b.accelerate_until then
        accelerate cfg (stepped cfg pins s b) b
      else if b.decelerate_after < ((stepped cfg pins s b).step_events_completed : Int) then
        decelerate cfg (stepped cfg pins s b) b
      else cruise cfg (stepped cfg pins s b)) ∧
    (b.accelerate_until < ((stepped cfg pins s b).step_events_completed : Int) →
      ((stepped cfg pins s b).step_events_completed : Int) ≤ b.decelerate_after →
      (ISR_TIMER1_COMPA_vect cfg pins s).OCR1A = s.OCR1A_nominal ∧
      step_multiplier cfg (ISR_TIMER1_COMPA_vect cfg pins s) = nominal_step_multiplier cfg s ∧
      (ISR_TIMER1_COMPA_vect cfg pins s).acc_step_rate = s.acc_step_rate ∧
      (ISR_TIMER1_COMPA_vect cfg pins s).acceleration_time = s.acceleration_time ∧
      (ISR_TIMER1_COMPA_vect cfg pins s).deceleration_time = s.deceleration_time ∧
      (ISR_TIMER1_COMPA_vect cfg pins s).OCR1A_nominal = s.OCR1A_nominal ∧
      nominal_step_multiplier cfg (ISR_TIMER1_COMPA_vect cfg pins s) =
        nominal_step_multiplier cfg s ∧
      (s.OCR1A_nominal = (calc_timer cfg s (u16 b.nominal_rate)).1 →
        (ISR_TIMER1_COMPA_vect cfg pins s).OCR1A =
          (calc_timer cfg s (u16 b.nominal_rate)).1)) := by
  have e := tick_eq cfg pins s b hb
  have hr := stepped_ramp cfg pins s b
  have hnom := nominal_of_ramp cfg hr
  have hsel : trapezoid cfg (stepped cfg pins s b) b =
      (if ((stepped cfg pins s b).step_events_completed : Int) ≤ b.accelerate_until then
        accelerate cfg (stepped cfg pins s b) b
      else if b.decelerate_after < ((stepped cfg pins s b).step_events_completed : Int) then
        decelerate cfg (stepped cfg pins s b) b
      else cruise cfg (stepped cfg pins s b)) := by
    have a1 := toU32_of_range b.accelerate_until ha.1 (by omega)
    have a2 := toU32_of_range b.decelerate_after hd.1 (by omega)
    unfold trapezoid
    split_ifs <;> first | rfl | (exfalso; omega)
  refine ⟨e, hsel, ?_⟩
  intro h1 h2
  rw [hsel, if_neg (by omega), if_neg (by omega)] at e
  obtain ⟨c1, c2⟩ := cruise_spec cfg (stepped cfg pins s b) (by rw [hnom]; exact hn)
  have hf := (finish_block_ramp (cruise cfg (stepped cfg pins s b)) b).trans c1
  rw [← e] at hf
  have m := (finish_block_spec cfg (cruise cfg (stepped cfg pins s b)) b).2.1
  rw [← e, c2, hnom] at m
  have o : (ISR_TIMER1_COMPA_vect cfg pins s).OCR1A = s.OCR1A_nominal :=
    (congrArg Ramp.OCR1A hf).trans (congrArg Ramp.OCR1A_nominal hr)
  have g : (ISR_TIMER1_COMPA_vect cfg pins s).ramp = { s.ramp with OCR1A := s.OCR1A_nominal }
      := by
    rw [hf, hr]
    exact congrArg (fun v => { s.ramp with OCR1A := v }) (congrArg Ramp.OCR1A_nominal hr)
  exact ⟨o, m, congrArg Ramp.acc_step_rate g, congrArg Ramp.acceleration_time g,
    congrArg Ramp.deceleration_time g, congrArg Ramp.OCR1A_nominal g,
    nominal_of_ramp cfg (t := ISR_TIMER1_COMPA_vect cfg pins s)
      (s := { s with OCR1A := s.OCR1A_nominal }) g,
    fun hc => o.trans hc⟩

/-- C15 at a concrete input: the second tick of a cruising block of three events writes
the interval of 1000 Hz and the multiplier 1. -/
theorem trapezoid_phase_selection_witness :
    (ISR_TIMER1_COMPA_vect cfg_pulse no_pins (ISR_TIMER1_COMPA_vect cfg_pulse no_pins
      { initial_state with block_buffer := [x_block 3 1000] })).OCR1A =
      (calc_timer cfg_pulse initial_state 1000).1 ∧
    step_multiplier cfg_pulse (ISR_TIMER1_COMPA_vect cfg_pulse no_pins
      (ISR_TIMER1_COMPA_vect cfg_pulse no_pins
        { initial_state with block_buffer := [x_block 3 1000] })) = 1 :=
  ⟨((trapezoid_phase_selection cfg_pulse no_pins (ISR_TIMER1_COMPA_vect cfg_pulse no_pins
      { initial_state with block_buffer := [x_block 3 1000] })
      { x_block 3 1000 with busy := true } (by decide) (by decide) (by decide)
      (by decide)).2.2 (by decide) (by decide)).1,
   ((trapezoid_phase_selection cfg_pulse no_pins (ISR_TIMER1_COMPA_vect cfg_pulse no_pins
      { initial_state with block_buffer := [x_block 3 1000] })
      { x_block 3 1000 with busy := true } (by decide) (by decide) (by decide)
      (by decide)).2.2 (by decide) (by decide)).2.1⟩

/-- C18 as stated fails: for a block whose `initial_rate` is 70000, right after the
claim `acc_step_rate` is 4464, the 16-bit truncation, not `initial_rate`, and
`acceleration_time` is the interval for 4464, not the one `calc_timer` gives for
70000. -/
theorem claim_truncates_initial_rate :
    (claim_block cfg_pulse { initial_state with block_buffer := [fast_start_block] }).1.current_block
      = some { fast_start_block with busy := true } ∧
    fast_start_block.initial_rate = 70000 ∧
    (claim_block cfg_pulse
      { initial_state with block_buffer := [fast_start_block] }).1.acc_step_rate = 4464 ∧
    (claim_block cfg_pulse
      { initial_state with block_buffer := [fast_start_block] }).1.acceleration_time =
      (calc_timer cfg_pulse initial_state 4464).1 ∧
    ((calc_timer cfg_pulse initial_state 4464).1 : Int) ≠
      (calc_timer cfg_pulse initial_state 70000).1 := by
  decide

/-- C18, amended: the setup in the tick that claims block `b0`, for a block whose
`initial_rate` and `nominal_rate` fit in 16 bits.  Right after the claim the block is
current and marked busy, also in the queue; `step_events_completed` is 0; the four
Bresenham counters are `-(step_event_count >> 1)`; `acc_step_rate` is `initial_rate`;
`acceleration_time` is the interval of `calc_timer` for `initial_rate`;
`deceleration_time` is 0; the cached nominal interval is the one of `calc_timer` for
`nominal_rate` and the cached nominal multiplier the one `calc_timer` stored for it;
and the timer holds `acceleration_time`, unless the tick is the `Z_LATE_ENABLE` wait,
which sets the timer to 2000 and returns. -/
theorem claim_tick_setup (cfg : Config) (s : State) (b0 : block_t)
    (hc : s.current_block = none) (hq : s.block_buffer.head? = some b0)
    (hN : b0.step_event_count < 4294967296)
    (hi : b0.initial_rate < 65536) (hnr : b0.nominal_rate < 65536) :
    (claim_block cfg s).1.current_block = some { b0 with busy := true } ∧
    (claim_block cfg s).1.block_buffer.head? = some { b0 with busy := true } ∧
    (claim_block cfg s).1.step_events_completed = 0 ∧
    (claim_block cfg s).1.counter_x = -((b0.step_event_count >>> 1 : Nat) : Int) ∧
    (claim_block cfg s).1.counter_y = -((b0.step_event_count >>> 1 : Nat) : Int) ∧
    (claim_block cfg s).1.counter_z = -((b0.step_event_count >>> 1 : Nat) : Int) ∧
    (claim_block cfg s).1.counter_e = -((b0.step_event_count >>> 1 : Nat) : Int) ∧
    (claim_block cfg s).1.acc_step_rate = b0.initial_rate ∧
    (claim_block cfg s).1.acceleration_time = (calc_timer cfg s b0.initial_rate).1 ∧
    (claim_block cfg s).1.deceleration_time = 0 ∧
    (claim_block cfg s).1.OCR1A_nominal = (calc_timer cfg s b0.nominal_rate).1 ∧
    nominal_step_multiplier cfg (claim_block cfg s).1 =
      step_multiplier cfg (calc_timer cfg s b0.nominal_rate).2 ∧
    ((claim_block cfg s).2 = false →
      ((claim_block cfg s).1.OCR1A : Int) = (claim_block cfg s).1.acceleration_time) ∧
    ((claim_block cfg s).2 = true → (claim_block cfg s).1.OCR1A = 2000) := by
  obtain ⟨k1, k2, k3, k4, k5, k6, k7⟩ := claimed_counters cfg s b0
  have hr := claimed_ramp cfg s b0
  have ui : u16 b0.initial_rate = b0.initial_rate := Nat.mod_eq_of_lt hi
  have un : u16 b0.nominal_rate = b0.nominal_rate := Nat.mod_eq_of_lt hnr
  rw [ui, un] at hr
  rw [half_count_range _ hN] at k4 k5 k6 k7
  have nm : nominal_step_multiplier cfg (claimed cfg s b0) =
      step_multiplier cfg (calc_timer cfg s b0.nominal_rate).2 := by
    have a1 := congrArg Ramp.step_loops_nominal hr
    have a2 := congrArg Ramp.step_loops_shift_nominal hr
    simp only [State.ramp] at a1 a2
    cases hL : cfg.USE_L6470 <;>
      simp [nominal_step_multiplier, step_multiplier, calc_timer, set_step_loops, hL, a1, a2]
  have key : ∀ c : State, c = claimed cfg s b0 ∨ c = z_late_wait (claimed cfg s b0) →
      c.current_block = some { b0 with busy := true } ∧
      c.block_buffer.head? = some { b0 with busy := true } ∧
      c.step_events_completed = 0 ∧
      c.counter_x = -((b0.step_event_count >>> 1 : Nat) : Int) ∧
      c.counter_y = -((b0.step_event_count >>> 1 : Nat) : Int) ∧
      c.counter_z = -((b0.step_event_count >>> 1 : Nat) : Int) ∧
      c.counter_e = -((b0.step_event_count >>> 1 : Nat) : Int) ∧
      c.acc_step_rate = b0.initial_rate ∧
      c.acceleration_time = (calc_timer cfg s b0.initial_rate).1 ∧
      c.deceleration_time = 0 ∧
      c.OCR1A_nominal = (calc_timer cfg s b0.nominal_rate).1 ∧
      nominal_step_multiplier cfg c = step_multiplier cfg (calc_timer cfg s b0.nominal_rate).2
      := by
    intro c hcc
    have f : c.current_block = (claimed cfg s b0).current_block ∧
        c.block_buffer = (claimed cfg s b0).block_buffer ∧
        c.step_events_completed = (claimed cfg s b0).step_events_completed ∧
        c.counter_x = (claimed cfg s b0).counter_x ∧
        c.counter_y = (claimed cfg s b0).counter_y ∧
        c.counter_z = (claimed cfg s b0).counter_z ∧
        c.counter_e = (claimed cfg s b0).counter_e ∧
        c.acc_step_rate = (claimed cfg s b0).acc_step_rate ∧
        c.acceleration_time = (claimed cfg s b0).acceleration_time ∧
        c.deceleration_time = (claimed cfg s b0).deceleration_time ∧
        c.OCR1A_nominal = (claimed cfg s b0).OCR1A_nominal ∧
        nominal_step_multiplier cfg c = nominal_step_multiplier cfg (claimed cfg s b0) := by
      rcases hcc with h | h <;> rw [h] <;> exact ⟨rfl, rfl, rfl, rfl, rfl, rfl, rfl, rfl, rfl,
        rfl, rfl, rfl⟩
    obtain ⟨f1, f2, f3, f4, f5, f6, f7, f8, f9, f10, f11, f12⟩ := f
    refine ⟨f1.trans k1, by rw [f2, k2]; rfl, f3.trans k3, f4.trans k4, f5.trans k5,
      f6.trans k6, f7.trans k7, f8.trans (congrArg Ramp.acc_step_rate hr), ?_,
      f10.trans (congrArg Ramp.deceleration_time hr),
      f11.trans (congrArg Ramp.OCR1A_nominal hr), f12.trans nm⟩
    rw [f9]
    exact congrArg Ramp.acceleration_time hr
  rw [claim_block_eq cfg s b0 hc hq]
  split_ifs
  · obtain ⟨a1, a2, a3, a4, a5, a6, a7, a8, a9, a10, a11, a12⟩ :=
      key (z_late_wait (claimed cfg s b0)) (Or.inr rfl)
    exact ⟨a1, a2, a3, a4, a5, a6, a7, a8, a9, a10, a11, a12,
      fun h => h.elim, fun _ => rfl⟩
  · obtain ⟨a1, a2, a3, a4, a5, a6, a7, a8, a9, a10, a11, a12⟩ :=
      key (claimed cfg s b0) (Or.inl rfl)
    refine ⟨a1, a2, a3, a4, a5, a6, a7, a8, a9, a10, a11, a12, fun _ => ?_,
      fun h => h.elim⟩
    have o := congrArg Ramp.OCR1A hr
    have t := congrArg Ramp.acceleration_time hr
    simp only [State.ramp] at o t
    rw [o, t]

/-- C18 at a concrete input: the claim of a block of four events with initial rate 1000
and nominal rate 2000. -/
theorem claim_tick_setup_witness :
    (claim_block cfg_pulse
      { initial_state with block_buffer := [ramp_up_block] }).1.acc_step_rate = 1000 ∧
    (claim_block cfg_pulse
      { initial_state with block_buffer := [ramp_up_block] }).1.counter_x = -2 ∧
    (claim_block cfg_pulse
      { initial_state with block_buffer := [ramp_up_block] }).1.OCR1A_nominal =
      (calc_timer cfg_pulse { initial_state with block_buffer := [ramp_up_block] } 2000).1 :=
  ⟨(claim_tick_setup cfg_pulse { initial_state with block_buffer := [ramp_up_block] }
      ramp_up_block rfl rfl (by decide) (by decide) (by decide)).2.2.2.2.2.2.2.1,
   (claim_tick_setup cfg_pulse { initial_state with block_buffer := [ramp_up_block] }
      ramp_up_block rfl rfl (by decide) (by decide) (by decide)).2.2.2.1,
   (claim_tick_setup cfg_pulse { initial_state with block_buffer := [ramp_up_block] }
      ramp_up_block rfl rfl (by decide) (by decide) (by decide)).2.2.2.2.2.2.2.2.2.2.1⟩

/-- C19: the block life cycle.  At the end of every tick, from any state whose next
queued block has a positive event count, there is no current block or
`step_events_completed` is below the current block's `step_event_count`.  For a block
`b` that is current and any run of ticks: either `b` stays current with the queue
untouched and the event counter below `step_event_count` after every tick, or there
is a first tick at whose end the counter has reached `step_event_count`, and in that
tick, not earlier, the block is discarded: `current_block` is NULL and the queue has
lost its oldest entry. -/
theorem block_lifecycle (cfg : Config) (b : block_t) (ps : List Pins) (s : State)
    (hb : s.current_block = some b) :
    (∀ (pins : Pins) (u : State),
      (∀ b0, u.block_buffer.head? = some b0 → 0 < b0.step_event_count) →
      (ISR_TIMER1_COMPA_vect cfg pins u).current_block = none ∨
      ∃ c, (ISR_TIMER1_COMPA_vect cfg pins u).current_block = some c ∧
        (ISR_TIMER1_COMPA_vect cfg pins u).step_events_completed < c.step_event_count) ∧
    ((∀ k, k ≤ ps.length →
      (run_ticks cfg (ps.take k) s).current_block = some b ∧
      (run_ticks cfg (ps.take k) s).block_buffer = s.block_buffer ∧
      (1 ≤ k → (run_ticks cfg (ps.take k) s).step_events_completed < b.step_event_count)) ∨
    (∃ k, k < ps.length ∧
      (∀ j, j ≤ k →
        (run_ticks cfg (ps.take j) s).current_block = some b ∧
        (run_ticks cfg (ps.take j) s).block_buffer = s.block_buffer ∧
        (1 ≤ j → (run_ticks cfg (ps.take j) s).step_events_completed < b.step_event_count)) ∧
      (run_ticks cfg (ps.take (k + 1)) s).current_block = none ∧
      (run_ticks cfg (ps.take (k + 1)) s).block_buffer = s.block_buffer.tail ∧
      b.step_event_count ≤ (run_ticks cfg (ps.take (k + 1)) s).step_events_completed)) :=
  ⟨fun pins u hu => tick_outcome cfg pins u hu, run_ticks_lifecycle cfg b ps s hb⟩

/-- C19 at a concrete input: a block of three events that has run one tick, followed by
three more ticks; and the invariant after the tick that claims it. -/
theorem block_lifecycle_witness :
    ((∀ k, k ≤ [no_pins, no_pins, no_pins].length →
      (run_ticks cfg_pulse ([no_pins, no_pins, no_pins].take k)
        (ISR_TIMER1_COMPA_vect cfg_pulse no_pins
          { initial_state with block_buffer := [x_block 3 1000] })).current_block =
        some { x_block 3 1000 with busy := true } ∧
      (run_ticks cfg_pulse ([no_pins, no_pins, no_pins].take k)
        (ISR_TIMER1_COMPA_vect cfg_pulse no_pins
          { initial_state with block_buffer := [x_block 3 1000] })).block_buffer =
        (ISR_TIMER1_COMPA_vect cfg_pulse no_pins
          { initial_state with block_buffer := [x_block 3 1000] }).block_buffer ∧
      (1 ≤ k → (run_ticks cfg_pulse ([no_pins, no_pins, no_pins].take k)
        (ISR_TIMER1_COMPA_vect cfg_pulse no_pins
          { initial_state with block_buffer := [x_block 3 1000] })).step_events_completed <
        ({ x_block 3 1000 with busy := true } : block_t).step_event_count)) ∨
    (∃ k, k < [no_pins, no_pins, no_pins].length ∧
      (∀ j, j ≤ k →
        (run_ticks cfg_pulse ([no_pins, no_pins, no_pins].take j)
          (ISR_TIMER1_COMPA_vect cfg_pulse no_pins
            { initial_state with block_buffer := [x_block 3 1000] })).current_block =
          some { x_block 3 1000 with busy := true } ∧
        (run_ticks cfg_pulse ([no_pins, no_pins, no_pins].take j)
          (ISR_TIMER1_COMPA_vect cfg_pulse no_pins
            { initial_state with block_buffer := [x_block 3 1000] })).block_buffer =
          (ISR_TIMER1_COMPA_vect cfg_pulse no_pins
            { initial_state with block_buffer := [x_block 3 1000] }).block_buffer ∧
        (1 ≤ j → (run_ticks cfg_pulse ([no_pins, no_pins, no_pins].take j)
          (ISR_TIMER1_COMPA_vect cfg_pulse no_pins
            { initial_state with block_buffer := [x_block 3 1000] })).step_events_completed <
          ({ x_block 3 1000 with busy := true } : block_t).step_event_count)) ∧
      (run_ticks cfg_pulse ([no_pins, no_pins, no_pins].take (k + 1))
        (ISR_TIMER1_COMPA_vect cfg_pulse no_pins
          { initial_state with block_buffer := [x_block 3 1000] })).current_block = none ∧
      (run_ticks cfg_pulse ([no_pins, no_pins, no_pins].take (k + 1))
        (ISR_TIMER1_COMPA_vect cfg_pulse no_pins
          { initial_state with block_buffer := [x_block 3 1000] })).block_buffer =
        (ISR_TIMER1_COMPA_vect cfg_pulse no_pins
          { initial_state with block_buffer := [x_block 3 1000] }).block_buffer.tail ∧
      ({ x_block 3 1000 with busy := true } : block_t).step_event_count ≤
        (run_ticks cfg_pulse ([no_pins, no_pins, no_pins].take (k + 1))
          (ISR_TIMER1_COMPA_vect cfg_pulse no_pins
            { initial_state with block_buffer := [x_block 3 1000] })).step_events_completed)) ∧
    ((ISR_TIMER1_COMPA_vect cfg_pulse no_pins
      { initial_state with block_buffer := [x_block 3 1000] }).current_block = none ∨
    ∃ c, (ISR_TIMER1_COMPA_vect cfg_pulse no_pins
        { initial_state with block_buffer := [x_block 3 1000] }).current_block = some c ∧
      (ISR_TIMER1_COMPA_vect cfg_pulse no_pins
        { initial_state with block_buffer := [x_block 3 1000] }).step_events_completed <
        c.step_event_count) :=
  ⟨(block_lifecycle cfg_pulse { x_block 3 1000 with busy := true }
      [no_pins, no_pins, no_pins] (ISR_TIMER1_COMPA_vect cfg_pulse no_pins
        { initial_state with block_buffer := [x_block 3 1000] }) (by decide)).2,
   (block_lifecycle cfg_pulse { x_block 3 1000 with busy := true }
      [no_pins, no_pins, no_pins] (ISR_TIMER1_COMPA_vect cfg_pulse no_pins
        { initial_state with block_buffer := [x_block 3 1000] }) (by decide)).1 no_pins
      { initial_state with block_buffer := [x_block 3 1000] }
      (fun b0 h => by
        have e : x_block 3 1000 = b0 := Option.some.inj h
        rw [← e]
        decide)⟩

/-- C20 as stated fails: in the `COREXY` build a +A+B block with two steps on each
motor emits two pulses on X and two on Y, and so does a +A-B block. -/
theorem corexy_pulses_both_outputs :
    cfg_corexy.COREXY = true ∧
    (run_ticks cfg_corexy [no_pins, no_pins]
      { initial_state with block_buffer := [ab_block 2 1000 0] }).current_block = none ∧
    (run_ticks cfg_corexy [no_pins, no_pins]
      { initial_state with block_buffer := [ab_block 2 1000 0] }).pulses = ⟨2, 2, 0, 0⟩ ∧
    (run_ticks cfg_corexy [no_pins, no_pins]
      { initial_state with block_buffer := [ab_block 2 1000 2] }).current_block = none ∧
    (run_ticks cfg_corexy [no_pins, no_pins]
      { initial_state with block_buffer := [ab_block 2 1000 2] }).pulses = ⟨2, 2, 0, 0⟩ := by
  decide

/-- C20, amended: the stepping does not depend on `COREXY`; with it as without it the X
and Y step outputs are driven from `steps_x` and `steps_y`, under `COREXY` the step
counts of the motors A and B.  A valid block run at multiplier 1 without an endstop hit
emits `steps_x` pulses on X and `steps_y` pulses on Y whatever its direction bits, so
under `COREXY` a block with steps on both motors, +A+B or +A-B, pulses both outputs. -/
theorem corexy_steps_both_motors (cfg : Config) (s : State) (b0 : block_t) (ps : List Pins)
    (hL : cfg.USE_L6470 = false) (hA : cfg.ADVANCE = false)
    (hc : s.current_block = none) (hq : s.block_buffer.head? = some b0)
    (hv : valid_block b0) (hp : slow_profile cfg b0)
    (hr : ∀ a : Axis, -2147483648 ≤ s.count_position.sel a ∧
      s.count_position.sel a < 2147483648)
    (hlen : ps.length = ticks_needed cfg b0) (hh : no_hit cfg ps s = true)
    (hx : 0 < b0.steps_x) (hy : 0 < b0.steps_y) :
    (∀ (t : State) (b : block_t),
      step_block { cfg with COREXY := false } t b = step_block cfg t b) ∧
    (run_ticks cfg ps s).pulses.x = s.pulses.x + b0.steps_x.toNat ∧
    (run_ticks cfg ps s).pulses.y = s.pulses.y + b0.steps_y.toNat ∧
    s.pulses.x < (run_ticks cfg ps s).pulses.x ∧
    s.pulses.y < (run_ticks cfg ps s).pulses.y := by
  have h := (slow_block_exact cfg s b0 ps hL hA hc hq hv hp hr hlen hh).2.2.2
  have h1 : (run_ticks cfg ps s).pulses.x = s.pulses.x + b0.steps_x.toNat := (h Axis.X).1
  have h2 : (run_ticks cfg ps s).pulses.y = s.pulses.y + b0.steps_y.toNat := (h Axis.Y).1
  refine ⟨fun t b => ?_, h1, h2, by omega, by omega⟩
  have ev : ∀ u : State, step_event { cfg with COREXY := false } u b = step_event cfg u b := by
    intro u
    simp only [step_event, e_event, z_event, y_event, x_event, advance_e_event]
  have loop : ∀ (n : Nat) (u : State),
      step_loop { cfg with COREXY := false } b n u = step_loop cfg b n u := by
    intro n
    induction n with
    | zero => intro u; rfl
    | succ n ih =>
      intro u
      simp only [step_loop, ev, ih]
  simp only [step_block, ev, loop]

/-- C20 at a concrete input: a +A-B block of three events in the `COREXY` build emits
three pulses on X and three on Y. -/
theorem corexy_steps_both_motors_witness :
    (run_ticks cfg_corexy [no_pins, no_pins, no_pins]
      { initial_state with block_buffer := [ab_block 3 1000 2] }).pulses.x = 0 + 3 ∧
    (run_ticks cfg_corexy [no_pins, no_pins, no_pins]
      { initial_state with block_buffer := [ab_block 3 1000 2] }).pulses.y = 0 + 3 :=
  ⟨(corexy_steps_both_motors cfg_corexy
      { initial_state with block_buffer := [ab_block 3 1000 2] } (ab_block 3 1000 2)
      [no_pins, no_pins, no_pins] rfl rfl rfl rfl (by decide) (by decide) (by decide)
      (by decide) (by decide) (by decide) (by decide)).2.1,
   (corexy_steps_both_motors cfg_corexy
      { initial_state with block_buffer := [ab_block 3 1000 2] } (ab_block 3 1000 2)
      [no_pins, no_pins, no_pins] rfl rfl rfl rfl (by decide) (by decide) (by decide)
      (by decide) (by decide) (by decide) (by decide)).2.2.1⟩

/-- C29: the Z line of the endstop report follows the X flag.  When at least one hit
flag is set, `checkHitEndstops` emits the pair " Z:" with `endstops_trigsteps[Z_AXIS]`
exactly when `endstop_x_hit` is set, whatever `endstop_z_hit` is: a hit on Z alone
gives no Z line, a hit on X alone gives one. -/
theorem z_report_follows_x_flag (cfg : Config) (s : State)
    (h : s.endstop_x_hit = true ∨ s.endstop_y_hit = true ∨ s.endstop_z_hit = true) :
    (∀ n : Int, Report.echo_pair Axis.Z n ∈ (checkHitEndstops cfg s).2 ↔
      s.endstop_x_hit = true ∧ n = s.endstops_trigsteps.z) ∧
    (s.endstop_x_hit = false → s.endstop_z_hit = true →
      ∀ n : Int, Report.echo_pair Axis.Z n ∉ (checkHitEndstops cfg s).2) ∧
    (s.endstop_x_hit = true → s.endstop_z_hit = false →
      Report.echo_pair Axis.Z s.endstops_trigsteps.z ∈ (checkHitEndstops cfg s).2) := by
  obtain ⟨l, e, hl⟩ := checkHitEndstops_report cfg s h
  have key : ∀ n : Int, Report.echo_pair Axis.Z n ∈ (checkHitEndstops cfg s).2 ↔
      s.endstop_x_hit = true ∧ n = s.endstops_trigsteps.z := by
    intro n
    rw [e, ← hit_report_z s n]
    constructor
    · intro hm
      simp only [List.mem_append, List.mem_cons, List.mem_singleton, List.not_mem_nil,
        or_false] at hm
      rcases hm with (hm | hm) | hm | hm
      · rcases hm with hm | hm <;> exact absurd hm (by simp)
      · exact hm
      · exact absurd hm (by simp)
      · rcases hl _ hm with hm2 | hm2 <;> exact absurd hm2 (by simp)
    · intro hm
      simp only [List.mem_append, List.mem_cons]
      exact Or.inl (Or.inr hm)
  refine ⟨key, fun hx _ n hm => ?_, fun hx _ => (key _).mpr ⟨hx, rfl⟩⟩
  have := ((key n).mp hm).1
  rw [hx] at this
  exact Bool.noConfusion this

/-- C29 at concrete inputs: with only the Z flag set the report has no Z line; with
only the X flag set it has the Z line, with the Z trigger position. -/
theorem z_report_follows_x_flag_witness :
    (∀ n : Int, Report.echo_pair Axis.Z n ∉
      (checkHitEndstops cfg_pulse { initial_state with endstop_z_hit := true }).2) ∧
    Report.echo_pair Axis.Z 0 ∈
      (checkHitEndstops cfg_pulse { initial_state with endstop_x_hit := true }).2 :=
  ⟨(z_report_follows_x_flag cfg_pulse { initial_state with endstop_z_hit := true }
      (Or.inr (Or.inr rfl))).2.1 rfl rfl,
   (z_report_follows_x_flag cfg_pulse { initial_state with endstop_x_hit := true }
      (Or.inl rfl)).2.2 rfl rfl⟩

/-- C24: the shift reduction of the L6470 build.  In a tick with current block `b` that
starts with `step_events_completed < step_event_count` and latches no endstop hit, the
shift `r` left by the reduction loop is at most the shift at tick start, satisfies
`step_events_completed + (1 << r) <= step_event_count`, and every larger shift up to
the one at tick start violates that bound; the stepping then adds `1 << r`, so
`step_events_completed` does not exceed `step_event_count` after the stepping nor at
the end of the tick. -/
theorem shift_reduction (cfg : Config) (pins : Pins) (s : State) (b : block_t)
    (hL : cfg.USE_L6470 = true)
    (hb : s.current_block = some b)
    (hlt : s.step_events_completed < b.step_event_count)
    (hN : b.step_event_count < 2147483648)
    (hk : s.step_loops_shift ≤ 2)
    (hh : endstop_hit cfg pins s b = false) :
    (reduce_step_loops_shift (set_e_direction cfg (checked cfg pins s b)) b).step_loops_shift
      ≤ s.step_loops_shift ∧
    s.step_events_completed + 2 ^ (reduce_step_loops_shift
      (set_e_direction cfg (checked cfg pins s b)) b).step_loops_shift ≤ b.step_event_count ∧
    (∀ j, (reduce_step_loops_shift
        (set_e_direction cfg (checked cfg pins s b)) b).step_loops_shift < j →
      j ≤ s.step_loops_shift → b.step_event_count < s.step_events_completed + 2 ^ j) ∧
    (stepped cfg pins s b).step_events_completed = s.step_events_completed +
      2 ^ (reduce_step_loops_shift
        (set_e_direction cfg (checked cfg pins s b)) b).step_loops_shift ∧
    (stepped cfg pins s b).step_events_completed ≤ b.step_event_count ∧
    (ISR_TIMER1_COMPA_vect cfg pins s).step_events_completed ≤ b.step_event_count := by
  have e1 := checked_shift cfg pins s b
  have e2 := checked_no_hit_sec cfg pins s b hh
  have e3 := stepped_l6470 cfg pins s b hL
  have er : (reduce_step_loops_shift
      (set_e_direction cfg (checked cfg pins s b)) b).step_loops_shift =
      reduce_shift s.step_events_completed b.step_event_count s.step_loops_shift := by
    show reduce_shift _ _ _ = _
    rw [e1, e2]
  have h4 : 2 ^ s.step_loops_shift ≤ 4 := pow_le_four _ hk
  obtain ⟨r1, r2⟩ := reduce_shift_spec s.step_events_completed b.step_event_count
    s.step_loops_shift (by omega)
  have r3 := reduce_shift_max s.step_events_completed b.step_event_count
    s.step_loops_shift (by omega)
  rw [e2, er] at e3
  rw [er]
  generalize reduce_shift s.step_events_completed b.step_event_count s.step_loops_shift
    = r at e3 r1 r2 r3 ⊢
  have hle : s.step_events_completed + 2 ^ r ≤ b.step_event_count := by
    rcases Nat.eq_zero_or_pos r with h0 | h0
    · rw [h0]; simp; omega
    · exact r2 h0
  have hs : (stepped cfg pins s b).step_events_completed = s.step_events_completed + 2 ^ r := by
    rw [e3, Nat.one_shiftLeft]
    exact Nat.mod_eq_of_lt (by omega)
  refine ⟨r1, hle, r3, hs, by rw [hs]; exact hle, ?_⟩
  rw [tick_eq cfg pins s b hb, (finish_block_spec cfg _ b).1, (trapezoid_sec cfg _ b).1, hs]
  exact hle

/-- C24 at a concrete input: a block of five events at 16 kHz (shift 1) in the L6470
build after two ticks has four events done; the third tick reduces the shift to 0 and
ends with five. -/
theorem shift_reduction_witness :
    (reduce_step_loops_shift (set_e_direction cfg_l6470 (checked cfg_l6470 no_pins
      (run_ticks cfg_l6470 [no_pins, no_pins]
        { initial_state with block_buffer := [x_block 5 16000] })
      { x_block 5 16000 with busy := true }))
      { x_block 5 16000 with busy := true }).step_loops_shift ≤ 1 ∧
    (ISR_TIMER1_COMPA_vect cfg_l6470 no_pins (run_ticks cfg_l6470 [no_pins, no_pins]
      { initial_state with block_buffer := [x_block 5 16000] })).step_events_completed ≤ 5 :=
  ⟨(shift_reduction cfg_l6470 no_pins (run_ticks cfg_l6470 [no_pins, no_pins]
      { initial_state with block_buffer := [x_block 5 16000] })
      { x_block 5 16000 with busy := true } rfl (by decide) (by decide) (by decide)
      (by decide) (by decide)).1,
   (shift_reduction cfg_l6470 no_pins (run_ticks cfg_l6470 [no_pins, no_pins]
      { initial_state with block_buffer := [x_block 5 16000] })
      { x_block 5 16000 with busy := true } rfl (by decide) (by decide) (by decide)
      (by decide) (by decide)).2.2.2.2.2⟩

/-- C23: the Bresenham distribution at multiplier 1.  In the pin-toggling build without
`ADVANCE` and `Z_LATE_ENABLE`, for a valid block of `N` events whose rates keep
`step_loops` at 1, claimed from the queue and run for `k <= N` ticks without an
endstop hit: `k` events are executed and the number of pulses emitted on an axis with
`steps` steps is `ceil((k * steps - floor(N/2)) / N)`.  Hence after `N` events it is
`steps`; an axis with `steps = N` has pulsed `k` times, once per event; an axis with
`steps = 0` has not pulsed; and one more tick adds at most one pulse on the axis. -/
theorem bresenham_distribution (cfg : Config) (s : State) (b0 : block_t) (ps : List Pins)
    (hL : cfg.USE_L6470 = false) (hA : cfg.ADVANCE = false)
    (hZ : cfg.Z_LATE_ENABLE = false)
    (hc : s.current_block = none) (hq : s.block_buffer.head? = some b0)
    (hv : valid_block b0) (hp : slow_profile cfg b0)
    (hr : ∀ a : Axis, -2147483648 ≤ s.count_position.sel a ∧
      s.count_position.sel a < 2147483648)
    (hlen : ps.length ≤ b0.step_event_count) (hh : no_hit cfg ps s = true) (a : Axis) :
    (1 ≤ ps.length → (run_ticks cfg ps s).step_events_completed = ps.length) ∧
    (((run_ticks cfg ps s).pulses.sel a : Int) = s.pulses.sel a +
      ⌈((((ps.length : Int) * b0.steps a - ((b0.step_event_count / 2 : Nat) : Int) : Int) : ℚ)
        / ((b0.step_event_count : Int) : ℚ))⌉) ∧
    (ps.length = b0.step_event_count →
      (run_ticks cfg ps s).pulses.sel a = s.pulses.sel a + (b0.steps a).toNat) ∧
    (b0.steps a = b0.step_event_count →
      (run_ticks cfg ps s).pulses.sel a = s.pulses.sel a + ps.length) ∧
    (b0.steps a = 0 → (run_ticks cfg ps s).pulses.sel a = s.pulses.sel a) ∧
    (∀ p : Pins, ps.length < b0.step_event_count → no_hit cfg (ps ++ [p]) s = true →
      (run_ticks cfg ps s).pulses.sel a ≤ (run_ticks cfg (ps ++ [p]) s).pulses.sel a ∧
      (run_ticks cfg (ps ++ [p]) s).pulses.sel a ≤ (run_ticks cfg ps s).pulses.sel a + 1) := by
  obtain ⟨p, e, l1, l2⟩ := distribution_bounds cfg s b0 ps hL hA hZ hc hq hv hp hr hlen hh a
  obtain ⟨hN1, hN, hst⟩ := hv
  obtain ⟨s0, s1⟩ := hst a
  have hNpos : (0 : Int) < b0.step_event_count := by omega
  have hh2 : ((b0.step_event_count / 2 : Nat) : Int) < b0.step_event_count := by omega
  have hh0 : (0 : Int) ≤ ((b0.step_event_count / 2 : Nat) : Int) := by omega
  refine ⟨fun h1 => ?_, ?_, ?_, ?_, ?_, ?_⟩
  · exact ( slow_block_partial cfg s b0 ps hL hA hZ hc hq ⟨hN1, hN, hst⟩ hp hr h1 hlen hh).2.1
  · rw [ceil_of_bounds _ _ p hNpos l1 l2, e]
    push_cast
    rfl
  · intro hk
    rw [hk] at l1 l2
    have hd : (p : Int) - b0.steps a = 0 := by
      apply mul_window b0.step_event_count _ hNpos
      · rw [mul_sub]; linarith
      · rw [mul_sub]; linarith
    rw [e]
    congr 1
    omega
  · intro hs
    rw [hs] at l1 l2
    have hd : (p : Int) - ps.length = 0 := by
      apply mul_window b0.step_event_count _ hNpos
      · rw [mul_sub]; linarith
      · rw [mul_sub]; linarith
    rw [e]
    congr 1
    omega
  · intro hs
    rw [hs] at l1 l2
    have hd : (p : Int) = 0 := by
      apply mul_window b0.step_event_count _ hNpos
      · linarith
      · linarith
    rw [e]
    omega
  · intro q hlt hq2
    obtain ⟨p2, e2, m1, m2⟩ := distribution_bounds cfg s b0 (ps ++ [q]) hL hA hZ hc hq
      ⟨hN1, hN, hst⟩ hp hr (by simp; omega) hq2 a
    simp only [List.length_append, List.length_singleton, Nat.cast_add, Nat.cast_one] at m1 m2
    have e3 : ((ps.length : Int) + 1) * b0.steps a = ps.length * b0.steps a + b0.steps a := by
      ring
    rw [e3] at m1 m2
    rw [e, e2]
    have hd : (p2 : Int) - p = 0 ∨ (p2 : Int) - p = 1 := by
      by_contra hcon
      push_neg at hcon
      have hcases : (p2 : Int) - p ≤ -1 ∨ 2 ≤ (p2 : Int) - p := by omega
      rcases hcases with hlo | hhi
      · have : (b0.step_event_count : Int) * (p2 - p) ≤ b0.step_event_count * (-1) :=
          mul_le_mul_of_nonneg_left hlo (by omega)
        rw [mul_sub] at this
        linarith
      · have : (b0.step_event_count : Int) * 2 ≤ b0.step_event_count * (p2 - p) :=
          mul_le_mul_of_nonneg_left hhi (by omega)
        rw [mul_sub] at this
        linarith
    omega

/-- C21 as stated fails: with three E steps pending for extruder 0, one activation of
the extruder interrupt issues three pulses and leaves the count at 0; with six
pending it issues four. -/
theorem e_interrupt_steps_thrice :
    cfg_advance.ADVANCE = true ∧
    (ISR_TIMER0_COMPA_vect cfg_advance
      { initial_state with e_steps := ⟨3, 0, 0⟩ }).e_steps.e0 = 0 ∧
    (ISR_TIMER0_COMPA_vect cfg_advance
      { initial_state with e_steps := ⟨3, 0, 0⟩ }).e_pulses.e0 = 3 ∧
    (ISR_TIMER0_COMPA_vect cfg_advance
      { initial_state with e_steps := ⟨6, 0, 0⟩ }).e_steps.e0 = 2 ∧
    (ISR_TIMER0_COMPA_vect cfg_advance
      { initial_state with e_steps := ⟨6, 0, 0⟩ }).e_pulses.e0 = 4 := by
  decide

/-- C21, amended: one activation of `ISR(TIMER0_COMPA_vect)` makes four passes of its
loop, so for each extruder of the build it issues `min(|e_steps|, 4)` E steps and
moves the pending count by that many towards zero: none for a count of zero, one for
a count of 1 or -1, four for a count of magnitude 4 or more.  The counts of extruders
beyond `EXTRUDERS` are not touched. -/
theorem e_interrupt_drains (cfg : Config) (s : State)
    (h0 : -2147483648 ≤ s.e_steps.e0 ∧ s.e_steps.e0 < 2147483648)
    (h1 : -2147483648 ≤ s.e_steps.e1 ∧ s.e_steps.e1 < 2147483648)
    (h2 : -2147483648 ≤ s.e_steps.e2 ∧ s.e_steps.e2 < 2147483648) :
    ((ISR_TIMER0_COMPA_vect cfg s).e_steps.e0 =
        s.e_steps.e0 - Int.sign s.e_steps.e0 * (min s.e_steps.e0.natAbs 4 : Nat) ∧
      (ISR_TIMER0_COMPA_vect cfg s).e_pulses.e0 =
        s.e_pulses.e0 + min s.e_steps.e0.natAbs 4) ∧
    ((1 < cfg.EXTRUDERS →
        (ISR_TIMER0_COMPA_vect cfg s).e_steps.e1 =
          s.e_steps.e1 - Int.sign s.e_steps.e1 * (min s.e_steps.e1.natAbs 4 : Nat) ∧
        (ISR_TIMER0_COMPA_vect cfg s).e_pulses.e1 =
          s.e_pulses.e1 + min s.e_steps.e1.natAbs 4) ∧
      (¬1 < cfg.EXTRUDERS →
        (ISR_TIMER0_COMPA_vect cfg s).e_steps.e1 = s.e_steps.e1 ∧
        (ISR_TIMER0_COMPA_vect cfg s).e_pulses.e1 = s.e_pulses.e1)) ∧
    ((2 < cfg.EXTRUDERS →
        (ISR_TIMER0_COMPA_vect cfg s).e_steps.e2 =
          s.e_steps.e2 - Int.sign s.e_steps.e2 * (min s.e_steps.e2.natAbs 4 : Nat) ∧
        (ISR_TIMER0_COMPA_vect cfg s).e_pulses.e2 =
          s.e_pulses.e2 + min s.e_steps.e2.natAbs 4) ∧
      (¬2 < cfg.EXTRUDERS →
        (ISR_TIMER0_COMPA_vect cfg s).e_steps.e2 = s.e_steps.e2 ∧
        (ISR_TIMER0_COMPA_vect cfg s).e_pulses.e2 = s.e_pulses.e2)) :=
  ⟨e_interrupt_e0 cfg s h0, e_interrupt_e1 cfg s h1, e_interrupt_e2 cfg s h2⟩

/-- C21 at a concrete input: two extruders with counts -1 and 9; one activation
issues one step for the first and four for the second. -/
theorem e_interrupt_drains_witness :
    (ISR_TIMER0_COMPA_vect cfg_advance
      { initial_state with e_steps := ⟨-1, 9, 0⟩ }).e_pulses.e0 = 0 + min (-1 : Int).natAbs 4 ∧
    (ISR_TIMER0_COMPA_vect cfg_advance
      { initial_state with e_steps := ⟨-1, 9, 0⟩ }).e_pulses.e1 = 0 + min (9 : Int).natAbs 4 :=
  ⟨(e_interrupt_drains cfg_advance { initial_state with e_steps := ⟨-1, 9, 0⟩ }
      (by decide) (by decide) (by decide)).1.2,
   ((e_interrupt_drains cfg_advance { initial_state with e_steps := ⟨-1, 9, 0⟩ }
      (by decide) (by decide) (by decide)).2.1.1 (by decide)).2⟩

/-- C23 at a concrete input: a block of four events with three steps on Y; after two
events one pulse has been emitted on Y, and after all four events three. -/
theorem bresenham_distribution_witness :
    (((run_ticks cfg_pulse [no_pins, no_pins]
      { initial_state with block_buffer := [xy_block 4 1000 3] }).pulses.sel Axis.Y : Int) =
      ((({ initial_state with block_buffer := [xy_block 4 1000 3] } : State).pulses.sel
        Axis.Y : Nat) : Int) +
      ⌈(((([no_pins, no_pins].length : Nat) : Int) * (xy_block 4 1000 3).steps Axis.Y -
        (((xy_block 4 1000 3).step_event_count / 2 : Nat) : Int) : Int) : ℚ)
        / ((((xy_block 4 1000 3).step_event_count : Nat) : Int) : ℚ)⌉) ∧
    (run_ticks cfg_pulse [no_pins, no_pins, no_pins, no_pins]
      { initial_state with block_buffer := [xy_block 4 1000 3] }).pulses.sel Axis.Y =
      0 + ((xy_block 4 1000 3).steps Axis.Y).toNat :=
  ⟨(bresenham_distribution cfg_pulse { initial_state with block_buffer := [xy_block 4 1000 3] }
      (xy_block 4 1000 3) [no_pins, no_pins] rfl rfl rfl rfl rfl (by decide) (by decide)
      (by decide) (by decide) (by decide) Axis.Y).2.1,
   (bresenham_distribution cfg_pulse { initial_state with block_buffer := [xy_block 4 1000 3] }
      (xy_block 4 1000 3) [no_pins, no_pins, no_pins, no_pins] rfl rfl rfl rfl rfl (by decide)
      (by decide) (by decide) (by decide) (by decide) Axis.Y).2.2.1 rfl⟩

/-- C25 at the failing input: in the L6470 build a valid block of four events with
`steps_x = 4` and `steps_y = 3` at 25 kHz (shift 2) is discarded after one tick with no
endstop hit; that tick executes one Bresenham event and tells each of the drivers X
and Y to move `1 << 2 = 4` steps, so Y was moved 4 steps, not `Y_L6470_NSTEPS * 3`.
With `steps_y = 1` the same block moves Y by 0 steps. -/
theorem l6470_build_minor_axis_moves :
    valid_block (xy_block 4 25000 3) ∧ cfg_l6470.Y_L6470_NSTEPS = 1 ∧
    (xy_block 4 25000 3).steps_y = 3 ∧
    (run_ticks cfg_l6470 [no_pins]
      { initial_state with block_buffer := [xy_block 4 25000 3] }).current_block = none ∧
    (run_ticks cfg_l6470 [no_pins]
      { initial_state with block_buffer := [xy_block 4 25000 3] }).endstop_y_hit = false ∧
    (run_ticks cfg_l6470 [no_pins]
      { initial_state with block_buffer := [xy_block 4 25000 3] }).step_events_completed = 4 ∧
    (run_ticks cfg_l6470 [no_pins]
      { initial_state with block_buffer := [xy_block 4 25000 3] }).moved = ⟨4, 4, 0, 0⟩ ∧
    valid_block (xy_block 4 25000 1) ∧
    (run_ticks cfg_l6470 [no_pins]
      { initial_state with block_buffer := [xy_block 4 25000 1] }).current_block = none ∧
    (run_ticks cfg_l6470 [no_pins]
      { initial_state with block_buffer := [xy_block 4 25000 1] }).moved = ⟨4, 0, 0, 0⟩ := by
  decide

/-- C30 at the failing input: in the `COREXY` build, with the gate on, a block with A
positive and B negative (+Y) samples X_MAX: with the X_MAX switch active in its first
two ticks the previous-sample flag of X_MAX is set, an X hit is latched and the block
is discarded.  Likewise a block with A and B positive (+X) samples Y_MAX and latches a
Y hit. -/
theorem corexy_samples_max_in_else :
    cfg_corexy.COREXY = true ∧ initial_state.check_endstops = true ∧
    dir_bit (ab_block 10 1000 2).direction_bits X_AXIS = false ∧
    dir_bit (ab_block 10 1000 2).direction_bits Y_AXIS = true ∧
    (run_ticks cfg_corexy [x_max_pins]
      { initial_state with block_buffer := [ab_block 10 1000 2] }).old_x_max_endstop = true ∧
    (run_ticks cfg_corexy [x_max_pins, x_max_pins]
      { initial_state with block_buffer := [ab_block 10 1000 2] }).endstop_x_hit = true ∧
    (run_ticks cfg_corexy [x_max_pins, x_max_pins]
      { initial_state with block_buffer := [ab_block 10 1000 2] }).current_block = none ∧
    dir_bit (ab_block 10 1000 0).direction_bits X_AXIS = false ∧
    dir_bit (ab_block 10 1000 0).direction_bits Y_AXIS = false ∧
    (run_ticks cfg_corexy [y_max_pins]
      { initial_state with block_buffer := [ab_block 10 1000 0] }).old_y_max_endstop = true ∧
    (run_ticks cfg_corexy [y_max_pins, y_max_pins]
      { initial_state with block_buffer := [ab_block 10 1000 0] }).endstop_y_hit = true ∧
    (run_ticks cfg_corexy [y_max_pins, y_max_pins]
      { initial_state with block_buffer := [ab_block 10 1000 0] }).current_block = none := by
  decide

/-- C26 (counterexample): `MultiU24X24toH16` is not the exact shift.  For 1 and
16777215 it returns 1 where the product shifted right by 24 is 0, for 509 and 66047 it
returns 1 where the shift is 2; an acceleration tick with `acceleration_time = 16777215`
and `acceleration_rate = 1` from `initial_rate = 1000` gets `acc_step_rate = 1001`, not
1000. -/
theorem MultiU24X24toH16_off_by_one :
    MultiU24X24toH16 1 16777215 = 1 ∧ (1 * 16777215) >>> 24 = 0 ∧
    MultiU24X24toH16 509 66047 = 1 ∧ (509 * 66047) >>> 24 = 2 ∧
    accel_rate { initial_state with acceleration_time := 16777215 }
      { ramp_up_block with acceleration_rate := 1 } = 1001 ∧
    ramp_up_block.initial_rate + (1 * 16777215) >>> 24 = 1000 := by
  decide

/-- C26 (amended): for all 24-bit unsigned `a` and `r` the 16-bit result of
`MultiU24X24toH16` is the product shifted right by 24, modulo 2^16, or one below or one
above it; in the acceleration phase `acc_step_rate` before the clamp to `nominal_rate`
is that result plus `initial_rate`, as an `unsigned short`. -/
theorem MultiU24X24toH16_within_one (a r : Nat) (ha : a < 16777216) (hr : r < 16777216) :
    (MultiU24X24toH16 a r = ((a * r) >>> 24 + 65535) % 65536 ∨
      MultiU24X24toH16 a r = (a * r) >>> 24 % 65536 ∨
      MultiU24X24toH16 a r = ((a * r) >>> 24 + 1) % 65536) ∧
    ∀ (s : State) (b : block_t), s.acceleration_time = a → b.acceleration_rate = r →
      accel_rate s b =
        if u16 (MultiU24X24toH16 a r + b.initial_rate) > b.nominal_rate then u16 b.nominal_rate
        else u16 (MultiU24X24toH16 a r + b.initial_rate) := by
  refine ⟨?_, ?_⟩
  · rw [Nat.shiftRight_eq_div_pow]
    exact MultiU24X24toH16_near a r ha hr
  · intro s b hs hb
    simp only [accel_rate, hs, hb]

/-- C26 at a concrete input: `acceleration_time = 16777215` and `acceleration_rate = 1`
in a block that starts at 1000 Hz. -/
theorem MultiU24X24toH16_within_one_witness :
    (MultiU24X24toH16 16777215 1 = ((16777215 * 1) >>> 24 + 65535) % 65536 ∨
      MultiU24X24toH16 16777215 1 = (16777215 * 1) >>> 24 % 65536 ∨
      MultiU24X24toH16 16777215 1 = ((16777215 * 1) >>> 24 + 1) % 65536) ∧
    accel_rate { initial_state with acceleration_time := 16777215 }
        { ramp_up_block with acceleration_rate := 1 } =
      if u16 (MultiU24X24toH16 16777215 1 + 1000) > 2000 then u16 2000
      else u16 (MultiU24X24toH16 16777215 1 + 1000) :=
  ⟨(MultiU24X24toH16_within_one 16777215 1 (by decide) (by decide)).1,
    (MultiU24X24toH16_within_one 16777215 1 (by decide) (by decide)).2
      { initial_state with acceleration_time := 16777215 }
      { ramp_up_block with acceleration_rate := 1 } rfl rfl⟩

/-- C27 (counterexample): `MultiU16X8toH16` is not the shift by 16 of its comment.  For
`charIn1 = 255` and `intIn2 = 65535` it returns 65280 where the product shifted right
by 16 is 254; for 1 and 1 it returns 1 where the product shifted right by 8 is 0. -/
theorem MultiU16X8toH16_not_shift_16 :
    MultiU16X8toH16 255 65535 = 65280 ∧ (65535 * 255) >>> 16 = 254 ∧
    (65535 * 255) >>> 8 = 65279 ∧
    MultiU16X8toH16 1 1 = 1 ∧ (1 * 1) >>> 8 = 0 := by
  decide

/-- C27 (amended): for every 8-bit `charIn1` and every 16-bit `intIn2` the macro
`MultiU16X8toH16` returns the high 16 bits of the 24-bit product, `(intIn2 * charIn1)
>> 8`, plus bit 0 of the product: the shift by 8 or one more, always a 16-bit value. -/
theorem MultiU16X8toH16_high_word (charIn1 intIn2 : Nat) (hc : charIn1 < 256)
    (hi : intIn2 < 65536) :
    MultiU16X8toH16 charIn1 intIn2 =
      (intIn2 * charIn1) >>> 8 + (intIn2 * charIn1) % 2 ∧
    (intIn2 * charIn1) >>> 8 ≤ MultiU16X8toH16 charIn1 intIn2 ∧
    MultiU16X8toH16 charIn1 intIn2 ≤ (intIn2 * charIn1) >>> 8 + 1 ∧
    MultiU16X8toH16 charIn1 intIn2 < 65536 := by
  have h := MultiU16X8toH16_eq charIn1 intIn2 hc hi
  have hb : charIn1 * intIn2 ≤ 255 * 65535 := Nat.mul_le_mul (by omega) (by omega)
  rw [Nat.mul_comm intIn2 charIn1, Nat.shiftRight_eq_div_pow, h]
  generalize charIn1 * intIn2 = p at hb ⊢
  norm_num
  omega

/-- C27 at a concrete input: `charIn1 = 255` and `intIn2 = 65535`. -/
theorem MultiU16X8toH16_high_word_witness :
    MultiU16X8toH16 255 65535 = (65535 * 255) >>> 8 + (65535 * 255) % 2 ∧
    (65535 * 255) >>> 8 ≤ MultiU16X8toH16 255 65535 ∧
    MultiU16X8toH16 255 65535 ≤ (65535 * 255) >>> 8 + 1 ∧
    MultiU16X8toH16 255 65535 < 65536 :=
  MultiU16X8toH16_high_word 255 65535 (by decide) (by decide)

/-- C28: the slow branch of the table lookup is not the exact interpolation.  At
16 MHz the rate 38 Hz has the adjusted rate 6 and uses the slow entry (62500, 12500);
the `unsigned int` product `12500 * 6` wraps to 9464, so `calc_timer` returns
`62500 - 1183 = 61317` where the exact interpolation is `62500 - 9375 = 53125`. -/
theorem slow_lookup_product_wraps :
    adjusted_rate cfg_pulse 38 = 6 ∧
    cfg_pulse.slow (6 >>> 3) 0 = 62500 ∧ cfg_pulse.slow (6 >>> 3) 1 = 12500 ∧
    (calc_timer cfg_pulse initial_state 38).1 = 61317 ∧
    62500 - 12500 * (6 &&& 7) / 8 = 53125 ∧
    u16 (12500 * 6) = 9464 := by
  decide

/-- C36: the advance drain never overshoots.  For every extruder of the build (0
always, 1 with `EXTRUDERS > 1`, 2 with `EXTRUDERS > 2`) and every pending count `v` in
`e_steps` at entry, one activation of `ISR(TIMER0_COMPA_vect)` issues `min(4, |v|)`
pulses on the STEP pin of the extruder, each with the DIR pin on the side of the sign of
`v`, and leaves the count at `v - sign(v) * min(4, |v|)`: its magnitude does not grow,
its sign does not change, and a count of zero gives no pulse. -/
theorem advance_drain_no_overshoot (cfg : Config) (s : State)
    (h0 : -2147483648 ≤ s.e_steps.e0 ∧ s.e_steps.e0 < 2147483648)
    (h1 : -2147483648 ≤ s.e_steps.e1 ∧ s.e_steps.e1 < 2147483648)
    (h2 : -2147483648 ≤ s.e_steps.e2 ∧ s.e_steps.e2 < 2147483648) :
    drains_toward_zero s.e_steps.e0 (ISR_TIMER0_COMPA_vect cfg s).e_steps.e0
      s.e_pulses.e0 (ISR_TIMER0_COMPA_vect cfg s).e_pulses.e0
      s.e_moved.e0 (ISR_TIMER0_COMPA_vect cfg s).e_moved.e0 ∧
    (1 < cfg.EXTRUDERS →
      drains_toward_zero s.e_steps.e1 (ISR_TIMER0_COMPA_vect cfg s).e_steps.e1
        s.e_pulses.e1 (ISR_TIMER0_COMPA_vect cfg s).e_pulses.e1
        s.e_moved.e1 (ISR_TIMER0_COMPA_vect cfg s).e_moved.e1) ∧
    (2 < cfg.EXTRUDERS →
      drains_toward_zero s.e_steps.e2 (ISR_TIMER0_COMPA_vect cfg s).e_steps.e2
        s.e_pulses.e2 (ISR_TIMER0_COMPA_vect cfg s).e_pulses.e2
        s.e_moved.e2 (ISR_TIMER0_COMPA_vect cfg s).e_moved.e2) := by
  obtain ⟨m0, m1, m2⟩ := e_interrupt_moved cfg s h0 h1 h2
  obtain ⟨a1, a2⟩ := e_interrupt_e0 cfg s h0
  refine ⟨drains_of_sum _ _ _ _ _ _ a1 a2 m0, fun hx => ?_, fun hx => ?_⟩
  · obtain ⟨b1, b2⟩ := (e_interrupt_e1 cfg s h1).1 hx
    exact drains_of_sum _ _ _ _ _ _ b1 b2 m1
  · obtain ⟨c1, c2⟩ := (e_interrupt_e2 cfg s h2).1 hx
    exact drains_of_sum _ _ _ _ _ _ c1 c2 m2

/-- C36 at a concrete input: two extruders with the pending counts -6 and 3. -/
theorem advance_drain_no_overshoot_witness :
    drains_toward_zero (-6)
      (ISR_TIMER0_COMPA_vect cfg_advance { initial_state with e_steps := ⟨-6, 3, 0⟩ }).e_steps.e0
      0 (ISR_TIMER0_COMPA_vect cfg_advance { initial_state with e_steps := ⟨-6, 3, 0⟩ }).e_pulses.e0
      0 (ISR_TIMER0_COMPA_vect cfg_advance { initial_state with e_steps := ⟨-6, 3, 0⟩ }).e_moved.e0 ∧
    (ISR_TIMER0_COMPA_vect cfg_advance { initial_state with e_steps := ⟨-6, 3, 0⟩ }).e_steps =
      ⟨-2, 0, 0⟩ ∧
    (ISR_TIMER0_COMPA_vect cfg_advance { initial_state with e_steps := ⟨-6, 3, 0⟩ }).e_moved =
      ⟨-4, 3, 0⟩ :=
  ⟨(advance_drain_no_overshoot cfg_advance { initial_state with e_steps := ⟨-6, 3, 0⟩ }
      (by decide) (by decide) (by decide)).1, by decide, by decide⟩

/-- C35: every claimed block finishes.  A tick on a current block `b` with events left
advances `step_events_completed` by at least 1, whatever the endstop inputs, rates and
thresholds are (the multiplier is 1, 2 or 4, as `calc_timer` stores it); so from any
such state the block is discarded, `current_block` NULL and the queue one entry
shorter, after at most `step_event_count - step_events_completed` ticks and stays
current until then.  In particular a block claimed from the queue with
`step_event_count = N >= 1` is discarded after at most `N` stepping ticks. -/
theorem every_block_finishes (cfg : Config) (b : block_t) (ps : List Pins)
    (hN : b.step_event_count < 2147483648) :
    (∀ s : State, s.current_block = some b →
      s.step_events_completed < b.step_event_count →
      mult_ok (step_multiplier cfg s) → mult_ok (nominal_step_multiplier cfg s) →
      (∀ pins : Pins, s.step_events_completed + 1 ≤
        (ISR_TIMER1_COMPA_vect cfg pins s).step_events_completed) ∧
      (b.step_event_count - s.step_events_completed ≤ ps.length →
        ∃ k, 1 ≤ k ∧ k ≤ b.step_event_count - s.step_events_completed ∧
          (run_ticks cfg (ps.take k) s).current_block = none ∧
          (run_ticks cfg (ps.take k) s).block_buffer = s.block_buffer.tail ∧
          ∀ j, j < k → (run_ticks cfg (ps.take j) s).current_block = some b)) ∧
    (∀ (s0 : State) (b0 : block_t), s0.current_block = none →
      s0.block_buffer.head? = some b0 → b = { b0 with busy := true } →
      1 ≤ b.step_event_count → b.step_event_count ≤ ps.length →
      ∃ k, 1 ≤ k ∧ k ≤ b.step_event_count ∧
        (run_ticks cfg (ps.take k) (claim_block cfg s0).1).current_block = none ∧
        (run_ticks cfg (ps.take k) (claim_block cfg s0).1).block_buffer =
          s0.block_buffer.tail ∧
        ∀ j, j < k →
          (run_ticks cfg (ps.take j) (claim_block cfg s0).1).current_block = some b) := by
  refine ⟨fun s hb hlt hm hn => ⟨fun pins => tick_progress cfg pins s b hb hlt hN hm,
    fun hlen => finish_within cfg b hN _ ps s hb hlt (le_refl _) hm hn hlen⟩, ?_⟩
  intro s0 b0 hc hq hbb h1 hlen
  obtain ⟨c1, c2, c3, c4⟩ := claim_block_spec cfg s0 b0 hc hq
  rw [← hbb] at c1
  have hbuf : (claim_block cfg s0).1.block_buffer.tail = s0.block_buffer.tail := by
    rw [claim_block_eq cfg s0 b0 hc hq]
    split <;> simp [z_late_wait, (claimed_counters cfg s0 b0).2.1]
  obtain ⟨k, k1, k2, k3, k4, k5⟩ := finish_within cfg b hN b.step_event_count ps
    (claim_block cfg s0).1 c1 (by rw [c2]; omega) (by omega) c3 c4 hlen
  exact ⟨k, k1, k2, k3, by rw [k4, hbuf], k5⟩

/-- C35 at a concrete input: a block of three events claimed from the queue is
discarded within three ticks. -/
theorem every_block_finishes_witness :
    ∃ k, 1 ≤ k ∧ k ≤ ({ x_block 3 1000 with busy := true } : block_t).step_event_count ∧
      (run_ticks cfg_pulse ([x_max_pins, no_pins, x_max_pins].take k)
        (claim_block cfg_pulse
          { initial_state with block_buffer := [x_block 3 1000] }).1).current_block = none ∧
      (run_ticks cfg_pulse ([x_max_pins, no_pins, x_max_pins].take k)
        (claim_block cfg_pulse
          { initial_state with block_buffer := [x_block 3 1000] }).1).block_buffer =
        ({ initial_state with block_buffer := [x_block 3 1000] } : State).block_buffer.tail ∧
      ∀ j, j < k →
        (run_ticks cfg_pulse ([x_max_pins, no_pins, x_max_pins].take j)
          (claim_block cfg_pulse
            { initial_state with block_buffer := [x_block 3 1000] }).1).current_block =
          some { x_block 3 1000 with busy := true } :=
  (every_block_finishes cfg_pulse { x_block 3 1000 with busy := true }
    [x_max_pins, no_pins, x_max_pins] (by decide)).2
    { initial_state with block_buffer := [x_block 3 1000] } (x_block 3 1000) rfl rfl rfl
    (by decide) (by decide)

/-- C32: the tick that confirms an endstop hit still steps once.  In the build without
`USE_L6470`, in a tick on the current block `b` that latches an endstop hit, the step
loop runs exactly one Bresenham event after the latch: every axis stepped by this
interrupt whose counter becomes positive gets its pulse and its `count_position`
update.  At the end of the tick `step_events_completed` is `step_event_count +
step_loops`, above `step_event_count`, the block is discarded, and on the axis of the
hit `endstops_trigsteps` holds the position from before the event, so
`count_position` is that value or one step further in the direction of travel. -/
theorem hit_tick_steps_once (cfg : Config) (pins : Pins) (s : State) (b : block_t)
    (hL : cfg.USE_L6470 = false)
    (hb : s.current_block = some b)
    (hN : b.step_event_count < 2147483648)
    (hm : mult_ok s.step_loops)
    (hh : endstop_hit cfg pins s b = true) :
    stepped cfg pins s b =
      count_step_loops (step_event cfg (set_e_direction cfg (checked cfg pins s b)) b) ∧
    (ISR_TIMER1_COMPA_vect cfg pins s).step_events_completed =
      b.step_event_count + s.step_loops ∧
    b.step_event_count < (ISR_TIMER1_COMPA_vect cfg pins s).step_events_completed ∧
    (ISR_TIMER1_COMPA_vect cfg pins s).current_block = none ∧
    (∀ a : Axis, (a = Axis.E → cfg.ADVANCE = false) →
      (ISR_TIMER1_COMPA_vect cfg pins s).axis a =
        axis_event b.step_event_count (b.steps a) (direction_sign b a) (s.axis a) ∧
      ((ISR_TIMER1_COMPA_vect cfg pins s).count_position.sel a = s.count_position.sel a ∨
        (ISR_TIMER1_COMPA_vect cfg pins s).count_position.sel a =
          s32 (s.count_position.sel a + direction_sign b a))) ∧
    (x_hit_now cfg pins (set_xy_direction s b) b = true →
      (ISR_TIMER1_COMPA_vect cfg pins s).endstops_trigsteps.x = s.count_position.x) ∧
    (y_hit_now cfg pins (set_xy_direction s b) b = true →
      (ISR_TIMER1_COMPA_vect cfg pins s).endstops_trigsteps.y = s.count_position.y) ∧
    (z_hit_now cfg pins (set_xy_direction s b) b = true →
      (ISR_TIMER1_COMPA_vect cfg pins s).endstops_trigsteps.z = s.count_position.z) := by
  obtain ⟨h1, h2⟩ := stepped_after_hit cfg pins s b hL hN hm hh
  have hl4 : 1 ≤ s.step_loops := by rcases hm with h | h | h <;> omega
  have hsec : (ISR_TIMER1_COMPA_vect cfg pins s).step_events_completed =
      b.step_event_count + s.step_loops := by
    rw [tick_eq cfg pins s b hb, (finish_block_spec cfg _ b).1, (trapezoid_sec cfg _ b).1, h2]
  have hax : ∀ a : Axis, (a = Axis.E → cfg.ADVANCE = false) →
      (ISR_TIMER1_COMPA_vect cfg pins s).axis a =
        axis_event b.step_event_count (b.steps a) (direction_sign b a) (s.axis a) := by
    intro a ha
    obtain ⟨c1, c2⟩ := checked_axis cfg pins s b
    rw [tick_eq cfg pins s b hb, (finish_block_axis _ b).1 a, trapezoid_axis, h1]
    have e : (count_step_loops (step_event cfg
        (set_e_direction cfg (checked cfg pins s b)) b)).axis a =
        (step_event cfg (set_e_direction cfg (checked cfg pins s b)) b).axis a := by
      cases a <;> rfl
    rw [e, step_event_axis_of cfg _ b a ha, c1 a, c2 a ha]
  have hlat := (tick_latches cfg pins s b hb).trans (checked_latches cfg pins s b)
  have htrig := congrArg Latches.trigsteps hlat
  refine ⟨h1, hsec, by rw [hsec]; omega, ?_, fun a ha => ⟨hax a ha, ?_⟩, ?_, ?_, ?_⟩
  · rw [tick_of_current cfg pins s b hb]
    exact run_block_hit_discard cfg pins s b hb hN (by simpa [step_multiplier, hL] using hm) hh
  · have h3 := congrArg (fun v : Int × Nat × Int => v.2.2) (hax a ha)
    simp only [State.axis, axis_event] at h3
    rw [h3]
    split
    · exact Or.inr rfl
    · exact Or.inl rfl
  · intro hx
    have := congrArg Axes.x htrig
    simp only [State.latches, hx, if_true] at this
    exact this
  · intro hy
    have := congrArg Axes.y htrig
    simp only [State.latches, hy, if_true] at this
    exact this
  · intro hz
    have := congrArg Axes.z htrig
    simp only [State.latches, hz, if_true] at this
    exact this

/-- C32 at a concrete input: a ten-event +X block with the X_MAX switch active in its
first two ticks.  The second tick latches the hit at position 1, steps once more and
ends with `step_events_completed = 11` and `count_position[X] = 2`. -/
theorem hit_tick_steps_once_witness :
    (ISR_TIMER1_COMPA_vect cfg_pulse x_max_pins (run_ticks cfg_pulse [x_max_pins]
      { initial_state with block_buffer := [x_block 10 1000] })).step_events_completed =
      ({ x_block 10 1000 with busy := true } : block_t).step_event_count +
        (run_ticks cfg_pulse [x_max_pins]
          { initial_state with block_buffer := [x_block 10 1000] }).step_loops ∧
    (ISR_TIMER1_COMPA_vect cfg_pulse x_max_pins (run_ticks cfg_pulse [x_max_pins]
      { initial_state with block_buffer := [x_block 10 1000] })).step_events_completed = 11 ∧
    (ISR_TIMER1_COMPA_vect cfg_pulse x_max_pins (run_ticks cfg_pulse [x_max_pins]
      { initial_state with block_buffer := [x_block 10 1000] })).endstops_trigsteps.x = 1 ∧
    (ISR_TIMER1_COMPA_vect cfg_pulse x_max_pins (run_ticks cfg_pulse [x_max_pins]
      { initial_state with block_buffer := [x_block 10 1000] })).count_position.x = 2 :=
  ⟨(hit_tick_steps_once cfg_pulse x_max_pins (run_ticks cfg_pulse [x_max_pins]
      { initial_state with block_buffer := [x_block 10 1000] })
      { x_block 10 1000 with busy := true } rfl (by decide) (by decide) (by decide)
      (by decide)).2.1, by decide, by decide, by decide⟩

/-- C33: the previous-sample flags are written only in ticks that sample their endstop.
A tick that samples no block (idle, or the `Z_LATE_ENABLE` wait) keeps all six flags; a
tick that samples block `b` writes a flag with the input of this tick exactly when the
gate `check_endstops` is on, the pin exists and the endstop is the one in the direction
of travel of `b`, and keeps it otherwise.  So the two reads that confirm a hit need not
come from consecutive ticks: with X_MIN active in a -X tick, inactive in the following
+X tick and active in the next -X tick (with `steps_x > 0`), the X hit is latched in
the third tick although the input was inactive in the second. -/
theorem stale_previous_sample (cfg : Config) (pins : Pins) (s : State) :
    (sampled_block cfg s = none →
      (ISR_TIMER1_COMPA_vect cfg pins s).old_x_min_endstop = s.old_x_min_endstop ∧
      (ISR_TIMER1_COMPA_vect cfg pins s).old_x_max_endstop = s.old_x_max_endstop ∧
      (ISR_TIMER1_COMPA_vect cfg pins s).old_y_min_endstop = s.old_y_min_endstop ∧
      (ISR_TIMER1_COMPA_vect cfg pins s).old_y_max_endstop = s.old_y_max_endstop ∧
      (ISR_TIMER1_COMPA_vect cfg pins s).old_z_min_endstop = s.old_z_min_endstop ∧
      (ISR_TIMER1_COMPA_vect cfg pins s).old_z_max_endstop = s.old_z_max_endstop) ∧
    (∀ b : block_t, sampled_block cfg s = some b →
      (ISR_TIMER1_COMPA_vect cfg pins s).old_x_min_endstop =
        (if x_negative cfg b.direction_bits && s.check_endstops && cfg.X_MIN_PIN then
          pins.x_min
         else s.old_x_min_endstop) ∧
      (ISR_TIMER1_COMPA_vect cfg pins s).old_x_max_endstop =
        (if !x_negative cfg b.direction_bits && s.check_endstops && cfg.X_MAX_PIN then
          pins.x_max
         else s.old_x_max_endstop) ∧
      (ISR_TIMER1_COMPA_vect cfg pins s).old_y_min_endstop =
        (if y_negative cfg b.direction_bits && s.check_endstops && cfg.Y_MIN_PIN then
          pins.y_min
         else s.old_y_min_endstop) ∧
      (ISR_TIMER1_COMPA_vect cfg pins s).old_y_max_endstop =
        (if !y_negative cfg b.direction_bits && s.check_endstops && cfg.Y_MAX_PIN then
          pins.y_max
         else s.old_y_max_endstop) ∧
      (ISR_TIMER1_COMPA_vect cfg pins s).old_z_min_endstop =
        (if dir_bit b.direction_bits Z_AXIS && s.check_endstops && cfg.Z_MIN_PIN then
          pins.z_min
         else s.old_z_min_endstop) ∧
      (ISR_TIMER1_COMPA_vect cfg pins s).old_z_max_endstop =
        (if !dir_bit b.direction_bits Z_AXIS && s.check_endstops && cfg.Z_MAX_PIN then
          pins.z_max
         else s.old_z_max_endstop)) ∧
    (sampled_block cfg_pulse { initial_state with block_buffer := back_forth_back } =
        some { x_block_back 1 1000 with busy := true } ∧
      (run_ticks cfg_pulse [x_min_pins]
        { initial_state with block_buffer := back_forth_back }).old_x_min_endstop = true ∧
      sampled_block cfg_pulse (run_ticks cfg_pulse [x_min_pins]
        { initial_state with block_buffer := back_forth_back }) =
        some { x_block 1 1000 with busy := true } ∧
      no_pins.x_min = false ∧
      (run_ticks cfg_pulse [x_min_pins, no_pins]
        { initial_state with block_buffer := back_forth_back }).old_x_min_endstop = true ∧
      (run_ticks cfg_pulse [x_min_pins, no_pins]
        { initial_state with block_buffer := back_forth_back }).endstop_x_hit = false ∧
      sampled_block cfg_pulse (run_ticks cfg_pulse [x_min_pins, no_pins]
        { initial_state with block_buffer := back_forth_back }) =
        some { x_block_back 5 1000 with busy := true } ∧
      (run_ticks cfg_pulse [x_min_pins, no_pins, x_min_pins]
        { initial_state with block_buffer := back_forth_back }).endstop_x_hit = true) := by
  refine ⟨fun hn => ?_, fun b hb => tick_old_samples cfg pins s b hb, by decide⟩
  have h := tick_samples cfg pins s
  rw [hn] at h
  simp only [] at h
  exact ⟨congrArg Latches.old_x_min h, congrArg Latches.old_x_max h,
    congrArg Latches.old_y_min h, congrArg Latches.old_y_max h,
    congrArg Latches.old_z_min h, congrArg Latches.old_z_max h⟩

/-- C31: the advance integrator does not follow the block's `advance_rate`.  The static
`advance_rate` that the acceleration and deceleration branches add to and subtract
from `advance` is written by no tick, so it keeps its start-up value 0.  In the
pin-toggling build with `ADVANCE`, a block with `advance_rate = 512` that accelerates
at multiplier 1 has `advance = 0` after its first and after its second tick, with no E
step queued, where an increase by 512 per tick would give 2 E steps per tick; a block
that decelerates from `initial_advance = 2048` towards `final_advance = 0` keeps
`advance = 2048` and `old_advance = 8`. -/
theorem advance_rate_never_loaded :
    (∀ (cfg : Config) (ps : List Pins) (s : State),
      (run_ticks cfg ps s).advance_rate = s.advance_rate) ∧
    initial_state.advance_rate = 0 ∧
    cfg_advance.ADVANCE = true ∧ cfg_advance.USE_L6470 = false ∧
    advance_up_block.advance_rate = 512 ∧ advance_up_block.accelerate_until = 4 ∧
    (run_ticks cfg_advance [no_pins]
      { initial_state with block_buffer := [advance_up_block] }).current_block =
        some { advance_up_block with busy := true } ∧
    (run_ticks cfg_advance [no_pins]
      { initial_state with block_buffer := [advance_up_block] }).step_loops = 1 ∧
    (run_ticks cfg_advance [no_pins]
      { initial_state with block_buffer := [advance_up_block] }).advance = 0 ∧
    (run_ticks cfg_advance [no_pins, no_pins]
      { initial_state with block_buffer := [advance_up_block] }).step_events_completed = 2 ∧
    (run_ticks cfg_advance [no_pins, no_pins]
      { initial_state with block_buffer := [advance_up_block] }).advance = 0 ∧
    (run_ticks cfg_advance [no_pins, no_pins]
      { initial_state with block_buffer := [advance_up_block] }).old_advance = 0 ∧
    (run_ticks cfg_advance [no_pins, no_pins]
      { initial_state with block_buffer := [advance_up_block] }).e_steps = ⟨0, 0, 0⟩ ∧
    advance_down_block.advance_rate = 512 ∧ advance_down_block.decelerate_after = 0 ∧
    advance_down_block.final_advance = 0 ∧
    (run_ticks cfg_advance [no_pins]
      { initial_state with block_buffer := [advance_down_block] }).step_loops = 1 ∧
    (run_ticks cfg_advance [no_pins]
      { initial_state with block_buffer := [advance_down_block] }).advance = 2048 ∧
    (run_ticks cfg_advance [no_pins, no_pins]
      { initial_state with block_buffer := [advance_down_block] }).step_events_completed = 2 ∧
    (run_ticks cfg_advance [no_pins, no_pins]
      { initial_state with block_buffer := [advance_down_block] }).advance = 2048 ∧
    (run_ticks cfg_advance [no_pins, no_pins]
      { initial_state with block_buffer := [advance_down_block] }).old_advance = 8 ∧
    (run_ticks cfg_advance [no_pins, no_pins]
      { initial_state with block_buffer := [advance_down_block] }).e_steps = ⟨8, 0, 0⟩ := by
  refine ⟨fun cfg ps s => run_ticks_advance_rate cfg ps s, ?_⟩
  decide

/-- C34: the range invariant of the Bresenham counters.  For a block `b` with
`N = step_event_count >= 1` and `0 <= steps <= N` on every axis: the claim of the block
sets each counter to `-(N >> 1)`, which lies in `(-N, 0]`; every executed event keeps
each counter in `(-N, 0]`, and so does every tick on the block, in both builds and at
every multiplier.  In the build without `USE_L6470`, when the block is run from its
claim for `N` ticks that all step at multiplier 1 and latch no endstop hit, the block
is discarded and every counter is back at `-(N >> 1)`. -/
theorem counter_range_invariant (cfg : Config) (b : block_t) (hv : valid_block b) :
    (∀ (s0 : State) (b0 : block_t), s0.current_block = none →
      s0.block_buffer.head? = some b0 → b = { b0 with busy := true } →
      (∀ a : Axis, (claim_block cfg s0).1.counter a =
        -((b.step_event_count >>> 1 : Nat) : Int)) ∧
      counters_in_range b (claim_block cfg s0).1) ∧
    (∀ s : State, counters_in_range b s → counters_in_range b (step_event cfg s b)) ∧
    (∀ (pins : Pins) (s : State), s.current_block = some b → counters_in_range b s →
      counters_in_range b (ISR_TIMER1_COMPA_vect cfg pins s)) ∧
    (cfg.USE_L6470 = false → ∀ (ps : List Pins) (s : State),
      s.current_block = some b → s.step_events_completed = 0 →
      (∀ a : Axis, s.counter a = -((b.step_event_count >>> 1 : Nat) : Int)) →
      ps.length = b.step_event_count →
      single_ticks cfg ps s = true → no_hit cfg ps s = true →
      (run_ticks cfg ps s).current_block = none ∧
      ∀ a : Axis, (run_ticks cfg ps s).counter a =
        -((b.step_event_count >>> 1 : Nat) : Int)) := by
  have e : b.step_event_count >>> 1 = b.step_event_count / 2 := by
    rw [Nat.shiftRight_eq_div_pow, pow_one]
  have hN1 := hv.1
  have hN := hv.2.1
  have hhalf : -(b.step_event_count : Int) < -((b.step_event_count >>> 1 : Nat) : Int) ∧
      -((b.step_event_count >>> 1 : Nat) : Int) ≤ 0 := by
    rw [e]; omega
  refine ⟨fun s0 b0 hc hq hbb => ?_, fun s h => step_event_in_range cfg s b hv h,
    fun pins s hb h => tick_in_range cfg pins s b hb hv h, fun hL ps s hb hk hc hlen hs hh => ?_⟩
  · have h1 : ∀ a : Axis, (claim_block cfg s0).1.counter a =
        -((b.step_event_count >>> 1 : Nat) : Int) := by
      intro a
      rw [claim_block_counter cfg s0 b0 hc hq (by rw [hbb] at hN; exact hN) a, hbb]
    exact ⟨h1, fun a => by rw [h1 a]; exact hhalf⟩
  · have h0 : counters_after b 0 s := by
      intro a
      refine ⟨⟨0, ?_⟩, by rw [hc a]; exact hhalf.1, by rw [hc a]; exact hhalf.2⟩
      rw [hc a, e]
      simp
    obtain ⟨g1, g2⟩ := single_run_after cfg b hL hv ps 0 s hb hk (by omega) hs hh h0
    refine ⟨g2 (by omega) (by omega), fun a => ?_⟩
    obtain ⟨⟨m, hm⟩, hlo, hhi⟩ := g1 a
    rw [Nat.zero_add, hlen] at hm
    exact counter_back b.step_event_count (b.steps a) _ m hN1 hm hlo hhi

/-- C34 at a concrete input: a block of four events with three steps on Y, run from
its claim for four ticks; the block is discarded and all counters are at -2. -/
theorem counter_range_invariant_witness :
    (run_ticks cfg_pulse [no_pins, no_pins, no_pins, no_pins]
      (claim_block cfg_pulse
        { initial_state with block_buffer := [xy_block 4 1000 3] }).1).current_block = none ∧
    ∀ a : Axis, (run_ticks cfg_pulse [no_pins, no_pins, no_pins, no_pins]
      (claim_block cfg_pulse
        { initial_state with block_buffer := [xy_block 4 1000 3] }).1).counter a =
      -((({ xy_block 4 1000 3 with busy := true } : block_t).step_event_count >>> 1 : Nat) : Int) :=
  (counter_range_invariant cfg_pulse { xy_block 4 1000 3 with busy := true }
    (by decide)).2.2.2 rfl [no_pins, no_pins, no_pins, no_pins]
    (claim_block cfg_pulse { initial_state with block_buffer := [xy_block 4 1000 3] }).1
    (by decide) (by decide) (by decide) (by decide) (by decide) (by decide)

end Stepper
